import Mathlib

/-!
# Sparse octree (`foundation/math/octree.h`)

A shallow embedding of `foundation::SparseOctree<ValueType, MaxSize>` and of
`foundation::SparseOctreeLocation`.

Conventions of the embedding:

* the node pool `Node m_nodes[MaxSize]` is a function `Nat → Node V`; every read or
  write `m_nodes[i]` is guarded by `i < MaxSize`, an access outside the array making the
  operation fail (`none`);
* `assert(c)` is a guard: an operation whose assertion does not hold returns `none`;
* a `float` is a rational number, and there are two arithmetics. The methods of the ray
  marching (`find_next_intersection` and its parts `exit_location`, `crossing`,
  `ascend_till_has_neighbor`, and the methods `ascend_f32`, `descend_f32`,
  `descend_till_leaf_f32`, `calculate_coords_f32` they run) round every sum, difference,
  product and quotient to binary32 (`round32`). The methods of point location (`ascend`,
  `descend`, `descend_till_leaf`, `calculate_location`, `calculate_coords`) are in exact
  arithmetic, and the definitions named `…_exact` are the ray marching in exact
  arithmetic: what the binary32 methods compute when no operation rounds;
* `uint16_t` and `uint32_t` results are reduced modulo `2 ^ 16` and `2 ^ 32` where the
  source converts to these types;
* `while` loops take a fuel argument bounding the number of evaluations of the loop
  condition, and return `none` when the fuel is exhausted.
-/

namespace foundation

/-! ## Vectors -/

/-- Modelled from the spec: the external 3-component vector type `Vector3f`
(`foundation/math/vector.h`), with exact rational components. -/
structure Vector3 where
  x : ℚ
  y : ℚ
  z : ℚ
deriving DecidableEq

namespace Vector3

/-- Modelled from the spec: component access `v[i]` of the external vector type. -/
def get (v : Vector3) (i : Fin 3) : ℚ :=
  match i with
  | 0 => v.x
  | 1 => v.y
  | 2 => v.z

/-- Modelled from the spec: component assignment `v[i] = a` of the external vector type. -/
def set (v : Vector3) (i : Fin 3) (a : ℚ) : Vector3 :=
  match i with
  | 0 => { v with x := a }
  | 1 => { v with y := a }
  | 2 => { v with z := a }

/-- Modelled from the spec: componentwise sum of the external vector type. -/
def add (a b : Vector3) : Vector3 := ⟨a.x + b.x, a.y + b.y, a.z + b.z⟩

/-- Modelled from the spec: componentwise difference of the external vector type. -/
def sub (a b : Vector3) : Vector3 := ⟨a.x - b.x, a.y - b.y, a.z - b.z⟩

/-- Modelled from the spec: elementwise division of the external vector type. -/
def div (a b : Vector3) : Vector3 := ⟨a.x / b.x, a.y / b.y, a.z / b.z⟩

/-- Modelled from the spec: scalar multiple of the external vector type. -/
def smul (c : ℚ) (a : Vector3) : Vector3 := ⟨c * a.x, c * a.y, c * a.z⟩

end Vector3

/-- Modelled from the spec: the external "minimum-component index" operation, the first
axis achieving the minimum in the fixed axis order 0, 1, 2. -/
def min_index (v : Vector3) : Fin 3 :=
  let r : Fin 3 × ℚ := (0, v.get 0)
  let r : Fin 3 × ℚ := if v.get 1 < r.2 then (1, v.get 1) else r
  let r : Fin 3 × ℚ := if v.get 2 < r.2 then (2, v.get 2) else r
  r.1

/-- Modelled from the spec: the external predicate `is_saturated`, each component in
`[0, 1]`. -/
def is_saturated (v : Vector3) : Prop :=
  (0 ≤ v.x ∧ v.x ≤ 1) ∧ (0 ≤ v.y ∧ v.y ≤ 1) ∧ (0 ≤ v.z ∧ v.z ≤ 1)

instance (v : Vector3) : Decidable (is_saturated v) := by
  unfold is_saturated; infer_instance

/-! ## Binary32 arithmetic -/

/-- Rounds a rational to the nearest integer, ties to the even one. -/
def round_half_even (m : ℚ) : ℤ :=
  if m - ⌊m⌋ < 1 / 2 then ⌊m⌋
  else if m - ⌊m⌋ > 1 / 2 then ⌊m⌋ + 1
  else if ⌊m⌋ % 2 = 0 then ⌊m⌋ else ⌊m⌋ + 1

/-- The exponent of the binary32 binade of `q`: `⌊log₂ |q|⌋`, and `-126` for the subnormal
values below `2 ^ (-126)`. -/
def exponent32 (q : ℚ) : ℤ := max (Int.log 2 |q|) (-126)

/-- The spacing of the binary32 values in the binade of `q`: the significand has 24 bits. -/
def ulp32 (q : ℚ) : ℚ := 2 ^ (exponent32 q - 23)

/-- Modelled from the spec: the rounding of the external type `float` (IEEE 754 binary32),
to nearest, ties to even, with 24 significant bits and gradual underflow. Overflow to
infinity is outside the model: above the finite range the exponent is unbounded, and
`is_binary32` leaves those values out. -/
def round32 (q : ℚ) : ℚ := (round_half_even (q / ulp32 q) : ℚ) * ulp32 q

/-- The rational `q` is a finite binary32 value. -/
def is_binary32 (q : ℚ) : Prop := round32 q = q ∧ |q| < 2 ^ 128

instance (q : ℚ) : Decidable (is_binary32 q) := by
  unfold is_binary32; infer_instance

/-- Modelled from the spec: the sum of two values of the external type `float`. -/
def fadd (a b : ℚ) : ℚ := round32 (a + b)

/-- Modelled from the spec: the difference of two values of the external type `float`. -/
def fsub (a b : ℚ) : ℚ := round32 (a - b)

/-- Modelled from the spec: the product of two values of the external type `float`. -/
def fmul (a b : ℚ) : ℚ := round32 (a * b)

/-- Modelled from the spec: the quotient of two values of the external type `float`. -/
def fdiv (a b : ℚ) : ℚ := round32 (a / b)

/-- Modelled from the spec: componentwise sum of the external vector type `Vector3f`, each
component rounded to binary32. -/
def Vector3.add32 (a b : Vector3) : Vector3 := ⟨fadd a.x b.x, fadd a.y b.y, fadd a.z b.z⟩

/-- Modelled from the spec: componentwise difference of the external vector type
`Vector3f`, each component rounded to binary32. -/
def Vector3.sub32 (a b : Vector3) : Vector3 := ⟨fsub a.x b.x, fsub a.y b.y, fsub a.z b.z⟩

/-- Modelled from the spec: elementwise division of the external vector type `Vector3f`,
each component rounded to binary32. -/
def Vector3.div32 (a b : Vector3) : Vector3 := ⟨fdiv a.x b.x, fdiv a.y b.y, fdiv a.z b.z⟩

/-- Modelled from the spec: scalar multiple of the external vector type `Vector3f`, each
component rounded to binary32. -/
def Vector3.smul32 (c : ℚ) (a : Vector3) : Vector3 := ⟨fmul c a.x, fmul c a.y, fmul c a.z⟩

/-! ## Locations and nodes -/

/-- The struct `SparseOctreeLocation`. -/
structure SparseOctreeLocation where
  m_local_coords : Vector3
  m_node_id : Nat
deriving DecidableEq

/-- The constant `SparseOctree::Null = 0xFFu`. -/
def Null : Nat := 0xFF

/-- The struct `SparseOctree::Node`. -/
structure Node (V : Type) where
  m_value : V
  m_children_id : Nat
  m_parent_id : Nat

/-- The constructor `Node()`. -/
def Node.new {V : Type} [Inhabited V] : Node V :=
  { m_value := default, m_children_id := Null, m_parent_id := Null }

/-- The class `SparseOctree<ValueType, MaxSize>`. -/
structure SparseOctree (V : Type) (MaxSize : Nat) where
  m_size : Nat
  m_nodes : Nat → Node V

/-- The capacities the template parameter `uint16_t MaxSize` can take for the array
`Node m_nodes[MaxSize]`: at least one element, at most `65535`. -/
def ValidCapacity (MaxSize : Nat) : Prop := 0 < MaxSize ∧ MaxSize < 65536

instance (MaxSize : Nat) : Decidable (ValidCapacity MaxSize) := by
  unfold ValidCapacity; infer_instance

/-- The difference of two ids as the source computes it: in `int`, then converted to
`uint32_t`. -/
def sub_u32 (a b : Nat) : Nat := (((a : Int) - (b : Int)) % (2 ^ 32 : Int)).toNat

namespace SparseOctree

variable {V : Type} {MaxSize : Nat}

/-- The constructor `SparseOctree()`: size 1, every node of the pool default-constructed. -/
def new [Inhabited V] : SparseOctree V MaxSize :=
  { m_size := 1, m_nodes := fun _ => Node.new }

/-- The array read `m_nodes[i]`, failing outside the array. -/
def node (t : SparseOctree V MaxSize) (i : Nat) : Option (Node V) :=
  if i < MaxSize then some (t.m_nodes i) else none

/-- The assignment `m_nodes[i].m_children_id = c`. -/
def set_children_id (nodes : Nat → Node V) (i c : Nat) : Nat → Node V :=
  fun j => if j = i then { nodes j with m_children_id := c } else nodes j

/-- The assignment `m_nodes[i].m_parent_id = p`. -/
def set_parent_id (nodes : Nat → Node V) (i p : Nat) : Nat → Node V :=
  fun j => if j = i then { nodes j with m_parent_id := p } else nodes j

/-- The method `split`. -/
def split (t : SparseOctree V MaxSize) (node_id : Nat) : Option (SparseOctree V MaxSize) :=
  if node_id < MaxSize then
    if (t.m_nodes node_id).m_children_id ≠ Null then
      some t
    else if t.m_size + 8 ≤ MaxSize then
      let nodes := set_children_id t.m_nodes node_id t.m_size
      let nodes := (List.range 8).foldl
        (fun nodes i => set_parent_id nodes (t.m_size + i) node_id) nodes
      some { m_size := t.m_size + 8, m_nodes := nodes }
    else none
  else none

/-- The method `get_root_id`. -/
def get_root_id (_t : SparseOctree V MaxSize) : Nat := 0

/-- The method `get_child_id`. -/
def get_child_id (t : SparseOctree V MaxSize) (node_id child : Nat) : Option Nat :=
  if node_id < t.m_size then
    if child < 8 then
      (t.node node_id).map fun n =>
        if n.m_children_id = Null then Null else (n.m_children_id + child) % 65536
    else none
  else none

/-- The method `get_parent_id`. -/
def get_parent_id (t : SparseOctree V MaxSize) (node_id : Nat) : Option Nat :=
  if node_id < t.m_size then
    (t.node node_id).map fun n => n.m_parent_id
  else none

/-- The method `get_size`. -/
def get_size (t : SparseOctree V MaxSize) : Nat := t.m_size

/-- The method `get_max_size`. -/
def get_max_size (_t : SparseOctree V MaxSize) : Nat := MaxSize

/-- The method `operator[]` (read). -/
def value (t : SparseOctree V MaxSize) (node_id : Nat) : Option V :=
  (t.node node_id).map fun n => n.m_value

/-- The method `ascend`. -/
def ascend (t : SparseOctree V MaxSize) (location : SparseOctreeLocation) :
    Option SparseOctreeLocation :=
  if is_saturated location.m_local_coords then
    if location.m_node_id < MaxSize then
      let parent_id := (t.m_nodes location.m_node_id).m_parent_id
      if parent_id < MaxSize then
        let child := sub_u32 location.m_node_id (t.m_nodes parent_id).m_children_id
        if child < 8 then
          let coords := [(0 : Fin 3), 1, 2].foldl
            (fun coords i =>
              if child &&& (1 <<< i.val) ≠ 0 then coords.set i (coords.get i + 1) else coords)
            location.m_local_coords
          some { m_local_coords := Vector3.smul (1 / 2) coords, m_node_id := parent_id }
        else none
      else none
    else none
  else none

/-- The method `descend`. -/
def descend (t : SparseOctree V MaxSize) (location : SparseOctreeLocation) :
    Option SparseOctreeLocation :=
  if location.m_node_id < MaxSize ∧ (t.m_nodes location.m_node_id).m_children_id < MaxSize then
    if is_saturated location.m_local_coords then
      let r := [(0 : Fin 3), 1, 2].foldl
        (fun (r : Nat × Vector3) i =>
          if r.2.get i > 1 / 2 then
            ((r.1 ||| (1 <<< i.val)) % 65536, r.2.set i (r.2.get i - 1 / 2))
          else r)
        (0, location.m_local_coords)
      let child := r.1
      let node_id := ((t.m_nodes location.m_node_id).m_children_id + child) % 65536
      if child < 8 ∧ node_id < MaxSize then
        some { m_local_coords := Vector3.smul 2 r.2, m_node_id := node_id }
      else none
    else none
  else none

/-- The method `descend_till_leaf`; `fuel` bounds the evaluations of the loop condition. -/
def descend_till_leaf (t : SparseOctree V MaxSize) :
    Nat → SparseOctreeLocation → Option SparseOctreeLocation
  | 0, _ => none
  | fuel + 1, location =>
    (t.node location.m_node_id).bind fun n =>
      if n.m_children_id ≠ Null then
        (t.descend location).bind (descend_till_leaf t fuel)
      else some location

/-- The method `has_neighbor`. -/
def has_neighbor (t : SparseOctree V MaxSize) (location : SparseOctreeLocation)
    (face : Fin 3) (side : Bool) : Option Bool :=
  if location.m_node_id = 0 then some false
  else
    (t.node location.m_node_id).bind fun n =>
      let parent_id := n.m_parent_id
      if parent_id < MaxSize then
        let child := sub_u32 location.m_node_id (t.m_nodes parent_id).m_children_id
        let child_side : Bool := decide (child &&& (1 <<< face.val) ≠ 0)
        some (child_side != side)
      else none

/-- The method `get_neighbor`. -/
def get_neighbor (t : SparseOctree V MaxSize) (location : SparseOctreeLocation)
    (face : Fin 3) (side : Bool) : Option Nat :=
  (t.has_neighbor location face side).bind fun b =>
    if b then
      (t.node location.m_node_id).bind fun n =>
        let parent_id := n.m_parent_id
        if parent_id < MaxSize then
          let child := sub_u32 location.m_node_id (t.m_nodes parent_id).m_children_id
          if child < 8 then
            let child := (child ^^^ (1 <<< face.val)) % 2 ^ 32
            if child < 8 then
              some (((t.m_nodes parent_id).m_children_id + child) % 2 ^ 32)
            else none
          else none
        else none
    else none

/-- The method `ascend_till_has_neighbor` in exact arithmetic (over `ascend`); `fuel` bounds
the evaluations of the loop condition. -/
def ascend_till_has_neighbor_exact (t : SparseOctree V MaxSize) (face : Fin 3) (side : Bool) :
    Nat → SparseOctreeLocation → Option SparseOctreeLocation
  | 0, _ => none
  | fuel + 1, location =>
    if location.m_node_id ≠ 0 then
      (t.has_neighbor location face side).bind fun b =>
        if !b then (t.ascend location).bind (ascend_till_has_neighbor_exact t face side fuel)
        else some location
    else some location

/-- The method `calculate_location`; `fuel` is the fuel of `descend_till_leaf`. -/
def calculate_location (t : SparseOctree V MaxSize) (fuel : Nat) (coords : Vector3) :
    Option SparseOctreeLocation :=
  t.descend_till_leaf fuel { m_local_coords := coords, m_node_id := 0 }

/-- The loop of `calculate_coords`; `fuel` bounds the evaluations of the loop condition. -/
def calculate_coords_loop (t : SparseOctree V MaxSize) :
    Nat → SparseOctreeLocation → Option SparseOctreeLocation
  | 0, _ => none
  | fuel + 1, result =>
    if result.m_node_id ≠ 0 then (t.ascend result).bind (calculate_coords_loop t fuel)
    else some result

/-- The method `calculate_coords`. -/
def calculate_coords (t : SparseOctree V MaxSize) (fuel : Nat)
    (location : SparseOctreeLocation) : Option Vector3 :=
  (t.calculate_coords_loop fuel location).map fun result => result.m_local_coords

/-- The method `find_next_intersection` in exact arithmetic: no operation rounds and the
literal is `1 / 1000000`. The result is the returned flag together with the
final value of `intersection`. `aliased` tells whether `prev_intersection` and
`intersection` are references to the same object (as in the calls of the test suite), in
which case the next iteration of the loop reads the location just written; otherwise it
reads the unchanged `prev_intersection` again. `inner` is the fuel of the two inner loops,
the first `Nat` argument bounds the iterations of the outer loop. -/
def find_next_intersection_exact (t : SparseOctree V MaxSize) (inner : Nat)
    (direction direction_signs : Vector3) (aliased : Bool) :
    Nat → SparseOctreeLocation → Option (Bool × SparseOctreeLocation)
  | 0, _ => none
  | fuel + 1, prev_intersection =>
    let tv := Vector3.div (Vector3.sub direction_signs prev_intersection.m_local_coords)
      direction
    let face := min_index tv
    let side : Bool := decide (direction_signs.get face > 1 / 2)
    let intersection : SparseOctreeLocation :=
      { m_local_coords :=
          Vector3.add prev_intersection.m_local_coords (Vector3.smul (tv.get face) direction),
        m_node_id := prev_intersection.m_node_id }
    (t.ascend_till_has_neighbor_exact face side inner intersection).bind fun intersection =>
      if intersection.m_node_id = 0 then some (true, intersection)
      else
        (t.get_neighbor intersection face side).bind fun neighbor =>
          let intersection : SparseOctreeLocation :=
            { intersection with m_node_id := neighbor % 65536 }
          let intersection : SparseOctreeLocation :=
            { intersection with
              m_local_coords :=
                intersection.m_local_coords.set face (1 - direction_signs.get face) }
          (t.descend_till_leaf inner intersection).bind fun intersection =>
            if tv.get face ≥ 1 / 1000000 then some (false, intersection)
            else
              find_next_intersection_exact t inner direction direction_signs aliased fuel
                (if aliased then intersection else prev_intersection)

/-! ## Reachable trees and their invariant -/

/-- The node `n` has children: its stored children id is not the sentinel. -/
def has_children (t : SparseOctree V MaxSize) (n : Nat) : Prop :=
  (t.m_nodes n).m_children_id ≠ Null

instance (t : SparseOctree V MaxSize) (n : Nat) : Decidable (t.has_children n) := by
  unfold has_children; infer_instance

/-- The trees obtained from a fresh tree by a finite sequence of successful `split` calls on
allocated ids. -/
inductive Reachable [Inhabited V] : SparseOctree V MaxSize → Prop
  | fresh : Reachable SparseOctree.new
  | step {t t1 : SparseOctree V MaxSize} {n : Nat} :
      Reachable t → n < t.m_size → t.split n = some t1 → Reachable t1

/-- Runs a sequence of `split` calls, counting the calls made on a node without children.
The result is `none` as soon as one call fails. -/
def split_all (t : SparseOctree V MaxSize) : List Nat → Option (SparseOctree V MaxSize × Nat)
  | [] => some (t, 0)
  | n :: ns =>
    (t.split n).bind fun t1 =>
      (split_all t1 ns).map fun r =>
        (r.1, (if t.has_children n then 0 else 1) + r.2)

/-- Every id of a call sequence is allocated at the time of its call. -/
def calls_allocated (t : SparseOctree V MaxSize) : List Nat → Bool
  | [] => true
  | n :: ns =>
    decide (n < t.m_size) &&
      match t.split n with
      | some t1 => calls_allocated t1 ns
      | none => true

/-- The links of the pool are well formed. -/
structure WellFormed (t : SparseOctree V MaxSize) : Prop where
  size_le : 1 < t.m_size → t.m_size ≤ MaxSize
  size_mod : t.m_size % 8 = 1
  root_parent : (t.m_nodes 0).m_parent_id = Null
  free_children : ∀ n, t.m_size ≤ n → (t.m_nodes n).m_children_id = Null
  children_block : ∀ n, n < t.m_size → t.has_children n →
    n < (t.m_nodes n).m_children_id ∧ (t.m_nodes n).m_children_id + 8 ≤ t.m_size ∧
    ∀ i, i < 8 → (t.m_nodes ((t.m_nodes n).m_children_id + i)).m_parent_id = n
  parent_block : ∀ n, 0 < n → n < t.m_size →
    (t.m_nodes n).m_parent_id < n ∧ t.has_children (t.m_nodes n).m_parent_id ∧
    (t.m_nodes (t.m_nodes n).m_parent_id).m_children_id ≤ n ∧
    n < (t.m_nodes (t.m_nodes n).m_parent_id).m_children_id + 8

/-! ## Concrete trees -/

/-- A fresh tree of the test suite. -/
def fresh64 : SparseOctree Unit 64 := SparseOctree.new

/-- The tree of the test `SplitNode` after `split(root)`. -/
def split_root64 : SparseOctree Unit 64 := (fresh64.split 0).getD fresh64

/-- The outcome of the calls `split(0)`, `split(0)`, `split(1)` on a fresh tree. -/
def split_seq64 : SparseOctree Unit 64 × Nat := (fresh64.split_all [0, 0, 1]).getD (fresh64, 0)

/-! ## Closed forms of one descent and one ascent -/

/-- The octant bit selected by `descend` for a coordinate: 1 when it exceeds one half. -/
def upper (a : ℚ) : Nat := if a > 1 / 2 then 1 else 0

/-- The child index selected by `descend` for a local coordinate. -/
def octant (x : Vector3) : Nat := upper x.x + 2 * upper x.y + 4 * upper x.z

/-- The local coordinate in the selected child. -/
def descend_coords (x : Vector3) : Vector3 :=
  Vector3.smul 2
    ⟨x.x - (upper x.x : ℚ) / 2, x.y - (upper x.y : ℚ) / 2, x.z - (upper x.z : ℚ) / 2⟩

/-- The local coordinate in the parent of the child with index `c`. -/
def ascend_coords (c : Nat) (y : Vector3) : Vector3 :=
  ⟨(y.x + (c % 2 : Nat)) / 2, (y.y + (c / 2 % 2 : Nat)) / 2, (y.z + (c / 4 % 2 : Nat)) / 2⟩

/-- The global coordinates of a location: `GlobalOf t loc g` holds when ascending from `loc`
up to the root, as the loop of `calculate_coords` does, ends with the coordinates `g`. -/
inductive GlobalOf (t : SparseOctree V MaxSize) : SparseOctreeLocation → Vector3 → Prop
  | root (x : Vector3) : GlobalOf t ⟨x, 0⟩ x
  | up {loc loc1 : SparseOctreeLocation} {g : Vector3} :
      loc.m_node_id ≠ 0 → t.ascend loc = some loc1 → GlobalOf t loc1 g → GlobalOf t loc g

/-- A pool of capacity 265 after `split` has been called on the ids 0, 1, ..., 31 in turn
and then on the id 255. -/
def sentinel_tree : SparseOctree Unit 265 × Nat :=
  ((SparseOctree.new : SparseOctree Unit 265).split_all (List.range 32 ++ [255])).getD
    (SparseOctree.new, 0)

/-- The octant-selection statement for a tree whose root has been split once, relative to a
test `upper_half` deciding which coordinates select the upper half of an axis:
`calculate_location p` returns the child `get_child_id root b`, bit `i` of `b` being set
exactly when `upper_half (p i)`, with local coordinates `2 * p i - (bit i of b)`. -/
def octant_selection (upper_half : ℚ → Bool) (t : SparseOctree V MaxSize) (fuel : Nat)
    (p : Vector3) : Prop :=
  ∃ loc b, t.calculate_location fuel p = some loc ∧ b < 8 ∧
    t.get_child_id t.get_root_id b = some loc.m_node_id ∧
    (∀ i : Fin 3, b.testBit i.val = upper_half (p.get i)) ∧
    (∀ i : Fin 3,
      loc.m_local_coords.get i = 2 * p.get i - (if upper_half (p.get i) then 1 else 0))

/-- The test of the claim as the spec words it: the coordinate is at least one half. -/
def upper_half_ge (a : ℚ) : Bool := decide (a ≥ 1 / 2)

/-- The test of the source: the coordinate exceeds one half. -/
def upper_half_gt (a : ℚ) : Bool := decide (a > 1 / 2)

/-! ## One crossing of `find_next_intersection`, in exact arithmetic -/

/-- The vector `t` of `find_next_intersection` in exact arithmetic: the distances to the
faces ahead. -/
def exit_distances_exact (direction direction_signs : Vector3) (prev : SparseOctreeLocation) :
    Vector3 :=
  Vector3.div (Vector3.sub direction_signs prev.m_local_coords) direction

/-- The variable `face` of `find_next_intersection` in exact arithmetic. -/
def exit_face_exact (direction direction_signs : Vector3) (prev : SparseOctreeLocation) : Fin 3 :=
  min_index (exit_distances_exact direction direction_signs prev)

/-- The variable `side` of `find_next_intersection` in exact arithmetic. -/
def exit_side_exact (direction direction_signs : Vector3) (prev : SparseOctreeLocation) : Bool :=
  decide (direction_signs.get (exit_face_exact direction direction_signs prev) > 1 / 2)

/-- The advance distance `t[face]` of `find_next_intersection` in exact arithmetic. -/
def advance_exact (direction direction_signs : Vector3) (prev : SparseOctreeLocation) : ℚ :=
  (exit_distances_exact direction direction_signs prev).get (exit_face_exact direction direction_signs prev)

/-- The first value of `intersection` in an iteration of `find_next_intersection`, in exact
arithmetic: the point advanced to the exit face, in the node of `prev_intersection`. -/
def exit_location_exact (direction direction_signs : Vector3) (prev : SparseOctreeLocation) :
    SparseOctreeLocation :=
  { m_local_coords :=
      Vector3.add prev.m_local_coords
        (Vector3.smul (advance_exact direction direction_signs prev) direction),
    m_node_id := prev.m_node_id }

/-- One iteration of the loop of `find_next_intersection` in exact arithmetic, up to the
test of the advance distance: the flag tells whether the iteration returned `true` (the
root was reached). -/
def crossing_exact (t : SparseOctree V MaxSize) (inner : Nat) (direction direction_signs : Vector3)
    (prev : SparseOctreeLocation) : Option (Bool × SparseOctreeLocation) :=
  let face := exit_face_exact direction direction_signs prev
  let side := exit_side_exact direction direction_signs prev
  (t.ascend_till_has_neighbor_exact face side inner
      (exit_location_exact direction direction_signs prev)).bind fun intersection =>
    if intersection.m_node_id = 0 then some (true, intersection)
    else
      (t.get_neighbor intersection face side).bind fun neighbor =>
        (t.descend_till_leaf inner
          { m_local_coords :=
              intersection.m_local_coords.set face (1 - direction_signs.get face),
            m_node_id := neighbor % 65536 }).map fun r => (false, r)

/-- The direction has no zero component and `direction_signs` is 1 on the axes where it is
positive and 0 on the axes where it is negative. -/
def consistent_signs (direction direction_signs : Vector3) : Prop :=
  ∀ i : Fin 3, (0 < direction.get i ∧ direction_signs.get i = 1) ∨
    (direction.get i < 0 ∧ direction_signs.get i = 0)

/-- The pool at the point where `split` stops, and whether it stopped by returning (`true`)
or at a failing check (`false`): the assertion of `split` precedes its writes. -/
def split_state (t : SparseOctree V MaxSize) (node_id : Nat) : SparseOctree V MaxSize × Bool :=
  if node_id < MaxSize then
    if (t.m_nodes node_id).m_children_id ≠ Null then
      (t, true)
    else if t.m_size + 8 ≤ MaxSize then
      let nodes := set_children_id t.m_nodes node_id t.m_size
      let nodes := (List.range 8).foldl
        (fun nodes i => set_parent_id nodes (t.m_size + i) node_id) nodes
      ({ m_size := t.m_size + 8, m_nodes := nodes }, true)
    else (t, false)
  else (t, false)

/-- A pool of capacity 9 whose root has been split: no free slot remains. -/
def full9 : SparseOctree Unit 9 :=
  ((SparseOctree.new : SparseOctree Unit 9).split 0).getD SparseOctree.new

/-- The octant index of a node within its parent, as `has_neighbor`, `get_neighbor` and
`ascend` compute it: `node_id - m_nodes[parent_id].m_children_id`. -/
def octant_of (t : SparseOctree V MaxSize) (n : Nat) : Nat :=
  sub_u32 n (t.m_nodes (t.m_nodes n).m_parent_id).m_children_id

/-- A corner point of the unit cube: each coordinate is exactly 0 or 1. -/
def is_corner (p : Vector3) : Prop :=
  (p.x = 0 ∨ p.x = 1) ∧ (p.y = 0 ∨ p.y = 1) ∧ (p.z = 0 ∨ p.z = 1)

/-- The child index whose bit `i` is the coordinate `p i` of a corner point. -/
def corner_index (p : Vector3) : Nat :=
  (if p.x = 1 then 1 else 0) + (if p.y = 1 then 2 else 0) + (if p.z = 1 then 4 else 0)

/-- The leaf reached from the node `n` by taking the child of index `c` at every level
(`get_child_id n c`), as long as the node has children. -/
def child_path (t : SparseOctree V MaxSize) (c : Nat) : Nat → Nat → Option Nat
  | 0, _ => none
  | fuel + 1, n =>
    if t.has_children n then (t.get_child_id n c).bind (child_path t c fuel) else some n

/-- The tree of the test `CalculateLocation` with the root and its 8 children split. -/
def corners73 : SparseOctree Unit 73 × Nat :=
  ((SparseOctree.new : SparseOctree Unit 73).split_all (List.range 9)).getD
    (SparseOctree.new, 0)

/-- The octant bit of a node on an axis, as `has_neighbor` computes `child_side`. -/
def octant_bit (t : SparseOctree V MaxSize) (face : Fin 3) (n : Nat) : Bool :=
  decide (octant_of t n &&& (1 <<< face.val) ≠ 0)

/-- The node `a` is the node `n` or one of its ancestors: `Ancestor t a n` holds when `a` is
met on the way from `n` up to the root along the parent ids. -/
inductive Ancestor (t : SparseOctree V MaxSize) : Nat → Nat → Prop
  | self (n : Nat) : Ancestor t n n
  | up {a n : Nat} : n ≠ 0 → Ancestor t a (t.m_nodes n).m_parent_id → Ancestor t a n

/-- The tree of the test `Trace`: `split(root)`, `split(child(root, 1))`,
`split(child(child(root, 1), 0))`, `split(child(root, 2))`, in a pool of capacity 64. -/
def trace_tree : SparseOctree Unit 64 × Nat :=
  ((SparseOctree.new : SparseOctree Unit 64).split_all [0, 2, 9, 3]).getD
    (SparseOctree.new, 0)

/-! ## Ray marching in binary32 -/

/-- The method `ascend` with the arithmetic of the type `float`: `+= 1.0f` and `*= 0.5f`
round to binary32. -/
def ascend_f32 (t : SparseOctree V MaxSize) (location : SparseOctreeLocation) :
    Option SparseOctreeLocation :=
  if is_saturated location.m_local_coords then
    if location.m_node_id < MaxSize then
      let parent_id := (t.m_nodes location.m_node_id).m_parent_id
      if parent_id < MaxSize then
        let child := sub_u32 location.m_node_id (t.m_nodes parent_id).m_children_id
        if child < 8 then
          let coords := [(0 : Fin 3), 1, 2].foldl
            (fun coords i =>
              if child &&& (1 <<< i.val) ≠ 0 then coords.set i (fadd (coords.get i) 1)
              else coords)
            location.m_local_coords
          some { m_local_coords := Vector3.smul32 (1 / 2) coords, m_node_id := parent_id }
        else none
      else none
    else none
  else none

/-- The method `descend` with the arithmetic of the type `float`: `-= 0.5f` and `*= 2.0f`
round to binary32. -/
def descend_f32 (t : SparseOctree V MaxSize) (location : SparseOctreeLocation) :
    Option SparseOctreeLocation :=
  if location.m_node_id < MaxSize ∧ (t.m_nodes location.m_node_id).m_children_id < MaxSize then
    if is_saturated location.m_local_coords then
      let r := [(0 : Fin 3), 1, 2].foldl
        (fun (r : Nat × Vector3) i =>
          if r.2.get i > 1 / 2 then
            ((r.1 ||| (1 <<< i.val)) % 65536, r.2.set i (fsub (r.2.get i) (1 / 2)))
          else r)
        (0, location.m_local_coords)
      let child := r.1
      let node_id := ((t.m_nodes location.m_node_id).m_children_id + child) % 65536
      if child < 8 ∧ node_id < MaxSize then
        some { m_local_coords := Vector3.smul32 2 r.2, m_node_id := node_id }
      else none
    else none
  else none

/-- The method `descend_till_leaf` over `descend_f32`; `fuel` bounds the evaluations of the
loop condition. -/
def descend_till_leaf_f32 (t : SparseOctree V MaxSize) :
    Nat → SparseOctreeLocation → Option SparseOctreeLocation
  | 0, _ => none
  | fuel + 1, location =>
    (t.node location.m_node_id).bind fun n =>
      if n.m_children_id ≠ Null then
        (t.descend_f32 location).bind (descend_till_leaf_f32 t fuel)
      else some location

/-- The method `ascend_till_has_neighbor`, over `ascend_f32`; `fuel` bounds the evaluations
of the loop condition. -/
def ascend_till_has_neighbor (t : SparseOctree V MaxSize) (face : Fin 3) (side : Bool) :
    Nat → SparseOctreeLocation → Option SparseOctreeLocation
  | 0, _ => none
  | fuel + 1, location =>
    if location.m_node_id ≠ 0 then
      (t.has_neighbor location face side).bind fun b =>
        if !b then (t.ascend_f32 location).bind (ascend_till_has_neighbor t face side fuel)
        else some location
    else some location

/-- The loop of `calculate_coords` over `ascend_f32`; `fuel` bounds the evaluations of the
loop condition. -/
def calculate_coords_loop_f32 (t : SparseOctree V MaxSize) :
    Nat → SparseOctreeLocation → Option SparseOctreeLocation
  | 0, _ => none
  | fuel + 1, result =>
    if result.m_node_id ≠ 0 then (t.ascend_f32 result).bind (calculate_coords_loop_f32 t fuel)
    else some result

/-- The method `calculate_coords` over `ascend_f32`. -/
def calculate_coords_f32 (t : SparseOctree V MaxSize) (fuel : Nat)
    (location : SparseOctreeLocation) : Option Vector3 :=
  (t.calculate_coords_loop_f32 fuel location).map fun result => result.m_local_coords

/-- The method `find_next_intersection`, with the arithmetic of the type `float`: the
difference, the division, the product and the sum of the first two statements round to
binary32, the inner loops are those over `ascend_f32` and `descend_f32`, and the literal
`1e-06f` is the binary32 value nearest to `1 / 1000000`. The result is the returned flag
together with the final value of `intersection`. `aliased` tells whether
`prev_intersection` and `intersection` are references to the same object (as in the calls
of the test suite), in which case the next iteration of the loop reads the location just
written; otherwise it reads the unchanged `prev_intersection` again. `inner` is the fuel of
the two inner loops, the first `Nat` argument bounds the iterations of the outer loop. -/
def find_next_intersection (t : SparseOctree V MaxSize) (inner : Nat)
    (direction direction_signs : Vector3) (aliased : Bool) :
    Nat → SparseOctreeLocation → Option (Bool × SparseOctreeLocation)
  | 0, _ => none
  | fuel + 1, prev_intersection =>
    let tv := Vector3.div32 (Vector3.sub32 direction_signs prev_intersection.m_local_coords)
      direction
    let face := min_index tv
    let side : Bool := decide (direction_signs.get face > 1 / 2)
    let intersection : SparseOctreeLocation :=
      { m_local_coords :=
          Vector3.add32 prev_intersection.m_local_coords
            (Vector3.smul32 (tv.get face) direction),
        m_node_id := prev_intersection.m_node_id }
    (t.ascend_till_has_neighbor face side inner intersection).bind fun intersection =>
      if intersection.m_node_id = 0 then some (true, intersection)
      else
        (t.get_neighbor intersection face side).bind fun neighbor =>
          let intersection : SparseOctreeLocation :=
            { intersection with m_node_id := neighbor % 65536 }
          let intersection : SparseOctreeLocation :=
            { intersection with
              m_local_coords :=
                intersection.m_local_coords.set face (fsub 1 (direction_signs.get face)) }
          (t.descend_till_leaf_f32 inner intersection).bind fun intersection =>
            if tv.get face ≥ round32 (1 / 1000000) then some (false, intersection)
            else
              find_next_intersection t inner direction direction_signs aliased fuel
                (if aliased then intersection else prev_intersection)

/-- The vector `t` of `find_next_intersection`: the distances to the faces ahead. -/
def exit_distances (direction direction_signs : Vector3) (prev : SparseOctreeLocation) :
    Vector3 :=
  Vector3.div32 (Vector3.sub32 direction_signs prev.m_local_coords) direction

/-- The variable `face` of `find_next_intersection`. -/
def exit_face (direction direction_signs : Vector3) (prev : SparseOctreeLocation) : Fin 3 :=
  min_index (exit_distances direction direction_signs prev)

/-- The variable `side` of `find_next_intersection`. -/
def exit_side (direction direction_signs : Vector3) (prev : SparseOctreeLocation) : Bool :=
  decide (direction_signs.get (exit_face direction direction_signs prev) > 1 / 2)

/-- The advance distance `t[face]` of `find_next_intersection`. -/
def advance (direction direction_signs : Vector3) (prev : SparseOctreeLocation) : ℚ :=
  (exit_distances direction direction_signs prev).get (exit_face direction direction_signs prev)

/-- The first value of `intersection` in an iteration of `find_next_intersection`: the
point `prev_intersection.m_local_coords + t[face] * direction`, in the node of
`prev_intersection`. -/
def exit_location (direction direction_signs : Vector3) (prev : SparseOctreeLocation) :
    SparseOctreeLocation :=
  { m_local_coords :=
      Vector3.add32 prev.m_local_coords
        (Vector3.smul32 (advance direction direction_signs prev) direction),
    m_node_id := prev.m_node_id }

/-- One iteration of the loop of `find_next_intersection`, up to the test of the advance
distance: the flag tells whether the iteration returned `true` (the root was reached). -/
def crossing (t : SparseOctree V MaxSize) (inner : Nat) (direction direction_signs : Vector3)
    (prev : SparseOctreeLocation) : Option (Bool × SparseOctreeLocation) :=
  let face := exit_face direction direction_signs prev
  let side := exit_side direction direction_signs prev
  (t.ascend_till_has_neighbor face side inner
      (exit_location direction direction_signs prev)).bind fun intersection =>
    if intersection.m_node_id = 0 then some (true, intersection)
    else
      (t.get_neighbor intersection face side).bind fun neighbor =>
        (t.descend_till_leaf_f32 inner
          { m_local_coords :=
              intersection.m_local_coords.set face (fsub 1 (direction_signs.get face)),
            m_node_id := neighbor % 65536 }).map fun r => (false, r)

/-- The local coordinate in the parent of the child with index `c`, as `ascend_f32`
computes it. -/
def ascend_coords_f32 (c : Nat) (y : Vector3) : Vector3 :=
  ⟨fmul (1 / 2) (if c % 2 = 1 then fadd y.x 1 else y.x),
    fmul (1 / 2) (if c / 2 % 2 = 1 then fadd y.y 1 else y.y),
    fmul (1 / 2) (if c / 4 % 2 = 1 then fadd y.z 1 else y.z)⟩

/-- The local coordinate in the selected child, as `descend_f32` computes it. -/
def descend_coords_f32 (x : Vector3) : Vector3 :=
  ⟨fmul 2 (if x.x > 1 / 2 then fsub x.x (1 / 2) else x.x),
    fmul 2 (if x.y > 1 / 2 then fsub x.y (1 / 2) else x.y),
    fmul 2 (if x.z > 1 / 2 then fsub x.z (1 / 2) else x.z)⟩

/-! ## The calls of a crossing -/

/-- A call of one of the private methods `ascend`, `descend`, `has_neighbor` and
`get_neighbor`, with its arguments. -/
inductive Call where
  | ascend (location : SparseOctreeLocation)
  | descend (location : SparseOctreeLocation)
  | has_neighbor (location : SparseOctreeLocation) (face : Fin 3) (side : Bool)
  | get_neighbor (location : SparseOctreeLocation) (face : Fin 3) (side : Bool)

/-- The calls made by `ascend_till_has_neighbor`, in order, as far as the loop runs with the
given fuel: an evaluation of the loop condition on a node other than the root calls
`has_neighbor` (the `&&` does not evaluate it on the root), an iteration calls `ascend`. -/
def ascend_till_has_neighbor_calls (t : SparseOctree V MaxSize) (face : Fin 3) (side : Bool) :
    Nat → SparseOctreeLocation → List Call
  | 0, _ => []
  | fuel + 1, location =>
    if location.m_node_id ≠ 0 then
      Call.has_neighbor location face side ::
        match t.has_neighbor location face side with
        | some false =>
          Call.ascend location ::
            match t.ascend_f32 location with
            | some location1 => ascend_till_has_neighbor_calls t face side fuel location1
            | none => []
        | _ => []
    else []

/-- The calls made by `descend_till_leaf`, in order, as far as the loop runs with the given
fuel: an iteration calls `descend`. -/
def descend_till_leaf_calls (t : SparseOctree V MaxSize) :
    Nat → SparseOctreeLocation → List Call
  | 0, _ => []
  | fuel + 1, location =>
    match t.node location.m_node_id with
    | some n =>
      if n.m_children_id ≠ Null then
        Call.descend location ::
          match t.descend_f32 location with
          | some location1 => descend_till_leaf_calls t fuel location1
          | none => []
      else []
    | none => []

/-- The calls made by the loop of `calculate_coords`, in order, as far as the loop runs
with the given fuel: an iteration calls `ascend`. -/
def calculate_coords_calls (t : SparseOctree V MaxSize) :
    Nat → SparseOctreeLocation → List Call
  | 0, _ => []
  | fuel + 1, result =>
    if result.m_node_id ≠ 0 then
      Call.ascend result ::
        match t.ascend_f32 result with
        | some result1 => calculate_coords_calls t fuel result1
        | none => []
    else []

/-- The calls made by one iteration of the loop of `find_next_intersection`, in order, as
far as the iteration runs: those of `ascend_till_has_neighbor`, then, unless the root was
reached, the call of `get_neighbor`, whose first assertion calls `has_neighbor`, and the
calls of `descend_till_leaf`. -/
def crossing_calls (t : SparseOctree V MaxSize) (inner : Nat)
    (direction direction_signs : Vector3) (prev : SparseOctreeLocation) : List Call :=
  let face := exit_face direction direction_signs prev
  let side := exit_side direction direction_signs prev
  t.ascend_till_has_neighbor_calls face side inner
      (exit_location direction direction_signs prev) ++
    match t.ascend_till_has_neighbor face side inner
        (exit_location direction direction_signs prev) with
    | some intersection =>
      if intersection.m_node_id = 0 then []
      else
        Call.get_neighbor intersection face side ::
          Call.has_neighbor intersection face side ::
            match t.get_neighbor intersection face side with
            | some neighbor =>
              t.descend_till_leaf_calls inner
                { m_local_coords :=
                    intersection.m_local_coords.set face
                      (fsub 1 (direction_signs.get face)),
                  m_node_id := neighbor % 65536 }
            | none => []
    | none => []

/-- The id `n` is an allocated id below `MaxSize`. -/
def is_allocated (t : SparseOctree V MaxSize) (n : Nat) : Prop :=
  n < t.m_size ∧ n < MaxSize

/-- The assertions of a call hold on the tree `t`, and the ids it reads are allocated.
`ascend`: the coordinates are saturated, the node id and the parent id read from it are
allocated, the octant index `node_id - m_nodes[parent_id].m_children_id` is below 8, and the
call returns. `descend`: the node id is allocated, the children id read from it is below
`MaxSize`, the coordinates are saturated, and the call returns a node which is the children
id plus an octant index below 8 and is allocated. `has_neighbor`: the call returns, and off
the root the node id and the parent id read from it are allocated and the octant index is
below 8. `get_neighbor`: `has_neighbor` is true, the node id and the parent id are
allocated, the octant index is below 8 before and after the flip of the bit of the face,
and the call returns an allocated id. -/
def Call.holds (t : SparseOctree V MaxSize) : Call → Prop
  | Call.ascend location =>
    is_saturated location.m_local_coords ∧
    is_allocated t location.m_node_id ∧
    is_allocated t (t.m_nodes location.m_node_id).m_parent_id ∧
    octant_of t location.m_node_id < 8 ∧
    ∃ r, t.ascend_f32 location = some r
  | Call.descend location =>
    is_allocated t location.m_node_id ∧
    (t.m_nodes location.m_node_id).m_children_id < MaxSize ∧
    is_saturated location.m_local_coords ∧
    ∃ r child, t.descend_f32 location = some r ∧ child < 8 ∧
      r.m_node_id = (t.m_nodes location.m_node_id).m_children_id + child ∧
      is_allocated t r.m_node_id
  | Call.has_neighbor location face side =>
    (∃ b, t.has_neighbor location face side = some b) ∧
    (location.m_node_id ≠ 0 →
      is_allocated t location.m_node_id ∧
      is_allocated t (t.m_nodes location.m_node_id).m_parent_id ∧
      octant_of t location.m_node_id < 8)
  | Call.get_neighbor location face side =>
    t.has_neighbor location face side = some true ∧
    is_allocated t location.m_node_id ∧
    is_allocated t (t.m_nodes location.m_node_id).m_parent_id ∧
    octant_of t location.m_node_id < 8 ∧
    (octant_of t location.m_node_id ^^^ (1 <<< face.val)) % 2 ^ 32 < 8 ∧
    ∃ neighbor, t.get_neighbor location face side = some neighbor ∧
      is_allocated t (neighbor % 65536)

/-! ## Exact arithmetic -/

/-- No operation of `ascend` rounds at the coordinates `y` of a child with index `c`: each
sum `y[i] + 1.0f` it computes and each product with `0.5f` is a binary32 value when carried
out exactly. -/
def ascend_rounding_free (c : Nat) (y : Vector3) : Prop :=
  ((c % 2 = 1 → is_binary32 (y.x + 1)) ∧ (c / 2 % 2 = 1 → is_binary32 (y.y + 1)) ∧
    (c / 4 % 2 = 1 → is_binary32 (y.z + 1))) ∧
  is_binary32 (ascend_coords c y).x ∧ is_binary32 (ascend_coords c y).y ∧
    is_binary32 (ascend_coords c y).z

/-- No operation of `descend` rounds at the coordinates `x`: each difference
`x[i] - 0.5f` it computes and each product with `2.0f` is a binary32 value when carried out
exactly. -/
def descend_rounding_free (x : Vector3) : Prop :=
  ((x.x > 1 / 2 → is_binary32 (x.x - 1 / 2)) ∧ (x.y > 1 / 2 → is_binary32 (x.y - 1 / 2)) ∧
    (x.z > 1 / 2 → is_binary32 (x.z - 1 / 2))) ∧
  is_binary32 (descend_coords x).x ∧ is_binary32 (descend_coords x).y ∧
    is_binary32 (descend_coords x).z

/-- No operation of the first statements of an iteration of `find_next_intersection`
rounds: each difference `direction_signs[i] - coords[i]`, each quotient by `direction[i]`,
each product `t[face] * direction[i]`, each sum `coords[i] + t[face] * direction[i]`, and
the difference `1.0f - direction_signs[face]`, is a binary32 value when carried out
exactly. -/
def exit_rounding_free (direction direction_signs : Vector3) (prev : SparseOctreeLocation) :
    Prop :=
  (∀ i : Fin 3,
    is_binary32 (direction_signs.get i - prev.m_local_coords.get i) ∧
    is_binary32 ((exit_distances_exact direction direction_signs prev).get i) ∧
    is_binary32 (advance_exact direction direction_signs prev * direction.get i) ∧
    is_binary32 ((exit_location_exact direction direction_signs prev).m_local_coords.get i)) ∧
  is_binary32 (1 - direction_signs.get (exit_face_exact direction direction_signs prev))

/-- No operation of a call rounds. -/
def Call.rounding_free (t : SparseOctree V MaxSize) : Call → Prop
  | Call.ascend location =>
    ascend_rounding_free (octant_of t location.m_node_id) location.m_local_coords
  | Call.descend location => descend_rounding_free location.m_local_coords
  | Call.has_neighbor _ _ _ => True
  | Call.get_neighbor _ _ _ => True

/-- The arithmetic of one iteration of the loop of `find_next_intersection` is exact: no
operation of its first statements rounds, and no operation of a call of `ascend` or
`descend` it makes rounds. -/
def rounding_free (t : SparseOctree V MaxSize) (inner : Nat)
    (direction direction_signs : Vector3) (prev : SparseOctreeLocation) : Prop :=
  exit_rounding_free direction direction_signs prev ∧
  ∀ c ∈ t.crossing_calls inner direction direction_signs prev, c.rounding_free t

/-- The arithmetic of `calculate_coords` at a location is exact: no operation of a call of
`ascend` it makes rounds. -/
def calculate_coords_rounding_free (t : SparseOctree V MaxSize) (fuel : Nat)
    (location : SparseOctreeLocation) : Prop :=
  ∀ c ∈ t.calculate_coords_calls fuel location, c.rounding_free t

/-! ## The direction of the test `Trace` -/

/-- Modelled from the spec: the norm of the vector `(-15, 10, 8)` of the test `Trace`, as
the function `normalize` of the test computes it in binary32. `normalize` is not part of the
translated source; the squared norm `225 + 100 + 64 = 389` is exact in binary32 and the
binary32 value nearest to its square root is `323143 / 2^14`. -/
def trace_norm : ℚ := 323143 / 16384

/-- Modelled from the spec: the direction `normalize(Vector3f(-15, 10, 8))` of the test
`Trace`, when `normalize` divides each component by the norm. -/
def trace_direction : Vector3 :=
  ⟨fdiv (-15) trace_norm, fdiv 10 trace_norm, fdiv 8 trace_norm⟩

/-- Modelled from the spec: the direction `normalize(Vector3f(-15, 10, 8))` of the test
`Trace`, when `normalize` multiplies each component by the reciprocal of the norm. -/
def trace_direction_reciprocal : Vector3 :=
  ⟨fmul (-15) (fdiv 1 trace_norm), fmul 10 (fdiv 1 trace_norm), fmul 8 (fdiv 1 trace_norm)⟩

/-! ## The pool after `split` -/

theorem foldl_set_parent_children (l : List Nat) (nodes : Nat → Node V) (s n j : Nat) :
    ((l.foldl (fun nodes i => set_parent_id nodes (s + i) n) nodes) j).m_children_id =
      (nodes j).m_children_id := by
  induction l generalizing nodes with
  | nil => rfl
  | cons a l ih =>
    rw [List.foldl_cons, ih]
    unfold set_parent_id
    split_ifs <;> rfl

theorem foldl_set_parent_value (l : List Nat) (nodes : Nat → Node V) (s n j : Nat) :
    ((l.foldl (fun nodes i => set_parent_id nodes (s + i) n) nodes) j).m_value =
      (nodes j).m_value := by
  induction l generalizing nodes with
  | nil => rfl
  | cons a l ih =>
    rw [List.foldl_cons, ih]
    unfold set_parent_id
    split_ifs <;> rfl

theorem foldl_set_parent_parent (l : List Nat) (nodes : Nat → Node V) (s n j : Nat) :
    ((l.foldl (fun nodes i => set_parent_id nodes (s + i) n) nodes) j).m_parent_id =
      if ∃ i, i ∈ l ∧ j = s + i then n else (nodes j).m_parent_id := by
  induction l generalizing nodes with
  | nil => simp
  | cons a l ih =>
    rw [List.foldl_cons, ih]
    unfold set_parent_id
    by_cases h1 : ∃ i, i ∈ l ∧ j = s + i
    · have h2 : ∃ i, i ∈ a :: l ∧ j = s + i := by
        obtain ⟨i, hi, hj⟩ := h1
        exact ⟨i, List.mem_cons_of_mem _ hi, hj⟩
      rw [if_pos h1, if_pos h2]
    · rw [if_neg h1]
      by_cases h3 : j = s + a
      · have h2 : ∃ i, i ∈ a :: l ∧ j = s + i := ⟨a, List.mem_cons_self _ _, h3⟩
        rw [if_pos h2, if_pos h3]
      · have h2 : ¬ ∃ i, i ∈ a :: l ∧ j = s + i := by
          rintro ⟨i, hi, hj⟩
          rcases List.mem_cons.mp hi with rfl | hi
          · exact h3 hj
          · exact h1 ⟨i, hi, hj⟩
        rw [if_neg h2, if_neg h3]

/-- The pool after the assignments of an allocating `split`. -/
theorem split_eq (t : SparseOctree V MaxSize) (n : Nat) (hn : n < MaxSize)
    (hc : ¬ t.has_children n) (hs : t.m_size + 8 ≤ MaxSize) :
    ∃ t1, t.split n = some t1 ∧ t1.m_size = t.m_size + 8 ∧
      (∀ j, (t1.m_nodes j).m_children_id =
        if j = n then t.m_size else (t.m_nodes j).m_children_id) ∧
      (∀ j, (t1.m_nodes j).m_parent_id =
        if t.m_size ≤ j ∧ j < t.m_size + 8 then n else (t.m_nodes j).m_parent_id) ∧
      (∀ j, (t1.m_nodes j).m_value = (t.m_nodes j).m_value) := by
  unfold has_children at hc
  refine ⟨_, by simp only [split, hn, hc, hs, if_true, if_false]; rfl, rfl, ?_, ?_, ?_⟩
  · intro j
    simp only [foldl_set_parent_children, set_children_id]
    split_ifs <;> rfl
  · intro j
    simp only [foldl_set_parent_parent, set_children_id, List.mem_range]
    have : (∃ i, i < 8 ∧ j = t.m_size + i) ↔ (t.m_size ≤ j ∧ j < t.m_size + 8) := by
      constructor
      · rintro ⟨i, hi, rfl⟩; omega
      · rintro ⟨h1, h2⟩; exact ⟨j - t.m_size, by omega, by omega⟩
    simp only [this]
    split_ifs <;> rfl
  · intro j
    simp only [foldl_set_parent_value, set_children_id]
    split_ifs <;> rfl

/-- A successful `split` either found children and changed nothing, or allocated. -/
theorem split_cases (t t1 : SparseOctree V MaxSize) (n : Nat) (h : t.split n = some t1) :
    n < MaxSize ∧ ((t.has_children n ∧ t1 = t) ∨
      (¬ t.has_children n ∧ t.m_size + 8 ≤ MaxSize ∧ t1.m_size = t.m_size + 8 ∧
        (∀ j, (t1.m_nodes j).m_children_id =
          if j = n then t.m_size else (t.m_nodes j).m_children_id) ∧
        (∀ j, (t1.m_nodes j).m_parent_id =
          if t.m_size ≤ j ∧ j < t.m_size + 8 then n else (t.m_nodes j).m_parent_id) ∧
        (∀ j, (t1.m_nodes j).m_value = (t.m_nodes j).m_value))) := by
  by_cases hn : n < MaxSize
  · refine ⟨hn, ?_⟩
    by_cases hc : t.has_children n
    · left
      have hc2 := hc
      unfold has_children at hc2
      rw [split, if_pos hn, if_pos hc2] at h
      exact ⟨hc, (Option.some.inj h).symm⟩
    · right
      by_cases hs : t.m_size + 8 ≤ MaxSize
      · obtain ⟨t2, h2, h3⟩ := split_eq t n hn hc hs
        rw [h2] at h
        cases h
        exact ⟨hc, hs, h3⟩
      · have hc2 := hc
        unfold has_children at hc2
        simp [split, hn, hc2, hs] at h
  · simp [split, hn] at h

theorem wellFormed_new [Inhabited V] :
    WellFormed (SparseOctree.new : SparseOctree V MaxSize) where
  size_le := fun h => absurd h (Nat.lt_irrefl 1)
  size_mod := rfl
  root_parent := rfl
  free_children := fun _ _ => rfl
  children_block := fun n _ hc => absurd rfl hc
  parent_block := fun n h0 h1 => by
    have : n < 1 := h1
    omega

theorem wellFormed_split {t t1 : SparseOctree V MaxSize} {n : Nat} (wf : WellFormed t)
    (hn : n < t.m_size) (h : t.split n = some t1) : WellFormed t1 := by
  obtain ⟨-, ⟨-, rfl⟩ | ⟨hc, hs, hsz, hcid, hpid, -⟩⟩ := split_cases t t1 n h
  · exact wf
  · have hnull : t.m_size ≠ Null := by
      have := wf.size_mod
      unfold Null
      omega
    have hch : ∀ j, t1.has_children j ↔ (j = n ∨ t.has_children j) := by
      intro j
      unfold has_children
      rw [hcid]
      by_cases hj : j = n
      · simp [hj, hnull]
      · simp [hj]
    refine ⟨fun _ => by omega, by have := wf.size_mod; omega, ?_, ?_, ?_, ?_⟩
    · rw [hpid, if_neg (by have := wf.size_mod; omega)]
      exact wf.root_parent
    · intro j hj
      rw [hcid, if_neg (by omega)]
      exact wf.free_children j (by omega)
    · intro j hj hcj
      rw [hcid]
      by_cases hjn : j = n
      · subst hjn
        rw [if_pos rfl]
        refine ⟨hn, by omega, fun i hi => ?_⟩
        rw [hpid, if_pos (by omega)]
      · rw [if_neg hjn]
        have hcj2 : t.has_children j := by
          rcases (hch j).mp hcj with h1 | h1
          · exact absurd h1 hjn
          · exact h1
        have hjs : j < t.m_size := by
          by_contra hge
          exact hcj2 (wf.free_children j (by omega))
        obtain ⟨h1, h2, h3⟩ := wf.children_block j hjs hcj2
        refine ⟨h1, by omega, fun i hi => ?_⟩
        rw [hpid, if_neg (by omega)]
        exact h3 i hi
    · intro j h0 hj
      rw [hpid]
      by_cases hnew : t.m_size ≤ j ∧ j < t.m_size + 8
      · rw [if_pos hnew]
        refine ⟨by omega, (hch n).mpr (Or.inl rfl), ?_, ?_⟩
        · rw [hcid, if_pos rfl]; exact hnew.1
        · rw [hcid, if_pos rfl]; exact hnew.2
      · rw [if_neg hnew]
        have hjs : j < t.m_size := by omega
        obtain ⟨h1, h2, h3, h4⟩ := wf.parent_block j h0 hjs
        refine ⟨h1, (hch _).mpr (Or.inr h2), ?_, ?_⟩
        · rw [hcid, if_neg (fun e => hc (by rw [← e]; exact h2))]; exact h3
        · rw [hcid, if_neg (fun e => hc (by rw [← e]; exact h2))]; exact h4

theorem Reachable.wellFormed [Inhabited V] {t : SparseOctree V MaxSize}
    (h : Reachable t) : WellFormed t := by
  induction h with
  | fresh => exact wellFormed_new
  | step _ hn hs ih => exact wellFormed_split ih hn hs


/-! ## Splitting -/

theorem WellFormed.size_le_max {t : SparseOctree V MaxSize} (wf : WellFormed t)
    (hM : 0 < MaxSize) : t.m_size ≤ MaxSize := by
  by_cases h : 1 < t.m_size
  · exact wf.size_le h
  · omega

/-- A node with children is allocated storage inside the array. -/
theorem WellFormed.lt_max_of_has_children {t : SparseOctree V MaxSize} (wf : WellFormed t)
    {n : Nat} (hn : n < t.m_size) (hc : t.has_children n) : t.m_size ≤ MaxSize := by
  obtain ⟨h1, h2, -⟩ := wf.children_block n hn hc
  exact wf.size_le (by omega)

theorem split_all_size (calls : List Nat) :
    ∀ (t t1 : SparseOctree V MaxSize) (k : Nat), t.split_all calls = some (t1, k) →
      t1.m_size = t.m_size + 8 * k ∧ (t.m_size ≤ MaxSize → t1.m_size ≤ MaxSize) := by
  induction calls with
  | nil =>
    intro t t1 k h
    simp only [split_all, Option.some.injEq, Prod.mk.injEq] at h
    obtain ⟨rfl, rfl⟩ := h
    exact ⟨rfl, id⟩
  | cons n ns ih =>
    intro t t1 k h
    simp only [split_all, Option.bind_eq_some, Option.map_eq_some', Prod.mk.injEq] at h
    obtain ⟨t2, h2, ⟨t3, k3⟩, h3, rfl, rfl⟩ := h
    obtain ⟨e1, e2⟩ := ih t2 t3 k3 h3
    obtain ⟨-, ⟨hc, rfl⟩ | ⟨hc, hs, hsz, -⟩⟩ := split_cases t t2 n h2
    · simp only [hc, if_true]
      exact ⟨by omega, e2⟩
    · simp only [hc, if_false]
      exact ⟨by omega, fun _ => e2 (by omega)⟩

/-- C3. Size invariant: a fresh tree has size 1, and after any finite sequence of successful
`split` calls the size is `1 + 8 * k`, `k` being the number of those calls made on a node
without children, and the size does not exceed the capacity `MaxSize`. -/
theorem size_invariant [Inhabited V] (hM : 0 < MaxSize) :
    (SparseOctree.new : SparseOctree V MaxSize).get_size = 1 ∧
    ∀ (calls : List Nat) (t : SparseOctree V MaxSize) (k : Nat),
      (SparseOctree.new : SparseOctree V MaxSize).split_all calls = some (t, k) →
        t.get_size = 1 + 8 * k ∧ t.get_size ≤ MaxSize := by
  refine ⟨rfl, fun calls t k h => ?_⟩
  obtain ⟨h1, h2⟩ := split_all_size calls _ t k h
  exact ⟨h1, h2 hM⟩

/-- C2. Split postcondition: on a reachable tree of size `s`, for an allocated node `n`
without children and with `s + 8 ≤ MaxSize`, `split n` succeeds, the size becomes `s + 8`,
and for every `i < 8`: `get_child_id n i = s + i`, this id is below the new size, its
parent id is `n`, and `get_child_id (s + i) j` is the sentinel for every `j < 8`. -/
theorem split_postcondition [Inhabited V] (hM : MaxSize < 65536)
    (t : SparseOctree V MaxSize) (hr : Reachable t) (n : Nat) (hn : n < t.m_size)
    (hc : ¬ t.has_children n) (hs : t.m_size + 8 ≤ MaxSize) :
    ∃ t1, t.split n = some t1 ∧ t1.get_size = t.get_size + 8 ∧
      ∀ i, i < 8 →
        t1.get_child_id n i = some (t.get_size + i) ∧
        t.get_size + i < t1.get_size ∧
        t1.get_parent_id (t.get_size + i) = some n ∧
        ∀ j, j < 8 → t1.get_child_id (t.get_size + i) j = some Null := by
  have wf := hr.wellFormed
  obtain ⟨t1, h1, hsz, hcid, hpid, -⟩ := split_eq t n (by omega) hc hs
  have hnull : t.m_size ≠ Null := by
    have := wf.size_mod
    unfold Null
    omega
  refine ⟨t1, h1, hsz, fun i hi => ⟨?_, ?_, ?_, fun j hj => ?_⟩⟩
  · have h2 : n < t1.m_size := by omega
    have h3 : n < MaxSize := by omega
    simp only [get_child_id, node, get_size, h2, hi, h3, if_true, Option.map_some', hcid,
      hnull, if_false]
    rw [Nat.mod_eq_of_lt (by omega)]
  · simp only [get_size]; omega
  · have h2 : t.m_size + i < t1.m_size := by omega
    have h3 : t.m_size + i < MaxSize := by omega
    simp only [get_parent_id, node, get_size, h2, h3, if_true, Option.map_some', hpid]
    rw [if_pos (by omega)]
  · have h2 : t.m_size + i < t1.m_size := by omega
    have h3 : t.m_size + i < MaxSize := by omega
    have h4 : (t1.m_nodes (t.m_size + i)).m_children_id = Null := by
      rw [hcid, if_neg (by omega)]
      exact wf.free_children _ (by omega)
    simp only [get_child_id, node, get_size, h2, hj, h3, if_true, Option.map_some', h4]

/-- C4. Split is idempotent: on a reachable tree, `split n` on an allocated node that already
has children returns the very same tree, and a second `split n` after a successful
`split n` changes nothing. -/
theorem split_idempotent [Inhabited V] (t : SparseOctree V MaxSize) (hr : Reachable t)
    (n : Nat) (hn : n < t.m_size) :
    (t.has_children n → t.split n = some t) ∧
    ∀ t1, t.split n = some t1 → t1.split n = some t1 := by
  have wf := hr.wellFormed
  have key : ∀ u : SparseOctree V MaxSize, n < MaxSize → u.has_children n →
      u.split n = some u := by
    intro u h1 h2
    unfold has_children at h2
    rw [split, if_pos h1, if_pos h2]
  refine ⟨fun hc => key t ?_ hc, fun t1 h1 => ?_⟩
  · have := wf.lt_max_of_has_children hn hc
    omega
  · obtain ⟨hlt, ⟨hc, rfl⟩ | ⟨hc, hs, hsz, hcid, -⟩⟩ := split_cases t t1 n h1
    · exact key _ hlt hc
    · refine key t1 hlt ?_
      unfold has_children
      rw [hcid, if_pos rfl]
      have := wf.size_mod
      unfold Null
      omega

/-- C7. Split frame: an allocating `split n` succeeds and leaves unchanged the children id of
every node other than `n`, the parent id of every node outside the 8 newly allocated ones
(so of every previously allocated node), and the value of every node. -/
theorem split_frame (t : SparseOctree V MaxSize) (n : Nat) (hn : n < t.m_size)
    (hc : ¬ t.has_children n) (hs : t.m_size + 8 ≤ MaxSize) :
    ∃ t1, t.split n = some t1 ∧
      (∀ m, m ≠ n → (t1.m_nodes m).m_children_id = (t.m_nodes m).m_children_id) ∧
      (∀ m, m < t.m_size → (t1.m_nodes m).m_parent_id = (t.m_nodes m).m_parent_id) ∧
      (∀ m, ¬ (t.m_size ≤ m ∧ m < t.m_size + 8) →
        (t1.m_nodes m).m_parent_id = (t.m_nodes m).m_parent_id) ∧
      (∀ m, (t1.m_nodes m).m_value = (t.m_nodes m).m_value) := by
  obtain ⟨t1, h1, -, hcid, hpid, hval⟩ := split_eq t n (by omega) hc hs
  refine ⟨t1, h1, fun m hm => ?_, fun m hm => ?_, fun m hm => ?_, hval⟩
  · rw [hcid, if_neg hm]
  · rw [hpid, if_neg (by omega)]
  · rw [hpid, if_neg hm]

/-! ## Links -/

theorem split_all_has_children (calls : List Nat) :
    ∀ (t t1 : SparseOctree V MaxSize) (k : Nat), t.split_all calls = some (t1, k) →
      ∀ m, m ∉ calls → (t1.has_children m ↔ t.has_children m) := by
  induction calls with
  | nil =>
    intro t t1 k h m _
    simp only [split_all, Option.some.injEq, Prod.mk.injEq] at h
    rw [h.1]
  | cons n ns ih =>
    intro t t1 k h m hm
    simp only [split_all, Option.bind_eq_some, Option.map_eq_some', Prod.mk.injEq] at h
    obtain ⟨t2, h2, ⟨t3, k3⟩, h3, rfl, -⟩ := h
    have hmn : m ≠ n := fun e => hm (e ▸ List.mem_cons_self _ _)
    rw [ih t2 t3 k3 h3 m (fun e => hm (List.mem_cons_of_mem _ e))]
    obtain ⟨-, ⟨-, rfl⟩ | ⟨-, -, -, hcid, -⟩⟩ := split_cases t t2 n h2
    · rfl
    · unfold has_children
      rw [hcid, if_neg hmn]

theorem reachable_split_all [Inhabited V] (calls : List Nat) :
    ∀ (t t1 : SparseOctree V MaxSize) (k : Nat), Reachable t →
      t.calls_allocated calls = true → t.split_all calls = some (t1, k) → Reachable t1 := by
  induction calls with
  | nil =>
    intro t t1 k hr _ h
    simp only [split_all, Option.some.injEq, Prod.mk.injEq] at h
    rw [← h.1]
    exact hr
  | cons n ns ih =>
    intro t t1 k hr ha h
    simp only [split_all, Option.bind_eq_some, Option.map_eq_some', Prod.mk.injEq] at h
    obtain ⟨t2, h2, ⟨t3, k3⟩, h3, rfl, -⟩ := h
    simp only [calls_allocated, h2, Bool.and_eq_true, decide_eq_true_eq] at ha
    exact ih t2 t3 k3 (Reachable.step hr ha.1 h2) ha.2 h3

/-- C5. Well-formed links: in every reachable tree, a node with children has its block of 8
children inside the allocated ids, each of them with that node as parent; distinct nodes
with children have disjoint blocks; every allocated node other than the root lies in the
block of its stored parent and of no other node; and a node on which `split` was never
called has no children. -/
theorem links_invariant [Inhabited V] (t : SparseOctree V MaxSize) (hr : Reachable t) :
    (∀ n, n < t.m_size → t.has_children n →
      (t.m_nodes n).m_children_id + 7 < t.m_size ∧
      ∀ i, i < 8 → t.get_parent_id ((t.m_nodes n).m_children_id + i) = some n) ∧
    (∀ n m, n < t.m_size → m < t.m_size → t.has_children n → t.has_children m → n ≠ m →
      ∀ i j, i < 8 → j < 8 →
        (t.m_nodes n).m_children_id + i ≠ (t.m_nodes m).m_children_id + j) ∧
    (∀ m, 0 < m → m < t.m_size →
      ∃ p, t.get_parent_id m = some p ∧ p < t.m_size ∧ t.has_children p ∧
        (t.m_nodes p).m_children_id ≤ m ∧ m < (t.m_nodes p).m_children_id + 8 ∧
        ∀ n, n < t.m_size → t.has_children n →
          (t.m_nodes n).m_children_id ≤ m → m < (t.m_nodes n).m_children_id + 8 → n = p) ∧
    (∀ calls k, (SparseOctree.new : SparseOctree V MaxSize).split_all calls = some (t, k) →
      ∀ m, m ∉ calls → ¬ t.has_children m) := by
  have wf := hr.wellFormed
  refine ⟨fun n hn hc => ?_, fun n m hn hm hcn hcm hne i j hi hj e => ?_,
    fun m h0 hm => ?_, fun calls k h m hm hc => ?_⟩
  · obtain ⟨h1, h2, h3⟩ := wf.children_block n hn hc
    have hmax := wf.lt_max_of_has_children hn hc
    refine ⟨by omega, fun i hi => ?_⟩
    have h4 : (t.m_nodes n).m_children_id + i < t.m_size := by omega
    have h5 : (t.m_nodes n).m_children_id + i < MaxSize := by omega
    simp only [get_parent_id, node, h4, h5, if_true, Option.map_some', h3 i hi]
  · obtain ⟨-, -, h3⟩ := wf.children_block n hn hcn
    obtain ⟨-, -, h4⟩ := wf.children_block m hm hcm
    have e1 := h3 i hi
    rw [e, h4 j hj] at e1
    exact hne e1.symm
  · obtain ⟨h1, h2, h3, h4⟩ := wf.parent_block m h0 hm
    have hmax : t.m_size ≤ MaxSize := wf.size_le (by omega)
    have h5 : m < MaxSize := by omega
    refine ⟨(t.m_nodes m).m_parent_id, ?_, by omega, h2, h3, h4, fun n hn hc hlo hhi => ?_⟩
    · simp only [get_parent_id, node, hm, h5, if_true, Option.map_some']
    · obtain ⟨-, -, h6⟩ := wf.children_block n hn hc
      have h7 := h6 (m - (t.m_nodes n).m_children_id) (by omega)
      rw [Nat.add_sub_cancel' hlo] at h7
      exact h7.symm
  · have := (split_all_has_children calls _ t k h m hm).mp hc
    exact this rfl

/-! ## Witnesses -/

/-- The tree `split_root64` is reachable. -/
theorem split_root64_reachable : Reachable split_root64 :=
  Reachable.step Reachable.fresh (by decide) (by rfl : fresh64.split 0 = some split_root64)

/-- The hypotheses of C2 hold on a tree of the test suite. -/
theorem split_postcondition_witness :
    ∃ t1, fresh64.split 0 = some t1 ∧ t1.get_size = fresh64.get_size + 8 ∧
      ∀ i, i < 8 →
        t1.get_child_id 0 i = some (fresh64.get_size + i) ∧
        fresh64.get_size + i < t1.get_size ∧
        t1.get_parent_id (fresh64.get_size + i) = some 0 ∧
        ∀ j, j < 8 → t1.get_child_id (fresh64.get_size + i) j = some Null :=
  split_postcondition (by decide) fresh64 Reachable.fresh 0 (by decide) (by decide) (by decide)

/-- The hypotheses of C3 hold on a tree of the test suite. -/
theorem size_invariant_witness :
    (SparseOctree.new : SparseOctree Unit 64).split_all [0, 0, 1] = some (split_seq64.1, 2) ∧
      (split_seq64.1.get_size = 1 + 8 * 2 ∧ split_seq64.1.get_size ≤ 64) :=
  ⟨rfl, (size_invariant (by decide)).2 [0, 0, 1] split_seq64.1 2 rfl⟩

/-- The hypotheses of C4 hold on a tree of the test suite. -/
theorem split_idempotent_witness :
    (split_root64.has_children 0 → split_root64.split 0 = some split_root64) ∧
    ∀ t1, split_root64.split 0 = some t1 → t1.split 0 = some t1 :=
  split_idempotent split_root64 split_root64_reachable 0 (by decide)

/-- The hypotheses of C7 hold on a tree of the test suite. -/
theorem split_frame_witness :
    ∃ t1, split_root64.split 3 = some t1 ∧
      (∀ m, m ≠ 3 → (t1.m_nodes m).m_children_id = (split_root64.m_nodes m).m_children_id) ∧
      (∀ m, m < split_root64.m_size →
        (t1.m_nodes m).m_parent_id = (split_root64.m_nodes m).m_parent_id) ∧
      (∀ m, ¬ (split_root64.m_size ≤ m ∧ m < split_root64.m_size + 8) →
        (t1.m_nodes m).m_parent_id = (split_root64.m_nodes m).m_parent_id) ∧
      (∀ m, (t1.m_nodes m).m_value = (split_root64.m_nodes m).m_value) :=
  split_frame split_root64 3 (by decide) (by decide) (by decide)

/-- The hypotheses of C5 hold on a tree of the test suite. -/
theorem links_invariant_witness :
    Reachable split_root64 ∧
      ((split_root64.m_nodes 0).m_children_id + 7 < split_root64.m_size ∧
        ∀ i, i < 8 →
          split_root64.get_parent_id ((split_root64.m_nodes 0).m_children_id + i) = some 0) :=
  ⟨split_root64_reachable,
    (links_invariant split_root64 split_root64_reachable).1 0 (by decide) (by decide)⟩

/-! ## One descent, one ascent -/

theorem upper_le_one (a : ℚ) : upper a ≤ 1 := by
  unfold upper; split_ifs <;> omega

theorem octant_lt (x : Vector3) : octant x < 8 := by
  have h1 := upper_le_one x.x
  have h2 := upper_le_one x.y
  have h3 := upper_le_one x.z
  unfold octant; omega

/-- The loop of `descend` computes `octant` and the coordinate before the final scaling. -/
theorem descend_fold (x : Vector3) :
    [(0 : Fin 3), 1, 2].foldl
        (fun (r : Nat × Vector3) i =>
          if r.2.get i > 1 / 2 then
            ((r.1 ||| (1 <<< i.val)) % 65536, r.2.set i (r.2.get i - 1 / 2))
          else r)
        (0, x) =
      (octant x, ⟨x.x - (upper x.x : ℚ) / 2, x.y - (upper x.y : ℚ) / 2,
        x.z - (upper x.z : ℚ) / 2⟩) := by
  obtain ⟨a, b, c⟩ := x
  simp only [List.foldl, octant, upper]
  by_cases ha : a > 1 / 2 <;> by_cases hb : b > 1 / 2 <;> by_cases hc : c > 1 / 2 <;>
    simp only [Vector3.get, Vector3.set, ha, hb, hc, if_true, if_false] <;>
    norm_num <;> decide

theorem descend_eq (t : SparseOctree V MaxSize) (hM : MaxSize < 65536) (x : Vector3) (n : Nat)
    (hn : n < MaxSize) (hx : is_saturated x)
    (hc : (t.m_nodes n).m_children_id + 8 ≤ MaxSize) :
    t.descend ⟨x, n⟩ = some ⟨descend_coords x, (t.m_nodes n).m_children_id + octant x⟩ := by
  have ho := octant_lt x
  have h1 : n < MaxSize ∧ (t.m_nodes n).m_children_id < MaxSize := ⟨hn, by omega⟩
  have h2 : ((t.m_nodes n).m_children_id + octant x) % 65536 =
      (t.m_nodes n).m_children_id + octant x := Nat.mod_eq_of_lt (by omega)
  have h3 : octant x < 8 ∧ (t.m_nodes n).m_children_id + octant x < MaxSize :=
    ⟨ho, by omega⟩
  simp only [descend, h1, hx, descend_fold, h2, h3, if_true, and_self, descend_coords]


theorem bit_test (c : Nat) (hc : c < 8) :
    (c &&& (1 <<< 0) ≠ 0 ↔ c % 2 = 1) ∧ (c &&& (1 <<< 1) ≠ 0 ↔ c / 2 % 2 = 1) ∧
    (c &&& (1 <<< 2) ≠ 0 ↔ c / 4 % 2 = 1) := by
  interval_cases c <;> decide

/-- The loop of `ascend` adds the octant bits of the child index. -/
theorem ascend_fold (c : Nat) (hc : c < 8) (y : Vector3) :
    Vector3.smul (1 / 2) ([(0 : Fin 3), 1, 2].foldl
        (fun coords i =>
          if c &&& (1 <<< i.val) ≠ 0 then coords.set i (coords.get i + 1) else coords) y) =
      ascend_coords c y := by
  obtain ⟨a, b, d⟩ := y
  obtain ⟨e0, e1, e2⟩ := bit_test c hc
  have v0 : ((0 : Fin 3) : Nat) = 0 := rfl
  have v1 : ((1 : Fin 3) : Nat) = 1 := rfl
  have v2 : ((2 : Fin 3) : Nat) = 2 := rfl
  simp only [List.foldl, v0, v1, v2, e0, e1, e2, ascend_coords]
  rcases Nat.mod_two_eq_zero_or_one c with h0 | h0 <;>
  rcases Nat.mod_two_eq_zero_or_one (c / 2) with h1 | h1 <;>
  rcases Nat.mod_two_eq_zero_or_one (c / 4) with h2 | h2 <;>
  simp only [h0, h1, h2, Vector3.get, Vector3.set, Vector3.smul, if_true, if_false] <;>
  norm_num <;> refine ⟨?_, ?_, ?_⟩ <;> ring

theorem sub_u32_eq (a b : Nat) (hb : b ≤ a) (ha : a < 2 ^ 32) : sub_u32 a b = a - b := by
  unfold sub_u32
  have h1 : ((a : Int) - (b : Int)) = ((a - b : Nat) : Int) := by omega
  rw [h1, Int.emod_eq_of_lt (by omega) (by omega)]
  rfl

theorem ascend_eq (t : SparseOctree V MaxSize) (hM : MaxSize < 65536) (y : Vector3) (m : Nat)
    (hm : m < MaxSize) (hy : is_saturated y)
    (hp : (t.m_nodes m).m_parent_id < MaxSize)
    (hlo : (t.m_nodes (t.m_nodes m).m_parent_id).m_children_id ≤ m)
    (hhi : m < (t.m_nodes (t.m_nodes m).m_parent_id).m_children_id + 8) :
    t.ascend ⟨y, m⟩ =
      some ⟨ascend_coords (m - (t.m_nodes (t.m_nodes m).m_parent_id).m_children_id) y,
        (t.m_nodes m).m_parent_id⟩ := by
  have h1 : sub_u32 m (t.m_nodes (t.m_nodes m).m_parent_id).m_children_id =
      m - (t.m_nodes (t.m_nodes m).m_parent_id).m_children_id :=
    sub_u32_eq _ _ hlo (by omega)
  have h2 : m - (t.m_nodes (t.m_nodes m).m_parent_id).m_children_id < 8 := by omega
  simp only [ascend, hy, hm, hp, h1, h2, if_true, ascend_fold _ h2]

theorem upper_cases (a : ℚ) : (a ≤ 1 / 2 ∧ upper a = 0) ∨ (1 / 2 < a ∧ upper a = 1) := by
  unfold upper
  by_cases h : a > 1 / 2
  · right; exact ⟨h, if_pos h⟩
  · left; exact ⟨not_lt.mp h, if_neg h⟩

theorem descend_coords_saturated (x : Vector3) (hx : is_saturated x) :
    is_saturated (descend_coords x) := by
  obtain ⟨a, b, c⟩ := x
  obtain ⟨⟨a0, a1⟩, ⟨b0, b1⟩, ⟨c0, c1⟩⟩ := hx
  simp only at a0 a1 b0 b1 c0 c1
  simp only [descend_coords, Vector3.smul, is_saturated]
  rcases upper_cases a with ⟨ha, ea⟩ | ⟨ha, ea⟩ <;>
  rcases upper_cases b with ⟨hb, eb⟩ | ⟨hb, eb⟩ <;>
  rcases upper_cases c with ⟨hc, ec⟩ | ⟨hc, ec⟩ <;>
  simp only [ea, eb, ec, Nat.cast_zero, Nat.cast_one] <;>
  refine ⟨⟨?_, ?_⟩, ⟨?_, ?_⟩, ⟨?_, ?_⟩⟩ <;> linarith

theorem ascend_coords_saturated (c : Nat) (y : Vector3) (hy : is_saturated y) :
    is_saturated (ascend_coords c y) := by
  obtain ⟨a, b, d⟩ := y
  obtain ⟨⟨a0, a1⟩, ⟨b0, b1⟩, ⟨c0, c1⟩⟩ := hy
  simp only at a0 a1 b0 b1 c0 c1
  simp only [ascend_coords, is_saturated]
  rcases Nat.mod_two_eq_zero_or_one c with h0 | h0 <;>
  rcases Nat.mod_two_eq_zero_or_one (c / 2) with h1 | h1 <;>
  rcases Nat.mod_two_eq_zero_or_one (c / 4) with h2 | h2 <;>
  simp only [h0, h1, h2, Nat.cast_zero, Nat.cast_one] <;>
  refine ⟨⟨?_, ?_⟩, ⟨?_, ?_⟩, ⟨?_, ?_⟩⟩ <;> linarith

theorem octant_bits (x : Vector3) :
    octant x % 2 = upper x.x ∧ octant x / 2 % 2 = upper x.y ∧ octant x / 4 % 2 = upper x.z := by
  have h1 := upper_le_one x.x
  have h2 := upper_le_one x.y
  have h3 := upper_le_one x.z
  unfold octant
  omega

/-- The coordinate map of `ascend` undoes the coordinate map of `descend`. -/
theorem ascend_descend_coords (x : Vector3) :
    ascend_coords (octant x) (descend_coords x) = x := by
  obtain ⟨e0, e1, e2⟩ := octant_bits x
  obtain ⟨a, b, c⟩ := x
  simp only [ascend_coords, e0, e1, e2, descend_coords, Vector3.smul]
  congr 1 <;> ring

theorem ascend_some {t : SparseOctree V MaxSize} {loc loc1 : SparseOctreeLocation}
    (h : t.ascend loc = some loc1) :
    is_saturated loc.m_local_coords ∧ loc.m_node_id < MaxSize ∧
    loc1.m_node_id = (t.m_nodes loc.m_node_id).m_parent_id ∧
    loc1.m_node_id < MaxSize ∧
    sub_u32 loc.m_node_id (t.m_nodes loc1.m_node_id).m_children_id < 8 ∧
    loc1.m_local_coords =
      ascend_coords (sub_u32 loc.m_node_id (t.m_nodes loc1.m_node_id).m_children_id)
        loc.m_local_coords := by
  by_cases h1 : is_saturated loc.m_local_coords
  · by_cases h2 : loc.m_node_id < MaxSize
    · by_cases h3 : (t.m_nodes loc.m_node_id).m_parent_id < MaxSize
      · by_cases h4 : sub_u32 loc.m_node_id
            (t.m_nodes (t.m_nodes loc.m_node_id).m_parent_id).m_children_id < 8
        · simp only [ascend, h1, h2, h3, h4, if_true, Option.some.injEq] at h
          subst h
          exact ⟨h1, h2, rfl, h3, h4, ascend_fold _ h4 _⟩
        · simp only [ascend, h1, h2, h3, h4, if_true, if_false] at h
          exact absurd h (by simp)
      · simp only [ascend, h1, h2, h3, if_true, if_false] at h
        exact absurd h (by simp)
    · simp only [ascend, h1, h2, if_true, if_false] at h
      exact absurd h (by simp)
  · simp only [ascend, h1, if_false] at h
    exact absurd h (by simp)

/-! ## Global coordinates -/

theorem WellFormed.ascend_allocated {t : SparseOctree V MaxSize} (wf : WellFormed t)
    (hM : MaxSize < 65536) {m : Nat} (h0 : 0 < m) (hm : m < t.m_size) (y : Vector3)
    (hy : is_saturated y) :
    t.ascend ⟨y, m⟩ =
      some ⟨ascend_coords (m - (t.m_nodes (t.m_nodes m).m_parent_id).m_children_id) y,
        (t.m_nodes m).m_parent_id⟩ := by
  obtain ⟨h1, -, h3, h4⟩ := wf.parent_block m h0 hm
  have hs : t.m_size ≤ MaxSize := wf.size_le (by omega)
  exact SparseOctree.ascend_eq t hM y m (by omega) hy (by omega) h3 h4

theorem WellFormed.descend_allocated {t : SparseOctree V MaxSize} (wf : WellFormed t)
    (hM : MaxSize < 65536) {n : Nat} (hn : n < t.m_size) (hc : t.has_children n) (x : Vector3)
    (hx : is_saturated x) :
    t.descend ⟨x, n⟩ = some ⟨descend_coords x, (t.m_nodes n).m_children_id + octant x⟩ := by
  obtain ⟨h1, h2, -⟩ := wf.children_block n hn hc
  have hs : t.m_size ≤ MaxSize := wf.size_le (by omega)
  exact SparseOctree.descend_eq t hM x n (by omega) hx (by omega)

/-- Ascending from the location reached by one descent gives back the location. -/
theorem WellFormed.ascend_descend {t : SparseOctree V MaxSize} (wf : WellFormed t)
    (hM : MaxSize < 65536) {n : Nat} (hn : n < t.m_size) (hc : t.has_children n) (x : Vector3)
    (hx : is_saturated x) :
    t.ascend ⟨descend_coords x, (t.m_nodes n).m_children_id + octant x⟩ = some ⟨x, n⟩ := by
  obtain ⟨h1, h2, h3⟩ := wf.children_block n hn hc
  have ho := octant_lt x
  have hp := h3 (octant x) ho
  rw [wf.ascend_allocated hM (by omega) (by omega) _ (descend_coords_saturated x hx), hp,
    Nat.add_sub_cancel_left, ascend_descend_coords]

theorem GlobalOf.functional {t : SparseOctree V MaxSize} {loc : SparseOctreeLocation}
    {g g1 : Vector3} (h : GlobalOf t loc g) (h1 : GlobalOf t loc g1) : g = g1 := by
  induction h with
  | root x =>
    cases h1 with
    | root => rfl
    | up hne _ _ => exact absurd rfl hne
  | up hne ha _ ih =>
    cases h1 with
    | root => exact absurd rfl hne
    | up _ ha1 hg1 =>
      rw [ha] at ha1
      cases ha1
      exact ih hg1

theorem GlobalOf.of_ascend {t : SparseOctree V MaxSize} {loc loc1 : SparseOctreeLocation}
    (hne : loc.m_node_id ≠ 0) (ha : t.ascend loc = some loc1) (g : Vector3) :
    GlobalOf t loc g ↔ GlobalOf t loc1 g := by
  constructor
  · intro h
    cases h with
    | root => exact absurd rfl hne
    | up _ ha1 hg1 =>
      rw [ha] at ha1
      cases ha1
      exact hg1
  · exact GlobalOf.up hne ha

/-- One descent does not move the global point. -/
theorem WellFormed.globalOf_descend {t : SparseOctree V MaxSize} (wf : WellFormed t)
    (hM : MaxSize < 65536) {n : Nat} (hn : n < t.m_size) (hc : t.has_children n) (x : Vector3)
    (hx : is_saturated x) (g : Vector3) :
    GlobalOf t ⟨descend_coords x, (t.m_nodes n).m_children_id + octant x⟩ g ↔
      GlobalOf t ⟨x, n⟩ g := by
  obtain ⟨h1, -, -⟩ := wf.children_block n hn hc
  exact GlobalOf.of_ascend (Nat.ne_of_gt (by simp only; omega)) (wf.ascend_descend hM hn hc x hx) g

theorem calculate_coords_loop_sound {t : SparseOctree V MaxSize} (fuel : Nat) :
    ∀ loc r, t.calculate_coords_loop fuel loc = some r →
      r.m_node_id = 0 ∧ GlobalOf t loc r.m_local_coords := by
  induction fuel with
  | zero => intro loc r h; simp [calculate_coords_loop] at h
  | succ fuel ih =>
    intro loc r h
    by_cases hne : loc.m_node_id ≠ 0
    · simp only [calculate_coords_loop, hne, if_true, ne_eq, not_false_eq_true,
        Option.bind_eq_some] at h
      obtain ⟨loc1, h1, h2⟩ := h
      obtain ⟨e1, e2⟩ := ih loc1 r h2
      exact ⟨e1, GlobalOf.up hne h1 e2⟩
    · simp only [calculate_coords_loop, hne, if_false, Option.some.injEq] at h
      subst h
      have h0 : loc.m_node_id = 0 := by simpa using hne
      refine ⟨h0, ?_⟩
      obtain ⟨x, n⟩ := loc
      simp only at h0
      subst h0
      exact GlobalOf.root x

theorem WellFormed.calculate_coords_complete {t : SparseOctree V MaxSize} (wf : WellFormed t)
    {loc : SparseOctreeLocation} {g : Vector3} (h : GlobalOf t loc g) :
    loc.m_node_id < t.m_size → ∀ fuel, loc.m_node_id < fuel →
      t.calculate_coords fuel loc = some g := by
  induction h with
  | root x =>
    intro _ fuel hf
    obtain ⟨f, rfl⟩ : ∃ f, fuel = f + 1 := ⟨fuel - 1, by omega⟩
    simp [calculate_coords, calculate_coords_loop]
  | @up loc loc1 g hne ha _ ih =>
    intro hlt fuel hf
    obtain ⟨f, rfl⟩ : ∃ f, fuel = f + 1 := ⟨fuel - 1, by omega⟩
    obtain ⟨-, -, e, -⟩ := ascend_some ha
    obtain ⟨h1, -⟩ := wf.parent_block loc.m_node_id (Nat.pos_of_ne_zero hne) hlt
    have h2 := ih (by omega) f (by omega)
    simp only [calculate_coords, calculate_coords_loop, hne, ne_eq, not_false_eq_true, if_true,
      ha, Option.some_bind] at h2 ⊢
    exact h2

theorem descend_coords_corner (x : Vector3) (i : Fin 3)
    (h : x.get i = 0 ∨ x.get i = 1) : (descend_coords x).get i = x.get i := by
  obtain ⟨a, b, c⟩ := x
  have key : ∀ q : ℚ, q = 0 ∨ q = 1 → 2 * (q - (upper q : ℚ) / 2) = q := by
    intro q hq
    rcases hq with rfl | rfl
    · have : upper (0 : ℚ) = 0 := by unfold upper; norm_num
      rw [this]; norm_num
    · have : upper (1 : ℚ) = 1 := by unfold upper; norm_num
      rw [this]; norm_num
  fin_cases i <;> exact key _ h

/-- What `descend_till_leaf` returns, when it returns: a leaf below the start node, with
saturated coordinates, the same global point, and corner coordinates untouched. -/
theorem WellFormed.descend_till_leaf_sound {t : SparseOctree V MaxSize} (wf : WellFormed t)
    (hM : MaxSize < 65536) (fuel : Nat) :
    ∀ loc r, loc.m_node_id < t.m_size → is_saturated loc.m_local_coords →
      t.descend_till_leaf fuel loc = some r →
      r.m_node_id < t.m_size ∧ ¬ t.has_children r.m_node_id ∧ is_saturated r.m_local_coords ∧
      loc.m_node_id ≤ r.m_node_id ∧
      (∀ g, GlobalOf t r g ↔ GlobalOf t loc g) ∧
      (∀ i, loc.m_local_coords.get i = 0 ∨ loc.m_local_coords.get i = 1 →
        r.m_local_coords.get i = loc.m_local_coords.get i) := by
  induction fuel with
  | zero => intro loc r _ _ h; simp [descend_till_leaf] at h
  | succ fuel ih =>
    intro loc r hn hx h
    obtain ⟨x, n⟩ := loc
    simp only at hn hx
    by_cases hc : t.has_children n
    · obtain ⟨h1, h2, -⟩ := wf.children_block n hn hc
      have hs : t.m_size ≤ MaxSize := wf.size_le (by omega)
      have hc2 := hc
      unfold has_children at hc2
      have hlt : n < MaxSize := by omega
      simp only [descend_till_leaf, node, hlt, if_true, Option.some_bind, hc2, ne_eq,
        not_false_eq_true, wf.descend_allocated hM hn hc x hx] at h
      have ho := octant_lt x
      obtain ⟨r1, r2, r3, r4, r5, r6⟩ :=
        ih _ r (by simp only; omega) (descend_coords_saturated x hx) h
      simp only at r4 r5 r6
      refine ⟨r1, r2, r3, by simp only; omega, fun g => ?_, fun i hi => ?_⟩
      · rw [r5, wf.globalOf_descend hM hn hc x hx]
      · simp only at hi
        have e := descend_coords_corner x i hi
        rw [r6 i (by rw [e]; exact hi), e]
    · have hc2 := hc
      unfold has_children at hc2
      by_cases hlt : n < MaxSize
      · simp only [descend_till_leaf, node, hlt, if_true, Option.some_bind, hc2, if_false,
          Option.some.injEq] at h
        subst h
        exact ⟨hn, hc, hx, le_refl _, fun g => Iff.rfl, fun i _ => rfl⟩
      · simp [descend_till_leaf, node, hlt] at h

/-- With fuel for every id between the start node and the size, `descend_till_leaf` returns. -/
theorem WellFormed.descend_till_leaf_total {t : SparseOctree V MaxSize} (wf : WellFormed t)
    (hM : ValidCapacity MaxSize) (fuel : Nat) :
    ∀ loc, loc.m_node_id < t.m_size → is_saturated loc.m_local_coords →
      t.m_size ≤ fuel + loc.m_node_id → ∃ r, t.descend_till_leaf fuel loc = some r := by
  induction fuel with
  | zero => intro loc hn _ hf; omega
  | succ fuel ih =>
    intro loc hn hx hf
    obtain ⟨x, n⟩ := loc
    simp only at hn hx hf
    have hs : t.m_size ≤ MaxSize := wf.size_le_max hM.1
    have hlt : n < MaxSize := by omega
    by_cases hc : t.has_children n
    · obtain ⟨h1, h2, -⟩ := wf.children_block n hn hc
      have hc2 := hc
      unfold has_children at hc2
      have ho := octant_lt x
      simp only [descend_till_leaf, node, hlt, if_true, Option.some_bind, hc2, ne_eq,
        not_false_eq_true, wf.descend_allocated hM.2 hn hc x hx]
      exact ih _ (by simp only; omega) (descend_coords_saturated x hx) (by simp only; omega)
    · have hc2 := hc
      unfold has_children at hc2
      simp only [not_not] at hc2
      exact ⟨⟨x, n⟩, by simp [descend_till_leaf, node, hlt, hc2]⟩

/-! ## Point location -/

theorem WellFormed.size_pos {t : SparseOctree V MaxSize} (wf : WellFormed t) :
    0 < t.m_size := by
  have := wf.size_mod
  omega

/-- C1. Round trip: on a reachable tree, for a point `p` of the unit cube,
`calculate_location` returns a location (given fuel for the depth of the tree) and
`calculate_coords` maps that location back to exactly `p`. -/
theorem round_trip [Inhabited V] (hM : ValidCapacity MaxSize) (t : SparseOctree V MaxSize)
    (hr : Reachable t) (p : Vector3) (hp : is_saturated p) (fuel fuel1 : Nat)
    (hf : t.m_size ≤ fuel) (hf1 : t.m_size ≤ fuel1) :
    (t.calculate_location fuel p).bind (t.calculate_coords fuel1) = some p := by
  have wf := hr.wellFormed
  obtain ⟨r, h⟩ := wf.descend_till_leaf_total hM fuel ⟨p, 0⟩ wf.size_pos hp (by simp only; omega)
  obtain ⟨r1, -, -, -, r5, -⟩ := wf.descend_till_leaf_sound hM.2 fuel _ r wf.size_pos hp h
  have hg : GlobalOf t r p := (r5 p).mpr (GlobalOf.root p)
  unfold calculate_location
  rw [h, Option.some_bind]
  exact wf.calculate_coords_complete hg r1 fuel1 (by omega)

/-- C8. Point location returns a leaf: on a reachable tree, for a point `p` of the unit cube,
`calculate_location` returns (given fuel for the depth of the tree) a location whose node is
allocated and has no children and whose local coordinates lie in the unit cube; on a fresh
tree it returns the root with local coordinates `p`. -/
theorem calculate_location_leaf [Inhabited V] (hM : ValidCapacity MaxSize)
    (t : SparseOctree V MaxSize) (hr : Reachable t) (p : Vector3) (hp : is_saturated p)
    (fuel : Nat) (hf : t.m_size ≤ fuel) :
    (∃ loc, t.calculate_location fuel p = some loc ∧ loc.m_node_id < t.get_size ∧
      ¬ t.has_children loc.m_node_id ∧
      (∀ c, c < 8 → t.get_child_id loc.m_node_id c = some Null) ∧
      is_saturated loc.m_local_coords) ∧
    (∀ fuel1, 0 < fuel1 →
      (SparseOctree.new : SparseOctree V MaxSize).calculate_location fuel1 p =
        some ⟨p, (SparseOctree.new : SparseOctree V MaxSize).get_root_id⟩) := by
  have wf := hr.wellFormed
  constructor
  · obtain ⟨r, h⟩ :=
      wf.descend_till_leaf_total hM fuel ⟨p, 0⟩ wf.size_pos hp (by simp only; omega)
    obtain ⟨r1, r2, r3, -⟩ := wf.descend_till_leaf_sound hM.2 fuel _ r wf.size_pos hp h
    refine ⟨r, h, r1, r2, fun c hc => ?_, r3⟩
    have hs := wf.size_le_max hM.1
    have hlt : r.m_node_id < MaxSize := by omega
    unfold has_children at r2
    simp only [not_not] at r2
    simp only [get_child_id, node, r1, hc, hlt, if_true, Option.map_some', r2]
  · intro fuel1 h1
    obtain ⟨f, rfl⟩ : ∃ f, fuel1 = f + 1 := ⟨fuel1 - 1, by omega⟩
    have h0 : 0 < MaxSize := hM.1
    simp only [calculate_location, descend_till_leaf, node, h0, if_true, Option.some_bind,
      SparseOctree.new, Node.new, ne_eq, not_true_eq_false, if_false, get_root_id]

/-- The hypotheses of C1 hold on a tree of the test suite. -/
theorem round_trip_witness :
    ValidCapacity 64 ∧ Reachable split_root64 ∧ is_saturated ⟨7 / 10, 9 / 10, 1 / 10⟩ ∧
      (split_root64.calculate_location 9 ⟨7 / 10, 9 / 10, 1 / 10⟩).bind
        (split_root64.calculate_coords 9) = some ⟨7 / 10, 9 / 10, 1 / 10⟩ :=
  ⟨by decide, split_root64_reachable, by norm_num [is_saturated],
    round_trip (by decide) split_root64 split_root64_reachable ⟨7 / 10, 9 / 10, 1 / 10⟩
      (by norm_num [is_saturated]) 9 9 (by decide) (by decide)⟩

/-- The hypotheses of C8 hold on a tree of the test suite. -/
theorem calculate_location_leaf_witness :
    ValidCapacity 64 ∧ Reachable split_root64 ∧ is_saturated ⟨7 / 10, 9 / 10, 1 / 10⟩ ∧
      ∃ loc, split_root64.calculate_location 9 ⟨7 / 10, 9 / 10, 1 / 10⟩ = some loc ∧
        loc.m_node_id < split_root64.get_size ∧ ¬ split_root64.has_children loc.m_node_id ∧
        (∀ c, c < 8 → split_root64.get_child_id loc.m_node_id c = some Null) ∧
        is_saturated loc.m_local_coords :=
  ⟨by decide, split_root64_reachable, by norm_num [is_saturated],
    (calculate_location_leaf (by decide) split_root64 split_root64_reachable
      ⟨7 / 10, 9 / 10, 1 / 10⟩ (by norm_num [is_saturated]) 9 (by decide)).1⟩

/-! ## The sentinel -/

set_option maxRecDepth 100000 in
/-- The tree `sentinel_tree` is reachable. -/
theorem sentinel_tree_reachable : Reachable sentinel_tree.1 :=
  reachable_split_all (List.range 32 ++ [255]) SparseOctree.new sentinel_tree.1 sentinel_tree.2
    Reachable.fresh (by decide) (by rfl)

set_option maxRecDepth 100000 in
/-- C6. The sentinel `Null = 0xFF` collides with the real node id 255 once the capacity
exceeds 255: in the reachable tree `sentinel_tree` of capacity 265, node 31 has children
(the ids 249, ..., 256) and yet `get_child_id 31 6` is `Null`, and node 257 is not the root
(its parent is node 255) and yet `get_parent_id 257` is `Null`. -/
theorem sentinel_collision :
    Reachable sentinel_tree.1 ∧ ValidCapacity 265 ∧
    (31 < sentinel_tree.1.get_size ∧ sentinel_tree.1.has_children 31 ∧
      sentinel_tree.1.get_child_id 31 6 = some Null) ∧
    (257 < sentinel_tree.1.get_size ∧ 257 ≠ sentinel_tree.1.get_root_id ∧
      sentinel_tree.1.get_parent_id 257 = some Null) := by
  refine ⟨sentinel_tree_reachable, by decide, ⟨by decide, by decide, by decide⟩,
    ⟨by decide, by decide, by decide⟩⟩

/-- With a capacity of at most 255 no allocated id equals the sentinel: on a reachable tree,
`get_child_id n c` is `Null` exactly when `n` has no children, and `get_parent_id n` is
`Null` exactly when `n` is the root. -/
theorem sentinel_sound_of_small_capacity [Inhabited V] (h0 : 0 < MaxSize)
    (hM : MaxSize ≤ 255) (t : SparseOctree V MaxSize) (hr : Reachable t) (n : Nat)
    (hn : n < t.m_size) :
    (∀ c, c < 8 → (t.get_child_id n c = some Null ↔ ¬ t.has_children n)) ∧
    (t.get_parent_id n = some Null ↔ n = t.get_root_id) := by
  have wf := hr.wellFormed
  have hs := wf.size_le_max h0
  have hlt : n < MaxSize := by omega
  constructor
  · intro c hc
    simp only [get_child_id, node, hn, hc, hlt, if_true, Option.map_some', Option.some.injEq]
    by_cases hch : t.has_children n
    · obtain ⟨-, h2, -⟩ := wf.children_block n hn hch
      have hch2 := hch
      unfold has_children at hch2
      rw [if_neg hch2, Nat.mod_eq_of_lt (by omega)]
      simp only [hch, not_true_eq_false, iff_false]
      unfold Null
      omega
    · have hch2 := hch
      unfold has_children at hch2
      simp only [not_not] at hch2
      simp only [hch2, if_true, hch, not_false_eq_true]
  · simp only [get_parent_id, node, hn, hlt, if_true, Option.map_some', Option.some.injEq,
      get_root_id]
    constructor
    · intro h
      by_contra hne
      obtain ⟨h1, -⟩ := wf.parent_block n (Nat.pos_of_ne_zero hne) hn
      rw [h] at h1
      unfold Null at h1
      omega
    · intro h
      rw [h]
      exact wf.root_parent

/-! ## Octant selection -/

/-- Point location in a tree whose root is split and whose root children are leaves. -/
theorem calculate_location_split_once [Inhabited V] (hM : MaxSize < 65536)
    (t : SparseOctree V MaxSize)
    (hs : (SparseOctree.new : SparseOctree V MaxSize).split 0 = some t) (p : Vector3)
    (hp : is_saturated p) (fuel : Nat) (hf : 2 ≤ fuel) :
    t.calculate_location fuel p = some ⟨descend_coords p, 1 + octant p⟩ ∧
    t.m_size = 9 ∧ 9 ≤ MaxSize ∧ (t.m_nodes 0).m_children_id = 1 := by
  have wf : WellFormed t := (Reachable.step Reachable.fresh Nat.one_pos hs).wellFormed
  obtain ⟨h0, ⟨hc, -⟩ | ⟨-, hcap, hsz, hcid, -, -⟩⟩ := split_cases _ t 0 hs
  · exact absurd rfl hc
  · have hsz9 : t.m_size = 9 := hsz
    have hc0 : (t.m_nodes 0).m_children_id = 1 := by rw [hcid, if_pos rfl]; rfl
    have hch : t.has_children 0 := by unfold has_children; rw [hc0]; decide
    have ho := octant_lt p
    have hleaf : (t.m_nodes (1 + octant p)).m_children_id = Null := by
      rw [hcid, if_neg (by omega)]; rfl
    have hcap9 : 9 ≤ MaxSize := hcap
    have hlt : 1 + octant p < MaxSize := by omega
    obtain ⟨f, rfl⟩ : ∃ f, fuel = f + 2 := ⟨fuel - 2, by omega⟩
    refine ⟨?_, hsz9, hcap9, hc0⟩
    have hd := wf.descend_allocated hM (by omega : 0 < t.m_size) hch p hp
    rw [hc0] at hd
    simp only [calculate_location, descend_till_leaf, node, h0, if_true, Option.some_bind, hc0,
      hd, hlt, hleaf]
    simp [Null]

theorem testBit_octant (x : Vector3) (i : Fin 3) :
    (octant x).testBit i.val = upper_half_gt (x.get i) := by
  obtain ⟨a, b, c⟩ := x
  unfold upper_half_gt
  fin_cases i <;>
  rcases upper_cases a with ⟨ha, ea⟩ | ⟨ha, ea⟩ <;>
  rcases upper_cases b with ⟨hb, eb⟩ | ⟨hb, eb⟩ <;>
  rcases upper_cases c with ⟨hc, ec⟩ | ⟨hc, ec⟩ <;>
  simp [octant, ea, eb, ec, Vector3.get, Nat.testBit] <;> linarith

theorem descend_coords_get (x : Vector3) (i : Fin 3) :
    (descend_coords x).get i = 2 * x.get i - (if upper_half_gt (x.get i) then 1 else 0) := by
  obtain ⟨a, b, c⟩ := x
  have key : ∀ q : ℚ, 2 * (q - (upper q : ℚ) / 2) =
      2 * q - (if upper_half_gt q then 1 else 0) := by
    intro q
    unfold upper_half_gt
    rcases upper_cases q with ⟨hq, eq⟩ | ⟨hq, eq⟩
    · have : ¬ q > 1 / 2 := not_lt.mpr hq
      simp only [eq, this, decide_False, Bool.false_eq_true, if_false]
      push_cast
      ring
    · have : q > 1 / 2 := hq
      simp only [eq, this, decide_True, if_true]
      push_cast
      ring
  fin_cases i <;> exact key _

/-- C9 (amended). Octant selection: with the root split exactly once, for every point `p` of
the unit cube, `calculate_location p` returns the root's child `get_child_id root b` where
bit `i` of `b` is 1 exactly when `p i > 1/2` (and 0 when `p i ≤ 1/2`), with local
coordinates `2 * p i - (bit i of b)`. -/
theorem octant_selection_gt [Inhabited V] (hM : MaxSize < 65536) (t : SparseOctree V MaxSize)
    (hs : (SparseOctree.new : SparseOctree V MaxSize).split 0 = some t) (p : Vector3)
    (hp : is_saturated p) (fuel : Nat) (hf : 2 ≤ fuel) :
    octant_selection upper_half_gt t fuel p := by
  obtain ⟨h1, h2, h3, h4⟩ := calculate_location_split_once hM t hs p hp fuel hf
  have ho := octant_lt p
  refine ⟨_, octant p, h1, ho, ?_, testBit_octant p, descend_coords_get p⟩
  have h5 : 0 < t.m_size := by omega
  have h6 : 0 < MaxSize := by omega
  simp only [get_child_id, get_root_id, node, h5, ho, h6, if_true, Option.map_some', h4]
  rw [if_neg (by decide), Nat.mod_eq_of_lt (by omega)]

/-- The hypotheses of C9 hold on a tree of the test suite. -/
theorem octant_selection_gt_witness :
    fresh64.split 0 = some split_root64 ∧ is_saturated ⟨7 / 10, 9 / 10, 1 / 10⟩ ∧
      octant_selection upper_half_gt split_root64 2 ⟨7 / 10, 9 / 10, 1 / 10⟩ :=
  ⟨rfl, by norm_num [is_saturated],
    octant_selection_gt (by decide) split_root64 rfl ⟨7 / 10, 9 / 10, 1 / 10⟩
      (by norm_num [is_saturated]) 2 (by decide)⟩

/-- C9 as stated fails on the boundary: with the root split once, the point
`(1/2, 1/2, 1/2)` is not located in the child whose bits are set where `p i ≥ 1/2` with local
coordinates `2 * p i - 1 = 0`; the source compares with `>` and returns child 0 with local
coordinates `(1, 1, 1)`. -/
theorem octant_selection_ge_counterexample :
    fresh64.split 0 = some split_root64 ∧ is_saturated ⟨1 / 2, 1 / 2, 1 / 2⟩ ∧
    split_root64.calculate_location 2 ⟨1 / 2, 1 / 2, 1 / 2⟩ = some ⟨⟨1, 1, 1⟩, 1⟩ ∧
    split_root64.get_child_id split_root64.get_root_id 0 = some 1 ∧
    ¬ octant_selection upper_half_ge split_root64 2 ⟨1 / 2, 1 / 2, 1 / 2⟩ := by
  have h := (calculate_location_split_once (by decide) split_root64 rfl ⟨1 / 2, 1 / 2, 1 / 2⟩
    (by norm_num [is_saturated]) 2 (by decide)).1
  have e : descend_coords ⟨1 / 2, 1 / 2, 1 / 2⟩ = ⟨1, 1, 1⟩ := by
    norm_num [descend_coords, upper, Vector3.smul]
  have e1 : 1 + octant ⟨1 / 2, 1 / 2, 1 / 2⟩ = 1 := by
    norm_num [octant, upper]
  rw [e, e1] at h
  refine ⟨rfl, by norm_num [is_saturated], h, by decide, ?_⟩
  rintro ⟨loc, b, h1, -, -, -, h5⟩
  rw [h] at h1
  cases h1
  have h6 := h5 0
  norm_num [upper_half_ge, Vector3.get] at h6

/-! ## Components and the affine form of the global coordinates -/

theorem Vector3.ext_get {a b : Vector3} (h : ∀ i : Fin 3, a.get i = b.get i) : a = b := by
  obtain ⟨a1, a2, a3⟩ := a
  obtain ⟨b1, b2, b3⟩ := b
  have h0 := h 0
  have h1 := h 1
  have h2 := h 2
  simp only [Vector3.get] at h0 h1 h2
  rw [h0, h1, h2]

theorem Vector3.get_add (a b : Vector3) (i : Fin 3) :
    (Vector3.add a b).get i = a.get i + b.get i := by
  fin_cases i <;> rfl

theorem Vector3.get_sub (a b : Vector3) (i : Fin 3) :
    (Vector3.sub a b).get i = a.get i - b.get i := by
  fin_cases i <;> rfl

theorem Vector3.get_div (a b : Vector3) (i : Fin 3) :
    (Vector3.div a b).get i = a.get i / b.get i := by
  fin_cases i <;> rfl

theorem Vector3.get_smul (c : ℚ) (a : Vector3) (i : Fin 3) :
    (Vector3.smul c a).get i = c * a.get i := by
  fin_cases i <;> rfl

theorem Vector3.get_set (a : Vector3) (i j : Fin 3) (q : ℚ) :
    (a.set i q).get j = if j = i then q else a.get j := by
  fin_cases i <;> fin_cases j <;> simp [Vector3.get, Vector3.set]

theorem is_saturated_iff (v : Vector3) :
    is_saturated v ↔ ∀ i : Fin 3, 0 ≤ v.get i ∧ v.get i ≤ 1 := by
  constructor
  · rintro ⟨h0, h1, h2⟩ i
    fin_cases i
    · exact h0
    · exact h1
    · exact h2
  · intro h
    exact ⟨h 0, h 1, h 2⟩

theorem min_index_le (v : Vector3) (i : Fin 3) : v.get (min_index v) ≤ v.get i := by
  obtain ⟨a, b, c⟩ := v
  unfold min_index
  simp only [Vector3.get]
  by_cases h1 : b < a
  · by_cases h2 : c < b
    · simp only [h1, h2, if_true]
      fin_cases i <;> simp only [Vector3.get] <;> linarith
    · simp only [h1, h2, if_true, if_false]
      fin_cases i <;> simp only [Vector3.get] <;> linarith
  · by_cases h2 : c < a
    · simp only [h1, h2, if_true, if_false]
      fin_cases i <;> simp only [Vector3.get] <;> linarith
    · simp only [h1, h2, if_false]
      fin_cases i <;> simp only [Vector3.get] <;> linarith

theorem ascend_coords_get (c : Nat) (y : Vector3) (i : Fin 3) :
    (ascend_coords c y).get i = (y.get i + ((c / 2 ^ i.val % 2 : Nat) : ℚ)) / 2 := by
  fin_cases i <;> simp [ascend_coords, Vector3.get]

/-- The global coordinates are an affine function of the local coordinates of a node, with
a positive scale. -/
theorem WellFormed.cube_affine {t : SparseOctree V MaxSize} (wf : WellFormed t)
    (hM : MaxSize < 65536) (n : Nat) :
    n < t.m_size → ∃ (o : Vector3) (s : ℚ), 0 < s ∧
      ∀ x, is_saturated x → GlobalOf t ⟨x, n⟩ (Vector3.add o (Vector3.smul s x)) := by
  induction n using Nat.strong_induction_on with
  | _ n ih =>
    intro hn
    rcases Nat.eq_zero_or_pos n with rfl | h0
    · refine ⟨⟨0, 0, 0⟩, 1, one_pos, fun x _ => ?_⟩
      have e : Vector3.add ⟨0, 0, 0⟩ (Vector3.smul 1 x) = x := by
        obtain ⟨a, b, c⟩ := x
        simp [Vector3.add, Vector3.smul]
      rw [e]
      exact GlobalOf.root x
    · obtain ⟨h1, -, -, -⟩ := wf.parent_block n h0 hn
      obtain ⟨o, s, hs, hg⟩ := ih _ h1 (by omega)
      refine ⟨Vector3.add o (Vector3.smul s
        (ascend_coords (n - (t.m_nodes (t.m_nodes n).m_parent_id).m_children_id) ⟨0, 0, 0⟩)),
        s / 2, by positivity, fun x hx => ?_⟩
      have ha := wf.ascend_allocated hM h0 hn x hx
      have hg1 := hg (ascend_coords (n - (t.m_nodes (t.m_nodes n).m_parent_id).m_children_id) x)
        (ascend_coords_saturated _ x hx)
      have e : Vector3.add o (Vector3.smul s
          (ascend_coords (n - (t.m_nodes (t.m_nodes n).m_parent_id).m_children_id) x)) =
          Vector3.add (Vector3.add o (Vector3.smul s
            (ascend_coords (n - (t.m_nodes (t.m_nodes n).m_parent_id).m_children_id)
              ⟨0, 0, 0⟩)))
            (Vector3.smul (s / 2) x) := by
        apply Vector3.ext_get
        intro i
        have h00 : (⟨0, 0, 0⟩ : Vector3).get i = 0 := by fin_cases i <;> rfl
        simp only [Vector3.get_add, Vector3.get_smul, ascend_coords_get, h00]
        ring
      rw [e] at hg1
      exact GlobalOf.up (Nat.ne_of_gt h0) ha hg1

/-! ## Ray marching, one crossing at a time -/

/-- The loop of `find_next_intersection`, one crossing at a time. -/
theorem find_next_intersection_exact_succ (t : SparseOctree V MaxSize) (inner : Nat)
    (direction direction_signs : Vector3) (aliased : Bool) (fuel : Nat)
    (prev : SparseOctreeLocation) :
    t.find_next_intersection_exact inner direction direction_signs aliased (fuel + 1) prev =
      (t.crossing_exact inner direction direction_signs prev).bind fun r =>
        if r.1 then some (true, r.2)
        else if advance_exact direction direction_signs prev ≥ 1 / 1000000 then some (false, r.2)
        else t.find_next_intersection_exact inner direction direction_signs aliased fuel
          (if aliased then r.2 else prev) := by
  simp only [find_next_intersection_exact, crossing_exact, exit_face_exact, exit_side_exact, exit_location_exact, advance_exact,
    exit_distances_exact]
  cases h1 : t.ascend_till_has_neighbor_exact
      (min_index ((direction_signs.sub prev.m_local_coords).div direction))
      (decide (direction_signs.get
        (min_index ((direction_signs.sub prev.m_local_coords).div direction)) > 1 / 2)) inner
      { m_local_coords := prev.m_local_coords.add (Vector3.smul
          (((direction_signs.sub prev.m_local_coords).div direction).get
            (min_index ((direction_signs.sub prev.m_local_coords).div direction))) direction),
        m_node_id := prev.m_node_id } with
  | none => rfl
  | some r1 =>
    simp only [Option.some_bind]
    by_cases h0 : r1.m_node_id = 0
    · simp only [h0, if_true, Option.some_bind]
    · simp only [h0, if_false]
      cases h2 : t.get_neighbor r1
          (min_index ((direction_signs.sub prev.m_local_coords).div direction))
          (decide (direction_signs.get
            (min_index ((direction_signs.sub prev.m_local_coords).div direction)) > 1 / 2)) with
      | none => rfl
      | some nb =>
        simp only [Option.some_bind]
        cases h3 : t.descend_till_leaf inner
            { m_local_coords := r1.m_local_coords.set
                (min_index ((direction_signs.sub prev.m_local_coords).div direction))
                (1 - direction_signs.get
                  (min_index ((direction_signs.sub prev.m_local_coords).div direction))),
              m_node_id := nb % 65536 } with
        | none => rfl
        | some r3 => simp

theorem advance_exact_le (direction direction_signs : Vector3) (prev : SparseOctreeLocation)
    (i : Fin 3) :
    advance_exact direction direction_signs prev ≤
      (direction_signs.get i - prev.m_local_coords.get i) / direction.get i := by
  have h := min_index_le (exit_distances_exact direction direction_signs prev) i
  simp only [exit_distances_exact, Vector3.get_div, Vector3.get_sub] at h
  simpa only [advance_exact, exit_face_exact, exit_distances_exact, Vector3.get_div, Vector3.get_sub] using h

theorem advance_exact_nonneg {direction direction_signs : Vector3} (prev : SparseOctreeLocation)
    (hd : consistent_signs direction direction_signs)
    (hx : is_saturated prev.m_local_coords) :
    0 ≤ advance_exact direction direction_signs prev := by
  have hx1 := (is_saturated_iff _).mp hx (exit_face_exact direction direction_signs prev)
  simp only [advance_exact, exit_distances_exact, Vector3.get_div, Vector3.get_sub]
  rcases hd (exit_face_exact direction direction_signs prev) with ⟨h1, h2⟩ | ⟨h1, h2⟩
  · rw [h2]
    exact div_nonneg (by linarith) (le_of_lt h1)
  · rw [h2]
    exact div_nonneg_of_nonpos (by linarith) (le_of_lt h1)

/-- The point advanced to the exit face stays in the cube of the node. -/
theorem exit_location_exact_saturated {direction direction_signs : Vector3}
    (prev : SparseOctreeLocation) (hd : consistent_signs direction direction_signs)
    (hx : is_saturated prev.m_local_coords) :
    is_saturated (exit_location_exact direction direction_signs prev).m_local_coords := by
  rw [is_saturated_iff]
  intro i
  have hx1 := (is_saturated_iff _).mp hx i
  have h0 := advance_exact_nonneg prev hd hx
  have h1 := advance_exact_le direction direction_signs prev i
  simp only [exit_location_exact, Vector3.get_add, Vector3.get_smul]
  rcases hd i with ⟨d1, d2⟩ | ⟨d1, d2⟩
  · rw [d2, le_div_iff₀ d1] at h1
    have := mul_nonneg h0 (le_of_lt d1)
    constructor <;> linarith
  · rw [d2, le_div_iff_of_neg d1] at h1
    have := mul_nonpos_of_nonneg_of_nonpos h0 (le_of_lt d1)
    constructor <;> linarith

/-- The point advanced to the exit face lies on that face. -/
theorem exit_location_exact_face {direction direction_signs : Vector3}
    (prev : SparseOctreeLocation) (hd : consistent_signs direction direction_signs) :
    (exit_location_exact direction direction_signs prev).m_local_coords.get
        (exit_face_exact direction direction_signs prev) =
      direction_signs.get (exit_face_exact direction direction_signs prev) := by
  have hne : direction.get (exit_face_exact direction direction_signs prev) ≠ 0 := by
    rcases hd (exit_face_exact direction direction_signs prev) with ⟨d1, -⟩ | ⟨d1, -⟩
    · exact ne_of_gt d1
    · exact ne_of_lt d1
  simp only [exit_location_exact, advance_exact, exit_distances_exact, Vector3.get_add, Vector3.get_smul,
    Vector3.get_div, Vector3.get_sub]
  field_simp

theorem bit_test_fin (c : Nat) (hc : c < 8) (face : Fin 3) :
    (c &&& (1 <<< face.val) ≠ 0 ↔ c / 2 ^ face.val % 2 = 1) ∧
    (c ^^^ (1 <<< face.val)) % 2 ^ 32 < 8 ∧
    ((c ^^^ (1 <<< face.val)) % 2 ^ 32) / 2 ^ face.val % 2 = 1 - c / 2 ^ face.val % 2 ∧
    ∀ i : Fin 3, i ≠ face →
      ((c ^^^ (1 <<< face.val)) % 2 ^ 32) / 2 ^ i.val % 2 = c / 2 ^ i.val % 2 := by
  interval_cases c <;> fin_cases face <;> decide

theorem WellFormed.has_neighbor_eq {t : SparseOctree V MaxSize} (wf : WellFormed t)
    (hM : MaxSize < 65536) {m : Nat} (h0 : 0 < m) (hm : m < t.m_size) (y : Vector3) (face : Fin 3) (side : Bool) :
    t.has_neighbor ⟨y, m⟩ face side =
      some (decide ((m - (t.m_nodes (t.m_nodes m).m_parent_id).m_children_id)
        / 2 ^ face.val % 2 = 1) != side) := by
  obtain ⟨h1, -, h3, h4⟩ := wf.parent_block m h0 hm
  have hs : t.m_size ≤ MaxSize := wf.size_le (by omega)
  have hne : m ≠ 0 := Nat.ne_of_gt h0
  have hlt : m < MaxSize := by omega
  have hp : (t.m_nodes m).m_parent_id < MaxSize := by omega
  have hsub := sub_u32_eq m _ h3 (by omega)
  have hb := (bit_test_fin (m - (t.m_nodes (t.m_nodes m).m_parent_id).m_children_id)
    (by omega) face).1
  simp only [has_neighbor, hne, if_false, node, hlt, if_true, Option.some_bind, hp, hsub,
    hb]

/-- The octant bit of a node on the exit axis, compared with the exit side. -/
theorem side_bit (sgn : ℚ) (hsgn : sgn = 0 ∨ sgn = 1) (k : Nat) (hk : k % 2 = 0 ∨ k % 2 = 1) :
    ((decide (k % 2 = 1) != decide (sgn > 1 / 2)) = false → ((k % 2 : Nat) : ℚ) = sgn) ∧
    ((decide (k % 2 = 1) != decide (sgn > 1 / 2)) = true → ((k % 2 : Nat) : ℚ) = 1 - sgn) := by
  rcases hsgn with rfl | rfl <;> rcases hk with h | h <;> simp [h] <;> norm_num

/-- What `ascend_till_has_neighbor` returns, when it returns, from a point on the exit
face: an allocated node with the point still on the exit face, the same global point, and,
unless the root was reached, a neighbor across the exit face. -/
theorem WellFormed.ascend_till_has_neighbor_exact_sound {t : SparseOctree V MaxSize}
    (wf : WellFormed t) (hM : MaxSize < 65536) (face : Fin 3) (sgn : ℚ)
    (hsgn : sgn = 0 ∨ sgn = 1) (fuel : Nat) :
    ∀ loc r, loc.m_node_id < t.m_size → is_saturated loc.m_local_coords →
      loc.m_local_coords.get face = sgn →
      t.ascend_till_has_neighbor_exact face (decide (sgn > 1 / 2)) fuel loc = some r →
      r.m_node_id < t.m_size ∧ is_saturated r.m_local_coords ∧
      r.m_local_coords.get face = sgn ∧
      (∀ g, GlobalOf t r g ↔ GlobalOf t loc g) ∧
      (r.m_node_id ≠ 0 → t.has_neighbor r face (decide (sgn > 1 / 2)) = some true) := by
  induction fuel with
  | zero => intro loc r _ _ _ h; simp [ascend_till_has_neighbor_exact] at h
  | succ fuel ih =>
    intro loc r hn hx hf h
    obtain ⟨y, m⟩ := loc
    simp only at hn hx hf
    by_cases hm : m = 0
    · simp only [ascend_till_has_neighbor_exact, hm, ne_eq, not_true_eq_false, if_false,
        Option.some.injEq] at h
      subst h
      subst hm
      exact ⟨hn, hx, hf, fun g => Iff.rfl, fun h => absurd rfl h⟩
    · have h0 : 0 < m := Nat.pos_of_ne_zero hm
      have hnb := wf.has_neighbor_eq hM h0 hn y face (decide (sgn > 1 / 2))
      obtain ⟨h1, -, -, -⟩ := wf.parent_block m h0 hn
      simp only [ascend_till_has_neighbor_exact, hm, ne_eq, not_false_eq_true, if_true, hnb,
        Option.some_bind] at h
      have hk := Nat.mod_two_eq_zero_or_one
        ((m - (t.m_nodes (t.m_nodes m).m_parent_id).m_children_id) / 2 ^ face.val)
      obtain ⟨s1, -⟩ := side_bit sgn hsgn _ hk
      cases hb : (decide ((m - (t.m_nodes (t.m_nodes m).m_parent_id).m_children_id)
          / 2 ^ face.val % 2 = 1) != decide (sgn > 1 / 2)) with
      | false =>
        rw [hb] at h
        have ha := wf.ascend_allocated hM h0 hn y hx
        simp only [Bool.not_false, if_true, ha, Option.some_bind] at h
        have hf1 : (ascend_coords (m - (t.m_nodes (t.m_nodes m).m_parent_id).m_children_id)
            y).get face = sgn := by
          rw [ascend_coords_get, hf, s1 hb]
          ring
        obtain ⟨r1, r2, r3, r4, r5⟩ :=
          ih _ r (by simp only; omega) (ascend_coords_saturated _ y hx) hf1 h
        exact ⟨r1, r2, r3, fun g => (r4 g).trans (GlobalOf.of_ascend hm ha g).symm, r5⟩
      | true =>
        rw [hb] at h
        simp only [Bool.not_true, Bool.false_eq_true, if_false, Option.some.injEq] at h
        subst h
        refine ⟨hn, hx, hf, fun g => Iff.rfl, fun _ => ?_⟩
        rw [hnb, hb]

/-- The neighbor across the exit face: `get_neighbor` returns the sibling with the bit of
the exit axis flipped, an allocated node other than the root, and entering it through the
opposite face does not move the global point. -/
theorem WellFormed.get_neighbor_sound {t : SparseOctree V MaxSize} (wf : WellFormed t)
    (hM : MaxSize < 65536) (face : Fin 3) (sgn : ℚ) (hsgn : sgn = 0 ∨ sgn = 1)
    {m : Nat} (h0 : m ≠ 0) (hm : m < t.m_size) (y : Vector3) (hy : is_saturated y)
    (hf : y.get face = sgn)
    (hnb : t.has_neighbor ⟨y, m⟩ face (decide (sgn > 1 / 2)) = some true) (nb : Nat)
    (h : t.get_neighbor ⟨y, m⟩ face (decide (sgn > 1 / 2)) = some nb) :
    nb % 65536 < t.m_size ∧ nb % 65536 ≠ 0 ∧ is_saturated (y.set face (1 - sgn)) ∧
    ∀ g, GlobalOf t ⟨y.set face (1 - sgn), nb % 65536⟩ g ↔ GlobalOf t ⟨y, m⟩ g := by
  have hpos : 0 < m := Nat.pos_of_ne_zero h0
  obtain ⟨h1, h2, h3, h4⟩ := wf.parent_block m hpos hm
  have hs : t.m_size ≤ MaxSize := wf.size_le (by omega)
  obtain ⟨c1, c2, c3⟩ := wf.children_block _ (by omega) h2
  have hlt : m < MaxSize := by omega
  have hp : (t.m_nodes m).m_parent_id < MaxSize := by omega
  have hsub := sub_u32_eq m _ h3 (by omega)
  have hc8 : m - (t.m_nodes (t.m_nodes m).m_parent_id).m_children_id < 8 := by omega
  obtain ⟨-, b2, b3, b4⟩ := bit_test_fin _ hc8 face
  have hnb2 := hnb
  rw [wf.has_neighbor_eq hM hpos hm] at hnb2
  simp only [Option.some.injEq] at hnb2
  simp only [get_neighbor, hnb, Option.some_bind, if_true, node, hlt, hp, hsub, hc8, b2,
    Option.some.injEq] at h
  rw [Nat.mod_eq_of_lt (by omega)] at h
  subst h
  rw [Nat.mod_eq_of_lt (by omega)]
  have hy1 : is_saturated (y.set face (1 - sgn)) := by
    rw [is_saturated_iff] at hy ⊢
    intro i
    rw [Vector3.get_set]
    by_cases hi : i = face
    · rw [if_pos hi]
      rcases hsgn with rfl | rfl <;> norm_num
    · rw [if_neg hi]
      exact hy i
  refine ⟨by omega, by omega, hy1, fun g => ?_⟩
  have a1 := wf.ascend_allocated hM hpos hm y hy
  have a2 := wf.ascend_allocated hM (by omega : 0 < (t.m_nodes (t.m_nodes m).m_parent_id).m_children_id +
    (m - (t.m_nodes (t.m_nodes m).m_parent_id).m_children_id ^^^ 1 <<< face.val) % 2 ^ 32)
    (by omega) (y.set face (1 - sgn)) hy1
  rw [c3 _ b2, Nat.add_sub_cancel_left] at a2
  have hk := Nat.mod_two_eq_zero_or_one
    ((m - (t.m_nodes (t.m_nodes m).m_parent_id).m_children_id) / 2 ^ face.val)
  obtain ⟨-, s2⟩ := side_bit sgn hsgn _ hk
  have e : ascend_coords
      ((m - (t.m_nodes (t.m_nodes m).m_parent_id).m_children_id ^^^ 1 <<< face.val) % 2 ^ 32)
      (y.set face (1 - sgn)) =
      ascend_coords (m - (t.m_nodes (t.m_nodes m).m_parent_id).m_children_id) y := by
    apply Vector3.ext_get
    intro i
    rw [ascend_coords_get, ascend_coords_get, Vector3.get_set]
    by_cases hi : i = face
    · subst hi
      rw [if_pos rfl, b3, hf]
      have s3 := s2 hnb2
      rcases hk with hk | hk
      · rw [hk] at s3 ⊢
        simp only [Nat.cast_zero] at s3
        norm_num
        linarith
      · rw [hk] at s3 ⊢
        simp only [Nat.cast_one] at s3
        norm_num
        linarith
    · rw [if_neg hi, b4 i hi]
  rw [e] at a2
  rw [GlobalOf.of_ascend (by simp only; omega) a2 g, GlobalOf.of_ascend h0 a1 g]

theorem consistent_signs.sign_cases {direction direction_signs : Vector3}
    (hd : consistent_signs direction direction_signs) (i : Fin 3) :
    direction_signs.get i = 0 ∨ direction_signs.get i = 1 := by
  rcases hd i with ⟨-, h⟩ | ⟨-, h⟩
  · exact Or.inr h
  · exact Or.inl h

/-- What one crossing returns when it does not leave the tree: a leaf, entered through the
face opposite to the exit face, at the global point of the exit. -/
theorem WellFormed.crossing_exact_sound {t : SparseOctree V MaxSize} (wf : WellFormed t)
    (hM : MaxSize < 65536) {direction direction_signs : Vector3}
    (hd : consistent_signs direction direction_signs) (inner : Nat)
    (prev out : SparseOctreeLocation) (hn : prev.m_node_id < t.m_size)
    (hx : is_saturated prev.m_local_coords)
    (h : t.crossing_exact inner direction direction_signs prev = some (false, out)) :
    out.m_node_id < t.m_size ∧ ¬ t.has_children out.m_node_id ∧
    is_saturated out.m_local_coords ∧
    out.m_local_coords.get (exit_face_exact direction direction_signs prev) =
      1 - direction_signs.get (exit_face_exact direction direction_signs prev) ∧
    ∀ g, GlobalOf t out g ↔ GlobalOf t (exit_location_exact direction direction_signs prev) g := by
  have hsgn := hd.sign_cases (exit_face_exact direction direction_signs prev)
  simp only [crossing_exact, exit_side_exact, Option.bind_eq_some] at h
  obtain ⟨r1, h1, h2⟩ := h
  obtain ⟨a1, a2, a3, a4, a5⟩ := wf.ascend_till_has_neighbor_exact_sound hM
    (exit_face_exact direction direction_signs prev)
    (direction_signs.get (exit_face_exact direction direction_signs prev)) hsgn inner
    (exit_location_exact direction direction_signs prev) r1
    (by simpa only [exit_location_exact] using hn) (exit_location_exact_saturated prev hd hx)
    (exit_location_exact_face prev hd) h1
  by_cases h0 : r1.m_node_id = 0
  · simp [h0] at h2
  · simp only [h0, if_false, Option.bind_eq_some, Option.map_eq_some', Prod.mk.injEq,
      true_and] at h2
    obtain ⟨nb, h3, r3, h4, rfl⟩ := h2
    obtain ⟨y, m⟩ := r1
    simp only at a1 a2 a3 h0
    obtain ⟨n1, n2, n3, n4⟩ := wf.get_neighbor_sound hM
      (exit_face_exact direction direction_signs prev)
      (direction_signs.get (exit_face_exact direction direction_signs prev)) hsgn h0 a1 y a2 a3
      (a5 h0) nb h3
    obtain ⟨d1, d2, d3, -, d5, d6⟩ := wf.descend_till_leaf_sound hM inner
      ⟨y.set (exit_face_exact direction direction_signs prev)
        (1 - direction_signs.get (exit_face_exact direction direction_signs prev)), nb % 65536⟩
      r3 n1 n3 h4
    refine ⟨d1, d2, d3, ?_, fun g => ?_⟩
    · have e : (y.set (exit_face_exact direction direction_signs prev)
          (1 - direction_signs.get (exit_face_exact direction direction_signs prev))).get
          (exit_face_exact direction direction_signs prev) =
          1 - direction_signs.get (exit_face_exact direction direction_signs prev) := by
        rw [Vector3.get_set, if_pos rfl]
      rw [d6 _ (by
        simp only [e]
        rcases hsgn with h | h <;> rw [h] <;> norm_num), e]
    · rw [d5, n4, a4]

/-- The global point of the exit location: the global point of `prev` advanced along the
direction by the advance distance scaled to the cube of the node. -/
theorem WellFormed.globalOf_exit {t : SparseOctree V MaxSize} (wf : WellFormed t)
    (hM : MaxSize < 65536) {direction direction_signs : Vector3}
    (hd : consistent_signs direction direction_signs)
    (prev : SparseOctreeLocation) (hn : prev.m_node_id < t.m_size)
    (hx : is_saturated prev.m_local_coords) :
    ∃ (o : Vector3) (s : ℚ), 0 < s ∧
      (∀ x, is_saturated x → GlobalOf t ⟨x, prev.m_node_id⟩ (Vector3.add o (Vector3.smul s x))) ∧
      GlobalOf t prev (Vector3.add o (Vector3.smul s prev.m_local_coords)) ∧
      GlobalOf t (exit_location_exact direction direction_signs prev)
        (Vector3.add (Vector3.add o (Vector3.smul s prev.m_local_coords))
          (Vector3.smul (s * advance_exact direction direction_signs prev) direction)) := by
  obtain ⟨o, s, hs, hg⟩ := wf.cube_affine hM prev.m_node_id hn
  refine ⟨o, s, hs, hg, hg _ hx, ?_⟩
  have h := hg _ (exit_location_exact_saturated prev hd hx)
  have e : Vector3.add o (Vector3.smul s
      (exit_location_exact direction direction_signs prev).m_local_coords) =
      Vector3.add (Vector3.add o (Vector3.smul s prev.m_local_coords))
        (Vector3.smul (s * advance_exact direction direction_signs prev) direction) := by
    apply Vector3.ext_get
    intro i
    simp only [exit_location_exact, Vector3.get_add, Vector3.get_smul]
    ring
  rw [e] at h
  exact h

/-- The result of `find_next_intersection` when it returns `false`: a leaf other than the
node of `prev`, whose global point is the global point of `prev` advanced by a positive
multiple of the direction. -/
theorem WellFormed.find_next_intersection_exact_false {t : SparseOctree V MaxSize}
    (wf : WellFormed t) (hM : MaxSize < 65536) {direction direction_signs : Vector3}
    (hd : consistent_signs direction direction_signs) (inner : Nat) (aliased : Bool)
    (out : SparseOctreeLocation) (fuel : Nat) :
    ∀ prev, prev.m_node_id < t.m_size → is_saturated prev.m_local_coords →
      t.find_next_intersection_exact inner direction direction_signs aliased fuel prev =
        some (false, out) →
      out.m_node_id < t.m_size ∧ ¬ t.has_children out.m_node_id ∧
      is_saturated out.m_local_coords ∧ out.m_node_id ≠ prev.m_node_id ∧
      ∃ (g0 g1 : Vector3) (τ : ℚ), 0 < τ ∧ GlobalOf t prev g0 ∧ GlobalOf t out g1 ∧
        g1 = Vector3.add g0 (Vector3.smul τ direction) := by
  induction fuel with
  | zero => intro prev _ _ h; simp [find_next_intersection_exact] at h
  | succ fuel ih =>
    intro prev hn hx h
    rw [find_next_intersection_exact_succ, Option.bind_eq_some] at h
    obtain ⟨⟨b, r⟩, hc, h⟩ := h
    cases b with
    | true => simp at h
    | false =>
      simp only [Bool.false_eq_true, if_false] at h
      obtain ⟨c1, c2, c3, c4, c5⟩ := wf.crossing_exact_sound hM hd inner prev r hn hx hc
      obtain ⟨o, s, hs, hg, hg0, hg1⟩ := wf.globalOf_exit hM hd prev hn hx
      have hadv := advance_exact_nonneg prev hd hx
      have hface := exit_location_exact_face prev hd
      simp only [exit_location_exact, Vector3.get_add, Vector3.get_smul] at hface
      have hr : GlobalOf t r (Vector3.add (Vector3.add o (Vector3.smul s prev.m_local_coords))
          (Vector3.smul (s * advance_exact direction direction_signs prev) direction)) :=
        (c5 _).mpr hg1
      by_cases hbig : advance_exact direction direction_signs prev ≥ 1 / 1000000
      · simp only [hbig, if_true, Option.some.injEq, Prod.mk.injEq, true_and] at h
        subst h
        refine ⟨c1, c2, c3, fun heq => ?_, _, _, s * advance_exact direction direction_signs prev,
          ?_, hg0, hr, rfl⟩
        · have h1 : GlobalOf t r (Vector3.add o (Vector3.smul s r.m_local_coords)) := by
            have := hg r.m_local_coords c3
            rw [← heq] at this
            exact this
          have h2 := congrArg (fun v => Vector3.get v (exit_face_exact direction direction_signs prev))
            (h1.functional ((c5 _).mpr (hg _ (exit_location_exact_saturated prev hd hx))))
          simp only [exit_location_exact, Vector3.get_add, Vector3.get_smul, c4] at h2
          have h3 : 1 - direction_signs.get (exit_face_exact direction direction_signs prev) =
              direction_signs.get (exit_face_exact direction direction_signs prev) :=
            (mul_left_cancel₀ (ne_of_gt hs) (add_left_cancel h2)).trans hface
          rcases hd.sign_cases (exit_face_exact direction direction_signs prev) with h4 | h4 <;>
            rw [h4] at h3 <;> norm_num at h3
        · exact mul_pos hs (lt_of_lt_of_le (by norm_num) hbig)
      · simp only [hbig, if_false] at h
        cases aliased with
        | false =>
          simp only [Bool.false_eq_true, if_false] at h
          exact ih prev hn hx h
        | true =>
          simp only [if_true] at h
          obtain ⟨i1, i2, i3, i4, g0, g1, τ, hτ, j1, j2, j3⟩ := ih r c1 c3 h
          have e0 := j1.functional hr
          refine ⟨i1, i2, i3, fun heq => ?_, _, g1,
            s * advance_exact direction direction_signs prev + τ, ?_, hg0, j2, ?_⟩
          · have h1 : GlobalOf t out (Vector3.add o (Vector3.smul s out.m_local_coords)) := by
              have := hg out.m_local_coords i3
              rw [← heq] at this
              exact this
            have h2 := congrArg
              (fun v => Vector3.get v (exit_face_exact direction direction_signs prev))
              (h1.functional j2)
            have h5 := congrArg
              (fun v => Vector3.get v (exit_face_exact direction direction_signs prev))
              ((hg _ (exit_location_exact_saturated prev hd hx)).functional ((c5 _).mp j1))
            rw [j3] at h2
            simp only [exit_location_exact, Vector3.get_add, Vector3.get_smul] at h2 h5
            rw [hface] at h5
            have hsat := (is_saturated_iff _).mp i3 (exit_face_exact direction direction_signs prev)
            rcases hd (exit_face_exact direction direction_signs prev) with ⟨d1, d2⟩ | ⟨d1, d2⟩
            · rw [d2] at h5
              have p1 := mul_pos hτ d1
              have p2 : s * out.m_local_coords.get (exit_face_exact direction direction_signs prev)
                  ≤ s * 1 := mul_le_mul_of_nonneg_left hsat.2 (le_of_lt hs)
              linarith
            · rw [d2] at h5
              have p1 := mul_neg_of_pos_of_neg hτ d1
              have p2 := mul_nonneg (le_of_lt hs) hsat.1
              linarith
          · have := mul_nonneg (le_of_lt hs) hadv
            linarith
          · rw [j3, e0]
            apply Vector3.ext_get
            intro i
            simp only [Vector3.get_add, Vector3.get_smul]
            ring

/-! ## The next leaf -/

/-- In exact arithmetic, the next leaf on a false result: on a reachable tree, from a location `prev` at an
allocated node with local coordinates in the unit cube, for a direction without zero
component and consistent with `direction_signs`, if `find_next_intersection` returns
`false` then the location written to the output is at an allocated node without children,
other than the node of `prev`, with local coordinates in the unit cube. This holds whether
or not the two location arguments are the same object. -/
theorem next_leaf_on_false_exact [Inhabited V] (hM : ValidCapacity MaxSize)
    (t : SparseOctree V MaxSize) (hr : Reachable t) (direction direction_signs : Vector3)
    (hd : consistent_signs direction direction_signs) (inner fuel : Nat) (aliased : Bool)
    (prev out : SparseOctreeLocation) (hn : prev.m_node_id < t.get_size)
    (hx : is_saturated prev.m_local_coords)
    (h : t.find_next_intersection_exact inner direction direction_signs aliased fuel prev =
      some (false, out)) :
    out.m_node_id < t.get_size ∧ ¬ t.has_children out.m_node_id ∧
    out.m_node_id ≠ prev.m_node_id ∧ is_saturated out.m_local_coords := by
  obtain ⟨h1, h2, h3, h4, -⟩ :=
    hr.wellFormed.find_next_intersection_exact_false hM.2 hd inner aliased out fuel prev hn hx h
  exact ⟨h1, h2, h4, h3⟩

/-- The links of `split_root64` read by the example crossing. -/
theorem split_root64_nodes :
    (split_root64.m_nodes 0).m_children_id = 1 ∧ (split_root64.m_nodes 1).m_parent_id = 0 ∧
    (split_root64.m_nodes 1).m_children_id = Null ∧
    (split_root64.m_nodes 2).m_children_id = Null ∧ split_root64.m_size = 9 := by
  decide

/-! ## Descend and ascend; the stored children id -/

/-- C18. Descend then ascend is the identity: on a reachable tree, for an allocated node `n`
with children and a local coordinate `x` of the unit cube, `descend` applied to the
location `(x, n)` returns a location from which `ascend` returns exactly `(x, n)`. -/
theorem descend_then_ascend [Inhabited V] (hM : MaxSize < 65536)
    (t : SparseOctree V MaxSize) (hr : Reachable t) (n : Nat) (hn : n < t.get_size)
    (hc : t.has_children n) (x : Vector3) (hx : is_saturated x) :
    (∃ loc, t.descend ⟨x, n⟩ = some loc) ∧
    (t.descend ⟨x, n⟩).bind t.ascend = some ⟨x, n⟩ := by
  have wf := hr.wellFormed
  have hd := wf.descend_allocated hM hn hc x hx
  refine ⟨⟨_, hd⟩, ?_⟩
  rw [hd, Option.some_bind]
  exact wf.ascend_descend hM hn hc x hx

/-- The hypotheses of C18 hold on a tree of the test suite. -/
theorem descend_then_ascend_witness :
    Reachable split_root64 ∧ split_root64.has_children 0 ∧
      is_saturated ⟨7 / 10, 9 / 10, 1 / 10⟩ ∧
      (split_root64.descend ⟨⟨7 / 10, 9 / 10, 1 / 10⟩, 0⟩).bind split_root64.ascend =
        some ⟨⟨7 / 10, 9 / 10, 1 / 10⟩, 0⟩ :=
  ⟨split_root64_reachable, by decide, by norm_num [is_saturated],
    (descend_then_ascend (by decide) split_root64 split_root64_reachable 0 (by decide)
      (by decide) ⟨7 / 10, 9 / 10, 1 / 10⟩ (by norm_num [is_saturated])).2⟩

/-- After a successful `split m` the nodes with children are `m` and those that had. -/
theorem WellFormed.split_has_children {t t1 : SparseOctree V MaxSize} (wf : WellFormed t)
    {m : Nat} (h : t.split m = some t1) (j : Nat) :
    t1.has_children j ↔ (j = m ∨ t.has_children j) := by
  obtain ⟨-, ⟨hc, rfl⟩ | ⟨-, -, -, hcid, -, -⟩⟩ := split_cases t t1 m h
  · constructor
    · exact Or.inr
    · rintro (rfl | h1)
      · exact hc
      · exact h1
  · have hnull : t.m_size ≠ Null := by
      have := wf.size_mod
      unfold Null
      omega
    unfold has_children
    rw [hcid]
    by_cases hj : j = m
    · simp [hj, hnull]
    · simp [hj]

theorem WellFormed.split_all_has_children_iff (calls : List Nat) :
    ∀ (t t1 : SparseOctree V MaxSize) (k : Nat), WellFormed t →
      t.calls_allocated calls = true → t.split_all calls = some (t1, k) →
      ∀ n, t1.has_children n ↔ (n ∈ calls ∨ t.has_children n) := by
  induction calls with
  | nil =>
    intro t t1 k _ _ h n
    simp only [split_all, Option.some.injEq, Prod.mk.injEq] at h
    rw [h.1]
    simp
  | cons m ms ih =>
    intro t t1 k wf ha h n
    simp only [split_all, Option.bind_eq_some, Option.map_eq_some', Prod.mk.injEq] at h
    obtain ⟨t2, h2, ⟨t3, k3⟩, h3, rfl, -⟩ := h
    simp only [calls_allocated, h2, Bool.and_eq_true, decide_eq_true_eq] at ha
    rw [ih t2 t3 k3 (wellFormed_split wf ha.1 h2) ha.2 h3 n, wf.split_has_children h2 n,
      List.mem_cons]
    tauto

/-- C20. The narrow sentinel never corrupts topology: in every reachable tree the size is
congruent to 1 modulo 8, so the children id stored by an allocating `split` (the size) is
never `Null`; hence a node's stored children id differs from `Null` exactly when `split` has
been called on that node, and the stored children id of a node with children is strictly
greater than the node's own id. -/
theorem sentinel_never_stored [Inhabited V] (t : SparseOctree V MaxSize) (hr : Reachable t) :
    t.get_size % 8 = 1 ∧
    (∀ n t1, n < t.m_size → ¬ t.has_children n → t.split n = some t1 →
      (t1.m_nodes n).m_children_id = t.m_size ∧ (t1.m_nodes n).m_children_id ≠ Null) ∧
    (∀ calls k, (SparseOctree.new : SparseOctree V MaxSize).calls_allocated calls = true →
      (SparseOctree.new : SparseOctree V MaxSize).split_all calls = some (t, k) →
      ∀ n, n < t.m_size → ((t.m_nodes n).m_children_id ≠ Null ↔ n ∈ calls)) ∧
    (∀ n, n < t.m_size → (t.m_nodes n).m_children_id ≠ Null →
      n < (t.m_nodes n).m_children_id) := by
  have wf := hr.wellFormed
  refine ⟨wf.size_mod, fun n t1 _ hc h => ?_, fun calls k ha h n _ => ?_, fun n hn hc => ?_⟩
  · obtain ⟨-, ⟨hc1, -⟩ | ⟨-, -, -, hcid, -, -⟩⟩ := split_cases t t1 n h
    · exact absurd hc1 hc
    · rw [hcid, if_pos rfl]
      refine ⟨rfl, ?_⟩
      have := wf.size_mod
      unfold Null
      omega
  · have := wellFormed_new.split_all_has_children_iff calls _ t k ha h n
    unfold has_children at this
    rw [this]
    constructor
    · rintro (h1 | h1)
      · exact h1
      · exact absurd rfl h1
    · exact Or.inl
  · exact (wf.children_block n hn hc).1

/-- The hypothesis of C20 holds on a tree of the test suite. -/
theorem sentinel_never_stored_witness :
    Reachable split_root64 ∧ split_root64.get_size % 8 = 1 ∧
      (∀ n, n < split_root64.m_size → (split_root64.m_nodes n).m_children_id ≠ Null →
        n < (split_root64.m_nodes n).m_children_id) :=
  ⟨split_root64_reachable, (sentinel_never_stored split_root64 split_root64_reachable).1,
    (sentinel_never_stored split_root64 split_root64_reachable).2.2.2⟩

/-! ## Capacity exhaustion -/

/-- The result of `split` is the pool where it stops, when it stops by returning. -/
theorem split_eq_split_state (t : SparseOctree V MaxSize) (n : Nat) :
    t.split n = if (t.split_state n).2 then some (t.split_state n).1 else none := by
  unfold split split_state
  by_cases h1 : n < MaxSize
  · by_cases h2 : (t.m_nodes n).m_children_id = Null
    · by_cases h3 : t.m_size + 8 ≤ MaxSize
      · simp only [h1, h2, h3, if_true, if_false, ne_eq, not_true_eq_false]
      · simp only [h1, h2, h3, if_true, if_false, ne_eq, not_true_eq_false,
          Bool.false_eq_true]
    · simp only [h1, h2, if_true, ne_eq, not_false_eq_true]
  · simp only [h1, if_false, Bool.false_eq_true]

/-- C15 (amended). Capacity exhaustion: on a reachable tree of size `s`, for an allocated
node `n`: `split n` on a node without children fails when `s + 8 > MaxSize`; `split n` on a
node that already has children returns the same tree whatever the free capacity; `split n`
never fails when `s + 8 ≤ MaxSize`; and a failing `split` stops with the pool unchanged. -/
theorem split_capacity [Inhabited V] (t : SparseOctree V MaxSize) (hr : Reachable t)
    (n : Nat) (hn : n < t.get_size) :
    (¬ t.has_children n → t.get_size + 8 > MaxSize → t.split n = none) ∧
    (t.has_children n → t.split n = some t) ∧
    (t.get_size + 8 ≤ MaxSize → ∃ t1, t.split n = some t1) ∧
    (t.split n = none → (t.split_state n).1 = t) := by
  have wf := hr.wellFormed
  simp only [get_size] at hn ⊢
  refine ⟨fun hc hs => ?_, fun hc => ?_, fun hs => ?_, fun h => ?_⟩
  · unfold has_children at hc
    simp only [not_not] at hc
    have hs1 : ¬ t.m_size + 8 ≤ MaxSize := by omega
    unfold split
    by_cases h1 : n < MaxSize
    · simp only [h1, hc, hs1, if_true, if_false, ne_eq, not_true_eq_false]
    · simp only [h1, if_false]
  · have h1 : n < MaxSize := by
      have := wf.lt_max_of_has_children hn hc
      omega
    unfold has_children at hc
    rw [split, if_pos h1, if_pos hc]
  · by_cases hc : t.has_children n
    · have hc1 := hc
      unfold has_children at hc1
      exact ⟨t, by rw [split, if_pos (by omega), if_pos hc1]⟩
    · obtain ⟨t1, h1, -⟩ := split_eq t n (by omega) hc hs
      exact ⟨t1, h1⟩
  · unfold split at h
    unfold split_state
    by_cases h1 : n < MaxSize
    · by_cases h2 : (t.m_nodes n).m_children_id = Null
      · by_cases h3 : t.m_size + 8 ≤ MaxSize
        · simp [h1, h2, h3] at h
        · simp only [h1, h2, h3, if_true, if_false, ne_eq, not_true_eq_false]
      · simp [h1, h2] at h
    · simp only [h1, if_false]

/-- The tree `full9` is reachable. -/
theorem full9_reachable : Reachable full9 :=
  Reachable.step Reachable.fresh (by decide)
    (by rfl : (SparseOctree.new : SparseOctree Unit 9).split 0 = some full9)

/-- The hypotheses of C15 hold on a full pool, where the split of a childless node fails. -/
theorem split_capacity_witness :
    Reachable full9 ∧ 1 < full9.get_size ∧ ¬ full9.has_children 1 ∧
      full9.get_size + 8 > 9 ∧ full9.split 1 = none :=
  ⟨full9_reachable, by decide, by decide, by decide,
    (split_capacity full9 full9_reachable 1 (by decide)).1 (by decide) (by decide)⟩

/-- C15 as stated fails for a node that already has children: in the full pool `full9`
(size 9, capacity 9, so fewer than 8 free slots) the call `split 0` on the allocated root
does not fail, it returns the unchanged tree. -/
theorem split_capacity_counterexample :
    Reachable full9 ∧ 0 < full9.get_size ∧ full9.get_size + 8 > 9 ∧
      full9.split 0 = some full9 ∧ full9.split 0 ≠ none :=
  ⟨full9_reachable, by decide, by decide, by rfl, by
    have h : full9.split 0 = some full9 := by rfl
    rw [h]
    exact Option.some_ne_none _⟩

/-! ## Neighbors -/

theorem xor_bit_fin (c : Nat) (hc : c < 8) (face : Fin 3) :
    ((c ^^^ (1 <<< face.val)) % 2 ^ 32 ^^^ (1 <<< face.val)) % 2 ^ 32 = c := by
  interval_cases c <;> fin_cases face <;> decide

theorem xor_lt_fin (c : Nat) (hc : c < 8) (face : Fin 3) : c ^^^ (1 <<< face.val) < 8 := by
  interval_cases c <;> fin_cases face <;> decide

/-- The closed form of `get_neighbor` at an allocated node with a neighbor. -/
theorem WellFormed.get_neighbor_eq {t : SparseOctree V MaxSize} (wf : WellFormed t)
    (hM : MaxSize < 65536) {m : Nat} (h0 : 0 < m) (hm : m < t.m_size) (y : Vector3)
    (face : Fin 3) (side : Bool) (hnb : t.has_neighbor ⟨y, m⟩ face side = some true) :
    t.get_neighbor ⟨y, m⟩ face side =
      some ((t.m_nodes (t.m_nodes m).m_parent_id).m_children_id +
        (m - (t.m_nodes (t.m_nodes m).m_parent_id).m_children_id ^^^ 1 <<< face.val)
          % 2 ^ 32) := by
  obtain ⟨h1, h2, h3, h4⟩ := wf.parent_block m h0 hm
  have hs : t.m_size ≤ MaxSize := wf.size_le (by omega)
  obtain ⟨c1, c2, -⟩ := wf.children_block _ (by omega) h2
  have hlt : m < MaxSize := by omega
  have hp : (t.m_nodes m).m_parent_id < MaxSize := by omega
  have hsub := sub_u32_eq m _ h3 (by omega)
  have hc8 : m - (t.m_nodes (t.m_nodes m).m_parent_id).m_children_id < 8 := by omega
  obtain ⟨-, b2, -, -⟩ := bit_test_fin _ hc8 face
  simp only [get_neighbor, hnb, Option.some_bind, if_true, node, hlt, hp, hsub, hc8, b2,
    Option.some.injEq]
  exact Nat.mod_eq_of_lt (by omega)

/-- C19. Neighbor symmetry: on a reachable tree, for an allocated non-root node `A`, a face
and a side, if `has_neighbor A face side` holds then `B = get_neighbor A face side` is an
allocated node with the same parent as `A` whose octant index is the one of `A` with bit
`face` flipped, `has_neighbor B face (!side)` holds and `get_neighbor B face (!side) = A`;
and the root never has a neighbor. -/
theorem neighbor_symmetry [Inhabited V] (hM : MaxSize < 65536) (t : SparseOctree V MaxSize)
    (hr : Reachable t) (A : Nat) (h0 : A ≠ t.get_root_id) (hA : A < t.get_size)
    (face : Fin 3) (side : Bool) (y y1 : Vector3)
    (hnb : t.has_neighbor ⟨y, A⟩ face side = some true) :
    (∃ B, t.get_neighbor ⟨y, A⟩ face side = some B ∧ B < t.get_size ∧
      t.get_parent_id B = t.get_parent_id A ∧
      octant_of t B = octant_of t A ^^^ (1 <<< face.val) ∧
      t.has_neighbor ⟨y1, B⟩ face (!side) = some true ∧
      t.get_neighbor ⟨y1, B⟩ face (!side) = some A) ∧
    (∀ (z : Vector3) (f : Fin 3) (s : Bool),
      t.has_neighbor ⟨z, t.get_root_id⟩ f s = some false) := by
  have wf := hr.wellFormed
  simp only [get_root_id, get_size] at h0 hA ⊢
  refine ⟨?_, fun z f s => by simp only [has_neighbor, if_true]⟩
  have hpos : 0 < A := Nat.pos_of_ne_zero h0
  obtain ⟨h1, h2, h3, h4⟩ := wf.parent_block A hpos hA
  have hs : t.m_size ≤ MaxSize := wf.size_le (by omega)
  obtain ⟨c1, c2, c3⟩ := wf.children_block _ (by omega) h2
  have hc8 : A - (t.m_nodes (t.m_nodes A).m_parent_id).m_children_id < 8 := by omega
  obtain ⟨-, b2, b3, -⟩ := bit_test_fin _ hc8 face
  have hB0 : 0 < (t.m_nodes (t.m_nodes A).m_parent_id).m_children_id +
      (A - (t.m_nodes (t.m_nodes A).m_parent_id).m_children_id ^^^ 1 <<< face.val)
        % 2 ^ 32 := by omega
  have hBs : (t.m_nodes (t.m_nodes A).m_parent_id).m_children_id +
      (A - (t.m_nodes (t.m_nodes A).m_parent_id).m_children_id ^^^ 1 <<< face.val)
        % 2 ^ 32 < t.m_size := by omega
  have hpB := c3 _ b2
  have hnb2 := hnb
  rw [wf.has_neighbor_eq hM hpos hA] at hnb2
  simp only [Option.some.injEq] at hnb2
  have hnbB : t.has_neighbor ⟨y1, (t.m_nodes (t.m_nodes A).m_parent_id).m_children_id +
      (A - (t.m_nodes (t.m_nodes A).m_parent_id).m_children_id ^^^ 1 <<< face.val)
        % 2 ^ 32⟩ face (!side) = some true := by
    rw [wf.has_neighbor_eq hM hB0 hBs, hpB, Nat.add_sub_cancel_left, b3]
    have hk := Nat.mod_two_eq_zero_or_one
      ((A - (t.m_nodes (t.m_nodes A).m_parent_id).m_children_id) / 2 ^ face.val)
    rcases hk with hk | hk <;> rw [hk] at hnb2 ⊢ <;> cases side <;> simp_all
  refine ⟨_, wf.get_neighbor_eq hM hpos hA y face side hnb, hBs, ?_, ?_, hnbB, ?_⟩
  · have e1 : (t.m_nodes (t.m_nodes A).m_parent_id).m_children_id +
        (A - (t.m_nodes (t.m_nodes A).m_parent_id).m_children_id ^^^ 1 <<< face.val)
          % 2 ^ 32 < MaxSize := by omega
    have e2 : A < MaxSize := by omega
    simp only [get_parent_id, node, hBs, e1, hA, e2, if_true, Option.map_some', hpB]
  · unfold octant_of
    rw [hpB, sub_u32_eq _ _ (by omega) (by omega), sub_u32_eq _ _ h3 (by omega),
      Nat.add_sub_cancel_left,
      Nat.mod_eq_of_lt (lt_trans (xor_lt_fin _ hc8 face) (by decide))]
  · rw [wf.get_neighbor_eq hM hB0 hBs y1 face (!side) hnbB, hpB, Nat.add_sub_cancel_left,
      xor_bit_fin _ hc8 face, Nat.add_sub_cancel' h3]

/-- The hypotheses of C19 hold on a tree of the test suite. -/
theorem neighbor_symmetry_witness :
    Reachable split_root64 ∧
      split_root64.has_neighbor ⟨⟨0, 0, 0⟩, 1⟩ 0 true = some true ∧
      ∃ B, split_root64.get_neighbor ⟨⟨0, 0, 0⟩, 1⟩ 0 true = some B ∧
        B < split_root64.get_size ∧
        split_root64.get_parent_id B = split_root64.get_parent_id 1 ∧
        octant_of split_root64 B = octant_of split_root64 1 ^^^ (1 <<< (0 : Fin 3).val) ∧
        split_root64.has_neighbor ⟨⟨0, 0, 0⟩, B⟩ 0 (!true) = some true ∧
        split_root64.get_neighbor ⟨⟨0, 0, 0⟩, B⟩ 0 (!true) = some 1 :=
  ⟨split_root64_reachable, by decide,
    (neighbor_symmetry (by decide) split_root64 split_root64_reachable 1 (by decide)
      (by decide) 0 true ⟨0, 0, 0⟩ ⟨0, 0, 0⟩ (by decide)).1⟩

/-! ## Corner points -/

theorem is_corner.saturated {p : Vector3} (h : is_corner p) : is_saturated p := by
  obtain ⟨h1, h2, h3⟩ := h
  unfold is_saturated
  rcases h1 with h1 | h1 <;> rcases h2 with h2 | h2 <;> rcases h3 with h3 | h3 <;>
    rw [h1, h2, h3] <;> norm_num

theorem is_corner.get_cases {p : Vector3} (h : is_corner p) (i : Fin 3) :
    p.get i = 0 ∨ p.get i = 1 := by
  obtain ⟨h1, h2, h3⟩ := h
  fin_cases i
  · exact h1
  · exact h2
  · exact h3

theorem is_corner.descend_coords_eq {p : Vector3} (h : is_corner p) : descend_coords p = p :=
  Vector3.ext_get fun i => descend_coords_corner p i (h.get_cases i)

theorem is_corner.octant_eq {p : Vector3} (h : is_corner p) : octant p = corner_index p := by
  obtain ⟨h1, h2, h3⟩ := h
  unfold octant corner_index upper
  rcases h1 with h1 | h1 <;> rcases h2 with h2 | h2 <;> rcases h3 with h3 | h3 <;>
    rw [h1, h2, h3] <;> norm_num

theorem corner_index_testBit {p : Vector3} (h : is_corner p) (i : Fin 3) :
    (corner_index p).testBit i.val = decide (p.get i = 1) := by
  obtain ⟨h1, h2, h3⟩ := h
  unfold corner_index
  fin_cases i <;>
  rcases h1 with h1 | h1 <;> rcases h2 with h2 | h2 <;> rcases h3 with h3 | h3 <;>
    simp [h1, h2, h3, Vector3.get, Nat.testBit]

/-- From a corner point, `descend_till_leaf` follows the children of index `corner_index`
and leaves the coordinates untouched. -/
theorem WellFormed.descend_till_leaf_corner {t : SparseOctree V MaxSize} (wf : WellFormed t)
    (hM : ValidCapacity MaxSize) {p : Vector3} (hp : is_corner p) (fuel : Nat) :
    ∀ n, n < t.m_size → t.m_size ≤ fuel + n →
      ∃ leaf, t.child_path (corner_index p) fuel n = some leaf ∧
        t.descend_till_leaf fuel ⟨p, n⟩ = some ⟨p, leaf⟩ := by
  induction fuel with
  | zero => intro n hn hf; omega
  | succ fuel ih =>
    intro n hn hf
    have hs : t.m_size ≤ MaxSize := wf.size_le_max hM.1
    have hlt : n < MaxSize := by omega
    by_cases hc : t.has_children n
    · obtain ⟨h1, h2, -⟩ := wf.children_block n hn hc
      have hc2 := hc
      unfold has_children at hc2
      have ho : corner_index p < 8 := by rw [← hp.octant_eq]; exact octant_lt p
      have hd := wf.descend_allocated hM.2 hn hc p hp.saturated
      rw [hp.descend_coords_eq, hp.octant_eq] at hd
      obtain ⟨leaf, e1, e2⟩ := ih ((t.m_nodes n).m_children_id + corner_index p) (by omega)
        (by omega)
      refine ⟨leaf, ?_, ?_⟩
      · simp only [child_path, hc, if_true, get_child_id, hn, ho, node, hlt, Option.map_some',
          hc2, if_false, Option.some_bind]
        rw [Nat.mod_eq_of_lt (by have := hM.2; omega)]
        exact e1
      · simp only [descend_till_leaf, node, hlt, if_true, Option.some_bind, hc2, ne_eq,
          not_false_eq_true, hd]
        exact e2
    · have hc2 := hc
      unfold has_children at hc2
      simp only [not_not] at hc2
      refine ⟨n, by simp only [child_path, hc, if_false], ?_⟩
      simp [descend_till_leaf, node, hlt, hc2]

/-- C16. Corner points are fixed by descent: on a reachable tree, for a corner point `p` of
the unit cube, `calculate_location p` returns local coordinates equal to `p`, at the leaf
reached from the root by taking at every level the child whose index has bit `i` equal to
`p i`. -/
theorem corner_fixed [Inhabited V] (hM : ValidCapacity MaxSize) (t : SparseOctree V MaxSize)
    (hr : Reachable t) (p : Vector3) (hp : is_corner p) (fuel : Nat)
    (hf : t.get_size ≤ fuel) :
    (∀ i : Fin 3, (corner_index p).testBit i.val = decide (p.get i = 1)) ∧
    ∃ leaf, t.child_path (corner_index p) fuel t.get_root_id = some leaf ∧
      ¬ t.has_children leaf ∧
      t.calculate_location fuel p = some ⟨p, leaf⟩ := by
  have wf := hr.wellFormed
  obtain ⟨leaf, e1, e2⟩ := wf.descend_till_leaf_corner hM hp fuel 0 wf.size_pos
    (by simp only [get_size] at hf; omega)
  obtain ⟨-, r2, -⟩ := wf.descend_till_leaf_sound hM.2 fuel ⟨p, 0⟩ ⟨p, leaf⟩ wf.size_pos
    hp.saturated e2
  exact ⟨corner_index_testBit hp, leaf, e1, r2, e2⟩

set_option maxRecDepth 100000 in
/-- The tree `corners73` is reachable. -/
theorem corners73_reachable : Reachable corners73.1 :=
  reachable_split_all (List.range 9) SparseOctree.new corners73.1 corners73.2
    Reachable.fresh (by decide) (by rfl)

set_option maxRecDepth 100000 in
/-- The hypotheses of C16 hold on the tree of the test suite, at the corner `(1, 0, 1)`. -/
theorem corner_fixed_witness :
    Reachable corners73.1 ∧ is_corner ⟨1, 0, 1⟩ ∧
      ∃ leaf, corners73.1.child_path (corner_index ⟨1, 0, 1⟩) 73 corners73.1.get_root_id =
          some leaf ∧
        ¬ corners73.1.has_children leaf ∧
        corners73.1.calculate_location 73 ⟨1, 0, 1⟩ = some ⟨⟨1, 0, 1⟩, leaf⟩ :=
  ⟨corners73_reachable, by norm_num [is_corner],
    (corner_fixed (by decide) corners73.1 corners73_reachable ⟨1, 0, 1⟩
      (by norm_num [is_corner]) 73 (by decide)).2⟩

/-! ## Ancestors and the exit side -/

theorem Ancestor.of_root {t : SparseOctree V MaxSize} {a : Nat} (h : Ancestor t a 0) :
    a = 0 := by
  cases h with
  | self => rfl
  | up hne _ => exact absurd rfl hne

theorem Ancestor.iff_of_ne_zero {t : SparseOctree V MaxSize} {a n : Nat} (hn : n ≠ 0) :
    Ancestor t a n ↔ (a = n ∨ Ancestor t a (t.m_nodes n).m_parent_id) := by
  constructor
  · intro h
    cases h with
    | self => exact Or.inl rfl
    | up _ h1 => exact Or.inr h1
  · rintro (rfl | h)
    · exact Ancestor.self _
    · exact Ancestor.up hn h

/-- At an allocated node other than the root, `has_neighbor` compares the octant bit with
the side. -/
theorem WellFormed.has_neighbor_octant_bit {t : SparseOctree V MaxSize} (wf : WellFormed t)
    {m : Nat} (h0 : 0 < m) (hm : m < t.m_size) (y : Vector3) (face : Fin 3) (side : Bool) :
    t.has_neighbor ⟨y, m⟩ face side = some (octant_bit t face m != side) := by
  obtain ⟨h1, -, -, -⟩ := wf.parent_block m h0 hm
  have hs : t.m_size ≤ MaxSize := wf.size_le (by omega)
  have hne : m ≠ 0 := Nat.ne_of_gt h0
  have hlt : m < MaxSize := by omega
  have hp : (t.m_nodes m).m_parent_id < MaxSize := by omega
  simp only [has_neighbor, hne, if_false, node, hlt, if_true, Option.some_bind, hp,
    octant_bit, octant_of]

/-- With fuel for every id up to the start node, `ascend_till_has_neighbor` returns. -/
theorem WellFormed.ascend_till_has_neighbor_exact_total {t : SparseOctree V MaxSize}
    (wf : WellFormed t) (hM : MaxSize < 65536) (face : Fin 3) (side : Bool) (fuel : Nat) :
    ∀ loc, loc.m_node_id < t.m_size → is_saturated loc.m_local_coords →
      loc.m_node_id < fuel → ∃ r, t.ascend_till_has_neighbor_exact face side fuel loc = some r := by
  induction fuel with
  | zero => intro loc _ _ hf; omega
  | succ fuel ih =>
    intro loc hn hx hf
    obtain ⟨y, m⟩ := loc
    simp only at hn hx hf
    by_cases hm : m = 0
    · exact ⟨⟨y, m⟩, by simp only [ascend_till_has_neighbor_exact, hm, ne_eq, not_true_eq_false,
        if_false]⟩
    · have h0 : 0 < m := Nat.pos_of_ne_zero hm
      obtain ⟨h1, -, -, -⟩ := wf.parent_block m h0 hn
      have hnb := wf.has_neighbor_octant_bit h0 hn y face side
      simp only [ascend_till_has_neighbor_exact, hm, ne_eq, not_false_eq_true, if_true, hnb,
        Option.some_bind]
      cases hb : (octant_bit t face m != side) with
      | false =>
        have ha := wf.ascend_allocated hM h0 hn y hx
        simp only [Bool.not_false, if_true, ha, Option.some_bind]
        exact ih _ (by simp only; omega) (ascend_coords_saturated _ y hx) (by simp only; omega)
      | true =>
        exact ⟨⟨y, m⟩, by simp only [Bool.not_true, Bool.false_eq_true, if_false]⟩

/-- The loop `ascend_till_has_neighbor` ends at the root exactly when the start node and
all its ancestors below the root have their octant bit of the face equal to the side. -/
theorem WellFormed.ascend_till_has_neighbor_exact_root_iff {t : SparseOctree V MaxSize}
    (wf : WellFormed t) (face : Fin 3) (side : Bool) (fuel : Nat) :
    ∀ loc r, loc.m_node_id < t.m_size →
      t.ascend_till_has_neighbor_exact face side fuel loc = some r →
      (r.m_node_id = 0 ↔
        ∀ a, Ancestor t a loc.m_node_id → a ≠ 0 → octant_bit t face a = side) := by
  induction fuel with
  | zero => intro loc r _ h; simp [ascend_till_has_neighbor_exact] at h
  | succ fuel ih =>
    intro loc r hn h
    obtain ⟨y, m⟩ := loc
    simp only at hn
    by_cases hm : m = 0
    · simp only [ascend_till_has_neighbor_exact, hm, ne_eq, not_true_eq_false, if_false,
        Option.some.injEq] at h
      subst h
      subst hm
      simp only [true_iff]
      intro a ha hne
      exact absurd ha.of_root hne
    · have h0 : 0 < m := Nat.pos_of_ne_zero hm
      obtain ⟨h1, -, -, -⟩ := wf.parent_block m h0 hn
      have hnb := wf.has_neighbor_octant_bit h0 hn y face side
      simp only [ascend_till_has_neighbor_exact, hm, ne_eq, not_false_eq_true, if_true, hnb,
        Option.some_bind] at h
      cases hb : (octant_bit t face m != side) with
      | false =>
        rw [hb] at h
        simp only [Bool.not_false, if_true, Option.bind_eq_some] at h
        obtain ⟨loc1, ha, h2⟩ := h
        obtain ⟨-, -, e, -⟩ := ascend_some ha
        simp only at e
        have key := ih loc1 r (by rw [e]; omega) h2
        rw [key, e]
        have hbit : octant_bit t face m = side := by
          cases hq : octant_bit t face m <;> cases side <;> simp_all
        constructor
        · intro hall a ha1 hne
          rcases (Ancestor.iff_of_ne_zero hm).mp ha1 with rfl | ha2
          · exact hbit
          · exact hall a ha2 hne
        · intro hall a ha1 hne
          exact hall a (Ancestor.up hm ha1) hne
      | true =>
        rw [hb] at h
        simp only [Bool.not_true, Bool.false_eq_true, if_false, Option.some.injEq] at h
        subst h
        simp only [hm, false_iff]
        intro hall
        have := hall m (Ancestor.self m) hm
        rw [this] at hb
        simp at hb

/-- With inner fuel for the depth of the tree, one crossing returns. -/
theorem WellFormed.crossing_exact_total {t : SparseOctree V MaxSize} (wf : WellFormed t)
    (hM : ValidCapacity MaxSize) {direction direction_signs : Vector3}
    (hd : consistent_signs direction direction_signs) (inner : Nat)
    (prev : SparseOctreeLocation) (hn : prev.m_node_id < t.m_size)
    (hx : is_saturated prev.m_local_coords) (hi : t.m_size ≤ inner) :
    ∃ b out, t.crossing_exact inner direction direction_signs prev = some (b, out) := by
  have hsgn := hd.sign_cases (exit_face_exact direction direction_signs prev)
  have hn1 : (exit_location_exact direction direction_signs prev).m_node_id < t.m_size := by
    simpa only [exit_location_exact] using hn
  have hx1 := exit_location_exact_saturated prev hd hx
  obtain ⟨r1, h1⟩ := wf.ascend_till_has_neighbor_exact_total hM.2
    (exit_face_exact direction direction_signs prev) (exit_side_exact direction direction_signs prev)
    inner (exit_location_exact direction direction_signs prev) hn1 hx1 (by omega)
  have h1s := h1
  unfold exit_side_exact at h1s
  obtain ⟨a1, a2, a3, -, a5⟩ := wf.ascend_till_has_neighbor_exact_sound hM.2
    (exit_face_exact direction direction_signs prev)
    (direction_signs.get (exit_face_exact direction direction_signs prev)) hsgn inner
    (exit_location_exact direction direction_signs prev) r1 hn1 hx1
    (exit_location_exact_face prev hd) h1s
  by_cases h0 : r1.m_node_id = 0
  · exact ⟨true, r1, by simp only [crossing_exact, h1, Option.some_bind, h0, if_true]⟩
  · obtain ⟨y, m⟩ := r1
    simp only at a1 a2 a3 h0
    have hnb := a5 h0
    have hg := wf.get_neighbor_eq hM.2 (Nat.pos_of_ne_zero h0) a1 y
      (exit_face_exact direction direction_signs prev)
      (decide (direction_signs.get (exit_face_exact direction direction_signs prev) > 1 / 2)) hnb
    obtain ⟨n1, -, n3, -⟩ := wf.get_neighbor_sound hM.2
      (exit_face_exact direction direction_signs prev)
      (direction_signs.get (exit_face_exact direction direction_signs prev)) hsgn h0 a1 y a2 a3
      hnb _ hg
    obtain ⟨r3, h3⟩ := wf.descend_till_leaf_total hM inner
      ⟨y.set (exit_face_exact direction direction_signs prev)
        (1 - direction_signs.get (exit_face_exact direction direction_signs prev)),
        ((t.m_nodes (t.m_nodes m).m_parent_id).m_children_id +
          (m - (t.m_nodes (t.m_nodes m).m_parent_id).m_children_id ^^^
            1 <<< (exit_face_exact direction direction_signs prev).val) % 2 ^ 32) % 65536⟩
      n1 n3 (by simp only; omega)
    refine ⟨false, r3, ?_⟩
    simp only [crossing_exact, h1, Option.some_bind, h0, if_false]
    unfold exit_side_exact
    rw [hg, Option.some_bind, h3]
    rfl

/-- What one crossing returns when it leaves the tree: the root, with the point on the exit
face of the root cube, at the global point of the exit. -/
theorem WellFormed.crossing_exact_true_sound {t : SparseOctree V MaxSize} (wf : WellFormed t)
    (hM : MaxSize < 65536) {direction direction_signs : Vector3}
    (hd : consistent_signs direction direction_signs) (inner : Nat)
    (prev out : SparseOctreeLocation) (hn : prev.m_node_id < t.m_size)
    (hx : is_saturated prev.m_local_coords)
    (h : t.crossing_exact inner direction direction_signs prev = some (true, out)) :
    out.m_node_id = 0 ∧ is_saturated out.m_local_coords ∧
    out.m_local_coords.get (exit_face_exact direction direction_signs prev) =
      direction_signs.get (exit_face_exact direction direction_signs prev) ∧
    ∀ g, GlobalOf t out g ↔ GlobalOf t (exit_location_exact direction direction_signs prev) g := by
  have hsgn := hd.sign_cases (exit_face_exact direction direction_signs prev)
  simp only [crossing_exact, exit_side_exact, Option.bind_eq_some] at h
  obtain ⟨r1, h1, h2⟩ := h
  obtain ⟨-, a2, a3, a4, -⟩ := wf.ascend_till_has_neighbor_exact_sound hM
    (exit_face_exact direction direction_signs prev)
    (direction_signs.get (exit_face_exact direction direction_signs prev)) hsgn inner
    (exit_location_exact direction direction_signs prev) r1
    (by simpa only [exit_location_exact] using hn) (exit_location_exact_saturated prev hd hx)
    (exit_location_exact_face prev hd) h1
  by_cases h0 : r1.m_node_id = 0
  · simp only [h0, if_true, Option.some.injEq, Prod.mk.injEq, true_and] at h2
    subst h2
    exact ⟨h0, a2, a3, a4⟩
  · simp only [h0, if_false, Option.bind_eq_some, Option.map_eq_some', Prod.mk.injEq] at h2
    obtain ⟨_, _, _, _, hf, _⟩ := h2
    exact absurd hf (by simp)

/-! ## The crossing stays on the ray; leaving the tree -/

/-- In exact arithmetic the crossing stays on the ray: on a reachable tree, from a location `prev` at an
allocated node with local coordinates in the unit cube, for a direction without zero
component and consistent with `direction_signs`, one crossing of `find_next_intersection`
returns a location `out` with `calculate_coords out` equal to `calculate_coords` of the
point `prev.local_coords + t[face] * direction` in the node of `prev`, and this global point
is the global point of `prev` plus a non-negative multiple of the direction. -/
theorem crossing_exact_on_ray [Inhabited V] (hM : ValidCapacity MaxSize)
    (t : SparseOctree V MaxSize) (hr : Reachable t) (direction direction_signs : Vector3)
    (hd : consistent_signs direction direction_signs) (prev : SparseOctreeLocation)
    (hn : prev.m_node_id < t.get_size) (hx : is_saturated prev.m_local_coords)
    (inner fuel : Nat) (hi : t.get_size ≤ inner) (hf : t.get_size ≤ fuel) :
    ∃ b out g0 g1 τ, t.crossing_exact inner direction direction_signs prev = some (b, out) ∧
      t.calculate_coords fuel out = some g1 ∧
      t.calculate_coords fuel (exit_location_exact direction direction_signs prev) = some g1 ∧
      t.calculate_coords fuel prev = some g0 ∧
      0 ≤ τ ∧ g1 = Vector3.add g0 (Vector3.smul τ direction) := by
  have wf := hr.wellFormed
  simp only [get_size] at hn hi hf
  obtain ⟨b, out, hc⟩ := wf.crossing_exact_total hM hd inner prev hn hx hi
  obtain ⟨o, s, hs, -, hg0, hg1⟩ := wf.globalOf_exit hM.2 hd prev hn hx
  have hadv := advance_exact_nonneg prev hd hx
  have hout : out.m_node_id < t.m_size ∧
      ∀ g, GlobalOf t out g ↔ GlobalOf t (exit_location_exact direction direction_signs prev) g := by
    cases b with
    | true =>
      obtain ⟨c1, -, -, c4⟩ := wf.crossing_exact_true_sound hM.2 hd inner prev out hn hx hc
      exact ⟨by rw [c1]; exact wf.size_pos, c4⟩
    | false =>
      obtain ⟨c1, -, -, -, c5⟩ := wf.crossing_exact_sound hM.2 hd inner prev out hn hx hc
      exact ⟨c1, c5⟩
  refine ⟨b, out, _, _, s * advance_exact direction direction_signs prev, hc,
    wf.calculate_coords_complete ((hout.2 _).mpr hg1) hout.1 fuel (by omega),
    wf.calculate_coords_complete hg1 (by simpa only [exit_location_exact] using hn) fuel
      (by simp only [exit_location_exact]; omega),
    wf.calculate_coords_complete hg0 hn fuel (by omega), mul_nonneg (le_of_lt hs) hadv, rfl⟩

/-- In exact arithmetic, leaving the tree: under the same preconditions one crossing
returns, and it reports `true` exactly when the node of `prev` and
every ancestor of it below the root has its octant bit of the exit axis `face` equal to
`side`; when it reports `true` the output location is at the root, its coordinates lie in
the unit cube and its coordinate on the axis `face` equals `direction_signs[face]`. -/
theorem leaving_the_tree_exact [Inhabited V] (hM : ValidCapacity MaxSize)
    (t : SparseOctree V MaxSize) (hr : Reachable t) (direction direction_signs : Vector3)
    (hd : consistent_signs direction direction_signs) (prev : SparseOctreeLocation)
    (hn : prev.m_node_id < t.get_size) (hx : is_saturated prev.m_local_coords)
    (inner : Nat) (hi : t.get_size ≤ inner) :
    ∃ b out, t.crossing_exact inner direction direction_signs prev = some (b, out) ∧
      (b = true ↔ ∀ a, Ancestor t a prev.m_node_id → a ≠ t.get_root_id →
        octant_bit t (exit_face_exact direction direction_signs prev) a =
          exit_side_exact direction direction_signs prev) ∧
      (b = true → out.m_node_id = t.get_root_id ∧ is_saturated out.m_local_coords ∧
        out.m_local_coords.get (exit_face_exact direction direction_signs prev) =
          direction_signs.get (exit_face_exact direction direction_signs prev)) := by
  have wf := hr.wellFormed
  simp only [get_size, get_root_id] at hn hi ⊢
  obtain ⟨b, out, hc⟩ := wf.crossing_exact_total hM hd inner prev hn hx hi
  refine ⟨b, out, hc, ?_, ?_⟩
  · have hc1 := hc
    simp only [crossing_exact, Option.bind_eq_some] at hc1
    obtain ⟨r1, h1, h2⟩ := hc1
    have key := wf.ascend_till_has_neighbor_exact_root_iff
      (exit_face_exact direction direction_signs prev) (exit_side_exact direction direction_signs prev)
      inner (exit_location_exact direction direction_signs prev) r1
      (by simpa only [exit_location_exact] using hn) h1
    have e : (exit_location_exact direction direction_signs prev).m_node_id = prev.m_node_id := rfl
    rw [e] at key
    rw [← key]
    by_cases h0 : r1.m_node_id = 0
    · simp only [h0, if_true, Option.some.injEq, Prod.mk.injEq] at h2
      simp only [h0, iff_true]
      exact h2.1.symm
    · simp only [h0, if_false, Option.bind_eq_some, Option.map_eq_some', Prod.mk.injEq] at h2
      obtain ⟨_, _, _, _, hb, _⟩ := h2
      simp only [h0, iff_false]
      rw [← hb]
      simp
  · intro hb
    subst hb
    obtain ⟨c1, c2, c3, -⟩ := wf.crossing_exact_true_sound hM.2 hd inner prev out hn hx hc
    exact ⟨c1, c2, c3⟩

/-! ## Degenerate crossings -/

/-- When the two location arguments are distinct objects, a degenerate crossing that does
not leave the tree is repeated from the same `prev_intersection` for ever: the call
returns for no amount of fuel. -/
theorem find_next_intersection_exact_unaliased_degenerate (t : SparseOctree V MaxSize)
    (inner : Nat) (direction direction_signs : Vector3) (prev L : SparseOctreeLocation)
    (hc : t.crossing_exact inner direction direction_signs prev = some (false, L))
    (ha : advance_exact direction direction_signs prev < 1 / 1000000) (fuel : Nat) :
    t.find_next_intersection_exact inner direction direction_signs false fuel prev = none := by
  induction fuel with
  | zero => rfl
  | succ fuel ih =>
    rw [find_next_intersection_exact_succ, hc, Option.some_bind]
    simp only [Bool.false_eq_true, if_false, not_le.mpr ha, ge_iff_le]
    exact ih

/-- When the two location arguments are the same object, a degenerate crossing that does
not leave the tree is followed by the call started at the newly entered leaf. -/
theorem find_next_intersection_exact_aliased_degenerate (t : SparseOctree V MaxSize)
    (inner : Nat) (direction direction_signs : Vector3) (prev L : SparseOctreeLocation)
    (hc : t.crossing_exact inner direction direction_signs prev = some (false, L))
    (ha : advance_exact direction direction_signs prev < 1 / 1000000) (fuel : Nat) :
    t.find_next_intersection_exact inner direction direction_signs true (fuel + 1) prev =
      t.find_next_intersection_exact inner direction direction_signs true fuel L := by
  rw [find_next_intersection_exact_succ, hc, Option.some_bind]
  simp only [Bool.false_eq_true, if_false, not_le.mpr ha, ge_iff_le, if_true]

/-- A call that returns `false` ends with a crossing whose advance distance is at least
`1e-6`. -/
theorem find_next_intersection_exact_false_advance (t : SparseOctree V MaxSize)
    (inner : Nat) (direction direction_signs : Vector3) (aliased : Bool)
    (out : SparseOctreeLocation) (fuel : Nat) :
    ∀ prev, t.find_next_intersection_exact inner direction direction_signs aliased fuel prev =
        some (false, out) →
      ∃ last, t.crossing_exact inner direction direction_signs last = some (false, out) ∧
        advance_exact direction direction_signs last ≥ 1 / 1000000 := by
  induction fuel with
  | zero => intro prev h; simp [find_next_intersection_exact] at h
  | succ fuel ih =>
    intro prev h
    rw [find_next_intersection_exact_succ, Option.bind_eq_some] at h
    obtain ⟨⟨b, r⟩, hc, h⟩ := h
    cases b with
    | true => simp at h
    | false =>
      simp only [Bool.false_eq_true, if_false] at h
      by_cases hbig : advance_exact direction direction_signs prev ≥ 1 / 1000000
      · simp only [hbig, if_true, Option.some.injEq, Prod.mk.injEq, true_and] at h
        subst h
        exact ⟨prev, hc, hbig⟩
      · simp only [hbig, if_false] at h
        exact ih _ h

/-- The point `(1/2, 1/4, 1/4)` is located in the root's child 0, on its upper `x` face. -/
theorem degenerate_start :
    split_root64.calculate_location 9 ⟨1 / 2, 1 / 4, 1 / 4⟩ =
      some ⟨⟨1, 1 / 2, 1 / 2⟩, 1⟩ := by
  have h := (calculate_location_split_once (by decide) split_root64 rfl
    ⟨1 / 2, 1 / 4, 1 / 4⟩ (by norm_num [is_saturated]) 9 (by decide)).1
  have e : descend_coords ⟨1 / 2, 1 / 4, 1 / 4⟩ = ⟨1, 1 / 2, 1 / 2⟩ := by
    norm_num [descend_coords, upper, Vector3.smul]
  have e1 : 1 + octant ⟨1 / 2, 1 / 4, 1 / 4⟩ = 1 := by
    norm_num [octant, upper]
  rw [e, e1] at h
  exact h

/-! ## Scaling the direction -/

theorem min_index_smul (c : ℚ) (hc : 0 < c) (w : Vector3) :
    min_index (Vector3.smul c w) = min_index w := by
  obtain ⟨a, b, d⟩ := w
  simp only [min_index, Vector3.smul, Vector3.get]
  have h1 : c * b < c * a ↔ b < a := mul_lt_mul_left hc
  have h2 : c * d < c * b ↔ d < b := mul_lt_mul_left hc
  have h3 : c * d < c * a ↔ d < a := mul_lt_mul_left hc
  by_cases e1 : b < a
  · by_cases e2 : d < b
    · simp only [h1.mpr e1, h2.mpr e2, e1, e2, if_true]
    · simp only [h1.mpr e1, mt h2.mp e2, e1, e2, if_true, if_false]
  · by_cases e3 : d < a
    · simp only [mt h1.mp e1, h3.mpr e3, e1, e3, if_true, if_false]
    · simp only [mt h1.mp e1, mt h3.mp e3, e1, e3, if_false]

theorem exit_distances_exact_smul (c : ℚ) (v s : Vector3) (prev : SparseOctreeLocation) :
    exit_distances_exact (Vector3.smul c v) s prev = Vector3.smul (1 / c) (exit_distances_exact v s prev) := by
  apply Vector3.ext_get
  intro i
  simp only [exit_distances_exact, Vector3.get_div, Vector3.get_sub, Vector3.get_smul]
  rw [div_mul_eq_div_div_swap, one_div_mul_eq_div]

theorem exit_face_exact_smul (c : ℚ) (hc : 0 < c) (v s : Vector3) (prev : SparseOctreeLocation) :
    exit_face_exact (Vector3.smul c v) s prev = exit_face_exact v s prev := by
  unfold exit_face_exact
  rw [exit_distances_exact_smul, min_index_smul _ (by positivity)]

theorem advance_exact_smul (c : ℚ) (hc : 0 < c) (v s : Vector3) (prev : SparseOctreeLocation) :
    advance_exact (Vector3.smul c v) s prev = advance_exact v s prev / c := by
  unfold advance_exact
  rw [exit_face_exact_smul c hc, exit_distances_exact_smul, Vector3.get_smul]
  ring

/-- One crossing does not depend on the length of the direction. -/
theorem crossing_exact_smul (t : SparseOctree V MaxSize) (inner : Nat) (c : ℚ) (hc : 0 < c)
    (v s : Vector3) (prev : SparseOctreeLocation) :
    t.crossing_exact inner (Vector3.smul c v) s prev = t.crossing_exact inner v s prev := by
  have e : exit_location_exact (Vector3.smul c v) s prev = exit_location_exact v s prev := by
    unfold exit_location_exact
    rw [advance_exact_smul c hc]
    congr 1
    apply Vector3.ext_get
    intro i
    simp only [Vector3.get_add, Vector3.get_smul]
    field_simp
    ring
  simp only [crossing_exact, exit_side_exact, exit_face_exact_smul c hc, e]

/-! ## The trace of the test suite -/

/-- The tree `trace_tree` is reachable. -/
theorem trace_tree_reachable : Reachable trace_tree.1 :=
  reachable_split_all [0, 2, 9, 3] SparseOctree.new trace_tree.1 trace_tree.2
    Reachable.fresh (by decide) (by rfl)

/-- The ids of the test `Trace`. -/
theorem trace_tree_ids :
    trace_tree.1.get_child_id 0 1 = some 2 ∧ trace_tree.1.get_child_id 2 0 = some 9 ∧
    trace_tree.1.get_child_id 9 7 = some 24 ∧ trace_tree.1.get_child_id 2 6 = some 15 ∧
    trace_tree.1.get_child_id 0 0 = some 1 ∧ trace_tree.1.get_child_id 0 6 = some 7 ∧
    trace_tree.1.get_child_id 0 2 = some 3 := by
  decide

/-- Crossing 1 of the trace, along `(-15, 10, 8)`. -/
theorem trace_crossing_1 (n : Nat) :
    trace_tree.1.crossing_exact (n + 4) ⟨-15, 10, 8⟩ ⟨0, 1, 1⟩ ⟨⟨1, 0, 0⟩, 10⟩ =
      some (false, ⟨⟨1, 1 / 3, 1 / 15⟩, 24⟩) ∧
    advance_exact ⟨-15, 10, 8⟩ ⟨0, 1, 1⟩ ⟨⟨1, 0, 0⟩, 10⟩ = 1 / 15 := by
  have wf := trace_tree_reachable.wellFormed
  have hadv : advance_exact ⟨-15, 10, 8⟩ ⟨0, 1, 1⟩ ⟨⟨1, 0, 0⟩, 10⟩ = 1 / 15 := by
    norm_num [advance_exact, exit_face_exact, exit_distances_exact, min_index, Vector3.div, Vector3.sub,
      Vector3.get]
  have hface : exit_face_exact ⟨-15, 10, 8⟩ ⟨0, 1, 1⟩ ⟨⟨1, 0, 0⟩, 10⟩ = 0 := by
    norm_num [exit_face_exact, exit_distances_exact, min_index, Vector3.div, Vector3.sub, Vector3.get]
  have hside : decide ((⟨0, 1, 1⟩ : Vector3).get 0 > 1 / 2) = false := by
    norm_num [Vector3.get]
  have hexit : Vector3.add ⟨1, 0, 0⟩ (Vector3.smul (1 / 15) ⟨-15, 10, 8⟩) =
      ⟨0, 2 / 3, 8 / 15⟩ := by
    norm_num [Vector3.add, Vector3.smul]
  have hn10 : ∀ y, trace_tree.1.has_neighbor ⟨y, 10⟩ 0 false = some true := fun y => by
    rw [wf.has_neighbor_octant_bit (by decide) (by decide)]
    decide
  have hg : ∀ y, trace_tree.1.get_neighbor ⟨y, 10⟩ 0 false = some 9 := fun y => by
    rw [wf.get_neighbor_eq (by decide) (by decide) (by decide) y 0 false (hn10 y)]
    decide
  have hset : (⟨0, 2 / 3, 8 / 15⟩ : Vector3).set 0 (1 - (⟨0, 1, 1⟩ : Vector3).get 0) =
      ⟨1, 2 / 3, 8 / 15⟩ := by
    norm_num [Vector3.set, Vector3.get]
  have hk9 : (trace_tree.1.m_nodes 9).m_children_id ≠ Null := by decide
  have hd9 : trace_tree.1.descend ⟨⟨1, 2 / 3, 8 / 15⟩, 9⟩ = some ⟨⟨1, 1 / 3, 1 / 15⟩, 24⟩ := by
    rw [wf.descend_allocated (by decide) (by decide) (by decide) _
      (by norm_num [is_saturated])]
    have e : (trace_tree.1.m_nodes 9).m_children_id = 17 := by decide
    rw [e]
    norm_num [descend_coords, octant, upper, Vector3.smul]
  have hq9 : trace_tree.1.node 9 = some (trace_tree.1.m_nodes 9) := rfl
  have hk24 : (trace_tree.1.m_nodes 24).m_children_id = Null := by decide
  have hq24 : trace_tree.1.node 24 = some (trace_tree.1.m_nodes 24) := rfl
  refine ⟨?_, hadv⟩
  simp only [crossing_exact, exit_side_exact, exit_location_exact, ascend_till_has_neighbor_exact,
    descend_till_leaf, Option.some_bind, ne_eq, OfNat.ofNat_ne_zero, one_ne_zero,
    not_false_eq_true, not_true_eq_false, if_true, if_false, Bool.not_true, Bool.not_false,
    Bool.false_eq_true, Nat.reduceMod, Option.map_some', hface, hadv, hside, hexit, hn10,
    hg, hset, hk9, hd9, hq9, hk24, hq24]

/-- Crossing 2 of the trace, along `(-15, 10, 8)`. -/
theorem trace_crossing_2 (n : Nat) :
    trace_tree.1.crossing_exact (n + 4) ⟨-15, 10, 8⟩ ⟨0, 1, 1⟩ ⟨⟨1, 1 / 3, 1 / 15⟩, 24⟩ =
      some (false, ⟨⟨1, 1, 3 / 5⟩, 23⟩) ∧
    advance_exact ⟨-15, 10, 8⟩ ⟨0, 1, 1⟩ ⟨⟨1, 1 / 3, 1 / 15⟩, 24⟩ = 1 / 15 := by
  have wf := trace_tree_reachable.wellFormed
  have hadv : advance_exact ⟨-15, 10, 8⟩ ⟨0, 1, 1⟩ ⟨⟨1, 1 / 3, 1 / 15⟩, 24⟩ = 1 / 15 := by
    norm_num [advance_exact, exit_face_exact, exit_distances_exact, min_index, Vector3.div, Vector3.sub,
      Vector3.get]
  have hface : exit_face_exact ⟨-15, 10, 8⟩ ⟨0, 1, 1⟩ ⟨⟨1, 1 / 3, 1 / 15⟩, 24⟩ = 0 := by
    norm_num [exit_face_exact, exit_distances_exact, min_index, Vector3.div, Vector3.sub, Vector3.get]
  have hside : decide ((⟨0, 1, 1⟩ : Vector3).get 0 > 1 / 2) = false := by
    norm_num [Vector3.get]
  have hexit : Vector3.add ⟨1, 1 / 3, 1 / 15⟩ (Vector3.smul (1 / 15) ⟨-15, 10, 8⟩) =
      ⟨0, 1, 3 / 5⟩ := by
    norm_num [Vector3.add, Vector3.smul]
  have hn24 : ∀ y, trace_tree.1.has_neighbor ⟨y, 24⟩ 0 false = some true := fun y => by
    rw [wf.has_neighbor_octant_bit (by decide) (by decide)]
    decide
  have hg : ∀ y, trace_tree.1.get_neighbor ⟨y, 24⟩ 0 false = some 23 := fun y => by
    rw [wf.get_neighbor_eq (by decide) (by decide) (by decide) y 0 false (hn24 y)]
    decide
  have hset : (⟨0, 1, 3 / 5⟩ : Vector3).set 0 (1 - (⟨0, 1, 1⟩ : Vector3).get 0) =
      ⟨1, 1, 3 / 5⟩ := by
    norm_num [Vector3.set, Vector3.get]
  have hk23 : (trace_tree.1.m_nodes 23).m_children_id = Null := by decide
  have hq23 : trace_tree.1.node 23 = some (trace_tree.1.m_nodes 23) := rfl
  refine ⟨?_, hadv⟩
  simp only [crossing_exact, exit_side_exact, exit_location_exact, ascend_till_has_neighbor_exact,
    descend_till_leaf, Option.some_bind, ne_eq, OfNat.ofNat_ne_zero, one_ne_zero,
    not_false_eq_true, not_true_eq_false, if_true, if_false, Bool.not_true, Bool.not_false,
    Bool.false_eq_true, Nat.reduceMod, Option.map_some', hface, hadv, hside, hexit, hn24,
    hg, hset, hk23, hq23]

/-- Crossing 3 of the trace, along `(-15, 10, 8)`. -/
theorem trace_crossing_3 (n : Nat) :
    trace_tree.1.crossing_exact (n + 4) ⟨-15, 10, 8⟩ ⟨0, 1, 1⟩ ⟨⟨1, 1, 3 / 5⟩, 23⟩ =
      some (false, ⟨⟨1 / 2, 0, 4 / 5⟩, 11⟩) ∧
    advance_exact ⟨-15, 10, 8⟩ ⟨0, 1, 1⟩ ⟨⟨1, 1, 3 / 5⟩, 23⟩ = 0 := by
  have wf := trace_tree_reachable.wellFormed
  have hadv : advance_exact ⟨-15, 10, 8⟩ ⟨0, 1, 1⟩ ⟨⟨1, 1, 3 / 5⟩, 23⟩ = 0 := by
    norm_num [advance_exact, exit_face_exact, exit_distances_exact, min_index, Vector3.div, Vector3.sub,
      Vector3.get]
  have hface : exit_face_exact ⟨-15, 10, 8⟩ ⟨0, 1, 1⟩ ⟨⟨1, 1, 3 / 5⟩, 23⟩ = 1 := by
    norm_num [exit_face_exact, exit_distances_exact, min_index, Vector3.div, Vector3.sub, Vector3.get]
  have hside : decide ((⟨0, 1, 1⟩ : Vector3).get 1 > 1 / 2) = true := by
    norm_num [Vector3.get]
  have hexit : Vector3.add ⟨1, 1, 3 / 5⟩ (Vector3.smul (0) ⟨-15, 10, 8⟩) =
      ⟨1, 1, 3 / 5⟩ := by
    norm_num [Vector3.add, Vector3.smul]
  have hn23 : ∀ y, trace_tree.1.has_neighbor ⟨y, 23⟩ 1 true = some false := fun y => by
    rw [wf.has_neighbor_octant_bit (by decide) (by decide)]
    decide
  have ha23 : trace_tree.1.ascend ⟨⟨1, 1, 3 / 5⟩, 23⟩ = some ⟨⟨1 / 2, 1, 4 / 5⟩, 9⟩ := by
    rw [wf.ascend_allocated (by decide) (by decide) (by decide) _
      (by norm_num [is_saturated])]
    have e1 : (trace_tree.1.m_nodes 23).m_parent_id = 9 := by decide
    have e2 : (trace_tree.1.m_nodes 9).m_children_id = 17 := by decide
    rw [e1, e2]
    norm_num [ascend_coords]
  have hn9 : ∀ y, trace_tree.1.has_neighbor ⟨y, 9⟩ 1 true = some true := fun y => by
    rw [wf.has_neighbor_octant_bit (by decide) (by decide)]
    decide
  have hg : ∀ y, trace_tree.1.get_neighbor ⟨y, 9⟩ 1 true = some 11 := fun y => by
    rw [wf.get_neighbor_eq (by decide) (by decide) (by decide) y 1 true (hn9 y)]
    decide
  have hset : (⟨1 / 2, 1, 4 / 5⟩ : Vector3).set 1 (1 - (⟨0, 1, 1⟩ : Vector3).get 1) =
      ⟨1 / 2, 0, 4 / 5⟩ := by
    norm_num [Vector3.set, Vector3.get]
  have hk11 : (trace_tree.1.m_nodes 11).m_children_id = Null := by decide
  have hq11 : trace_tree.1.node 11 = some (trace_tree.1.m_nodes 11) := rfl
  refine ⟨?_, hadv⟩
  simp only [crossing_exact, exit_side_exact, exit_location_exact, ascend_till_has_neighbor_exact,
    descend_till_leaf, Option.some_bind, ne_eq, OfNat.ofNat_ne_zero, one_ne_zero,
    not_false_eq_true, not_true_eq_false, if_true, if_false, Bool.not_true, Bool.not_false,
    Bool.false_eq_true, Nat.reduceMod, Option.map_some', hface, hadv, hside, hexit, hn23,
    ha23, hn9, hg, hset, hk11, hq11]

/-- Crossing 4 of the trace, along `(-15, 10, 8)`. -/
theorem trace_crossing_4 (n : Nat) :
    trace_tree.1.crossing_exact (n + 4) ⟨-15, 10, 8⟩ ⟨0, 1, 1⟩ ⟨⟨1 / 2, 0, 4 / 5⟩, 11⟩ =
      some (false, ⟨⟨1 / 8, 1 / 4, 0⟩, 15⟩) ∧
    advance_exact ⟨-15, 10, 8⟩ ⟨0, 1, 1⟩ ⟨⟨1 / 2, 0, 4 / 5⟩, 11⟩ = 1 / 40 := by
  have wf := trace_tree_reachable.wellFormed
  have hadv : advance_exact ⟨-15, 10, 8⟩ ⟨0, 1, 1⟩ ⟨⟨1 / 2, 0, 4 / 5⟩, 11⟩ = 1 / 40 := by
    norm_num [advance_exact, exit_face_exact, exit_distances_exact, min_index, Vector3.div, Vector3.sub,
      Vector3.get]
  have hface : exit_face_exact ⟨-15, 10, 8⟩ ⟨0, 1, 1⟩ ⟨⟨1 / 2, 0, 4 / 5⟩, 11⟩ = 2 := by
    norm_num [exit_face_exact, exit_distances_exact, min_index, Vector3.div, Vector3.sub, Vector3.get]
  have hside : decide ((⟨0, 1, 1⟩ : Vector3).get 2 > 1 / 2) = true := by
    norm_num [Vector3.get]
  have hexit : Vector3.add ⟨1 / 2, 0, 4 / 5⟩ (Vector3.smul (1 / 40) ⟨-15, 10, 8⟩) =
      ⟨1 / 8, 1 / 4, 1⟩ := by
    norm_num [Vector3.add, Vector3.smul]
  have hn11 : ∀ y, trace_tree.1.has_neighbor ⟨y, 11⟩ 2 true = some true := fun y => by
    rw [wf.has_neighbor_octant_bit (by decide) (by decide)]
    decide
  have hg : ∀ y, trace_tree.1.get_neighbor ⟨y, 11⟩ 2 true = some 15 := fun y => by
    rw [wf.get_neighbor_eq (by decide) (by decide) (by decide) y 2 true (hn11 y)]
    decide
  have hset : (⟨1 / 8, 1 / 4, 1⟩ : Vector3).set 2 (1 - (⟨0, 1, 1⟩ : Vector3).get 2) =
      ⟨1 / 8, 1 / 4, 0⟩ := by
    norm_num [Vector3.set, Vector3.get]
  have hk15 : (trace_tree.1.m_nodes 15).m_children_id = Null := by decide
  have hq15 : trace_tree.1.node 15 = some (trace_tree.1.m_nodes 15) := rfl
  refine ⟨?_, hadv⟩
  simp only [crossing_exact, exit_side_exact, exit_location_exact, ascend_till_has_neighbor_exact,
    descend_till_leaf, Option.some_bind, ne_eq, OfNat.ofNat_ne_zero, one_ne_zero,
    not_false_eq_true, not_true_eq_false, if_true, if_false, Bool.not_true, Bool.not_false,
    Bool.false_eq_true, Nat.reduceMod, Option.map_some', hface, hadv, hside, hexit, hn11,
    hg, hset, hk15, hq15]

/-- Crossing 5 of the trace, along `(-15, 10, 8)`. -/
theorem trace_crossing_5 (n : Nat) :
    trace_tree.1.crossing_exact (n + 4) ⟨-15, 10, 8⟩ ⟨0, 1, 1⟩ ⟨⟨1 / 8, 1 / 4, 0⟩, 15⟩ =
      some (false, ⟨⟨1, 2 / 3, 8 / 15⟩, 1⟩) ∧
    advance_exact ⟨-15, 10, 8⟩ ⟨0, 1, 1⟩ ⟨⟨1 / 8, 1 / 4, 0⟩, 15⟩ = 1 / 120 := by
  have wf := trace_tree_reachable.wellFormed
  have hadv : advance_exact ⟨-15, 10, 8⟩ ⟨0, 1, 1⟩ ⟨⟨1 / 8, 1 / 4, 0⟩, 15⟩ = 1 / 120 := by
    norm_num [advance_exact, exit_face_exact, exit_distances_exact, min_index, Vector3.div, Vector3.sub,
      Vector3.get]
  have hface : exit_face_exact ⟨-15, 10, 8⟩ ⟨0, 1, 1⟩ ⟨⟨1 / 8, 1 / 4, 0⟩, 15⟩ = 0 := by
    norm_num [exit_face_exact, exit_distances_exact, min_index, Vector3.div, Vector3.sub, Vector3.get]
  have hside : decide ((⟨0, 1, 1⟩ : Vector3).get 0 > 1 / 2) = false := by
    norm_num [Vector3.get]
  have hexit : Vector3.add ⟨1 / 8, 1 / 4, 0⟩ (Vector3.smul (1 / 120) ⟨-15, 10, 8⟩) =
      ⟨0, 1 / 3, 1 / 15⟩ := by
    norm_num [Vector3.add, Vector3.smul]
  have hn15 : ∀ y, trace_tree.1.has_neighbor ⟨y, 15⟩ 0 false = some false := fun y => by
    rw [wf.has_neighbor_octant_bit (by decide) (by decide)]
    decide
  have ha15 : trace_tree.1.ascend ⟨⟨0, 1 / 3, 1 / 15⟩, 15⟩ = some ⟨⟨0, 2 / 3, 8 / 15⟩, 2⟩ := by
    rw [wf.ascend_allocated (by decide) (by decide) (by decide) _
      (by norm_num [is_saturated])]
    have e1 : (trace_tree.1.m_nodes 15).m_parent_id = 2 := by decide
    have e2 : (trace_tree.1.m_nodes 2).m_children_id = 9 := by decide
    rw [e1, e2]
    norm_num [ascend_coords]
  have hn2 : ∀ y, trace_tree.1.has_neighbor ⟨y, 2⟩ 0 false = some true := fun y => by
    rw [wf.has_neighbor_octant_bit (by decide) (by decide)]
    decide
  have hg : ∀ y, trace_tree.1.get_neighbor ⟨y, 2⟩ 0 false = some 1 := fun y => by
    rw [wf.get_neighbor_eq (by decide) (by decide) (by decide) y 0 false (hn2 y)]
    decide
  have hset : (⟨0, 2 / 3, 8 / 15⟩ : Vector3).set 0 (1 - (⟨0, 1, 1⟩ : Vector3).get 0) =
      ⟨1, 2 / 3, 8 / 15⟩ := by
    norm_num [Vector3.set, Vector3.get]
  have hk1 : (trace_tree.1.m_nodes 1).m_children_id = Null := by decide
  have hq1 : trace_tree.1.node 1 = some (trace_tree.1.m_nodes 1) := rfl
  refine ⟨?_, hadv⟩
  simp only [crossing_exact, exit_side_exact, exit_location_exact, ascend_till_has_neighbor_exact,
    descend_till_leaf, Option.some_bind, ne_eq, OfNat.ofNat_ne_zero, one_ne_zero,
    not_false_eq_true, not_true_eq_false, if_true, if_false, Bool.not_true, Bool.not_false,
    Bool.false_eq_true, Nat.reduceMod, Option.map_some', hface, hadv, hside, hexit, hn15,
    ha15, hn2, hg, hset, hk1, hq1]

/-- Crossing 6 of the trace, along `(-15, 10, 8)`. -/
theorem trace_crossing_6 (n : Nat) :
    trace_tree.1.crossing_exact (n + 4) ⟨-15, 10, 8⟩ ⟨0, 1, 1⟩ ⟨⟨1, 2 / 3, 8 / 15⟩, 1⟩ =
      some (false, ⟨⟨1, 0, 3 / 5⟩, 29⟩) ∧
    advance_exact ⟨-15, 10, 8⟩ ⟨0, 1, 1⟩ ⟨⟨1, 2 / 3, 8 / 15⟩, 1⟩ = 1 / 30 := by
  have wf := trace_tree_reachable.wellFormed
  have hadv : advance_exact ⟨-15, 10, 8⟩ ⟨0, 1, 1⟩ ⟨⟨1, 2 / 3, 8 / 15⟩, 1⟩ = 1 / 30 := by
    norm_num [advance_exact, exit_face_exact, exit_distances_exact, min_index, Vector3.div, Vector3.sub,
      Vector3.get]
  have hface : exit_face_exact ⟨-15, 10, 8⟩ ⟨0, 1, 1⟩ ⟨⟨1, 2 / 3, 8 / 15⟩, 1⟩ = 1 := by
    norm_num [exit_face_exact, exit_distances_exact, min_index, Vector3.div, Vector3.sub, Vector3.get]
  have hside : decide ((⟨0, 1, 1⟩ : Vector3).get 1 > 1 / 2) = true := by
    norm_num [Vector3.get]
  have hexit : Vector3.add ⟨1, 2 / 3, 8 / 15⟩ (Vector3.smul (1 / 30) ⟨-15, 10, 8⟩) =
      ⟨1 / 2, 1, 4 / 5⟩ := by
    norm_num [Vector3.add, Vector3.smul]
  have hn1 : ∀ y, trace_tree.1.has_neighbor ⟨y, 1⟩ 1 true = some true := fun y => by
    rw [wf.has_neighbor_octant_bit (by decide) (by decide)]
    decide
  have hg : ∀ y, trace_tree.1.get_neighbor ⟨y, 1⟩ 1 true = some 3 := fun y => by
    rw [wf.get_neighbor_eq (by decide) (by decide) (by decide) y 1 true (hn1 y)]
    decide
  have hset : (⟨1 / 2, 1, 4 / 5⟩ : Vector3).set 1 (1 - (⟨0, 1, 1⟩ : Vector3).get 1) =
      ⟨1 / 2, 0, 4 / 5⟩ := by
    norm_num [Vector3.set, Vector3.get]
  have hk3 : (trace_tree.1.m_nodes 3).m_children_id ≠ Null := by decide
  have hd3 : trace_tree.1.descend ⟨⟨1 / 2, 0, 4 / 5⟩, 3⟩ = some ⟨⟨1, 0, 3 / 5⟩, 29⟩ := by
    rw [wf.descend_allocated (by decide) (by decide) (by decide) _
      (by norm_num [is_saturated])]
    have e : (trace_tree.1.m_nodes 3).m_children_id = 25 := by decide
    rw [e]
    norm_num [descend_coords, octant, upper, Vector3.smul]
  have hq3 : trace_tree.1.node 3 = some (trace_tree.1.m_nodes 3) := rfl
  have hk29 : (trace_tree.1.m_nodes 29).m_children_id = Null := by decide
  have hq29 : trace_tree.1.node 29 = some (trace_tree.1.m_nodes 29) := rfl
  refine ⟨?_, hadv⟩
  simp only [crossing_exact, exit_side_exact, exit_location_exact, ascend_till_has_neighbor_exact,
    descend_till_leaf, Option.some_bind, ne_eq, OfNat.ofNat_ne_zero, one_ne_zero,
    not_false_eq_true, not_true_eq_false, if_true, if_false, Bool.not_true, Bool.not_false,
    Bool.false_eq_true, Nat.reduceMod, Option.map_some', hface, hadv, hside, hexit, hn1, hg,
    hset, hk3, hd3, hq3, hk29, hq29]

/-- Crossing 7 of the trace, along `(-15, 10, 8)`. -/
theorem trace_crossing_7 (n : Nat) :
    trace_tree.1.crossing_exact (n + 4) ⟨-15, 10, 8⟩ ⟨0, 1, 1⟩ ⟨⟨1, 0, 3 / 5⟩, 29⟩ =
      some (false, ⟨⟨1 / 8, 1 / 4, 0⟩, 7⟩) ∧
    advance_exact ⟨-15, 10, 8⟩ ⟨0, 1, 1⟩ ⟨⟨1, 0, 3 / 5⟩, 29⟩ = 1 / 20 := by
  have wf := trace_tree_reachable.wellFormed
  have hadv : advance_exact ⟨-15, 10, 8⟩ ⟨0, 1, 1⟩ ⟨⟨1, 0, 3 / 5⟩, 29⟩ = 1 / 20 := by
    norm_num [advance_exact, exit_face_exact, exit_distances_exact, min_index, Vector3.div, Vector3.sub,
      Vector3.get]
  have hface : exit_face_exact ⟨-15, 10, 8⟩ ⟨0, 1, 1⟩ ⟨⟨1, 0, 3 / 5⟩, 29⟩ = 2 := by
    norm_num [exit_face_exact, exit_distances_exact, min_index, Vector3.div, Vector3.sub, Vector3.get]
  have hside : decide ((⟨0, 1, 1⟩ : Vector3).get 2 > 1 / 2) = true := by
    norm_num [Vector3.get]
  have hexit : Vector3.add ⟨1, 0, 3 / 5⟩ (Vector3.smul (1 / 20) ⟨-15, 10, 8⟩) =
      ⟨1 / 4, 1 / 2, 1⟩ := by
    norm_num [Vector3.add, Vector3.smul]
  have hn29 : ∀ y, trace_tree.1.has_neighbor ⟨y, 29⟩ 2 true = some false := fun y => by
    rw [wf.has_neighbor_octant_bit (by decide) (by decide)]
    decide
  have ha29 : trace_tree.1.ascend ⟨⟨1 / 4, 1 / 2, 1⟩, 29⟩ = some ⟨⟨1 / 8, 1 / 4, 1⟩, 3⟩ := by
    rw [wf.ascend_allocated (by decide) (by decide) (by decide) _
      (by norm_num [is_saturated])]
    have e1 : (trace_tree.1.m_nodes 29).m_parent_id = 3 := by decide
    have e2 : (trace_tree.1.m_nodes 3).m_children_id = 25 := by decide
    rw [e1, e2]
    norm_num [ascend_coords]
  have hn3 : ∀ y, trace_tree.1.has_neighbor ⟨y, 3⟩ 2 true = some true := fun y => by
    rw [wf.has_neighbor_octant_bit (by decide) (by decide)]
    decide
  have hg : ∀ y, trace_tree.1.get_neighbor ⟨y, 3⟩ 2 true = some 7 := fun y => by
    rw [wf.get_neighbor_eq (by decide) (by decide) (by decide) y 2 true (hn3 y)]
    decide
  have hset : (⟨1 / 8, 1 / 4, 1⟩ : Vector3).set 2 (1 - (⟨0, 1, 1⟩ : Vector3).get 2) =
      ⟨1 / 8, 1 / 4, 0⟩ := by
    norm_num [Vector3.set, Vector3.get]
  have hk7 : (trace_tree.1.m_nodes 7).m_children_id = Null := by decide
  have hq7 : trace_tree.1.node 7 = some (trace_tree.1.m_nodes 7) := rfl
  refine ⟨?_, hadv⟩
  simp only [crossing_exact, exit_side_exact, exit_location_exact, ascend_till_has_neighbor_exact,
    descend_till_leaf, Option.some_bind, ne_eq, OfNat.ofNat_ne_zero, one_ne_zero,
    not_false_eq_true, not_true_eq_false, if_true, if_false, Bool.not_true, Bool.not_false,
    Bool.false_eq_true, Nat.reduceMod, Option.map_some', hface, hadv, hside, hexit, hn29,
    ha29, hn3, hg, hset, hk7, hq7]

/-- Crossing 8 of the trace, along `(-15, 10, 8)`. -/
theorem trace_crossing_8 (n : Nat) :
    trace_tree.1.crossing_exact (n + 4) ⟨-15, 10, 8⟩ ⟨0, 1, 1⟩ ⟨⟨1 / 8, 1 / 4, 0⟩, 7⟩ =
      some (true, ⟨⟨0, 2 / 3, 8 / 15⟩, 0⟩) ∧
    advance_exact ⟨-15, 10, 8⟩ ⟨0, 1, 1⟩ ⟨⟨1 / 8, 1 / 4, 0⟩, 7⟩ = 1 / 120 := by
  have wf := trace_tree_reachable.wellFormed
  have hadv : advance_exact ⟨-15, 10, 8⟩ ⟨0, 1, 1⟩ ⟨⟨1 / 8, 1 / 4, 0⟩, 7⟩ = 1 / 120 := by
    norm_num [advance_exact, exit_face_exact, exit_distances_exact, min_index, Vector3.div, Vector3.sub,
      Vector3.get]
  have hface : exit_face_exact ⟨-15, 10, 8⟩ ⟨0, 1, 1⟩ ⟨⟨1 / 8, 1 / 4, 0⟩, 7⟩ = 0 := by
    norm_num [exit_face_exact, exit_distances_exact, min_index, Vector3.div, Vector3.sub, Vector3.get]
  have hside : decide ((⟨0, 1, 1⟩ : Vector3).get 0 > 1 / 2) = false := by
    norm_num [Vector3.get]
  have hexit : Vector3.add ⟨1 / 8, 1 / 4, 0⟩ (Vector3.smul (1 / 120) ⟨-15, 10, 8⟩) =
      ⟨0, 1 / 3, 1 / 15⟩ := by
    norm_num [Vector3.add, Vector3.smul]
  have hn7 : ∀ y, trace_tree.1.has_neighbor ⟨y, 7⟩ 0 false = some false := fun y => by
    rw [wf.has_neighbor_octant_bit (by decide) (by decide)]
    decide
  have ha7 : trace_tree.1.ascend ⟨⟨0, 1 / 3, 1 / 15⟩, 7⟩ = some ⟨⟨0, 2 / 3, 8 / 15⟩, 0⟩ := by
    rw [wf.ascend_allocated (by decide) (by decide) (by decide) _
      (by norm_num [is_saturated])]
    have e1 : (trace_tree.1.m_nodes 7).m_parent_id = 0 := by decide
    have e2 : (trace_tree.1.m_nodes 0).m_children_id = 1 := by decide
    rw [e1, e2]
    norm_num [ascend_coords]
  refine ⟨?_, hadv⟩
  simp only [crossing_exact, exit_side_exact, exit_location_exact, ascend_till_has_neighbor_exact,
    descend_till_leaf, Option.some_bind, ne_eq, OfNat.ofNat_ne_zero, one_ne_zero,
    not_false_eq_true, not_true_eq_false, if_true, if_false, Bool.not_true, Bool.not_false,
    Bool.false_eq_true, Nat.reduceMod, Option.map_some', hface, hadv, hside, hexit, hn7, ha7]

/-- A non-degenerate crossing ends the call with `false`, for a direction scaled by a factor
of at most 1. -/
theorem find_next_intersection_exact_scaled_false (t : SparseOctree V MaxSize) (inner : Nat)
    (c : ℚ) (hc0 : 0 < c) (hc1 : c ≤ 1) (v s : Vector3) (aliased : Bool)
    (prev out : SparseOctreeLocation)
    (hc : t.crossing_exact inner v s prev = some (false, out))
    (ha : advance_exact v s prev ≥ 1 / 1000000) (fuel : Nat) :
    t.find_next_intersection_exact inner (Vector3.smul c v) s aliased (fuel + 1) prev =
      some (false, out) := by
  have h1 : advance_exact (Vector3.smul c v) s prev ≥ 1 / 1000000 := by
    rw [advance_exact_smul c hc0, ge_iff_le, le_div_iff₀ hc0]
    have h2 : (0 : ℚ) ≤ 1 / 1000000 := by norm_num
    nlinarith
  rw [find_next_intersection_exact_succ, crossing_exact_smul t inner c hc0, hc, Option.some_bind]
  simp only [Bool.false_eq_true, if_false, h1, if_true]

/-- A crossing that reaches the root ends the call with `true`, whatever the length of the
direction. -/
theorem find_next_intersection_exact_scaled_true (t : SparseOctree V MaxSize) (inner : Nat)
    (c : ℚ) (hc0 : 0 < c) (v s : Vector3) (aliased : Bool)
    (prev out : SparseOctreeLocation)
    (hc : t.crossing_exact inner v s prev = some (true, out)) (fuel : Nat) :
    t.find_next_intersection_exact inner (Vector3.smul c v) s aliased (fuel + 1) prev =
      some (true, out) := by
  rw [find_next_intersection_exact_succ, crossing_exact_smul t inner c hc0, hc, Option.some_bind]
  rfl

/-- A crossing of advance distance 0 is followed by the call started at the new leaf, when
both location arguments are the same object. -/
theorem find_next_intersection_exact_scaled_zero (t : SparseOctree V MaxSize) (inner : Nat)
    (c : ℚ) (hc0 : 0 < c) (v s : Vector3) (prev L : SparseOctreeLocation)
    (hc : t.crossing_exact inner v s prev = some (false, L))
    (ha : advance_exact v s prev = 0) (fuel : Nat) :
    t.find_next_intersection_exact inner (Vector3.smul c v) s true (fuel + 1) prev =
      t.find_next_intersection_exact inner (Vector3.smul c v) s true fuel L := by
  have h1 : ¬ advance_exact (Vector3.smul c v) s prev ≥ 1 / 1000000 := by
    rw [advance_exact_smul c hc0, ha, zero_div]
    norm_num
  rw [find_next_intersection_exact_succ, crossing_exact_smul t inner c hc0, hc, Option.some_bind]
  simp only [Bool.false_eq_true, if_false, h1, if_true]

/-- The origin `(1, 0, 0)` of the trace is located in the leaf `child(child(root, 1), 1)`. -/
theorem trace_origin (n : Nat) :
    trace_tree.1.calculate_location (n + 4) ⟨1, 0, 0⟩ = some ⟨⟨1, 0, 0⟩, 10⟩ := by
  have wf := trace_tree_reachable.wellFormed
  have hd0 : trace_tree.1.descend ⟨⟨1, 0, 0⟩, 0⟩ = some ⟨⟨1, 0, 0⟩, 2⟩ := by
    rw [wf.descend_allocated (by decide) (by decide) (by decide) _
      (by norm_num [is_saturated])]
    have e : (trace_tree.1.m_nodes 0).m_children_id = 1 := by decide
    rw [e]
    norm_num [descend_coords, octant, upper, Vector3.smul]
  have hd2 : trace_tree.1.descend ⟨⟨1, 0, 0⟩, 2⟩ = some ⟨⟨1, 0, 0⟩, 10⟩ := by
    rw [wf.descend_allocated (by decide) (by decide) (by decide) _
      (by norm_num [is_saturated])]
    have e : (trace_tree.1.m_nodes 2).m_children_id = 9 := by decide
    rw [e]
    norm_num [descend_coords, octant, upper, Vector3.smul]
  have hk0 : (trace_tree.1.m_nodes 0).m_children_id ≠ Null := by decide
  have hk2 : (trace_tree.1.m_nodes 2).m_children_id ≠ Null := by decide
  have hk10 : (trace_tree.1.m_nodes 10).m_children_id = Null := by decide
  have hq0 : trace_tree.1.node 0 = some (trace_tree.1.m_nodes 0) := rfl
  have hq2 : trace_tree.1.node 2 = some (trace_tree.1.m_nodes 2) := rfl
  have hq10 : trace_tree.1.node 10 = some (trace_tree.1.m_nodes 10) := rfl
  simp only [calculate_location, descend_till_leaf, Option.some_bind, ne_eq,
    not_false_eq_true, not_true_eq_false, if_true, if_false, hd0, hd2, hk0, hk2, hk10, hq0,
    hq2, hq10]

/-- The global coordinates of the location `((1, 1, 3 / 5), 23)`. -/
theorem trace_coords_2 (fuel : Nat) (hf : 23 < fuel) :
    trace_tree.1.calculate_coords fuel ⟨⟨1, 1, 3 / 5⟩, 23⟩ = some ⟨5 / 8, 1 / 4, 1 / 5⟩ := by
  have wf := trace_tree_reachable.wellFormed
  have ha23 : trace_tree.1.ascend ⟨⟨1, 1, 3 / 5⟩, 23⟩ = some ⟨⟨1 / 2, 1, 4 / 5⟩, 9⟩ := by
    rw [wf.ascend_allocated (by decide) (by decide) (by decide) _
      (by norm_num [is_saturated])]
    have e1 : (trace_tree.1.m_nodes 23).m_parent_id = 9 := by decide
    have e2 : (trace_tree.1.m_nodes 9).m_children_id = 17 := by decide
    rw [e1, e2]
    norm_num [ascend_coords]
  have ha9 : trace_tree.1.ascend ⟨⟨1 / 2, 1, 4 / 5⟩, 9⟩ = some ⟨⟨1 / 4, 1 / 2, 2 / 5⟩, 2⟩ := by
    rw [wf.ascend_allocated (by decide) (by decide) (by decide) _
      (by norm_num [is_saturated])]
    have e1 : (trace_tree.1.m_nodes 9).m_parent_id = 2 := by decide
    have e2 : (trace_tree.1.m_nodes 2).m_children_id = 9 := by decide
    rw [e1, e2]
    norm_num [ascend_coords]
  have ha2 : trace_tree.1.ascend ⟨⟨1 / 4, 1 / 2, 2 / 5⟩, 2⟩ = some ⟨⟨5 / 8, 1 / 4, 1 / 5⟩, 0⟩ := by
    rw [wf.ascend_allocated (by decide) (by decide) (by decide) _
      (by norm_num [is_saturated])]
    have e1 : (trace_tree.1.m_nodes 2).m_parent_id = 0 := by decide
    have e2 : (trace_tree.1.m_nodes 0).m_children_id = 1 := by decide
    rw [e1, e2]
    norm_num [ascend_coords]
  have hg : GlobalOf trace_tree.1 ⟨⟨1, 1, 3 / 5⟩, 23⟩ ⟨5 / 8, 1 / 4, 1 / 5⟩ :=
    GlobalOf.up (by decide) ha23 (GlobalOf.up (by decide) ha9 (GlobalOf.up (by decide) ha2 (GlobalOf.root ⟨5 / 8, 1 / 4, 1 / 5⟩)))
  exact wf.calculate_coords_complete hg (by decide) fuel hf

/-- The global coordinates of the location `((1, 0, 3 / 5), 29)`. -/
theorem trace_coords_5 (fuel : Nat) (hf : 29 < fuel) :
    trace_tree.1.calculate_coords fuel ⟨⟨1, 0, 3 / 5⟩, 29⟩ = some ⟨1 / 4, 1 / 2, 2 / 5⟩ := by
  have wf := trace_tree_reachable.wellFormed
  have ha29 : trace_tree.1.ascend ⟨⟨1, 0, 3 / 5⟩, 29⟩ = some ⟨⟨1 / 2, 0, 4 / 5⟩, 3⟩ := by
    rw [wf.ascend_allocated (by decide) (by decide) (by decide) _
      (by norm_num [is_saturated])]
    have e1 : (trace_tree.1.m_nodes 29).m_parent_id = 3 := by decide
    have e2 : (trace_tree.1.m_nodes 3).m_children_id = 25 := by decide
    rw [e1, e2]
    norm_num [ascend_coords]
  have ha3 : trace_tree.1.ascend ⟨⟨1 / 2, 0, 4 / 5⟩, 3⟩ = some ⟨⟨1 / 4, 1 / 2, 2 / 5⟩, 0⟩ := by
    rw [wf.ascend_allocated (by decide) (by decide) (by decide) _
      (by norm_num [is_saturated])]
    have e1 : (trace_tree.1.m_nodes 3).m_parent_id = 0 := by decide
    have e2 : (trace_tree.1.m_nodes 0).m_children_id = 1 := by decide
    rw [e1, e2]
    norm_num [ascend_coords]
  have hg : GlobalOf trace_tree.1 ⟨⟨1, 0, 3 / 5⟩, 29⟩ ⟨1 / 4, 1 / 2, 2 / 5⟩ :=
    GlobalOf.up (by decide) ha29 (GlobalOf.up (by decide) ha3 (GlobalOf.root ⟨1 / 4, 1 / 2, 2 / 5⟩))
  exact wf.calculate_coords_complete hg (by decide) fuel hf

/-- The scenario of the test `Trace` for every rational direction `c * (-15, 10, 8)` with
`0 < c ≤ 1`, with the two location arguments of each call the same object: starting from
`calculate_location (1, 0, 0)`, seven successive calls of `find_next_intersection` return
`false` six times and `true` the seventh time; the results of the calls 1, 3, 4 and 6 are at
the nodes 24, 15, 1 and 7; `calculate_coords` of the results of the calls 2 and 5 is
`(5/8, 2/8, 1.6/8)` and `(1/4, 1/2, 2/5)`, and of the last result `(0, 10/15, 8/15)`. -/
theorem trace_scenario_scaled (c : ℚ) (hc0 : 0 < c) (hc1 : c ≤ 1) (n k : Nat) :
    trace_tree.1.calculate_location (n + 4) ⟨1, 0, 0⟩ = some ⟨⟨1, 0, 0⟩, 10⟩ ∧
    trace_tree.1.find_next_intersection_exact (n + 4) (Vector3.smul c ⟨-15, 10, 8⟩) ⟨0, 1, 1⟩ true
      (k + 2) ⟨⟨1, 0, 0⟩, 10⟩ = some (false, ⟨⟨1, 1 / 3, 1 / 15⟩, 24⟩) ∧
    trace_tree.1.find_next_intersection_exact (n + 4) (Vector3.smul c ⟨-15, 10, 8⟩) ⟨0, 1, 1⟩ true
      (k + 2) ⟨⟨1, 1 / 3, 1 / 15⟩, 24⟩ = some (false, ⟨⟨1, 1, 3 / 5⟩, 23⟩) ∧
    trace_tree.1.find_next_intersection_exact (n + 4) (Vector3.smul c ⟨-15, 10, 8⟩) ⟨0, 1, 1⟩ true
      (k + 2) ⟨⟨1, 1, 3 / 5⟩, 23⟩ = some (false, ⟨⟨1 / 8, 1 / 4, 0⟩, 15⟩) ∧
    trace_tree.1.find_next_intersection_exact (n + 4) (Vector3.smul c ⟨-15, 10, 8⟩) ⟨0, 1, 1⟩ true
      (k + 2) ⟨⟨1 / 8, 1 / 4, 0⟩, 15⟩ = some (false, ⟨⟨1, 2 / 3, 8 / 15⟩, 1⟩) ∧
    trace_tree.1.find_next_intersection_exact (n + 4) (Vector3.smul c ⟨-15, 10, 8⟩) ⟨0, 1, 1⟩ true
      (k + 2) ⟨⟨1, 2 / 3, 8 / 15⟩, 1⟩ = some (false, ⟨⟨1, 0, 3 / 5⟩, 29⟩) ∧
    trace_tree.1.find_next_intersection_exact (n + 4) (Vector3.smul c ⟨-15, 10, 8⟩) ⟨0, 1, 1⟩ true
      (k + 2) ⟨⟨1, 0, 3 / 5⟩, 29⟩ = some (false, ⟨⟨1 / 8, 1 / 4, 0⟩, 7⟩) ∧
    trace_tree.1.find_next_intersection_exact (n + 4) (Vector3.smul c ⟨-15, 10, 8⟩) ⟨0, 1, 1⟩ true
      (k + 2) ⟨⟨1 / 8, 1 / 4, 0⟩, 7⟩ = some (true, ⟨⟨0, 2 / 3, 8 / 15⟩, 0⟩) ∧
    ((trace_tree.1.get_child_id 0 1).bind fun a =>
      (trace_tree.1.get_child_id a 0).bind fun b => trace_tree.1.get_child_id b 7) = some 24 ∧
    ((trace_tree.1.get_child_id 0 1).bind fun a => trace_tree.1.get_child_id a 6) = some 15 ∧
    trace_tree.1.get_child_id 0 0 = some 1 ∧ trace_tree.1.get_child_id 0 6 = some 7 ∧
    trace_tree.1.calculate_coords 33 ⟨⟨1, 1, 3 / 5⟩, 23⟩ =
      some ⟨5 / 8, 2 / 8, (16 / 10) / 8⟩ ∧
    trace_tree.1.calculate_coords 33 ⟨⟨1, 0, 3 / 5⟩, 29⟩ = some ⟨1 / 4, 1 / 2, 2 / 5⟩ ∧
    trace_tree.1.calculate_coords 33 ⟨⟨0, 2 / 3, 8 / 15⟩, 0⟩ = some ⟨0, 10 / 15, 8 / 15⟩ := by
  have s1 := trace_crossing_1 n
  have s2 := trace_crossing_2 n
  have s3 := trace_crossing_3 n
  have s4 := trace_crossing_4 n
  have s5 := trace_crossing_5 n
  have s6 := trace_crossing_6 n
  have s7 := trace_crossing_7 n
  have s8 := trace_crossing_8 n
  refine ⟨trace_origin n, ?_, ?_, ?_, ?_, ?_, ?_, ?_, by decide, by decide, by decide,
    by decide, ?_, ?_, ?_⟩
  · exact find_next_intersection_exact_scaled_false _ _ c hc0 hc1 _ _ true _ _ s1.1
      (by rw [s1.2]; norm_num) (k + 1)
  · exact find_next_intersection_exact_scaled_false _ _ c hc0 hc1 _ _ true _ _ s2.1
      (by rw [s2.2]; norm_num) (k + 1)
  · rw [find_next_intersection_exact_scaled_zero _ _ c hc0 _ _ _ _ s3.1 s3.2 (k + 1)]
    exact find_next_intersection_exact_scaled_false _ _ c hc0 hc1 _ _ true _ _ s4.1
      (by rw [s4.2]; norm_num) k
  · exact find_next_intersection_exact_scaled_false _ _ c hc0 hc1 _ _ true _ _ s5.1
      (by rw [s5.2]; norm_num) (k + 1)
  · exact find_next_intersection_exact_scaled_false _ _ c hc0 hc1 _ _ true _ _ s6.1
      (by rw [s6.2]; norm_num) (k + 1)
  · exact find_next_intersection_exact_scaled_false _ _ c hc0 hc1 _ _ true _ _ s7.1
      (by rw [s7.2]; norm_num) (k + 1)
  · exact find_next_intersection_exact_scaled_true _ _ c hc0 _ _ true _ _ s8.1 (k + 1)
  · rw [trace_coords_2 33 (by decide)]
    norm_num
  · exact trace_coords_5 33 (by decide)
  · norm_num [calculate_coords, calculate_coords_loop]

/-! ## Binary32 rounding -/

/-- A rational within one half of an integer rounds to it. -/
theorem round_half_even_eq (x : ℚ) (m : ℤ) (h : |x - m| < 1 / 2) : round_half_even x = m := by
  have h1 := abs_lt.mp h
  unfold round_half_even
  by_cases hm : (m : ℚ) ≤ x
  · have hf : ⌊x⌋ = m := by
      rw [Int.floor_eq_iff]
      exact ⟨hm, by linarith [h1.2]⟩
    rw [hf, if_pos (by linarith [h1.2])]
  · push_neg at hm
    have hf : ⌊x⌋ = m - 1 := by
      rw [Int.floor_eq_iff]
      push_cast
      exact ⟨by linarith [h1.1], by linarith⟩
    rw [hf]
    push_cast
    rw [if_neg (by linarith [h1.1]), if_pos (by linarith [h1.1])]
    ring

/-- The binade of a rational between two consecutive powers of two. -/
theorem exponent32_eq (q : ℚ) (e : ℤ) (he : -126 ≤ e) (h1 : 2 ^ e ≤ |q|)
    (h2 : |q| < 2 ^ (e + 1)) : exponent32 q = e := by
  have hpos : 0 < |q| := lt_of_lt_of_le (by positivity) h1
  have hl : Int.log 2 |q| = e := by
    apply le_antisymm
    · have := (Int.lt_zpow_iff_log_lt (by norm_num : 1 < 2) hpos).mp h2
      omega
    · exact (Int.zpow_le_iff_le_log (by norm_num : 1 < 2) hpos).mp h1
  unfold exponent32
  rw [hl]
  exact max_eq_left he

/-- Evaluation of `round32` in the normal range: in the binade of exponent `e`, whose
spacing is `p`, a rational nearer than `p / 2` to the multiple `m * p` rounds to it. -/
theorem round32_eq (q : ℚ) (e m : ℤ) (p : ℚ) (hp : p = 2 ^ (e - 23)) (he : -126 ≤ e)
    (h1 : 2 ^ e ≤ |q|) (h2 : |q| < 2 ^ (e + 1)) (hm : |q - m * p| < p / 2) :
    round32 q = m * p := by
  have hpp : 0 < p := by rw [hp]; positivity
  unfold round32 ulp32
  rw [exponent32_eq q e he h1 h2, ← hp]
  congr 1
  norm_cast
  apply round_half_even_eq
  have : q / p - m = (q - m * p) / p := by field_simp; ring
  rw [this, abs_div, abs_of_pos hpp, div_lt_iff₀ hpp]
  linarith

/-- Zero is a binary32 value. -/
theorem round32_zero : round32 0 = 0 := by
  simp [round32, round_half_even]

/-- A multiple `m * p` of the spacing of its own binade is a binary32 value. -/
theorem round32_exact (q : ℚ) (e m : ℤ) (p : ℚ) (hp : p = 2 ^ (e - 23)) (he : -126 ≤ e)
    (h1 : 2 ^ e ≤ |q|) (h2 : |q| < 2 ^ (e + 1)) (hm : q = m * p) : round32 q = q := by
  have hpp : 0 < p := by rw [hp]; positivity
  rw [round32_eq q e m p hp he h1 h2 (by rw [hm, sub_self, abs_zero]; linarith), hm]

/-! ## One descent, one ascent in binary32 -/

/-- The loop of `descend_f32` computes `octant` and the coordinate before the final
scaling. -/
theorem descend_fold_f32 (x : Vector3) :
    [(0 : Fin 3), 1, 2].foldl
        (fun (r : Nat × Vector3) i =>
          if r.2.get i > 1 / 2 then
            ((r.1 ||| (1 <<< i.val)) % 65536, r.2.set i (fsub (r.2.get i) (1 / 2)))
          else r)
        (0, x) =
      (octant x, ⟨if x.x > 1 / 2 then fsub x.x (1 / 2) else x.x,
        if x.y > 1 / 2 then fsub x.y (1 / 2) else x.y,
        if x.z > 1 / 2 then fsub x.z (1 / 2) else x.z⟩) := by
  obtain ⟨a, b, c⟩ := x
  simp only [List.foldl, octant, upper]
  by_cases ha : a > 1 / 2 <;> by_cases hb : b > 1 / 2 <;> by_cases hc : c > 1 / 2 <;>
    simp only [Vector3.get, Vector3.set, ha, hb, hc, if_true, if_false] <;>
    norm_num <;> decide

/-- The closed form of `descend_f32` where its assertions hold. -/
theorem descend_f32_eq (t : SparseOctree V MaxSize) (hM : MaxSize < 65536) (x : Vector3)
    (n : Nat) (hn : n < MaxSize) (hx : is_saturated x)
    (hc : (t.m_nodes n).m_children_id + 8 ≤ MaxSize) :
    t.descend_f32 ⟨x, n⟩ =
      some ⟨descend_coords_f32 x, (t.m_nodes n).m_children_id + octant x⟩ := by
  have ho := octant_lt x
  have h1 : n < MaxSize ∧ (t.m_nodes n).m_children_id < MaxSize := ⟨hn, by omega⟩
  have h2 : ((t.m_nodes n).m_children_id + octant x) % 65536 =
      (t.m_nodes n).m_children_id + octant x := Nat.mod_eq_of_lt (by omega)
  have h3 : octant x < 8 ∧ (t.m_nodes n).m_children_id + octant x < MaxSize :=
    ⟨ho, by omega⟩
  simp only [descend_f32, h1, hx, descend_fold_f32, h2, h3, if_true, and_self,
    descend_coords_f32, Vector3.smul32]

/-- The loop of `ascend_f32` adds the octant bits of the child index. -/
theorem ascend_fold_f32 (c : Nat) (hc : c < 8) (y : Vector3) :
    Vector3.smul32 (1 / 2) ([(0 : Fin 3), 1, 2].foldl
        (fun coords i =>
          if c &&& (1 <<< i.val) ≠ 0 then coords.set i (fadd (coords.get i) 1) else coords)
        y) =
      ascend_coords_f32 c y := by
  obtain ⟨a, b, d⟩ := y
  obtain ⟨e0, e1, e2⟩ := bit_test c hc
  have v0 : ((0 : Fin 3) : Nat) = 0 := rfl
  have v1 : ((1 : Fin 3) : Nat) = 1 := rfl
  have v2 : ((2 : Fin 3) : Nat) = 2 := rfl
  simp only [List.foldl, v0, v1, v2, e0, e1, e2, ascend_coords_f32]
  rcases Nat.mod_two_eq_zero_or_one c with h0 | h0 <;>
  rcases Nat.mod_two_eq_zero_or_one (c / 2) with h1 | h1 <;>
  rcases Nat.mod_two_eq_zero_or_one (c / 4) with h2 | h2 <;>
  simp only [h0, h1, h2, Vector3.get, Vector3.set, Vector3.smul32, if_true, if_false,
    zero_ne_one]

/-- The closed form of `ascend_f32` where its assertions hold. -/
theorem ascend_f32_eq (t : SparseOctree V MaxSize) (hM : MaxSize < 65536) (y : Vector3)
    (m : Nat) (hm : m < MaxSize) (hy : is_saturated y)
    (hp : (t.m_nodes m).m_parent_id < MaxSize)
    (hlo : (t.m_nodes (t.m_nodes m).m_parent_id).m_children_id ≤ m)
    (hhi : m < (t.m_nodes (t.m_nodes m).m_parent_id).m_children_id + 8) :
    t.ascend_f32 ⟨y, m⟩ =
      some ⟨ascend_coords_f32 (m - (t.m_nodes (t.m_nodes m).m_parent_id).m_children_id) y,
        (t.m_nodes m).m_parent_id⟩ := by
  have h1 : sub_u32 m (t.m_nodes (t.m_nodes m).m_parent_id).m_children_id =
      m - (t.m_nodes (t.m_nodes m).m_parent_id).m_children_id :=
    sub_u32_eq _ _ hlo (by omega)
  have h2 : m - (t.m_nodes (t.m_nodes m).m_parent_id).m_children_id < 8 := by omega
  simp only [ascend_f32, hy, hm, hp, h1, h2, if_true, ascend_fold_f32 _ h2]

/-- The closed form of `ascend_f32` on an allocated node of a well-formed tree. -/
theorem WellFormed.ascend_f32_allocated {t : SparseOctree V MaxSize} (wf : WellFormed t)
    (hM : MaxSize < 65536) {m : Nat} (h0 : 0 < m) (hm : m < t.m_size) (y : Vector3)
    (hy : is_saturated y) :
    t.ascend_f32 ⟨y, m⟩ =
      some ⟨ascend_coords_f32 (m - (t.m_nodes (t.m_nodes m).m_parent_id).m_children_id) y,
        (t.m_nodes m).m_parent_id⟩ := by
  obtain ⟨h1, -, h3, h4⟩ := wf.parent_block m h0 hm
  have hs : t.m_size ≤ MaxSize := wf.size_le (by omega)
  exact SparseOctree.ascend_f32_eq t hM y m (by omega) hy (by omega) h3 h4

/-- The closed form of `descend_f32` on an allocated node with children of a well-formed
tree. -/
theorem WellFormed.descend_f32_allocated {t : SparseOctree V MaxSize} (wf : WellFormed t)
    (hM : MaxSize < 65536) {n : Nat} (hn : n < t.m_size) (hc : t.has_children n)
    (x : Vector3) (hx : is_saturated x) :
    t.descend_f32 ⟨x, n⟩ =
      some ⟨descend_coords_f32 x, (t.m_nodes n).m_children_id + octant x⟩ := by
  obtain ⟨h1, h2, -⟩ := wf.children_block n hn hc
  have hs : t.m_size ≤ MaxSize := wf.size_le (by omega)
  exact SparseOctree.descend_f32_eq t hM x n (by omega) hx (by omega)

/-- A call of `ascend_f32` on coordinates outside the unit cube fails its first
assertion. -/
theorem ascend_f32_unsaturated (t : SparseOctree V MaxSize) (loc : SparseOctreeLocation)
    (h : ¬ is_saturated loc.m_local_coords) : t.ascend_f32 loc = none := by
  simp only [ascend_f32, h, if_false]

/-! ## The loop of `find_next_intersection`, one crossing at a time -/

/-- The loop of `find_next_intersection`, one crossing at a time. -/
theorem find_next_intersection_step (t : SparseOctree V MaxSize) (inner : Nat)
    (direction direction_signs : Vector3) (aliased : Bool) (fuel : Nat)
    (prev : SparseOctreeLocation) :
    t.find_next_intersection inner direction direction_signs aliased (fuel + 1) prev =
      (t.crossing inner direction direction_signs prev).bind fun r =>
        if r.1 then some (true, r.2)
        else if advance direction direction_signs prev ≥ round32 (1 / 1000000) then
          some (false, r.2)
        else t.find_next_intersection inner direction direction_signs aliased fuel
          (if aliased then r.2 else prev) := by
  simp only [find_next_intersection, crossing, exit_face, exit_side, exit_location, advance,
    exit_distances]
  cases h1 : t.ascend_till_has_neighbor
      (min_index ((direction_signs.sub32 prev.m_local_coords).div32 direction))
      (decide (direction_signs.get
        (min_index ((direction_signs.sub32 prev.m_local_coords).div32 direction)) > 1 / 2))
      inner
      { m_local_coords := prev.m_local_coords.add32 (Vector3.smul32
          (((direction_signs.sub32 prev.m_local_coords).div32 direction).get
            (min_index ((direction_signs.sub32 prev.m_local_coords).div32 direction)))
          direction),
        m_node_id := prev.m_node_id } with
  | none => rfl
  | some r1 =>
    simp only [Option.some_bind]
    by_cases h0 : r1.m_node_id = 0
    · simp only [h0, if_true, Option.some_bind]
    · simp only [h0, if_false]
      cases h2 : t.get_neighbor r1
          (min_index ((direction_signs.sub32 prev.m_local_coords).div32 direction))
          (decide (direction_signs.get
            (min_index ((direction_signs.sub32 prev.m_local_coords).div32 direction)) >
              1 / 2)) with
      | none => rfl
      | some nb =>
        simp only [Option.some_bind]
        cases h3 : t.descend_till_leaf_f32 inner
            { m_local_coords := r1.m_local_coords.set
                (min_index ((direction_signs.sub32 prev.m_local_coords).div32 direction))
                (fsub 1 (direction_signs.get
                  (min_index ((direction_signs.sub32 prev.m_local_coords).div32 direction)))),
              m_node_id := nb % 65536 } with
        | none => rfl
        | some r3 => simp

/-- The binary32 value of the literal `1e-06f`. -/
theorem round32_epsilon : round32 (1 / 1000000) = 8796093 / 8796093022208 := by
  rw [round32_eq (1 / 1000000) (-20) 8796093 (1 / 8796093022208) (by norm_num) (by norm_num)
    (by norm_num [abs_of_pos]) (by norm_num [abs_of_pos]) (by norm_num [abs_lt])]
  norm_num

/-! ## Evaluating binary32 operations -/

/-- Evaluation of `round32` at a positive rational of the normal range. -/
theorem round32_of_pos (q r : ℚ) (e m : ℤ) (hr : r = m * 2 ^ (e - 23)) (he : -126 ≤ e)
    (h1 : 2 ^ e ≤ q) (h2 : q < 2 ^ (e + 1)) (hm1 : r - 2 ^ (e - 23) / 2 < q)
    (hm2 : q < r + 2 ^ (e - 23) / 2) : round32 q = r := by
  have hq : 0 < q := lt_of_lt_of_le (by positivity) h1
  rw [hr, round32_eq q e m (2 ^ (e - 23)) rfl he (by rwa [abs_of_pos hq])
    (by rwa [abs_of_pos hq]) (by rw [abs_lt, ← hr]; constructor <;> linarith)]

/-- Evaluation of `round32` at a negative rational of the normal range. -/
theorem round32_of_neg (q r : ℚ) (e m : ℤ) (hr : r = m * 2 ^ (e - 23)) (he : -126 ≤ e)
    (h1 : 2 ^ e ≤ -q) (h2 : -q < 2 ^ (e + 1)) (hm1 : r - 2 ^ (e - 23) / 2 < q)
    (hm2 : q < r + 2 ^ (e - 23) / 2) : round32 q = r := by
  have hq : q < 0 := by
    have : (0 : ℚ) < 2 ^ e := by positivity
    linarith
  rw [hr, round32_eq q e m (2 ^ (e - 23)) rfl he (by rwa [abs_of_neg hq])
    (by rwa [abs_of_neg hq]) (by rw [abs_lt, ← hr]; constructor <;> linarith)]

/-- A rational half way between two integers rounds to the even one. -/
theorem round_half_even_tie (x : ℚ) (m : ℤ) (hm : m % 2 = 0)
    (h : x = m + 1 / 2 ∨ x = m - 1 / 2) : round_half_even x = m := by
  unfold round_half_even
  rcases h with h | h
  · have hf : ⌊x⌋ = m := by
      rw [Int.floor_eq_iff]
      exact ⟨by linarith, by linarith⟩
    rw [hf, if_neg (by linarith), if_neg (by linarith), if_pos hm]
  · have hf : ⌊x⌋ = m - 1 := by
      rw [Int.floor_eq_iff]
      push_cast
      exact ⟨by linarith, by linarith⟩
    rw [hf]
    push_cast
    rw [if_neg (by linarith), if_neg (by linarith), if_neg (by omega)]
    ring

/-- Evaluation of `round32` at a tie of the normal range: the multiple with the even
significand. -/
theorem round32_tie (q r : ℚ) (e m : ℤ) (hr : r = m * 2 ^ (e - 23)) (he : -126 ≤ e)
    (h1 : 2 ^ e ≤ |q|) (h2 : |q| < 2 ^ (e + 1)) (hm : m % 2 = 0)
    (ht : q = r + 2 ^ (e - 23) / 2 ∨ q = r - 2 ^ (e - 23) / 2) : round32 q = r := by
  have hpp : (0 : ℚ) < 2 ^ (e - 23) := by positivity
  unfold round32 ulp32
  rw [exponent32_eq q e he h1 h2, hr]
  congr 1
  norm_cast
  apply round_half_even_tie _ _ hm
  rcases ht with ht | ht
  · left
    rw [ht, hr]
    field_simp
    ring
  · right
    rw [ht, hr]
    field_simp
    ring

/-- Evaluation of `round32` at a positive tie of the normal range. -/
theorem round32_tie_pos (q r : ℚ) (e m : ℤ) (hr : r = m * 2 ^ (e - 23)) (he : -126 ≤ e)
    (h1 : 2 ^ e ≤ q) (h2 : q < 2 ^ (e + 1)) (hm : m % 2 = 0)
    (ht : q = r + 2 ^ (e - 23) / 2 ∨ q = r - 2 ^ (e - 23) / 2) : round32 q = r := by
  have hq : 0 < q := lt_of_lt_of_le (by positivity) h1
  exact round32_tie q r e m hr he (by rwa [abs_of_pos hq]) (by rwa [abs_of_pos hq]) hm ht

/-- Evaluation of `round32` at a negative tie of the normal range. -/
theorem round32_tie_neg (q r : ℚ) (e m : ℤ) (hr : r = m * 2 ^ (e - 23)) (he : -126 ≤ e)
    (h1 : 2 ^ e ≤ -q) (h2 : -q < 2 ^ (e + 1)) (hm : m % 2 = 0)
    (ht : q = r + 2 ^ (e - 23) / 2 ∨ q = r - 2 ^ (e - 23) / 2) : round32 q = r := by
  have hq : q < 0 := by
    have : (0 : ℚ) < 2 ^ e := by positivity
    linarith
  exact round32_tie q r e m hr he (by rwa [abs_of_neg hq]) (by rwa [abs_of_neg hq]) hm ht

/-- Evaluation of a binary32 sum. -/
theorem fadd_of (a b q r : ℚ) (hq : a + b = q) (hr : round32 q = r) : fadd a b = r := by
  rw [fadd, hq, hr]

/-- Evaluation of a binary32 difference. -/
theorem fsub_of (a b q r : ℚ) (hq : a - b = q) (hr : round32 q = r) : fsub a b = r := by
  rw [fsub, hq, hr]

/-- Evaluation of a binary32 product. -/
theorem fmul_of (a b q r : ℚ) (hq : a * b = q) (hr : round32 q = r) : fmul a b = r := by
  rw [fmul, hq, hr]

/-- Evaluation of a binary32 quotient. -/
theorem fdiv_of (a b q r : ℚ) (hq : a / b = q) (hr : round32 q = r) : fdiv a b = r := by
  rw [fdiv, hq, hr]

/-- A call that returns `false` ends with a crossing whose advance distance is at least
`1e-06f`. -/
theorem find_next_intersection_false_advance (t : SparseOctree V MaxSize)
    (inner : Nat) (direction direction_signs : Vector3) (aliased : Bool)
    (out : SparseOctreeLocation) (fuel : Nat) :
    ∀ prev, t.find_next_intersection inner direction direction_signs aliased fuel prev =
        some (false, out) →
      ∃ last, t.crossing inner direction direction_signs last = some (false, out) ∧
        advance direction direction_signs last ≥ round32 (1 / 1000000) := by
  induction fuel with
  | zero => intro prev h; simp [find_next_intersection] at h
  | succ fuel ih =>
    intro prev h
    rw [find_next_intersection_step, Option.bind_eq_some] at h
    obtain ⟨⟨b, r⟩, hc, h⟩ := h
    cases b with
    | true => simp at h
    | false =>
      simp only [Bool.false_eq_true, if_false] at h
      by_cases hbig : advance direction direction_signs prev ≥ round32 (1 / 1000000)
      · simp only [hbig, if_true, Option.some.injEq, Prod.mk.injEq, true_and] at h
        subst h
        exact ⟨prev, hc, hbig⟩
      · simp only [hbig, if_false] at h
        exact ih _ h

/-! ## Degenerate crossings -/

/-- When the two location arguments are distinct objects, a degenerate crossing that does
not leave the tree is repeated from the same `prev_intersection` for ever: the call
returns for no amount of fuel. -/
theorem find_next_intersection_unaliased_degenerate (t : SparseOctree V MaxSize)
    (inner : Nat) (direction direction_signs : Vector3) (prev L : SparseOctreeLocation)
    (hc : t.crossing inner direction direction_signs prev = some (false, L))
    (ha : advance direction direction_signs prev < round32 (1 / 1000000)) (fuel : Nat) :
    t.find_next_intersection inner direction direction_signs false fuel prev = none := by
  induction fuel with
  | zero => rfl
  | succ fuel ih =>
    rw [find_next_intersection_step, hc, Option.some_bind]
    simp only [Bool.false_eq_true, if_false, not_le.mpr ha, ge_iff_le]
    exact ih

/-- When the two location arguments are the same object, a degenerate crossing that does
not leave the tree is followed by the call started at the newly entered leaf. -/
theorem find_next_intersection_aliased_degenerate (t : SparseOctree V MaxSize)
    (inner : Nat) (direction direction_signs : Vector3) (prev L : SparseOctreeLocation)
    (hc : t.crossing inner direction direction_signs prev = some (false, L))
    (ha : advance direction direction_signs prev < round32 (1 / 1000000)) (fuel : Nat) :
    t.find_next_intersection inner direction direction_signs true (fuel + 1) prev =
      t.find_next_intersection inner direction direction_signs true fuel L := by
  rw [find_next_intersection_step, hc, Option.some_bind]
  simp only [Bool.false_eq_true, if_false, not_le.mpr ha, ge_iff_le, if_true]

/-- A crossing that reaches the root ends the call with `true`. -/
theorem find_next_intersection_of_true (t : SparseOctree V MaxSize)
    (inner : Nat) (direction direction_signs : Vector3) (aliased : Bool)
    (prev out : SparseOctreeLocation)
    (hc : t.crossing inner direction direction_signs prev = some (true, out)) (fuel : Nat) :
    t.find_next_intersection inner direction direction_signs aliased (fuel + 1) prev =
      some (true, out) := by
  rw [find_next_intersection_step, hc, Option.some_bind]
  simp only [if_true]

/-- A crossing into a neighbor whose advance distance reaches `1e-06f` ends the call with
`false`. -/
theorem find_next_intersection_of_false (t : SparseOctree V MaxSize)
    (inner : Nat) (direction direction_signs : Vector3) (aliased : Bool)
    (prev out : SparseOctreeLocation)
    (hc : t.crossing inner direction direction_signs prev = some (false, out))
    (ha : advance direction direction_signs prev ≥ round32 (1 / 1000000)) (fuel : Nat) :
    t.find_next_intersection inner direction direction_signs aliased (fuel + 1) prev =
      some (false, out) := by
  rw [find_next_intersection_step, hc, Option.some_bind]
  simp only [Bool.false_eq_true, if_false, ha, if_true]

/-- A crossing that fails an assertion makes the call fail. -/
theorem find_next_intersection_of_none (t : SparseOctree V MaxSize)
    (inner : Nat) (direction direction_signs : Vector3) (aliased : Bool)
    (prev : SparseOctreeLocation)
    (hc : t.crossing inner direction direction_signs prev = none) (fuel : Nat) :
    t.find_next_intersection inner direction direction_signs aliased fuel prev = none := by
  cases fuel with
  | zero => rfl
  | succ fuel => rw [find_next_intersection_step, hc, Option.none_bind]

/-- From the leaf location of the point `(1/2, 1/4, 1/4)` the first crossing along
`(1/2, 1/4, 1/8)` has advance distance 0 and enters the root's child 1: every operation is
exact in binary32. -/
theorem degenerate_crossing_eval (n : Nat) :
    split_root64.crossing (n + 4) ⟨1 / 2, 1 / 4, 1 / 8⟩ ⟨1, 1, 1⟩ ⟨⟨1, 1 / 2, 1 / 2⟩, 1⟩ =
      some (false, ⟨⟨0, 1 / 2, 1 / 2⟩, 2⟩) ∧
    advance ⟨1 / 2, 1 / 4, 1 / 8⟩ ⟨1, 1, 1⟩ ⟨⟨1, 1 / 2, 1 / 2⟩, 1⟩ = 0 ∧
    exit_face ⟨1 / 2, 1 / 4, 1 / 8⟩ ⟨1, 1, 1⟩ ⟨⟨1, 1 / 2, 1 / 2⟩, 1⟩ = 0 ∧
    exit_location ⟨1 / 2, 1 / 4, 1 / 8⟩ ⟨1, 1, 1⟩ ⟨⟨1, 1 / 2, 1 / 2⟩, 1⟩ =
      ⟨⟨1, 1 / 2, 1 / 2⟩, 1⟩ ∧
    split_root64.crossing_calls (n + 4) ⟨1 / 2, 1 / 4, 1 / 8⟩ ⟨1, 1, 1⟩ ⟨⟨1, 1 / 2, 1 / 2⟩, 1⟩ =
      [Call.has_neighbor ⟨⟨1, 1 / 2, 1 / 2⟩, 1⟩ 0 true,
        Call.get_neighbor ⟨⟨1, 1 / 2, 1 / 2⟩, 1⟩ 0 true,
        Call.has_neighbor ⟨⟨1, 1 / 2, 1 / 2⟩, 1⟩ 0 true] := by
  have wf := split_root64_reachable.wellFormed
  have o1 : fsub 1 1 = 0 :=
    fsub_of _ _ 0 _ (by norm_num)
      round32_zero
  have o2 : fsub 1 (1 / 2) = 1 / 2 :=
    fsub_of _ _ (1 / 2) _ (by norm_num)
      (round32_of_pos _ _ (-1) 8388608 (by norm_num) (by norm_num) (by norm_num) (by norm_num)
        (by norm_num) (by norm_num))
  have o3 : fdiv 0 (1 / 2) = 0 :=
    fdiv_of _ _ 0 _ (by norm_num)
      round32_zero
  have o4 : fdiv (1 / 2) (1 / 4) = 2 :=
    fdiv_of _ _ 2 _ (by norm_num)
      (round32_of_pos _ _ 1 8388608 (by norm_num) (by norm_num) (by norm_num) (by norm_num)
        (by norm_num) (by norm_num))
  have o5 : fdiv (1 / 2) (1 / 8) = 4 :=
    fdiv_of _ _ 4 _ (by norm_num)
      (round32_of_pos _ _ 2 8388608 (by norm_num) (by norm_num) (by norm_num) (by norm_num)
        (by norm_num) (by norm_num))
  have hdist : exit_distances ⟨1 / 2, 1 / 4, 1 / 8⟩ ⟨1, 1, 1⟩ ⟨⟨1, 1 / 2, 1 / 2⟩, 1⟩ = ⟨0, 2, 4⟩
      := by
    simp only [exit_distances, Vector3.div32, Vector3.sub32, o1, o2, o2, o3, o4, o5]
  have hface : exit_face ⟨1 / 2, 1 / 4, 1 / 8⟩ ⟨1, 1, 1⟩ ⟨⟨1, 1 / 2, 1 / 2⟩, 1⟩ = 0 := by
    rw [exit_face, hdist]
    norm_num [min_index, Vector3.get]
  have hadv : advance ⟨1 / 2, 1 / 4, 1 / 8⟩ ⟨1, 1, 1⟩ ⟨⟨1, 1 / 2, 1 / 2⟩, 1⟩ = 0 := by
    rw [advance, hdist, hface]
    rfl
  have hside : exit_side ⟨1 / 2, 1 / 4, 1 / 8⟩ ⟨1, 1, 1⟩ ⟨⟨1, 1 / 2, 1 / 2⟩, 1⟩ = true := by
    rw [exit_side, hface]
    norm_num [Vector3.get]
  have o6 : fmul 0 (1 / 2) = 0 :=
    fmul_of _ _ 0 _ (by norm_num)
      round32_zero
  have o7 : fmul 0 (1 / 4) = 0 :=
    fmul_of _ _ 0 _ (by norm_num)
      round32_zero
  have o8 : fmul 0 (1 / 8) = 0 :=
    fmul_of _ _ 0 _ (by norm_num)
      round32_zero
  have o9 : fadd 1 0 = 1 :=
    fadd_of _ _ 1 _ (by norm_num)
      (round32_of_pos _ _ 0 8388608 (by norm_num) (by norm_num) (by norm_num) (by norm_num)
        (by norm_num) (by norm_num))
  have o10 : fadd (1 / 2) 0 = 1 / 2 :=
    fadd_of _ _ (1 / 2) _ (by norm_num)
      (round32_of_pos _ _ (-1) 8388608 (by norm_num) (by norm_num) (by norm_num) (by norm_num)
        (by norm_num) (by norm_num))
  have hexit : exit_location ⟨1 / 2, 1 / 4, 1 / 8⟩ ⟨1, 1, 1⟩ ⟨⟨1, 1 / 2, 1 / 2⟩, 1⟩ = ⟨⟨1, 1 / 2,
      1 / 2⟩, 1⟩ := by
    simp only [exit_location, hadv, Vector3.add32, Vector3.smul32, o6, o7, o8, o9, o10, o10]
  have hn1 : ∀ y, split_root64.has_neighbor ⟨y, 1⟩ 0 true = some true := by
    intro y
    rw [wf.has_neighbor_octant_bit (by decide) (by decide)]
    decide
  have hg : ∀ y, split_root64.get_neighbor ⟨y, 1⟩ 0 true = some 2 := by
    intro y
    rw [wf.get_neighbor_eq (by decide) (by decide) (by decide) y 0 true (hn1 y)]
    decide
  have hset : (⟨1, 1 / 2, 1 / 2⟩ : Vector3).set 0 (fsub 1 ((⟨1, 1, 1⟩ : Vector3).get 0)) =
      ⟨0, 1 / 2, 1 / 2⟩ := by
    have e : (⟨1, 1, 1⟩ : Vector3).get 0 = 1 := rfl
    rw [e, o1]
    rfl
  have hk2 : (split_root64.m_nodes 2).m_children_id = Null := by
    decide
  have hq2 : split_root64.node 2 = some (split_root64.m_nodes 2) :=
    rfl
  refine ⟨?_, hadv, hface, hexit, ?_⟩
  · simp only [crossing, ascend_till_has_neighbor, descend_till_leaf_f32,
      Option.some_bind, Option.none_bind, ne_eq, OfNat.ofNat_ne_zero, one_ne_zero,
      not_false_eq_true, not_true_eq_false, if_true, if_false, Bool.not_true, Bool.not_false,
      Bool.false_eq_true, Nat.reduceMod, Option.map_some', Option.map_none',
      hface, hside, hexit, hn1, hg, hset, hk2, hq2]
  · have h1 : split_root64.ascend_till_has_neighbor 0 true (n + 4) ⟨⟨1, 1 / 2, 1 / 2⟩, 1⟩ =
        some ⟨⟨1, 1 / 2, 1 / 2⟩, 1⟩ := by
      simp only [ascend_till_has_neighbor,
        Option.some_bind, Option.none_bind, ne_eq, OfNat.ofNat_ne_zero, one_ne_zero,
        not_false_eq_true, not_true_eq_false, if_true, if_false, Bool.not_true, Bool.not_false,
        Bool.false_eq_true, Nat.reduceMod, Option.map_some', Option.map_none',
        hn1]
    have h2 : split_root64.ascend_till_has_neighbor_calls 0 true (n + 4) ⟨⟨1, 1 / 2, 1 / 2⟩, 1⟩ =
        [Call.has_neighbor ⟨⟨1, 1 / 2, 1 / 2⟩, 1⟩ 0 true] := by
      simp only [ascend_till_has_neighbor_calls,
        Option.some_bind, Option.none_bind, ne_eq, OfNat.ofNat_ne_zero, one_ne_zero,
        not_false_eq_true, not_true_eq_false, if_true, if_false, Bool.not_true, Bool.not_false,
        Bool.false_eq_true, Nat.reduceMod, Option.map_some', Option.map_none',
        hn1]
    have h3 : split_root64.descend_till_leaf_calls (n + 4) ⟨⟨0, 1 / 2, 1 / 2⟩, 2⟩ =
        [] := by
      simp only [descend_till_leaf_calls,
        Option.some_bind, Option.none_bind, ne_eq, OfNat.ofNat_ne_zero, one_ne_zero,
        not_false_eq_true, not_true_eq_false, if_true, if_false, Bool.not_true, Bool.not_false,
        Bool.false_eq_true, Nat.reduceMod, Option.map_some', Option.map_none',
        hk2, hq2]
    simp only [crossing_calls, List.cons_append, List.nil_append, List.append_nil,
      Option.some_bind, Option.none_bind, ne_eq, OfNat.ofNat_ne_zero, one_ne_zero,
      not_false_eq_true, not_true_eq_false, if_true, if_false, Bool.not_true, Bool.not_false,
      Bool.false_eq_true, Nat.reduceMod, Option.map_some', Option.map_none',
      hface, hside, hexit, h1, h2, hg, hset, h3]

/-- From the newly entered leaf the crossing leaves the tree: every operation is exact in
binary32. -/
theorem degenerate_continued_eval (n : Nat) :
    split_root64.crossing (n + 4) ⟨1 / 2, 1 / 4, 1 / 8⟩ ⟨1, 1, 1⟩ ⟨⟨0, 1 / 2, 1 / 2⟩, 2⟩ =
      some (true, ⟨⟨1, 1 / 2, 3 / 8⟩, 0⟩) ∧
    advance ⟨1 / 2, 1 / 4, 1 / 8⟩ ⟨1, 1, 1⟩ ⟨⟨0, 1 / 2, 1 / 2⟩, 2⟩ = 2 ∧
    exit_face ⟨1 / 2, 1 / 4, 1 / 8⟩ ⟨1, 1, 1⟩ ⟨⟨0, 1 / 2, 1 / 2⟩, 2⟩ = 0 ∧
    exit_location ⟨1 / 2, 1 / 4, 1 / 8⟩ ⟨1, 1, 1⟩ ⟨⟨0, 1 / 2, 1 / 2⟩, 2⟩ =
      ⟨⟨1, 1, 3 / 4⟩, 2⟩ ∧
    split_root64.crossing_calls (n + 4) ⟨1 / 2, 1 / 4, 1 / 8⟩ ⟨1, 1, 1⟩ ⟨⟨0, 1 / 2, 1 / 2⟩, 2⟩ =
      [Call.has_neighbor ⟨⟨1, 1, 3 / 4⟩, 2⟩ 0 true,
        Call.ascend ⟨⟨1, 1, 3 / 4⟩, 2⟩] := by
  have wf := split_root64_reachable.wellFormed
  have o1 : fsub 1 0 = 1 :=
    fsub_of _ _ 1 _ (by norm_num)
      (round32_of_pos _ _ 0 8388608 (by norm_num) (by norm_num) (by norm_num) (by norm_num)
        (by norm_num) (by norm_num))
  have o2 : fsub 1 (1 / 2) = 1 / 2 :=
    fsub_of _ _ (1 / 2) _ (by norm_num)
      (round32_of_pos _ _ (-1) 8388608 (by norm_num) (by norm_num) (by norm_num) (by norm_num)
        (by norm_num) (by norm_num))
  have o3 : fdiv 1 (1 / 2) = 2 :=
    fdiv_of _ _ 2 _ (by norm_num)
      (round32_of_pos _ _ 1 8388608 (by norm_num) (by norm_num) (by norm_num) (by norm_num)
        (by norm_num) (by norm_num))
  have o4 : fdiv (1 / 2) (1 / 4) = 2 :=
    fdiv_of _ _ 2 _ (by norm_num)
      (round32_of_pos _ _ 1 8388608 (by norm_num) (by norm_num) (by norm_num) (by norm_num)
        (by norm_num) (by norm_num))
  have o5 : fdiv (1 / 2) (1 / 8) = 4 :=
    fdiv_of _ _ 4 _ (by norm_num)
      (round32_of_pos _ _ 2 8388608 (by norm_num) (by norm_num) (by norm_num) (by norm_num)
        (by norm_num) (by norm_num))
  have hdist : exit_distances ⟨1 / 2, 1 / 4, 1 / 8⟩ ⟨1, 1, 1⟩ ⟨⟨0, 1 / 2, 1 / 2⟩, 2⟩ = ⟨2, 2, 4⟩
      := by
    simp only [exit_distances, Vector3.div32, Vector3.sub32, o1, o2, o2, o3, o4, o5]
  have hface : exit_face ⟨1 / 2, 1 / 4, 1 / 8⟩ ⟨1, 1, 1⟩ ⟨⟨0, 1 / 2, 1 / 2⟩, 2⟩ = 0 := by
    rw [exit_face, hdist]
    norm_num [min_index, Vector3.get]
  have hadv : advance ⟨1 / 2, 1 / 4, 1 / 8⟩ ⟨1, 1, 1⟩ ⟨⟨0, 1 / 2, 1 / 2⟩, 2⟩ = 2 := by
    rw [advance, hdist, hface]
    rfl
  have hside : exit_side ⟨1 / 2, 1 / 4, 1 / 8⟩ ⟨1, 1, 1⟩ ⟨⟨0, 1 / 2, 1 / 2⟩, 2⟩ = true := by
    rw [exit_side, hface]
    norm_num [Vector3.get]
  have o6 : fmul 2 (1 / 2) = 1 :=
    fmul_of _ _ 1 _ (by norm_num)
      (round32_of_pos _ _ 0 8388608 (by norm_num) (by norm_num) (by norm_num) (by norm_num)
        (by norm_num) (by norm_num))
  have o7 : fmul 2 (1 / 4) = 1 / 2 :=
    fmul_of _ _ (1 / 2) _ (by norm_num)
      (round32_of_pos _ _ (-1) 8388608 (by norm_num) (by norm_num) (by norm_num) (by norm_num)
        (by norm_num) (by norm_num))
  have o8 : fmul 2 (1 / 8) = 1 / 4 :=
    fmul_of _ _ (1 / 4) _ (by norm_num)
      (round32_of_pos _ _ (-2) 8388608 (by norm_num) (by norm_num) (by norm_num) (by norm_num)
        (by norm_num) (by norm_num))
  have o9 : fadd 0 1 = 1 :=
    fadd_of _ _ 1 _ (by norm_num)
      (round32_of_pos _ _ 0 8388608 (by norm_num) (by norm_num) (by norm_num) (by norm_num)
        (by norm_num) (by norm_num))
  have o10 : fadd (1 / 2) (1 / 2) = 1 :=
    fadd_of _ _ 1 _ (by norm_num)
      (round32_of_pos _ _ 0 8388608 (by norm_num) (by norm_num) (by norm_num) (by norm_num)
        (by norm_num) (by norm_num))
  have o11 : fadd (1 / 2) (1 / 4) = 3 / 4 :=
    fadd_of _ _ (3 / 4) _ (by norm_num)
      (round32_of_pos _ _ (-1) 12582912 (by norm_num) (by norm_num) (by norm_num) (by norm_num)
        (by norm_num) (by norm_num))
  have hexit : exit_location ⟨1 / 2, 1 / 4, 1 / 8⟩ ⟨1, 1, 1⟩ ⟨⟨0, 1 / 2, 1 / 2⟩, 2⟩ = ⟨⟨1, 1, 3 /
      4⟩, 2⟩ := by
    simp only [exit_location, hadv, Vector3.add32, Vector3.smul32, o6, o7, o8, o9, o10, o11]
  have hn2 : ∀ y, split_root64.has_neighbor ⟨y, 2⟩ 0 true = some false := by
    intro y
    rw [wf.has_neighbor_octant_bit (by decide) (by decide)]
    decide
  have o12 : fadd 1 1 = 2 :=
    fadd_of _ _ 2 _ (by norm_num)
      (round32_of_pos _ _ 1 8388608 (by norm_num) (by norm_num) (by norm_num) (by norm_num)
        (by norm_num) (by norm_num))
  have o13 : fmul (1 / 2) 2 = 1 :=
    fmul_of _ _ 1 _ (by norm_num)
      (round32_of_pos _ _ 0 8388608 (by norm_num) (by norm_num) (by norm_num) (by norm_num)
        (by norm_num) (by norm_num))
  have o14 : fmul (1 / 2) 1 = 1 / 2 :=
    fmul_of _ _ (1 / 2) _ (by norm_num)
      (round32_of_pos _ _ (-1) 8388608 (by norm_num) (by norm_num) (by norm_num) (by norm_num)
        (by norm_num) (by norm_num))
  have o15 : fmul (1 / 2) (3 / 4) = 3 / 8 :=
    fmul_of _ _ (3 / 8) _ (by norm_num)
      (round32_of_pos _ _ (-2) 12582912 (by norm_num) (by norm_num) (by norm_num) (by norm_num)
        (by norm_num) (by norm_num))
  have ha2 : split_root64.ascend_f32 ⟨⟨1, 1, 3 / 4⟩, 2⟩ = some ⟨⟨1, 1 / 2, 3 / 8⟩, 0⟩ := by
    rw [wf.ascend_f32_allocated (by decide) (by decide) (by decide) _
      (by norm_num [is_saturated])]
    have e1 : (split_root64.m_nodes 2).m_parent_id = 0 := by decide
    have e2 : (split_root64.m_nodes 0).m_children_id = 1 := by decide
    rw [e1, e2]
    have e3 : ascend_coords_f32 (2 - 1) ⟨1, 1, 3 / 4⟩ =
        ⟨fmul (1 / 2) (fadd 1 1), fmul (1 / 2) 1, fmul (1 / 2) (3 / 4)⟩ := rfl
    rw [e3]
    simp only [o12, o13, o14, o15]
  refine ⟨?_, hadv, hface, hexit, ?_⟩
  · simp only [crossing, ascend_till_has_neighbor, descend_till_leaf_f32,
      Option.some_bind, Option.none_bind, ne_eq, OfNat.ofNat_ne_zero, one_ne_zero,
      not_false_eq_true, not_true_eq_false, if_true, if_false, Bool.not_true, Bool.not_false,
      Bool.false_eq_true, Nat.reduceMod, Option.map_some', Option.map_none',
      hface, hside, hexit, hn2, ha2]
  · have h1 : split_root64.ascend_till_has_neighbor 0 true (n + 4) ⟨⟨1, 1, 3 / 4⟩, 2⟩ =
        some ⟨⟨1, 1 / 2, 3 / 8⟩, 0⟩ := by
      simp only [ascend_till_has_neighbor,
        Option.some_bind, Option.none_bind, ne_eq, OfNat.ofNat_ne_zero, one_ne_zero,
        not_false_eq_true, not_true_eq_false, if_true, if_false, Bool.not_true, Bool.not_false,
        Bool.false_eq_true, Nat.reduceMod, Option.map_some', Option.map_none',
        hn2, ha2]
    have h2 : split_root64.ascend_till_has_neighbor_calls 0 true (n + 4) ⟨⟨1, 1, 3 / 4⟩, 2⟩ =
        [Call.has_neighbor ⟨⟨1, 1, 3 / 4⟩, 2⟩ 0 true,
          Call.ascend ⟨⟨1, 1, 3 / 4⟩, 2⟩] := by
      simp only [ascend_till_has_neighbor_calls,
        Option.some_bind, Option.none_bind, ne_eq, OfNat.ofNat_ne_zero, one_ne_zero,
        not_false_eq_true, not_true_eq_false, if_true, if_false, Bool.not_true, Bool.not_false,
        Bool.false_eq_true, Nat.reduceMod, Option.map_some', Option.map_none',
        hn2, ha2]
    simp only [crossing_calls, List.cons_append, List.nil_append, List.append_nil,
      Option.some_bind, Option.none_bind, ne_eq, OfNat.ofNat_ne_zero, one_ne_zero,
      not_false_eq_true, not_true_eq_false, if_true, if_false, Bool.not_true, Bool.not_false,
      Bool.false_eq_true, Nat.reduceMod, Option.map_some', Option.map_none',
      hface, hside, hexit, h1, h2]

/-- Started at the newly entered leaf, the call leaves the tree. -/
theorem degenerate_continued (aliased : Bool) (fuel : Nat) :
    split_root64.find_next_intersection 9 ⟨1 / 2, 1 / 4, 1 / 8⟩ ⟨1, 1, 1⟩ aliased (fuel + 1)
      ⟨⟨0, 1 / 2, 1 / 2⟩, 2⟩ = some (true, ⟨⟨1, 1 / 2, 3 / 8⟩, 0⟩) :=
  find_next_intersection_of_true split_root64 9 _ _ aliased _ _
    (degenerate_continued_eval 5).1 fuel

/-! ## Termination and the repetition of degenerate crossings -/

/-- C13. The loop of `find_next_intersection` does not terminate when the first crossing is
degenerate and the two location arguments are distinct objects: with the root split once,
from the leaf location of the point `(1/2, 1/4, 1/4)`, along the direction `(1/2, 1/4, 1/8)`
(no zero component, length below 1, signs `(1, 1, 1)`), the first crossing has advance
distance 0 and enters the root's child 1 without leaving the tree, and the call returns for
no amount of fuel. -/
theorem find_next_intersection_never_returns :
    Reachable split_root64 ∧
    split_root64.calculate_location 9 ⟨1 / 2, 1 / 4, 1 / 4⟩ = some ⟨⟨1, 1 / 2, 1 / 2⟩, 1⟩ ∧
    ¬ split_root64.has_children 1 ∧
    consistent_signs ⟨1 / 2, 1 / 4, 1 / 8⟩ ⟨1, 1, 1⟩ ∧
    ((1 / 2 : ℚ) ^ 2 + (1 / 4) ^ 2 + (1 / 8) ^ 2 ≤ 1) ∧
    split_root64.crossing 9 ⟨1 / 2, 1 / 4, 1 / 8⟩ ⟨1, 1, 1⟩ ⟨⟨1, 1 / 2, 1 / 2⟩, 1⟩ =
      some (false, ⟨⟨0, 1 / 2, 1 / 2⟩, 2⟩) ∧
    ∀ fuel, split_root64.find_next_intersection 9 ⟨1 / 2, 1 / 4, 1 / 8⟩ ⟨1, 1, 1⟩ false fuel
      ⟨⟨1, 1 / 2, 1 / 2⟩, 1⟩ = none := by
  refine ⟨split_root64_reachable, degenerate_start, by decide,
    fun i => Or.inl (by fin_cases i <;> norm_num [Vector3.get]), by norm_num,
    (degenerate_crossing_eval 5).1, fun fuel => ?_⟩
  exact find_next_intersection_unaliased_degenerate split_root64 9 _ _ _ _
    (degenerate_crossing_eval 5).1
    (by rw [(degenerate_crossing_eval 5).2.1, round32_epsilon]; norm_num) fuel

/-- C17. A degenerate crossing is repeated from the original `prev_intersection`, not from
the newly entered leaf, when the two location arguments are distinct objects: in the
scenario above the first crossing has advance distance `0 < 1e-6` and enters the leaf
location `L` in the root's child 1; the call started at `L` returns `true` at the root,
whereas the call started at `prev` starts over from `prev` and never returns; with both
arguments the same object the call does continue from `L`. -/
theorem degenerate_crossing_restarts :
    advance ⟨1 / 2, 1 / 4, 1 / 8⟩ ⟨1, 1, 1⟩ ⟨⟨1, 1 / 2, 1 / 2⟩, 1⟩ < 1 / 1000000 ∧
    split_root64.crossing 9 ⟨1 / 2, 1 / 4, 1 / 8⟩ ⟨1, 1, 1⟩ ⟨⟨1, 1 / 2, 1 / 2⟩, 1⟩ =
      some (false, ⟨⟨0, 1 / 2, 1 / 2⟩, 2⟩) ∧
    (∀ fuel, split_root64.find_next_intersection 9 ⟨1 / 2, 1 / 4, 1 / 8⟩ ⟨1, 1, 1⟩ false
        (fuel + 1) ⟨⟨0, 1 / 2, 1 / 2⟩, 2⟩ = some (true, ⟨⟨1, 1 / 2, 3 / 8⟩, 0⟩)) ∧
    (∀ fuel, split_root64.find_next_intersection 9 ⟨1 / 2, 1 / 4, 1 / 8⟩ ⟨1, 1, 1⟩ false
        (fuel + 1) ⟨⟨1, 1 / 2, 1 / 2⟩, 1⟩ =
      split_root64.find_next_intersection 9 ⟨1 / 2, 1 / 4, 1 / 8⟩ ⟨1, 1, 1⟩ false
        fuel ⟨⟨1, 1 / 2, 1 / 2⟩, 1⟩) ∧
    (∀ fuel, split_root64.find_next_intersection 9 ⟨1 / 2, 1 / 4, 1 / 8⟩ ⟨1, 1, 1⟩ false
        (fuel + 2) ⟨⟨1, 1 / 2, 1 / 2⟩, 1⟩ ≠
      split_root64.find_next_intersection 9 ⟨1 / 2, 1 / 4, 1 / 8⟩ ⟨1, 1, 1⟩ false
        (fuel + 1) ⟨⟨0, 1 / 2, 1 / 2⟩, 2⟩) ∧
    (∀ fuel, split_root64.find_next_intersection 9 ⟨1 / 2, 1 / 4, 1 / 8⟩ ⟨1, 1, 1⟩ true
        (fuel + 2) ⟨⟨1, 1 / 2, 1 / 2⟩, 1⟩ = some (true, ⟨⟨1, 1 / 2, 3 / 8⟩, 0⟩)) := by
  have hadv0 : advance ⟨1 / 2, 1 / 4, 1 / 8⟩ ⟨1, 1, 1⟩ ⟨⟨1, 1 / 2, 1 / 2⟩, 1⟩ = 0 :=
    (degenerate_crossing_eval 5).2.1
  have hadv : advance ⟨1 / 2, 1 / 4, 1 / 8⟩ ⟨1, 1, 1⟩ ⟨⟨1, 1 / 2, 1 / 2⟩, 1⟩ <
      round32 (1 / 1000000) := by
    rw [hadv0, round32_epsilon]; norm_num
  have hnone := find_next_intersection_unaliased_degenerate split_root64 9
    ⟨1 / 2, 1 / 4, 1 / 8⟩ ⟨1, 1, 1⟩ ⟨⟨1, 1 / 2, 1 / 2⟩, 1⟩ ⟨⟨0, 1 / 2, 1 / 2⟩, 2⟩
    (degenerate_crossing_eval 5).1 hadv
  refine ⟨by rw [hadv0]; norm_num, (degenerate_crossing_eval 5).1, degenerate_continued false,
    fun fuel => ?_, fun fuel => ?_, fun fuel => ?_⟩
  · rw [hnone, hnone]
  · rw [hnone, degenerate_continued false fuel]
    exact fun h => Option.noConfusion h
  · rw [find_next_intersection_aliased_degenerate split_root64 9 _ _ _ _
      (degenerate_crossing_eval 5).1 hadv]
    exact degenerate_continued true fuel

/-! ## Exact arithmetic: the binary32 methods where no operation rounds -/

/-- Where no operation of `ascend` rounds, its binary32 coordinates are the exact ones. -/
theorem ascend_coords_f32_eq (c : Nat) (y : Vector3) (h : ascend_rounding_free c y) :
    ascend_coords_f32 c y = ascend_coords c y := by
  obtain ⟨⟨a0, a1, a2⟩, b0, b1, b2⟩ := h
  obtain ⟨a, b, d⟩ := y
  simp only [ascend_coords] at b0 b1 b2
  simp only at a0 a1 a2
  simp only [ascend_coords_f32, ascend_coords, Vector3.mk.injEq]
  refine ⟨?_, ?_, ?_⟩
  · rcases Nat.mod_two_eq_zero_or_one c with h0 | h0
    · rw [h0] at b0
      simp only [h0, zero_ne_one, if_false, fmul]
      have e : (1 / 2 : ℚ) * a = (a + ((0 : Nat) : ℚ)) / 2 := by push_cast; ring
      rw [e, b0.1]
    · rw [h0] at b0
      simp only [h0, if_true, fmul, fadd, (a0 h0).1]
      have e : (1 / 2 : ℚ) * (a + 1) = (a + ((1 : Nat) : ℚ)) / 2 := by push_cast; ring
      rw [e, b0.1]
  · rcases Nat.mod_two_eq_zero_or_one (c / 2) with h0 | h0
    · rw [h0] at b1
      simp only [h0, zero_ne_one, if_false, fmul]
      have e : (1 / 2 : ℚ) * b = (b + ((0 : Nat) : ℚ)) / 2 := by push_cast; ring
      rw [e, b1.1]
    · rw [h0] at b1
      simp only [h0, if_true, fmul, fadd, (a1 h0).1]
      have e : (1 / 2 : ℚ) * (b + 1) = (b + ((1 : Nat) : ℚ)) / 2 := by push_cast; ring
      rw [e, b1.1]
  · rcases Nat.mod_two_eq_zero_or_one (c / 4) with h0 | h0
    · rw [h0] at b2
      simp only [h0, zero_ne_one, if_false, fmul]
      have e : (1 / 2 : ℚ) * d = (d + ((0 : Nat) : ℚ)) / 2 := by push_cast; ring
      rw [e, b2.1]
    · rw [h0] at b2
      simp only [h0, if_true, fmul, fadd, (a2 h0).1]
      have e : (1 / 2 : ℚ) * (d + 1) = (d + ((1 : Nat) : ℚ)) / 2 := by push_cast; ring
      rw [e, b2.1]

/-- Where no operation of `descend` rounds, its binary32 coordinates are the exact ones. -/
theorem descend_coords_f32_eq (x : Vector3) (h : descend_rounding_free x) :
    descend_coords_f32 x = descend_coords x := by
  obtain ⟨⟨a0, a1, a2⟩, b0, b1, b2⟩ := h
  obtain ⟨a, b, d⟩ := x
  simp only [descend_coords, Vector3.smul] at b0 b1 b2
  simp only at a0 a1 a2
  simp only [descend_coords_f32, descend_coords, Vector3.smul, Vector3.mk.injEq]
  refine ⟨?_, ?_, ?_⟩
  · rcases upper_cases a with ⟨ha, ea⟩ | ⟨ha, ea⟩
    · rw [ea] at b0
      have k := b0.1
      simp only [Nat.cast_zero, zero_div, sub_zero] at k
      simp only [ea, not_lt.mpr ha, gt_iff_lt, if_false, fmul, Nat.cast_zero, zero_div,
        sub_zero]
      exact k
    · rw [ea] at b0
      have e : a - 1 / 2 = a - ((1 : Nat) : ℚ) / 2 := by push_cast; ring
      simp only [ea, ha, gt_iff_lt, if_true, fmul, fsub, (a0 ha).1]
      rw [e, b0.1]
  · rcases upper_cases b with ⟨ha, ea⟩ | ⟨ha, ea⟩
    · rw [ea] at b1
      have k := b1.1
      simp only [Nat.cast_zero, zero_div, sub_zero] at k
      simp only [ea, not_lt.mpr ha, gt_iff_lt, if_false, fmul, Nat.cast_zero, zero_div,
        sub_zero]
      exact k
    · rw [ea] at b1
      have e : b - 1 / 2 = b - ((1 : Nat) : ℚ) / 2 := by push_cast; ring
      simp only [ea, ha, gt_iff_lt, if_true, fmul, fsub, (a1 ha).1]
      rw [e, b1.1]
  · rcases upper_cases d with ⟨ha, ea⟩ | ⟨ha, ea⟩
    · rw [ea] at b2
      have k := b2.1
      simp only [Nat.cast_zero, zero_div, sub_zero] at k
      simp only [ea, not_lt.mpr ha, gt_iff_lt, if_false, fmul, Nat.cast_zero, zero_div,
        sub_zero]
      exact k
    · rw [ea] at b2
      have e : d - 1 / 2 = d - ((1 : Nat) : ℚ) / 2 := by push_cast; ring
      simp only [ea, ha, gt_iff_lt, if_true, fmul, fsub, (a2 ha).1]
      rw [e, b2.1]

/-- A call of `ascend_f32` none of whose operations rounds is the call of `ascend`. -/
theorem ascend_f32_eq_ascend (t : SparseOctree V MaxSize) (loc : SparseOctreeLocation)
    (h : (Call.ascend loc).rounding_free t) : t.ascend_f32 loc = t.ascend loc := by
  simp only [Call.rounding_free, octant_of] at h
  by_cases h1 : is_saturated loc.m_local_coords
  · by_cases h2 : loc.m_node_id < MaxSize
    · by_cases h3 : (t.m_nodes loc.m_node_id).m_parent_id < MaxSize
      · by_cases h4 : sub_u32 loc.m_node_id
            (t.m_nodes (t.m_nodes loc.m_node_id).m_parent_id).m_children_id < 8
        · simp only [ascend_f32, ascend, h1, h2, h3, h4, if_true, ascend_fold_f32 _ h4,
            ascend_fold _ h4, ascend_coords_f32_eq _ _ h]
        · simp only [ascend_f32, ascend, h1, h2, h3, h4, if_true, if_false]
      · simp only [ascend_f32, ascend, h1, h2, h3, if_true, if_false]
    · simp only [ascend_f32, ascend, h1, h2, if_true, if_false]
  · simp only [ascend_f32, ascend, h1, if_false]

/-- A call of `descend_f32` none of whose operations rounds is the call of `descend`. -/
theorem descend_f32_eq_descend (t : SparseOctree V MaxSize) (loc : SparseOctreeLocation)
    (h : (Call.descend loc).rounding_free t) : t.descend_f32 loc = t.descend loc := by
  simp only [Call.rounding_free] at h
  have e := descend_coords_f32_eq _ h
  simp only [descend_coords_f32, descend_coords] at e
  simp only [descend_f32, descend, descend_fold_f32, descend_fold, Vector3.smul32]
  rw [e]

/-- Where no call of `ascend` rounds, the loop `ascend_till_has_neighbor` is the loop in
exact arithmetic. -/
theorem ascend_till_has_neighbor_eq_exact (t : SparseOctree V MaxSize) (face : Fin 3)
    (side : Bool) (fuel : Nat) :
    ∀ loc, (∀ c ∈ t.ascend_till_has_neighbor_calls face side fuel loc, c.rounding_free t) →
      t.ascend_till_has_neighbor face side fuel loc =
        t.ascend_till_has_neighbor_exact face side fuel loc := by
  induction fuel with
  | zero => intro loc _; rfl
  | succ fuel ih =>
    intro loc h
    by_cases hm : loc.m_node_id = 0
    · simp only [ascend_till_has_neighbor, ascend_till_has_neighbor_exact, hm, ne_eq,
        not_true_eq_false, if_false]
    · simp only [ascend_till_has_neighbor_calls, hm, ne_eq, not_false_eq_true, if_true,
        List.mem_cons] at h
      simp only [ascend_till_has_neighbor, ascend_till_has_neighbor_exact, hm, ne_eq,
        not_false_eq_true, if_true]
      cases hb : t.has_neighbor loc face side with
      | none => rfl
      | some b =>
        cases b with
        | true => rfl
        | false =>
          rw [hb] at h
          simp only [List.mem_cons] at h
          have ha := ascend_f32_eq_ascend t loc (h _ (Or.inr (Or.inl rfl)))
          simp only [Option.some_bind, Bool.not_false, if_true, ha]
          rw [ha] at h
          cases hr : t.ascend loc with
          | none => rfl
          | some l1 =>
            rw [hr] at h
            simp only [Option.some_bind]
            exact ih l1 fun c hc => h c (Or.inr (Or.inr hc))

/-- Where no call of `descend` rounds, the loop `descend_till_leaf_f32` is the loop in exact
arithmetic. -/
theorem descend_till_leaf_f32_eq (t : SparseOctree V MaxSize) (fuel : Nat) :
    ∀ loc, (∀ c ∈ t.descend_till_leaf_calls fuel loc, c.rounding_free t) →
      t.descend_till_leaf_f32 fuel loc = t.descend_till_leaf fuel loc := by
  induction fuel with
  | zero => intro loc _; rfl
  | succ fuel ih =>
    intro loc h
    cases hn : t.node loc.m_node_id with
    | none => simp only [descend_till_leaf_f32, descend_till_leaf, hn, Option.none_bind]
    | some n =>
      simp only [descend_till_leaf_calls, hn] at h
      simp only [descend_till_leaf_f32, descend_till_leaf, hn, Option.some_bind]
      by_cases hc : n.m_children_id = Null
      · simp only [hc, ne_eq, not_true_eq_false, if_false]
      · simp only [hc, ne_eq, not_false_eq_true, if_true, List.mem_cons] at h
        have hd := descend_f32_eq_descend t loc (h _ (Or.inl rfl))
        simp only [hc, ne_eq, not_false_eq_true, if_true, hd]
        rw [hd] at h
        cases hr : t.descend loc with
        | none => rfl
        | some l1 =>
          rw [hr] at h
          simp only [Option.some_bind]
          exact ih l1 fun c hc1 => h c (Or.inr hc1)

/-- Where no call of `ascend` rounds, `calculate_coords_f32` is `calculate_coords`. -/
theorem calculate_coords_f32_eq (t : SparseOctree V MaxSize) (fuel : Nat) :
    ∀ loc, t.calculate_coords_rounding_free fuel loc →
      t.calculate_coords_f32 fuel loc = t.calculate_coords fuel loc := by
  have key : ∀ fuel loc, (∀ c ∈ t.calculate_coords_calls fuel loc, c.rounding_free t) →
      t.calculate_coords_loop_f32 fuel loc = t.calculate_coords_loop fuel loc := by
    intro fuel
    induction fuel with
    | zero => intro loc _; rfl
    | succ fuel ih =>
      intro loc h
      by_cases hm : loc.m_node_id = 0
      · simp only [calculate_coords_loop_f32, calculate_coords_loop, hm, ne_eq,
          not_true_eq_false, if_false]
      · simp only [calculate_coords_calls, hm, ne_eq, not_false_eq_true, if_true,
          List.mem_cons] at h
        have ha := ascend_f32_eq_ascend t loc (h _ (Or.inl rfl))
        simp only [calculate_coords_loop_f32, calculate_coords_loop, hm, ne_eq,
          not_false_eq_true, if_true, ha]
        rw [ha] at h
        cases hr : t.ascend loc with
        | none => rfl
        | some l1 =>
          rw [hr] at h
          simp only [Option.some_bind]
          exact ih l1 fun c hc => h c (Or.inr hc)
  intro loc h
  simp only [calculate_coords_f32, calculate_coords, key fuel loc h]

/-- Where no operation of the first statements rounds, the distances, the exit face, the
exit side, the advance distance and the exit point are those of exact arithmetic. -/
theorem exit_eq_exact (direction direction_signs : Vector3) (prev : SparseOctreeLocation)
    (h : exit_rounding_free direction direction_signs prev) :
    exit_distances direction direction_signs prev =
      exit_distances_exact direction direction_signs prev ∧
    exit_face direction direction_signs prev = exit_face_exact direction direction_signs prev ∧
    exit_side direction direction_signs prev = exit_side_exact direction direction_signs prev ∧
    advance direction direction_signs prev = advance_exact direction direction_signs prev ∧
    exit_location direction direction_signs prev =
      exit_location_exact direction direction_signs prev ∧
    fsub 1 (direction_signs.get (exit_face_exact direction direction_signs prev)) =
      1 - direction_signs.get (exit_face_exact direction direction_signs prev) := by
  obtain ⟨h, h1⟩ := h
  have hd : exit_distances direction direction_signs prev =
      exit_distances_exact direction direction_signs prev := by
    have k0 := h 0
    have k1 := h 1
    have k2 := h 2
    simp only [exit_distances_exact, Vector3.div, Vector3.sub, Vector3.get] at k0 k1 k2
    simp only [exit_distances, exit_distances_exact, Vector3.div32, Vector3.sub32, Vector3.div,
      Vector3.sub, fdiv, fsub, k0.1.1, k1.1.1, k2.1.1, k0.2.1.1, k1.2.1.1, k2.2.1.1]
  have hf : exit_face direction direction_signs prev =
      exit_face_exact direction direction_signs prev := by
    simp only [exit_face, exit_face_exact, hd]
  have ha : advance direction direction_signs prev =
      advance_exact direction direction_signs prev := by
    simp only [advance, advance_exact, hd, hf]
  refine ⟨hd, hf, by simp only [exit_side, exit_side_exact, hf], ha, ?_, h1.1⟩
  have k0 := h 0
  have k1 := h 1
  have k2 := h 2
  simp only [exit_location_exact, Vector3.add, Vector3.smul, Vector3.get] at k0 k1 k2
  simp only [exit_location, exit_location_exact, ha, Vector3.add32, Vector3.smul32,
    Vector3.add, Vector3.smul, fadd, fmul, k0.2.2.1.1, k1.2.2.1.1, k2.2.2.1.1, k0.2.2.2.1,
    k1.2.2.2.1, k2.2.2.2.1]

/-- Where the arithmetic of a crossing is exact, the crossing is the crossing in exact
arithmetic. -/
theorem crossing_eq_exact (t : SparseOctree V MaxSize) (inner : Nat)
    (direction direction_signs : Vector3) (prev : SparseOctreeLocation)
    (h : t.rounding_free inner direction direction_signs prev) :
    t.crossing inner direction direction_signs prev =
      t.crossing_exact inner direction direction_signs prev := by
  obtain ⟨hx, hc⟩ := h
  obtain ⟨-, hf, hs, -, hl, h1⟩ := exit_eq_exact direction direction_signs prev hx
  simp only [crossing_calls, hf, hs, hl, List.mem_append] at hc
  have ha := ascend_till_has_neighbor_eq_exact t
    (exit_face_exact direction direction_signs prev)
    (exit_side_exact direction direction_signs prev) inner
    (exit_location_exact direction direction_signs prev) fun c hc1 => hc c (Or.inl hc1)
  simp only [crossing, crossing_exact, hf, hs, hl, ha]
  rw [ha] at hc
  cases hr : t.ascend_till_has_neighbor_exact (exit_face_exact direction direction_signs prev)
      (exit_side_exact direction direction_signs prev) inner
      (exit_location_exact direction direction_signs prev) with
  | none => rfl
  | some r1 =>
    rw [hr] at hc
    simp only [Option.some_bind]
    by_cases h0 : r1.m_node_id = 0
    · simp only [h0, if_true]
    · simp only [h0, if_false, List.mem_cons] at hc
      simp only [h0, if_false]
      cases hg : t.get_neighbor r1 (exit_face_exact direction direction_signs prev)
          (exit_side_exact direction direction_signs prev) with
      | none => rfl
      | some nb =>
        rw [hg] at hc
        simp only [Option.some_bind, h1]
        rw [h1] at hc
        rw [descend_till_leaf_f32_eq t inner _ fun c hc1 => hc c (Or.inr (Or.inr (Or.inr hc1)))]

/-! ## The assertions of a crossing -/

/-- In a well-formed tree an allocated id is an allocated id below `MaxSize`. -/
theorem WellFormed.is_allocated_of_lt {t : SparseOctree V MaxSize} (wf : WellFormed t)
    (hM : ValidCapacity MaxSize) {n : Nat} (hn : n < t.m_size) : is_allocated t n :=
  ⟨hn, lt_of_lt_of_le hn (wf.size_le_max hM.1)⟩

/-- In a well-formed tree the octant index of an allocated node other than the root is
below 8. -/
theorem WellFormed.octant_of_lt {t : SparseOctree V MaxSize} (wf : WellFormed t)
    (hM : ValidCapacity MaxSize) {m : Nat} (h0 : 0 < m) (hm : m < t.m_size) :
    octant_of t m < 8 ∧
      octant_of t m = m - (t.m_nodes (t.m_nodes m).m_parent_id).m_children_id := by
  obtain ⟨-, -, h3, h4⟩ := wf.parent_block m h0 hm
  have hs : t.m_size ≤ MaxSize := wf.size_le_max hM.1
  have h5 : octant_of t m = m - (t.m_nodes (t.m_nodes m).m_parent_id).m_children_id := by
    unfold octant_of
    exact sub_u32_eq _ _ h3 (by have := hM.2; omega)
  exact ⟨by omega, h5⟩

/-- The call of `has_neighbor` on an allocated node of a well-formed tree meets its
assertion. -/
theorem WellFormed.has_neighbor_holds {t : SparseOctree V MaxSize} (wf : WellFormed t)
    (hM : ValidCapacity MaxSize) (loc : SparseOctreeLocation) (hn : loc.m_node_id < t.m_size)
    (face : Fin 3) (side : Bool) : (Call.has_neighbor loc face side).holds t := by
  obtain ⟨y, m⟩ := loc
  simp only at hn
  by_cases hm : m = 0
  · refine ⟨⟨false, by simp only [has_neighbor, hm, if_true]⟩, fun h => absurd hm h⟩
  · have h0 : 0 < m := Nat.pos_of_ne_zero hm
    obtain ⟨h1, -, -, -⟩ := wf.parent_block m h0 hn
    exact ⟨⟨_, wf.has_neighbor_octant_bit h0 hn y face side⟩,
      fun _ => ⟨wf.is_allocated_of_lt hM hn,
        wf.is_allocated_of_lt hM (show (t.m_nodes m).m_parent_id < t.m_size by omega),
        (wf.octant_of_lt hM h0 hn).1⟩⟩

/-- The call of `ascend` on a saturated location in an allocated node other than the root
of a well-formed tree meets its assertions, where none of its operations rounds. -/
theorem WellFormed.ascend_holds {t : SparseOctree V MaxSize} (wf : WellFormed t)
    (hM : ValidCapacity MaxSize) (loc : SparseOctreeLocation) (h0 : loc.m_node_id ≠ 0)
    (hn : loc.m_node_id < t.m_size) (hx : is_saturated loc.m_local_coords)
    (hrf : (Call.ascend loc).rounding_free t) :
    (Call.ascend loc).holds t := by
  obtain ⟨y, m⟩ := loc
  simp only at hn hx h0
  have h0 : 0 < m := Nat.pos_of_ne_zero h0
  obtain ⟨h1, -, -, -⟩ := wf.parent_block m h0 hn
  exact ⟨hx, wf.is_allocated_of_lt hM hn,
    wf.is_allocated_of_lt hM (show (t.m_nodes m).m_parent_id < t.m_size by omega),
    (wf.octant_of_lt hM h0 hn).1, _,
    (ascend_f32_eq_ascend t ⟨y, m⟩ hrf).trans (wf.ascend_allocated hM.2 h0 hn y hx)⟩

/-- The call of `descend` on a saturated location in an allocated node with children of a
well-formed tree meets its assertions, where none of its operations rounds. -/
theorem WellFormed.descend_holds {t : SparseOctree V MaxSize} (wf : WellFormed t)
    (hM : ValidCapacity MaxSize) (loc : SparseOctreeLocation)
    (hn : loc.m_node_id < t.m_size) (hc : t.has_children loc.m_node_id)
    (hx : is_saturated loc.m_local_coords) (hrf : (Call.descend loc).rounding_free t) :
    (Call.descend loc).holds t := by
  obtain ⟨x, n⟩ := loc
  simp only at hn hx hc
  obtain ⟨h1, h2, -⟩ := wf.children_block n hn hc
  have hs : t.m_size ≤ MaxSize := wf.size_le_max hM.1
  have ho := octant_lt x
  exact ⟨wf.is_allocated_of_lt hM hn, by simp only; omega, hx, _, octant x,
    (descend_f32_eq_descend t ⟨x, n⟩ hrf).trans (wf.descend_allocated hM.2 hn hc x hx), ho,
    rfl,
    wf.is_allocated_of_lt hM (by simp only; omega)⟩

/-- The call of `get_neighbor` on an allocated node of a well-formed tree which has a
neighbor meets its assertions. -/
theorem WellFormed.get_neighbor_holds {t : SparseOctree V MaxSize} (wf : WellFormed t)
    (hM : ValidCapacity MaxSize) (loc : SparseOctreeLocation) (h0 : loc.m_node_id ≠ 0)
    (hn : loc.m_node_id < t.m_size) (face : Fin 3) (side : Bool)
    (hnb : t.has_neighbor loc face side = some true) :
    (Call.get_neighbor loc face side).holds t := by
  obtain ⟨y, m⟩ := loc
  simp only at hn h0
  have h0 : 0 < m := Nat.pos_of_ne_zero h0
  obtain ⟨h1, -, h3, h4⟩ := wf.parent_block m h0 hn
  obtain ⟨ho, he⟩ := wf.octant_of_lt hM h0 hn
  have hs : t.m_size ≤ MaxSize := wf.size_le_max hM.1
  have hxl := xor_lt_fin (octant_of t m) ho face
  have hmod : (octant_of t m ^^^ (1 <<< face.val)) % 2 ^ 32 =
      octant_of t m ^^^ (1 <<< face.val) := Nat.mod_eq_of_lt (by omega)
  have hpc := wf.parent_block m h0 hn
  obtain ⟨-, hb2, -⟩ := wf.children_block _ (by omega) hpc.2.1
  refine ⟨hnb, wf.is_allocated_of_lt hM hn,
    wf.is_allocated_of_lt hM (show (t.m_nodes m).m_parent_id < t.m_size by omega), ho,
    by rw [hmod]; exact hxl, _, wf.get_neighbor_eq hM.2 h0 hn y face side hnb, ?_⟩
  rw [← he, hmod]
  have hM2 := hM.2
  have hlt : (t.m_nodes (t.m_nodes m).m_parent_id).m_children_id +
      (octant_of t m ^^^ (1 <<< face.val)) < t.m_size := by omega
  rw [Nat.mod_eq_of_lt (by omega)]
  exact wf.is_allocated_of_lt hM hlt

/-- Every call made by `ascend_till_has_neighbor` from a saturated location in an allocated
node of a well-formed tree meets its assertions, where no operation of these calls
rounds. -/
theorem WellFormed.ascend_till_has_neighbor_calls_hold {t : SparseOctree V MaxSize}
    (wf : WellFormed t) (hM : ValidCapacity MaxSize) (face : Fin 3) (side : Bool)
    (fuel : Nat) :
    ∀ loc, loc.m_node_id < t.m_size → is_saturated loc.m_local_coords →
      (∀ c ∈ t.ascend_till_has_neighbor_calls face side fuel loc, c.rounding_free t) →
      ∀ c ∈ t.ascend_till_has_neighbor_calls face side fuel loc, c.holds t := by
  induction fuel with
  | zero => intro loc _ _ _ c hc; simp [ascend_till_has_neighbor_calls] at hc
  | succ fuel ih =>
    intro loc hn hx hrf c hc
    by_cases hm : loc.m_node_id = 0
    · simp [ascend_till_has_neighbor_calls, hm] at hc
    · have h0 : 0 < loc.m_node_id := Nat.pos_of_ne_zero hm
      obtain ⟨h1, -, -, -⟩ := wf.parent_block _ h0 hn
      have hnb := wf.has_neighbor_octant_bit h0 hn loc.m_local_coords face side
      simp only [ascend_till_has_neighbor_calls, hm, ne_eq, not_false_eq_true, if_true,
        List.mem_cons] at hc hrf
      rcases hc with rfl | hc
      · exact wf.has_neighbor_holds hM loc hn face side
      · rw [hnb] at hc hrf
        cases hb : (octant_bit t face loc.m_node_id != side) with
        | false =>
          rw [hb] at hc hrf
          simp only [List.mem_cons] at hc hrf
          have hra := hrf _ (Or.inr (Or.inl rfl))
          have ha := (ascend_f32_eq_ascend t loc hra).trans
            (wf.ascend_allocated hM.2 h0 hn loc.m_local_coords hx)
          rcases hc with rfl | hc
          · exact wf.ascend_holds hM loc hm hn hx hra
          · rw [ha] at hc hrf
            exact ih _ (by simp only; omega) (ascend_coords_saturated _ _ hx)
              (fun c1 hc1 => hrf c1 (Or.inr (Or.inr hc1))) c hc
        | true =>
          rw [hb] at hc
          simp at hc

/-- Every call made by `descend_till_leaf` from a saturated location in an allocated node
of a well-formed tree meets its assertions, where no operation of these calls rounds. -/
theorem WellFormed.descend_till_leaf_calls_hold {t : SparseOctree V MaxSize}
    (wf : WellFormed t) (hM : ValidCapacity MaxSize) (fuel : Nat) :
    ∀ loc, loc.m_node_id < t.m_size → is_saturated loc.m_local_coords →
      (∀ c ∈ t.descend_till_leaf_calls fuel loc, c.rounding_free t) →
      ∀ c ∈ t.descend_till_leaf_calls fuel loc, c.holds t := by
  induction fuel with
  | zero => intro loc _ _ _ c hc; simp [descend_till_leaf_calls] at hc
  | succ fuel ih =>
    intro loc hn hx hrf c hc
    have hs : t.m_size ≤ MaxSize := wf.size_le_max hM.1
    have hlt : loc.m_node_id < MaxSize := by omega
    by_cases hch : t.has_children loc.m_node_id
    · obtain ⟨h1, h2, -⟩ := wf.children_block _ hn hch
      have hc2 := hch
      unfold has_children at hc2
      have ho := octant_lt loc.m_local_coords
      simp only [descend_till_leaf_calls, node, hlt, if_true, hc2, ne_eq,
        not_false_eq_true, List.mem_cons] at hc hrf
      have hrd := hrf _ (Or.inl rfl)
      have hd := (descend_f32_eq_descend t loc hrd).trans
        (wf.descend_allocated hM.2 hn hch loc.m_local_coords hx)
      rcases hc with rfl | hc
      · exact wf.descend_holds hM loc hn hch hx hrd
      · rw [hd] at hc hrf
        exact ih _ (by simp only; omega) (descend_coords_saturated _ hx)
          (fun c1 hc1 => hrf c1 (Or.inr hc1)) c hc
    · have hc2 := hch
      unfold has_children at hc2
      simp only [not_not] at hc2
      simp [descend_till_leaf_calls, node, hlt, hc2] at hc

/-- Every call made by one crossing from a saturated location in an allocated node of a
well-formed tree meets its assertions, where the arithmetic of the crossing is exact,
whatever the fuel of the inner loops. -/
theorem WellFormed.crossing_calls_hold {t : SparseOctree V MaxSize} (wf : WellFormed t)
    (hM : ValidCapacity MaxSize) {direction direction_signs : Vector3}
    (hd : consistent_signs direction direction_signs) (inner : Nat)
    (prev : SparseOctreeLocation) (hn : prev.m_node_id < t.m_size)
    (hx : is_saturated prev.m_local_coords)
    (hex : t.rounding_free inner direction direction_signs prev) :
    ∀ c ∈ t.crossing_calls inner direction direction_signs prev, c.holds t := by
  obtain ⟨hxr, hrf⟩ := hex
  obtain ⟨-, hf, hs, -, hl, h1⟩ := exit_eq_exact direction direction_signs prev hxr
  intro c hc
  have hsgn := hd.sign_cases (exit_face_exact direction direction_signs prev)
  have hn1 : (exit_location_exact direction direction_signs prev).m_node_id < t.m_size := by
    simpa only [exit_location_exact] using hn
  have hx1 := exit_location_exact_saturated prev hd hx
  simp only [crossing_calls, hf, hs, hl, List.mem_append] at hc hrf
  have hrf1 : ∀ c ∈ t.ascend_till_has_neighbor_calls
      (exit_face_exact direction direction_signs prev)
      (exit_side_exact direction direction_signs prev) inner
      (exit_location_exact direction direction_signs prev), c.rounding_free t :=
    fun c1 hc1 => hrf c1 (Or.inl hc1)
  have he := ascend_till_has_neighbor_eq_exact t _ _ inner _ hrf1
  rcases hc with hc | hc
  · exact wf.ascend_till_has_neighbor_calls_hold hM _ _ inner _ hn1 hx1 hrf1 c hc
  · rw [he] at hc hrf
    cases h1e : t.ascend_till_has_neighbor_exact
        (exit_face_exact direction direction_signs prev)
        (exit_side_exact direction direction_signs prev) inner
        (exit_location_exact direction direction_signs prev) with
    | none => rw [h1e] at hc; simp at hc
    | some r1 =>
      rw [h1e] at hc hrf
      have h1s := h1e
      unfold exit_side_exact at h1s
      obtain ⟨a1, a2, a3, -, a5⟩ := wf.ascend_till_has_neighbor_exact_sound hM.2
        (exit_face_exact direction direction_signs prev)
        (direction_signs.get (exit_face_exact direction direction_signs prev)) hsgn inner
        (exit_location_exact direction direction_signs prev) r1 hn1 hx1
        (exit_location_exact_face prev hd) h1s
      by_cases h0 : r1.m_node_id = 0
      · simp [h0] at hc
      · obtain ⟨y, m⟩ := r1
        simp only at a1 a2 a3 h0
        have hnb := a5 h0
        have hg := wf.get_neighbor_eq hM.2 (Nat.pos_of_ne_zero h0) a1 y
          (exit_face_exact direction direction_signs prev)
          (decide (direction_signs.get (exit_face_exact direction direction_signs prev) >
            1 / 2)) hnb
        obtain ⟨n1, -, n3, -⟩ := wf.get_neighbor_sound hM.2
          (exit_face_exact direction direction_signs prev)
          (direction_signs.get (exit_face_exact direction direction_signs prev)) hsgn h0 a1 y
          a2 a3 hnb _ hg
        simp only [h0, if_false, List.mem_cons] at hc hrf
        rcases hc with rfl | rfl | hc
        · exact wf.get_neighbor_holds hM ⟨y, m⟩ h0 a1 _ _ hnb
        · exact wf.has_neighbor_holds hM ⟨y, m⟩ a1 _ _
        · unfold exit_side_exact at hc hrf
          rw [hg, h1] at hc hrf
          exact wf.descend_till_leaf_calls_hold hM inner
            ⟨y.set (exit_face_exact direction direction_signs prev)
              (1 - direction_signs.get (exit_face_exact direction direction_signs prev)),
              ((t.m_nodes (t.m_nodes m).m_parent_id).m_children_id +
                (m - (t.m_nodes (t.m_nodes m).m_parent_id).m_children_id ^^^
                  1 <<< (exit_face_exact direction direction_signs prev).val) % 2 ^ 32) %
                65536⟩
            n1 n3 (fun c1 hc1 => hrf c1 (Or.inr (Or.inr (Or.inr hc1)))) c hc

/-! ## The crossing in exact arithmetic: the ray, leaving the tree, the assertions -/

/-- C11. The crossing stays on the ray, in exact arithmetic: on a reachable tree, from a
location `prev` at an allocated node with local coordinates in the unit cube, for a
direction without zero component and consistent with `direction_signs`, where no operation
of the crossing and of the three evaluations of `calculate_coords` rounds, one crossing of
`find_next_intersection` returns a location `out` with `calculate_coords out` equal to
`calculate_coords` of the point `prev.local_coords + t[face] * direction` in the node of
`prev`, and this global point is the global point of `prev` plus a non-negative multiple of
the direction. -/
theorem crossing_on_ray [Inhabited V] (hM : ValidCapacity MaxSize)
    (t : SparseOctree V MaxSize) (hr : Reachable t) (direction direction_signs : Vector3)
    (hd : consistent_signs direction direction_signs) (prev : SparseOctreeLocation)
    (hn : prev.m_node_id < t.get_size) (hx : is_saturated prev.m_local_coords)
    (inner fuel : Nat) (hi : t.get_size ≤ inner) (hf : t.get_size ≤ fuel)
    (hex : t.rounding_free inner direction direction_signs prev)
    (hp : t.calculate_coords_rounding_free fuel prev)
    (he : t.calculate_coords_rounding_free fuel
      (exit_location direction direction_signs prev))
    (ho : ∀ b out, t.crossing inner direction direction_signs prev = some (b, out) →
      t.calculate_coords_rounding_free fuel out) :
    ∃ b out g0 g1 τ, t.crossing inner direction direction_signs prev = some (b, out) ∧
      t.calculate_coords_f32 fuel out = some g1 ∧
      t.calculate_coords_f32 fuel (exit_location direction direction_signs prev) = some g1 ∧
      t.calculate_coords_f32 fuel prev = some g0 ∧
      0 ≤ τ ∧ g1 = Vector3.add g0 (Vector3.smul τ direction) := by
  obtain ⟨b, out, g0, g1, τ, h1, h2, h3, h4, h5, h6⟩ :=
    crossing_exact_on_ray hM t hr direction direction_signs hd prev hn hx inner fuel hi hf
  have hc := crossing_eq_exact t inner direction direction_signs prev hex
  have hl := (exit_eq_exact direction direction_signs prev hex.1).2.2.2.2.1
  refine ⟨b, out, g0, g1, τ, hc.trans h1, ?_, ?_, ?_, h5, h6⟩
  · rw [calculate_coords_f32_eq t fuel out (ho b out (hc.trans h1))]
    exact h2
  · rw [calculate_coords_f32_eq t fuel _ he, hl]
    exact h3
  · rw [calculate_coords_f32_eq t fuel prev hp]
    exact h4

/-- C12. Leaving the tree, in exact arithmetic: under the same preconditions, where no
operation of the crossing rounds, one crossing of `find_next_intersection` returns, and it
reports `true` exactly when the node of `prev` and every ancestor of it below the root has
its octant bit of the exit axis `face` equal to `side`; when it reports `true` the output
location is at the root, its coordinates lie in the unit cube and its coordinate on the
axis `face` equals `direction_signs[face]`. -/
theorem leaving_the_tree [Inhabited V] (hM : ValidCapacity MaxSize)
    (t : SparseOctree V MaxSize) (hr : Reachable t) (direction direction_signs : Vector3)
    (hd : consistent_signs direction direction_signs) (prev : SparseOctreeLocation)
    (hn : prev.m_node_id < t.get_size) (hx : is_saturated prev.m_local_coords)
    (inner : Nat) (hi : t.get_size ≤ inner)
    (hex : t.rounding_free inner direction direction_signs prev) :
    ∃ b out, t.crossing inner direction direction_signs prev = some (b, out) ∧
      (b = true ↔ ∀ a, Ancestor t a prev.m_node_id → a ≠ t.get_root_id →
        octant_bit t (exit_face direction direction_signs prev) a =
          exit_side direction direction_signs prev) ∧
      (b = true → out.m_node_id = t.get_root_id ∧ is_saturated out.m_local_coords ∧
        out.m_local_coords.get (exit_face direction direction_signs prev) =
          direction_signs.get (exit_face direction direction_signs prev)) := by
  obtain ⟨b, out, h1, h2, h3⟩ :=
    leaving_the_tree_exact hM t hr direction direction_signs hd prev hn hx inner hi
  obtain ⟨-, hf, hs, -, -, -⟩ := exit_eq_exact direction direction_signs prev hex.1
  rw [hf, hs]
  exact ⟨b, out, (crossing_eq_exact t inner direction direction_signs prev hex).trans h1,
    h2, h3⟩

/-- C21. The assertions of ray marching are never violated, in exact arithmetic. In every
reachable tree, from every location `prev` in an allocated node (a leaf or not) with local
coordinates in `[0, 1]^3`, for every direction without a zero component and consistent with
`direction_signs`, where no operation of the crossing rounds, one crossing step of
`find_next_intersection` whose inner loops have fuel for the size of the tree runs to its
end, in an allocated node with saturated coordinates, and every call of `ascend`,
`descend`, `has_neighbor` and `get_neighbor` made on the way meets its assertions: the
coordinates are saturated at each `ascend` and `descend`, every node id and parent id read
is an allocated id below `MaxSize`, every computed octant index is below 8, `get_neighbor`
is called only where `has_neighbor` is true, and each call returns. -/
theorem crossing_assertions_hold [Inhabited V] (hM : ValidCapacity MaxSize)
    (t : SparseOctree V MaxSize) (hr : Reachable t) (direction direction_signs : Vector3)
    (hd : consistent_signs direction direction_signs) (prev : SparseOctreeLocation)
    (hn : prev.m_node_id < t.get_size) (hx : is_saturated prev.m_local_coords)
    (inner : Nat) (hi : t.get_size ≤ inner)
    (hex : t.rounding_free inner direction direction_signs prev) :
    (∃ b out, t.crossing inner direction direction_signs prev = some (b, out) ∧
      is_allocated t out.m_node_id ∧ is_saturated out.m_local_coords) ∧
    ∀ c ∈ t.crossing_calls inner direction direction_signs prev, c.holds t := by
  have wf := hr.wellFormed
  refine ⟨?_, wf.crossing_calls_hold hM hd inner prev hn hx hex⟩
  have hc := crossing_eq_exact t inner direction direction_signs prev hex
  obtain ⟨b, out, h⟩ := wf.crossing_exact_total hM hd inner prev hn hx hi
  refine ⟨b, out, hc.trans h, ?_⟩
  cases b with
  | false =>
    obtain ⟨h1, -, h3, -⟩ := wf.crossing_exact_sound hM.2 hd inner prev out hn hx h
    exact ⟨wf.is_allocated_of_lt hM h1, h3⟩
  | true =>
    obtain ⟨h1, h2, -⟩ := wf.crossing_exact_true_sound hM.2 hd inner prev out hn hx h
    exact ⟨wf.is_allocated_of_lt hM (by rw [h1]; exact wf.size_pos), h2⟩

/-! ## Crossings evaluated in binary32 -/

/-- A rational equal to a binary32 value is a binary32 value. -/
theorem is_binary32_of_eq {a : ℚ} (b : ℚ) (h : a = b) (hb : is_binary32 b) :
    is_binary32 a := h ▸ hb

/-- The crossing from the point `(7/8, 7/8, 1/8)` of the root's child 5 along
`(-13/32, -13/32, 5/32)`, evaluated in binary32: the quotient `(7/8) / (13/32)` rounds up,
the products with the direction round to `-14680065 / 2^24`, beyond `-7/8`, and the exit
point lands beyond the faces `x = 0` and `y = 0` by `2^-24`. -/
theorem unsaturated_crossing_eval (n : Nat) :
    split_root64.crossing (n + 4) ⟨-13 / 32, -13 / 32, 5 / 32⟩ ⟨0, 0, 1⟩ ⟨⟨7 / 8, 7 / 8, 1 / 8⟩,
      6⟩ =
      some (false, ⟨⟨1, -1 / 16777216, 7743331 / 16777216⟩, 5⟩) ∧
    advance ⟨-13 / 32, -13 / 32, 5 / 32⟩ ⟨0, 0, 1⟩ ⟨⟨7 / 8, 7 / 8, 1 / 8⟩, 6⟩ = 4516943 / 2097152
      ∧
    exit_face ⟨-13 / 32, -13 / 32, 5 / 32⟩ ⟨0, 0, 1⟩ ⟨⟨7 / 8, 7 / 8, 1 / 8⟩, 6⟩ = 0 ∧
    exit_location ⟨-13 / 32, -13 / 32, 5 / 32⟩ ⟨0, 0, 1⟩ ⟨⟨7 / 8, 7 / 8, 1 / 8⟩, 6⟩ =
      ⟨⟨-1 / 16777216, -1 / 16777216, 7743331 / 16777216⟩, 6⟩ ∧
    split_root64.crossing_calls (n + 4) ⟨-13 / 32, -13 / 32, 5 / 32⟩ ⟨0, 0, 1⟩ ⟨⟨7 / 8, 7 / 8, 1
      / 8⟩, 6⟩ =
      [Call.has_neighbor ⟨⟨-1 / 16777216, -1 / 16777216, 7743331 / 16777216⟩, 6⟩ 0 false,
        Call.get_neighbor ⟨⟨-1 / 16777216, -1 / 16777216, 7743331 / 16777216⟩, 6⟩ 0 false,
        Call.has_neighbor ⟨⟨-1 / 16777216, -1 / 16777216, 7743331 / 16777216⟩, 6⟩ 0 false] := by
  have wf := split_root64_reachable.wellFormed
  have o1 : fsub 0 (7 / 8) = -7 / 8 :=
    fsub_of _ _ (-7 / 8) _ (by norm_num)
      (round32_of_neg _ _ (-1) (-14680064) (by norm_num) (by norm_num) (by norm_num) (by norm_num)
        (by norm_num) (by norm_num))
  have o2 : fsub 1 (1 / 8) = 7 / 8 :=
    fsub_of _ _ (7 / 8) _ (by norm_num)
      (round32_of_pos _ _ (-1) 14680064 (by norm_num) (by norm_num) (by norm_num) (by norm_num)
        (by norm_num) (by norm_num))
  have o3 : fdiv (-7 / 8) (-13 / 32) = 4516943 / 2097152 :=
    fdiv_of _ _ (28 / 13) _ (by norm_num)
      (round32_of_pos _ _ 1 9033886 (by norm_num) (by norm_num) (by norm_num) (by norm_num)
        (by norm_num) (by norm_num))
  have o4 : fdiv (7 / 8) (5 / 32) = 11744051 / 2097152 :=
    fdiv_of _ _ (28 / 5) _ (by norm_num)
      (round32_of_pos _ _ 2 11744051 (by norm_num) (by norm_num) (by norm_num) (by norm_num)
        (by norm_num) (by norm_num))
  have hdist : exit_distances ⟨-13 / 32, -13 / 32, 5 / 32⟩ ⟨0, 0, 1⟩ ⟨⟨7 / 8, 7 / 8, 1 / 8⟩, 6⟩ =
      ⟨4516943 / 2097152, 4516943 / 2097152, 11744051 / 2097152⟩ := by
    simp only [exit_distances, Vector3.div32, Vector3.sub32, o1, o1, o2, o3, o3, o4]
  have hface : exit_face ⟨-13 / 32, -13 / 32, 5 / 32⟩ ⟨0, 0, 1⟩ ⟨⟨7 / 8, 7 / 8, 1 / 8⟩, 6⟩ = 0 :=
      by
    rw [exit_face, hdist]
    norm_num [min_index, Vector3.get]
  have hadv : advance ⟨-13 / 32, -13 / 32, 5 / 32⟩ ⟨0, 0, 1⟩ ⟨⟨7 / 8, 7 / 8, 1 / 8⟩, 6⟩ = 4516943
      / 2097152 := by
    rw [advance, hdist, hface]
    rfl
  have hside : exit_side ⟨-13 / 32, -13 / 32, 5 / 32⟩ ⟨0, 0, 1⟩ ⟨⟨7 / 8, 7 / 8, 1 / 8⟩, 6⟩ =
      false := by
    rw [exit_side, hface]
    norm_num [Vector3.get]
  have o5 : fmul (4516943 / 2097152) (-13 / 32) = -14680065 / 16777216 :=
    fmul_of _ _ (-58720259 / 67108864) _ (by norm_num)
      (round32_of_neg _ _ (-1) (-14680065) (by norm_num) (by norm_num) (by norm_num) (by norm_num)
        (by norm_num) (by norm_num))
  have o6 : fmul (4516943 / 2097152) (5 / 32) = 5646179 / 16777216 :=
    fmul_of _ _ (22584715 / 67108864) _ (by norm_num)
      (round32_tie_pos _ _ (-2) 11292358 (by norm_num) (by norm_num) (by norm_num) (by norm_num)
        (by decide) (Or.inr (by norm_num)))
  have o7 : fadd (7 / 8) (-14680065 / 16777216) = -1 / 16777216 :=
    fadd_of _ _ (-1 / 16777216) _ (by norm_num)
      (round32_of_neg _ _ (-24) (-8388608) (by norm_num) (by norm_num) (by norm_num) (by norm_num)
        (by norm_num) (by norm_num))
  have o8 : fadd (1 / 8) (5646179 / 16777216) = 7743331 / 16777216 :=
    fadd_of _ _ (7743331 / 16777216) _ (by norm_num)
      (round32_of_pos _ _ (-2) 15486662 (by norm_num) (by norm_num) (by norm_num) (by norm_num)
        (by norm_num) (by norm_num))
  have hexit : exit_location ⟨-13 / 32, -13 / 32, 5 / 32⟩ ⟨0, 0, 1⟩ ⟨⟨7 / 8, 7 / 8, 1 / 8⟩, 6⟩ =
      ⟨⟨-1 / 16777216, -1 / 16777216, 7743331 / 16777216⟩, 6⟩ := by
    simp only [exit_location, hadv, Vector3.add32, Vector3.smul32, o5, o5, o6, o7, o7, o8]
  have hn6 : ∀ y, split_root64.has_neighbor ⟨y, 6⟩ 0 false = some true := by
    intro y
    rw [wf.has_neighbor_octant_bit (by decide) (by decide)]
    decide
  have hg : ∀ y, split_root64.get_neighbor ⟨y, 6⟩ 0 false = some 5 := by
    intro y
    rw [wf.get_neighbor_eq (by decide) (by decide) (by decide) y 0 false (hn6 y)]
    decide
  have o9 : fsub 1 0 = 1 :=
    fsub_of _ _ 1 _ (by norm_num)
      (round32_of_pos _ _ 0 8388608 (by norm_num) (by norm_num) (by norm_num) (by norm_num)
        (by norm_num) (by norm_num))
  have hset : (⟨-1 / 16777216, -1 / 16777216, 7743331 / 16777216⟩ : Vector3).set 0 (fsub 1 ((⟨0,
      0, 1⟩ : Vector3).get 0)) =
      ⟨1, -1 / 16777216, 7743331 / 16777216⟩ := by
    have e : (⟨0, 0, 1⟩ : Vector3).get 0 = 0 := rfl
    rw [e, o9]
    rfl
  have hk5 : (split_root64.m_nodes 5).m_children_id = Null := by
    decide
  have hq5 : split_root64.node 5 = some (split_root64.m_nodes 5) :=
    rfl
  refine ⟨?_, hadv, hface, hexit, ?_⟩
  · simp only [crossing, ascend_till_has_neighbor, descend_till_leaf_f32,
      Option.some_bind, Option.none_bind, ne_eq, OfNat.ofNat_ne_zero, one_ne_zero,
      not_false_eq_true, not_true_eq_false, if_true, if_false, Bool.not_true, Bool.not_false,
      Bool.false_eq_true, Nat.reduceMod, Option.map_some', Option.map_none',
      hface, hside, hexit, hn6, hg, hset, hk5, hq5]
  · have h1 : split_root64.ascend_till_has_neighbor 0 false (n + 4) ⟨⟨-1 / 16777216, -1 / 16777216,
        7743331 / 16777216⟩, 6⟩ =
        some ⟨⟨-1 / 16777216, -1 / 16777216, 7743331 / 16777216⟩, 6⟩ := by
      simp only [ascend_till_has_neighbor,
        Option.some_bind, Option.none_bind, ne_eq, OfNat.ofNat_ne_zero, one_ne_zero,
        not_false_eq_true, not_true_eq_false, if_true, if_false, Bool.not_true, Bool.not_false,
        Bool.false_eq_true, Nat.reduceMod, Option.map_some', Option.map_none',
        hn6]
    have h2 : split_root64.ascend_till_has_neighbor_calls 0 false (n + 4) ⟨⟨-1 / 16777216, -1 /
        16777216, 7743331 / 16777216⟩, 6⟩ =
        [Call.has_neighbor ⟨⟨-1 / 16777216, -1 / 16777216, 7743331 / 16777216⟩, 6⟩ 0 false] := by
      simp only [ascend_till_has_neighbor_calls,
        Option.some_bind, Option.none_bind, ne_eq, OfNat.ofNat_ne_zero, one_ne_zero,
        not_false_eq_true, not_true_eq_false, if_true, if_false, Bool.not_true, Bool.not_false,
        Bool.false_eq_true, Nat.reduceMod, Option.map_some', Option.map_none',
        hn6]
    have h3 : split_root64.descend_till_leaf_calls (n + 4) ⟨⟨1, -1 / 16777216, 7743331 / 16777216⟩,
        5⟩ =
        [] := by
      simp only [descend_till_leaf_calls,
        Option.some_bind, Option.none_bind, ne_eq, OfNat.ofNat_ne_zero, one_ne_zero,
        not_false_eq_true, not_true_eq_false, if_true, if_false, Bool.not_true, Bool.not_false,
        Bool.false_eq_true, Nat.reduceMod, Option.map_some', Option.map_none',
        hk5, hq5]
    simp only [crossing_calls, List.cons_append, List.nil_append, List.append_nil,
      Option.some_bind, Option.none_bind, ne_eq, OfNat.ofNat_ne_zero, one_ne_zero,
      not_false_eq_true, not_true_eq_false, if_true, if_false, Bool.not_true, Bool.not_false,
      Bool.false_eq_true, Nat.reduceMod, Option.map_some', Option.map_none',
      hface, hside, hexit, h1, h2, hg, hset, h3]

/-- The point `(15/16, 7/16, 9/16)` is located in the root's child 5, at the local coordinates
`(7/8, 7/8, 1/8)`. -/
theorem unsaturated_start :
    split_root64.calculate_location 9 ⟨15 / 16, 7 / 16, 9 / 16⟩ =
      some ⟨⟨7 / 8, 7 / 8, 1 / 8⟩, 6⟩ := by
  have h := (calculate_location_split_once (by decide) split_root64 rfl
    ⟨15 / 16, 7 / 16, 9 / 16⟩ (by norm_num [is_saturated]) 9 (by decide)).1
  have e : descend_coords ⟨15 / 16, 7 / 16, 9 / 16⟩ = ⟨7 / 8, 7 / 8, 1 / 8⟩ := by
    norm_num [descend_coords, upper, Vector3.smul]
  have e1 : 1 + octant ⟨15 / 16, 7 / 16, 9 / 16⟩ = 6 := by
    norm_num [octant, upper]
  rw [e, e1] at h
  exact h

/-- C10. The location written on a `false` result can lie outside the unit cube. With the
root split once, from the leaf location `((7/8, 7/8, 1/8), child 5)` of the point
`(15/16, 7/16, 9/16)`, whose coordinates are binary32 values of the unit cube, along the
direction `(-13/32, -13/32, 5/32)` (binary32 values, no zero component, signs `(0, 0, 1)`),
the call of `find_next_intersection` returns `false` with the location
`((1, -2^-24, 7743331/2^24), child 4)`: its node is an allocated leaf other than the node of
`prev`, but its coordinate `y` is negative. The quotient `(7/8) / (13/32)` rounds up, the
exit point `prev + t * direction` lands `2^-24` beyond the faces `x = 0` and `y = 0`, only
the coordinate of the exit face is reset, and the assertion `is_saturated` of `ascend` and
`descend` does not hold of the location returned. -/
theorem find_next_intersection_unsaturated :
    Reachable split_root64 ∧
    split_root64.calculate_location 9 ⟨15 / 16, 7 / 16, 9 / 16⟩ =
      some ⟨⟨7 / 8, 7 / 8, 1 / 8⟩, 6⟩ ∧
    (6 < split_root64.get_size ∧ ¬ split_root64.has_children 6) ∧
    is_saturated ⟨7 / 8, 7 / 8, 1 / 8⟩ ∧
    (is_binary32 (7 / 8) ∧ is_binary32 (1 / 8) ∧ is_binary32 (-13 / 32) ∧
      is_binary32 (5 / 32)) ∧
    consistent_signs ⟨-13 / 32, -13 / 32, 5 / 32⟩ ⟨0, 0, 1⟩ ∧
    (∀ aliased fuel,
      split_root64.find_next_intersection 9 ⟨-13 / 32, -13 / 32, 5 / 32⟩ ⟨0, 0, 1⟩ aliased (fuel + 1)
          ⟨⟨7 / 8, 7 / 8, 1 / 8⟩, 6⟩ =
        some (false, ⟨⟨1, -1 / 16777216, 7743331 / 16777216⟩, 5⟩)) ∧
    (5 < split_root64.get_size ∧ ¬ split_root64.has_children 5) ∧
    ¬ is_saturated (⟨1, -1 / 16777216, 7743331 / 16777216⟩ : Vector3) := by
  refine ⟨split_root64_reachable, unsaturated_start, by decide, by norm_num [is_saturated],
    ⟨?_, ?_, ?_, ?_⟩, ?_, fun aliased fuel => ?_, by decide, by norm_num [is_saturated]⟩
  · exact ⟨(round32_of_pos _ _ (-1) 14680064 (by norm_num) (by norm_num) (by norm_num) (by norm_num)
        (by norm_num) (by norm_num)),
        abs_lt.mpr ⟨by norm_num, by norm_num⟩⟩
  · exact ⟨(round32_of_pos _ _ (-3) 8388608 (by norm_num) (by norm_num) (by norm_num) (by norm_num)
        (by norm_num) (by norm_num)),
        abs_lt.mpr ⟨by norm_num, by norm_num⟩⟩
  · exact ⟨(round32_of_neg _ _ (-2) (-13631488) (by norm_num) (by norm_num) (by norm_num) (by norm_num)
        (by norm_num) (by norm_num)),
        abs_lt.mpr ⟨by norm_num, by norm_num⟩⟩
  · exact ⟨(round32_of_pos _ _ (-3) 10485760 (by norm_num) (by norm_num) (by norm_num) (by norm_num)
        (by norm_num) (by norm_num)),
        abs_lt.mpr ⟨by norm_num, by norm_num⟩⟩
  · intro i
    fin_cases i
    · exact Or.inr (by norm_num [Vector3.get])
    · exact Or.inr (by norm_num [Vector3.get])
    · exact Or.inl (by norm_num [Vector3.get])
  · exact find_next_intersection_of_false split_root64 9 _ _ aliased _ _
      (unsaturated_crossing_eval 5).1
      (by rw [(unsaturated_crossing_eval 5).2.1, round32_epsilon]; norm_num) fuel

/-- The crossing from the point `(7/8, 7/8, 3/8)` of the root's child 4 along
`(1/32, -13/32, 1/32)`, evaluated in binary32: the exit point lands beyond the face `y = 0`
by `2^-24`, the node has no neighbor across that face, and the call of `ascend` fails its
assertion `is_saturated`. -/
theorem failing_crossing_eval (n : Nat) :
    split_root64.crossing (n + 4) ⟨1 / 32, -13 / 32, 1 / 32⟩ ⟨1, 0, 1⟩ ⟨⟨7 / 8, 7 / 8, 3 / 8⟩, 5⟩
      =
      none ∧
    advance ⟨1 / 32, -13 / 32, 1 / 32⟩ ⟨1, 0, 1⟩ ⟨⟨7 / 8, 7 / 8, 3 / 8⟩, 5⟩ = 4516943 / 2097152 ∧
    exit_face ⟨1 / 32, -13 / 32, 1 / 32⟩ ⟨1, 0, 1⟩ ⟨⟨7 / 8, 7 / 8, 3 / 8⟩, 5⟩ = 1 ∧
    exit_location ⟨1 / 32, -13 / 32, 1 / 32⟩ ⟨1, 0, 1⟩ ⟨⟨7 / 8, 7 / 8, 3 / 8⟩, 5⟩ =
      ⟨⟨3952325 / 4194304, -1 / 16777216, 1855173 / 4194304⟩, 5⟩ ∧
    split_root64.crossing_calls (n + 4) ⟨1 / 32, -13 / 32, 1 / 32⟩ ⟨1, 0, 1⟩ ⟨⟨7 / 8, 7 / 8, 3 /
      8⟩, 5⟩ =
      [Call.has_neighbor ⟨⟨3952325 / 4194304, -1 / 16777216, 1855173 / 4194304⟩, 5⟩ 1 false,
        Call.ascend ⟨⟨3952325 / 4194304, -1 / 16777216, 1855173 / 4194304⟩, 5⟩] := by
  have wf := split_root64_reachable.wellFormed
  have o1 : fsub 1 (7 / 8) = 1 / 8 :=
    fsub_of _ _ (1 / 8) _ (by norm_num)
      (round32_of_pos _ _ (-3) 8388608 (by norm_num) (by norm_num) (by norm_num) (by norm_num)
        (by norm_num) (by norm_num))
  have o2 : fsub 0 (7 / 8) = -7 / 8 :=
    fsub_of _ _ (-7 / 8) _ (by norm_num)
      (round32_of_neg _ _ (-1) (-14680064) (by norm_num) (by norm_num) (by norm_num) (by norm_num)
        (by norm_num) (by norm_num))
  have o3 : fsub 1 (3 / 8) = 5 / 8 :=
    fsub_of _ _ (5 / 8) _ (by norm_num)
      (round32_of_pos _ _ (-1) 10485760 (by norm_num) (by norm_num) (by norm_num) (by norm_num)
        (by norm_num) (by norm_num))
  have o4 : fdiv (1 / 8) (1 / 32) = 4 :=
    fdiv_of _ _ 4 _ (by norm_num)
      (round32_of_pos _ _ 2 8388608 (by norm_num) (by norm_num) (by norm_num) (by norm_num)
        (by norm_num) (by norm_num))
  have o5 : fdiv (-7 / 8) (-13 / 32) = 4516943 / 2097152 :=
    fdiv_of _ _ (28 / 13) _ (by norm_num)
      (round32_of_pos _ _ 1 9033886 (by norm_num) (by norm_num) (by norm_num) (by norm_num)
        (by norm_num) (by norm_num))
  have o6 : fdiv (5 / 8) (1 / 32) = 20 :=
    fdiv_of _ _ 20 _ (by norm_num)
      (round32_of_pos _ _ 4 10485760 (by norm_num) (by norm_num) (by norm_num) (by norm_num)
        (by norm_num) (by norm_num))
  have hdist : exit_distances ⟨1 / 32, -13 / 32, 1 / 32⟩ ⟨1, 0, 1⟩ ⟨⟨7 / 8, 7 / 8, 3 / 8⟩, 5⟩ =
      ⟨4, 4516943 / 2097152, 20⟩ := by
    simp only [exit_distances, Vector3.div32, Vector3.sub32, o1, o2, o3, o4, o5, o6]
  have hface : exit_face ⟨1 / 32, -13 / 32, 1 / 32⟩ ⟨1, 0, 1⟩ ⟨⟨7 / 8, 7 / 8, 3 / 8⟩, 5⟩ = 1 := by
    rw [exit_face, hdist]
    norm_num [min_index, Vector3.get]
  have hadv : advance ⟨1 / 32, -13 / 32, 1 / 32⟩ ⟨1, 0, 1⟩ ⟨⟨7 / 8, 7 / 8, 3 / 8⟩, 5⟩ = 4516943 /
      2097152 := by
    rw [advance, hdist, hface]
    rfl
  have hside : exit_side ⟨1 / 32, -13 / 32, 1 / 32⟩ ⟨1, 0, 1⟩ ⟨⟨7 / 8, 7 / 8, 3 / 8⟩, 5⟩ = false
      := by
    rw [exit_side, hface]
    norm_num [Vector3.get]
  have o7 : fmul (4516943 / 2097152) (1 / 32) = 4516943 / 67108864 :=
    fmul_of _ _ (4516943 / 67108864) _ (by norm_num)
      (round32_of_pos _ _ (-4) 9033886 (by norm_num) (by norm_num) (by norm_num) (by norm_num)
        (by norm_num) (by norm_num))
  have o8 : fmul (4516943 / 2097152) (-13 / 32) = -14680065 / 16777216 :=
    fmul_of _ _ (-58720259 / 67108864) _ (by norm_num)
      (round32_of_neg _ _ (-1) (-14680065) (by norm_num) (by norm_num) (by norm_num) (by norm_num)
        (by norm_num) (by norm_num))
  have o9 : fadd (7 / 8) (4516943 / 67108864) = 3952325 / 4194304 :=
    fadd_of _ _ (63237199 / 67108864) _ (by norm_num)
      (round32_of_pos _ _ (-1) 15809300 (by norm_num) (by norm_num) (by norm_num) (by norm_num)
        (by norm_num) (by norm_num))
  have o10 : fadd (7 / 8) (-14680065 / 16777216) = -1 / 16777216 :=
    fadd_of _ _ (-1 / 16777216) _ (by norm_num)
      (round32_of_neg _ _ (-24) (-8388608) (by norm_num) (by norm_num) (by norm_num) (by norm_num)
        (by norm_num) (by norm_num))
  have o11 : fadd (3 / 8) (4516943 / 67108864) = 1855173 / 4194304 :=
    fadd_of _ _ (29682767 / 67108864) _ (by norm_num)
      (round32_tie_pos _ _ (-2) 14841384 (by norm_num) (by norm_num) (by norm_num) (by norm_num)
        (by decide) (Or.inr (by norm_num)))
  have hexit : exit_location ⟨1 / 32, -13 / 32, 1 / 32⟩ ⟨1, 0, 1⟩ ⟨⟨7 / 8, 7 / 8, 3 / 8⟩, 5⟩ =
      ⟨⟨3952325 / 4194304, -1 / 16777216, 1855173 / 4194304⟩, 5⟩ := by
    simp only [exit_location, hadv, Vector3.add32, Vector3.smul32, o7, o8, o7, o9, o10, o11]
  have hn5 : ∀ y, split_root64.has_neighbor ⟨y, 5⟩ 1 false = some false := by
    intro y
    rw [wf.has_neighbor_octant_bit (by decide) (by decide)]
    decide
  have ha5 : split_root64.ascend_f32 ⟨⟨3952325 / 4194304, -1 / 16777216, 1855173 / 4194304⟩, 5⟩ =
      none := by
    exact ascend_f32_unsaturated _ _ (by norm_num [is_saturated])
  refine ⟨?_, hadv, hface, hexit, ?_⟩
  · simp only [crossing, ascend_till_has_neighbor, descend_till_leaf_f32,
      Option.some_bind, Option.none_bind, ne_eq, OfNat.ofNat_ne_zero, one_ne_zero,
      not_false_eq_true, not_true_eq_false, if_true, if_false, Bool.not_true, Bool.not_false,
      Bool.false_eq_true, Nat.reduceMod, Option.map_some', Option.map_none',
      hface, hside, hexit, hn5, ha5]
  · have h1 : split_root64.ascend_till_has_neighbor 1 false (n + 4) ⟨⟨3952325 / 4194304, -1 /
        16777216, 1855173 / 4194304⟩, 5⟩ =
        none := by
      simp only [ascend_till_has_neighbor,
        Option.some_bind, Option.none_bind, ne_eq, OfNat.ofNat_ne_zero, one_ne_zero,
        not_false_eq_true, not_true_eq_false, if_true, if_false, Bool.not_true, Bool.not_false,
        Bool.false_eq_true, Nat.reduceMod, Option.map_some', Option.map_none',
        hn5, ha5]
    have h2 : split_root64.ascend_till_has_neighbor_calls 1 false (n + 4) ⟨⟨3952325 / 4194304, -1 /
        16777216, 1855173 / 4194304⟩, 5⟩ =
        [Call.has_neighbor ⟨⟨3952325 / 4194304, -1 / 16777216, 1855173 / 4194304⟩, 5⟩ 1 false,
          Call.ascend ⟨⟨3952325 / 4194304, -1 / 16777216, 1855173 / 4194304⟩, 5⟩] := by
      simp only [ascend_till_has_neighbor_calls,
        Option.some_bind, Option.none_bind, ne_eq, OfNat.ofNat_ne_zero, one_ne_zero,
        not_false_eq_true, not_true_eq_false, if_true, if_false, Bool.not_true, Bool.not_false,
        Bool.false_eq_true, Nat.reduceMod, Option.map_some', Option.map_none',
        hn5, ha5]
    simp only [crossing_calls, List.cons_append, List.nil_append, List.append_nil,
      Option.some_bind, Option.none_bind, ne_eq, OfNat.ofNat_ne_zero, one_ne_zero,
      not_false_eq_true, not_true_eq_false, if_true, if_false, Bool.not_true, Bool.not_false,
      Bool.false_eq_true, Nat.reduceMod, Option.map_some', Option.map_none',
      hface, hside, hexit, h1, h2]

/-- The point `(7/16, 7/16, 11/16)` is located in the root's child 4, at the local coordinates
`(7/8, 7/8, 3/8)`. -/
theorem failing_start :
    split_root64.calculate_location 9 ⟨7 / 16, 7 / 16, 11 / 16⟩ =
      some ⟨⟨7 / 8, 7 / 8, 3 / 8⟩, 5⟩ := by
  have h := (calculate_location_split_once (by decide) split_root64 rfl
    ⟨7 / 16, 7 / 16, 11 / 16⟩ (by norm_num [is_saturated]) 9 (by decide)).1
  have e : descend_coords ⟨7 / 16, 7 / 16, 11 / 16⟩ = ⟨7 / 8, 7 / 8, 3 / 8⟩ := by
    norm_num [descend_coords, upper, Vector3.smul]
  have e1 : 1 + octant ⟨7 / 16, 7 / 16, 11 / 16⟩ = 5 := by
    norm_num [octant, upper]
  rw [e, e1] at h
  exact h

/-- Where an operation rounds, a crossing can violate the first assertion of `ascend`. With
the root split once, from the leaf location `((7/8, 7/8, 3/8), child 4)` of the point
`(7/16, 7/16, 11/16)`, along `(1/32, -13/32, 1/32)` (binary32 values, no zero component, signs `(1, 0, 1)`), the
crossing calls `ascend` on coordinates with `y = -2^-24`: the assertion `is_saturated` does
not hold, the crossing and the call of `find_next_intersection` fail. The arithmetic of
this crossing is not exact. -/
theorem crossing_assertion_fails :
    Reachable split_root64 ∧
    split_root64.calculate_location 9 ⟨7 / 16, 7 / 16, 11 / 16⟩ =
      some ⟨⟨7 / 8, 7 / 8, 3 / 8⟩, 5⟩ ∧
    (5 < split_root64.get_size ∧ ¬ split_root64.has_children 5) ∧
    is_saturated ⟨7 / 8, 7 / 8, 3 / 8⟩ ∧
    consistent_signs ⟨1 / 32, -13 / 32, 1 / 32⟩ ⟨1, 0, 1⟩ ∧
    Call.ascend ⟨⟨3952325 / 4194304, -1 / 16777216, 1855173 / 4194304⟩, 5⟩ ∈
      split_root64.crossing_calls 9 ⟨1 / 32, -13 / 32, 1 / 32⟩ ⟨1, 0, 1⟩
        ⟨⟨7 / 8, 7 / 8, 3 / 8⟩, 5⟩ ∧
    ¬ (Call.ascend ⟨⟨3952325 / 4194304, -1 / 16777216, 1855173 / 4194304⟩, 5⟩).holds split_root64 ∧
    split_root64.crossing 9 ⟨1 / 32, -13 / 32, 1 / 32⟩ ⟨1, 0, 1⟩ ⟨⟨7 / 8, 7 / 8, 3 / 8⟩, 5⟩ = none ∧
    (∀ aliased fuel,
      split_root64.find_next_intersection 9 ⟨1 / 32, -13 / 32, 1 / 32⟩ ⟨1, 0, 1⟩ aliased fuel
        ⟨⟨7 / 8, 7 / 8, 3 / 8⟩, 5⟩ = none) ∧
    ¬ split_root64.rounding_free 9 ⟨1 / 32, -13 / 32, 1 / 32⟩ ⟨1, 0, 1⟩ ⟨⟨7 / 8, 7 / 8, 3 / 8⟩, 5⟩ := by
  have hns : ¬ is_saturated (⟨3952325 / 4194304, -1 / 16777216, 1855173 / 4194304⟩ : Vector3) := by norm_num [is_saturated]
  have hnh : ¬ (Call.ascend ⟨⟨3952325 / 4194304, -1 / 16777216, 1855173 / 4194304⟩, 5⟩).holds split_root64 := fun h => hns h.1
  have hmem : Call.ascend ⟨⟨3952325 / 4194304, -1 / 16777216, 1855173 / 4194304⟩, 5⟩ ∈
      split_root64.crossing_calls 9 ⟨1 / 32, -13 / 32, 1 / 32⟩ ⟨1, 0, 1⟩
        ⟨⟨7 / 8, 7 / 8, 3 / 8⟩, 5⟩ := by
    rw [(failing_crossing_eval 5).2.2.2.2]
    simp
  refine ⟨split_root64_reachable, failing_start, by decide, by norm_num [is_saturated], ?_,
    hmem, hnh,
    (failing_crossing_eval 5).1,
    fun aliased fuel => find_next_intersection_of_none split_root64 9 _ _ aliased _
      (failing_crossing_eval 5).1 fuel, ?_⟩
  · intro i
    fin_cases i
    · exact Or.inl (by norm_num [Vector3.get])
    · exact Or.inr (by norm_num [Vector3.get])
    · exact Or.inl (by norm_num [Vector3.get])
  · intro hex
    exact hnh (split_root64_reachable.wellFormed.crossing_calls_hold (by decide)
      (fun i => by
        fin_cases i
        · exact Or.inl (by norm_num [Vector3.get])
        · exact Or.inr (by norm_num [Vector3.get])
        · exact Or.inl (by norm_num [Vector3.get])) 9 _ (by decide)
      (by norm_num [is_saturated]) hex _ hmem)

/-- The crossing from the center of the root's child 1 along `(1, 1/2, 1/4)`, evaluated in
binary32: it leaves the tree through the face `x = 1` of the root. -/
theorem leaving_eval (n : Nat) :
    split_root64.crossing (n + 4) ⟨1, 1 / 2, 1 / 4⟩ ⟨1, 1, 1⟩ ⟨⟨1 / 2, 1 / 2, 1 / 2⟩, 2⟩ =
      some (true, ⟨⟨1, 3 / 8, 5 / 16⟩, 0⟩) ∧
    advance ⟨1, 1 / 2, 1 / 4⟩ ⟨1, 1, 1⟩ ⟨⟨1 / 2, 1 / 2, 1 / 2⟩, 2⟩ = 1 / 2 ∧
    exit_face ⟨1, 1 / 2, 1 / 4⟩ ⟨1, 1, 1⟩ ⟨⟨1 / 2, 1 / 2, 1 / 2⟩, 2⟩ = 0 ∧
    exit_location ⟨1, 1 / 2, 1 / 4⟩ ⟨1, 1, 1⟩ ⟨⟨1 / 2, 1 / 2, 1 / 2⟩, 2⟩ =
      ⟨⟨1, 3 / 4, 5 / 8⟩, 2⟩ ∧
    split_root64.crossing_calls (n + 4) ⟨1, 1 / 2, 1 / 4⟩ ⟨1, 1, 1⟩ ⟨⟨1 / 2, 1 / 2, 1 / 2⟩, 2⟩ =
      [Call.has_neighbor ⟨⟨1, 3 / 4, 5 / 8⟩, 2⟩ 0 true,
        Call.ascend ⟨⟨1, 3 / 4, 5 / 8⟩, 2⟩] := by
  have wf := split_root64_reachable.wellFormed
  have o1 : fsub 1 (1 / 2) = 1 / 2 :=
    fsub_of _ _ (1 / 2) _ (by norm_num)
      (round32_of_pos _ _ (-1) 8388608 (by norm_num) (by norm_num) (by norm_num) (by norm_num)
        (by norm_num) (by norm_num))
  have o2 : fdiv (1 / 2) 1 = 1 / 2 :=
    fdiv_of _ _ (1 / 2) _ (by norm_num)
      (round32_of_pos _ _ (-1) 8388608 (by norm_num) (by norm_num) (by norm_num) (by norm_num)
        (by norm_num) (by norm_num))
  have o3 : fdiv (1 / 2) (1 / 2) = 1 :=
    fdiv_of _ _ 1 _ (by norm_num)
      (round32_of_pos _ _ 0 8388608 (by norm_num) (by norm_num) (by norm_num) (by norm_num)
        (by norm_num) (by norm_num))
  have o4 : fdiv (1 / 2) (1 / 4) = 2 :=
    fdiv_of _ _ 2 _ (by norm_num)
      (round32_of_pos _ _ 1 8388608 (by norm_num) (by norm_num) (by norm_num) (by norm_num)
        (by norm_num) (by norm_num))
  have hdist : exit_distances ⟨1, 1 / 2, 1 / 4⟩ ⟨1, 1, 1⟩ ⟨⟨1 / 2, 1 / 2, 1 / 2⟩, 2⟩ = ⟨1 / 2, 1,
      2⟩ := by
    simp only [exit_distances, Vector3.div32, Vector3.sub32, o1, o1, o1, o2, o3, o4]
  have hface : exit_face ⟨1, 1 / 2, 1 / 4⟩ ⟨1, 1, 1⟩ ⟨⟨1 / 2, 1 / 2, 1 / 2⟩, 2⟩ = 0 := by
    rw [exit_face, hdist]
    norm_num [min_index, Vector3.get]
  have hadv : advance ⟨1, 1 / 2, 1 / 4⟩ ⟨1, 1, 1⟩ ⟨⟨1 / 2, 1 / 2, 1 / 2⟩, 2⟩ = 1 / 2 := by
    rw [advance, hdist, hface]
    rfl
  have hside : exit_side ⟨1, 1 / 2, 1 / 4⟩ ⟨1, 1, 1⟩ ⟨⟨1 / 2, 1 / 2, 1 / 2⟩, 2⟩ = true := by
    rw [exit_side, hface]
    norm_num [Vector3.get]
  have o5 : fmul (1 / 2) 1 = 1 / 2 :=
    fmul_of _ _ (1 / 2) _ (by norm_num)
      (round32_of_pos _ _ (-1) 8388608 (by norm_num) (by norm_num) (by norm_num) (by norm_num)
        (by norm_num) (by norm_num))
  have o6 : fmul (1 / 2) (1 / 2) = 1 / 4 :=
    fmul_of _ _ (1 / 4) _ (by norm_num)
      (round32_of_pos _ _ (-2) 8388608 (by norm_num) (by norm_num) (by norm_num) (by norm_num)
        (by norm_num) (by norm_num))
  have o7 : fmul (1 / 2) (1 / 4) = 1 / 8 :=
    fmul_of _ _ (1 / 8) _ (by norm_num)
      (round32_of_pos _ _ (-3) 8388608 (by norm_num) (by norm_num) (by norm_num) (by norm_num)
        (by norm_num) (by norm_num))
  have o8 : fadd (1 / 2) (1 / 2) = 1 :=
    fadd_of _ _ 1 _ (by norm_num)
      (round32_of_pos _ _ 0 8388608 (by norm_num) (by norm_num) (by norm_num) (by norm_num)
        (by norm_num) (by norm_num))
  have o9 : fadd (1 / 2) (1 / 4) = 3 / 4 :=
    fadd_of _ _ (3 / 4) _ (by norm_num)
      (round32_of_pos _ _ (-1) 12582912 (by norm_num) (by norm_num) (by norm_num) (by norm_num)
        (by norm_num) (by norm_num))
  have o10 : fadd (1 / 2) (1 / 8) = 5 / 8 :=
    fadd_of _ _ (5 / 8) _ (by norm_num)
      (round32_of_pos _ _ (-1) 10485760 (by norm_num) (by norm_num) (by norm_num) (by norm_num)
        (by norm_num) (by norm_num))
  have hexit : exit_location ⟨1, 1 / 2, 1 / 4⟩ ⟨1, 1, 1⟩ ⟨⟨1 / 2, 1 / 2, 1 / 2⟩, 2⟩ = ⟨⟨1, 3 / 4,
      5 / 8⟩, 2⟩ := by
    simp only [exit_location, hadv, Vector3.add32, Vector3.smul32, o5, o6, o7, o8, o9, o10]
  have hn2 : ∀ y, split_root64.has_neighbor ⟨y, 2⟩ 0 true = some false := by
    intro y
    rw [wf.has_neighbor_octant_bit (by decide) (by decide)]
    decide
  have o11 : fadd 1 1 = 2 :=
    fadd_of _ _ 2 _ (by norm_num)
      (round32_of_pos _ _ 1 8388608 (by norm_num) (by norm_num) (by norm_num) (by norm_num)
        (by norm_num) (by norm_num))
  have o12 : fmul (1 / 2) 2 = 1 :=
    fmul_of _ _ 1 _ (by norm_num)
      (round32_of_pos _ _ 0 8388608 (by norm_num) (by norm_num) (by norm_num) (by norm_num)
        (by norm_num) (by norm_num))
  have o13 : fmul (1 / 2) (3 / 4) = 3 / 8 :=
    fmul_of _ _ (3 / 8) _ (by norm_num)
      (round32_of_pos _ _ (-2) 12582912 (by norm_num) (by norm_num) (by norm_num) (by norm_num)
        (by norm_num) (by norm_num))
  have o14 : fmul (1 / 2) (5 / 8) = 5 / 16 :=
    fmul_of _ _ (5 / 16) _ (by norm_num)
      (round32_of_pos _ _ (-2) 10485760 (by norm_num) (by norm_num) (by norm_num) (by norm_num)
        (by norm_num) (by norm_num))
  have ha2 : split_root64.ascend_f32 ⟨⟨1, 3 / 4, 5 / 8⟩, 2⟩ = some ⟨⟨1, 3 / 8, 5 / 16⟩, 0⟩ := by
    rw [wf.ascend_f32_allocated (by decide) (by decide) (by decide) _
      (by norm_num [is_saturated])]
    have e1 : (split_root64.m_nodes 2).m_parent_id = 0 := by decide
    have e2 : (split_root64.m_nodes 0).m_children_id = 1 := by decide
    rw [e1, e2]
    have e3 : ascend_coords_f32 (2 - 1) ⟨1, 3 / 4, 5 / 8⟩ =
        ⟨fmul (1 / 2) (fadd 1 1), fmul (1 / 2) (3 / 4), fmul (1 / 2) (5 / 8)⟩ := rfl
    rw [e3]
    simp only [o11, o12, o13, o14]
  refine ⟨?_, hadv, hface, hexit, ?_⟩
  · simp only [crossing, ascend_till_has_neighbor, descend_till_leaf_f32,
      Option.some_bind, Option.none_bind, ne_eq, OfNat.ofNat_ne_zero, one_ne_zero,
      not_false_eq_true, not_true_eq_false, if_true, if_false, Bool.not_true, Bool.not_false,
      Bool.false_eq_true, Nat.reduceMod, Option.map_some', Option.map_none',
      hface, hside, hexit, hn2, ha2]
  · have h1 : split_root64.ascend_till_has_neighbor 0 true (n + 4) ⟨⟨1, 3 / 4, 5 / 8⟩, 2⟩ =
        some ⟨⟨1, 3 / 8, 5 / 16⟩, 0⟩ := by
      simp only [ascend_till_has_neighbor,
        Option.some_bind, Option.none_bind, ne_eq, OfNat.ofNat_ne_zero, one_ne_zero,
        not_false_eq_true, not_true_eq_false, if_true, if_false, Bool.not_true, Bool.not_false,
        Bool.false_eq_true, Nat.reduceMod, Option.map_some', Option.map_none',
        hn2, ha2]
    have h2 : split_root64.ascend_till_has_neighbor_calls 0 true (n + 4) ⟨⟨1, 3 / 4, 5 / 8⟩, 2⟩ =
        [Call.has_neighbor ⟨⟨1, 3 / 4, 5 / 8⟩, 2⟩ 0 true,
          Call.ascend ⟨⟨1, 3 / 4, 5 / 8⟩, 2⟩] := by
      simp only [ascend_till_has_neighbor_calls,
        Option.some_bind, Option.none_bind, ne_eq, OfNat.ofNat_ne_zero, one_ne_zero,
        not_false_eq_true, not_true_eq_false, if_true, if_false, Bool.not_true, Bool.not_false,
        Bool.false_eq_true, Nat.reduceMod, Option.map_some', Option.map_none',
        hn2, ha2]
    simp only [crossing_calls, List.cons_append, List.nil_append, List.append_nil,
      Option.some_bind, Option.none_bind, ne_eq, OfNat.ofNat_ne_zero, one_ne_zero,
      not_false_eq_true, not_true_eq_false, if_true, if_false, Bool.not_true, Bool.not_false,
      Bool.false_eq_true, Nat.reduceMod, Option.map_some', Option.map_none',
      hface, hside, hexit, h1, h2]

/-- No operation of that crossing rounds. -/
theorem leaving_rounding_free (n : Nat) :
    split_root64.rounding_free (n + 4) ⟨1, 1 / 2, 1 / 4⟩ ⟨1, 1, 1⟩ ⟨⟨1 / 2, 1 / 2, 1 / 2⟩, 2⟩ :=
      by
  refine ⟨?_, ?_⟩
  · refine ⟨fun i => ?_, ?_⟩
    · fin_cases i
      · refine ⟨?_, ?_, ?_, ?_⟩
        · exact is_binary32_of_eq (1 / 2) (by norm_num [exit_distances_exact, exit_face_exact,
            advance_exact, exit_location_exact, min_index, Vector3.div, Vector3.sub, Vector3.add,
            Vector3.smul, Vector3.get])
            ⟨(round32_of_pos _ _ (-1) 8388608 (by norm_num) (by norm_num) (by norm_num) (by norm_num)
              (by norm_num) (by norm_num)),
              abs_lt.mpr ⟨by norm_num, by norm_num⟩⟩
        · exact is_binary32_of_eq (1 / 2) (by norm_num [exit_distances_exact, exit_face_exact,
            advance_exact, exit_location_exact, min_index, Vector3.div, Vector3.sub, Vector3.add,
            Vector3.smul, Vector3.get])
            ⟨(round32_of_pos _ _ (-1) 8388608 (by norm_num) (by norm_num) (by norm_num) (by norm_num)
              (by norm_num) (by norm_num)),
              abs_lt.mpr ⟨by norm_num, by norm_num⟩⟩
        · exact is_binary32_of_eq (1 / 2) (by norm_num [exit_distances_exact, exit_face_exact,
            advance_exact, exit_location_exact, min_index, Vector3.div, Vector3.sub, Vector3.add,
            Vector3.smul, Vector3.get])
            ⟨(round32_of_pos _ _ (-1) 8388608 (by norm_num) (by norm_num) (by norm_num) (by norm_num)
              (by norm_num) (by norm_num)),
              abs_lt.mpr ⟨by norm_num, by norm_num⟩⟩
        · exact is_binary32_of_eq 1 (by norm_num [exit_distances_exact, exit_face_exact,
            advance_exact, exit_location_exact, min_index, Vector3.div, Vector3.sub, Vector3.add,
            Vector3.smul, Vector3.get])
            ⟨(round32_of_pos _ _ 0 8388608 (by norm_num) (by norm_num) (by norm_num) (by norm_num)
              (by norm_num) (by norm_num)),
              abs_lt.mpr ⟨by norm_num, by norm_num⟩⟩
      · refine ⟨?_, ?_, ?_, ?_⟩
        · exact is_binary32_of_eq (1 / 2) (by norm_num [exit_distances_exact, exit_face_exact,
            advance_exact, exit_location_exact, min_index, Vector3.div, Vector3.sub, Vector3.add,
            Vector3.smul, Vector3.get])
            ⟨(round32_of_pos _ _ (-1) 8388608 (by norm_num) (by norm_num) (by norm_num) (by norm_num)
              (by norm_num) (by norm_num)),
              abs_lt.mpr ⟨by norm_num, by norm_num⟩⟩
        · exact is_binary32_of_eq 1 (by norm_num [exit_distances_exact, exit_face_exact,
            advance_exact, exit_location_exact, min_index, Vector3.div, Vector3.sub, Vector3.add,
            Vector3.smul, Vector3.get])
            ⟨(round32_of_pos _ _ 0 8388608 (by norm_num) (by norm_num) (by norm_num) (by norm_num)
              (by norm_num) (by norm_num)),
              abs_lt.mpr ⟨by norm_num, by norm_num⟩⟩
        · exact is_binary32_of_eq (1 / 4) (by norm_num [exit_distances_exact, exit_face_exact,
            advance_exact, exit_location_exact, min_index, Vector3.div, Vector3.sub, Vector3.add,
            Vector3.smul, Vector3.get])
            ⟨(round32_of_pos _ _ (-2) 8388608 (by norm_num) (by norm_num) (by norm_num) (by norm_num)
              (by norm_num) (by norm_num)),
              abs_lt.mpr ⟨by norm_num, by norm_num⟩⟩
        · exact is_binary32_of_eq (3 / 4) (by norm_num [exit_distances_exact, exit_face_exact,
            advance_exact, exit_location_exact, min_index, Vector3.div, Vector3.sub, Vector3.add,
            Vector3.smul, Vector3.get])
            ⟨(round32_of_pos _ _ (-1) 12582912 (by norm_num) (by norm_num) (by norm_num) (by norm_num)
              (by norm_num) (by norm_num)),
              abs_lt.mpr ⟨by norm_num, by norm_num⟩⟩
      · refine ⟨?_, ?_, ?_, ?_⟩
        · exact is_binary32_of_eq (1 / 2) (by norm_num [exit_distances_exact, exit_face_exact,
            advance_exact, exit_location_exact, min_index, Vector3.div, Vector3.sub, Vector3.add,
            Vector3.smul, Vector3.get])
            ⟨(round32_of_pos _ _ (-1) 8388608 (by norm_num) (by norm_num) (by norm_num) (by norm_num)
              (by norm_num) (by norm_num)),
              abs_lt.mpr ⟨by norm_num, by norm_num⟩⟩
        · exact is_binary32_of_eq 2 (by norm_num [exit_distances_exact, exit_face_exact,
            advance_exact, exit_location_exact, min_index, Vector3.div, Vector3.sub, Vector3.add,
            Vector3.smul, Vector3.get])
            ⟨(round32_of_pos _ _ 1 8388608 (by norm_num) (by norm_num) (by norm_num) (by norm_num)
              (by norm_num) (by norm_num)),
              abs_lt.mpr ⟨by norm_num, by norm_num⟩⟩
        · exact is_binary32_of_eq (1 / 8) (by norm_num [exit_distances_exact, exit_face_exact,
            advance_exact, exit_location_exact, min_index, Vector3.div, Vector3.sub, Vector3.add,
            Vector3.smul, Vector3.get])
            ⟨(round32_of_pos _ _ (-3) 8388608 (by norm_num) (by norm_num) (by norm_num) (by norm_num)
              (by norm_num) (by norm_num)),
              abs_lt.mpr ⟨by norm_num, by norm_num⟩⟩
        · exact is_binary32_of_eq (5 / 8) (by norm_num [exit_distances_exact, exit_face_exact,
            advance_exact, exit_location_exact, min_index, Vector3.div, Vector3.sub, Vector3.add,
            Vector3.smul, Vector3.get])
            ⟨(round32_of_pos _ _ (-1) 10485760 (by norm_num) (by norm_num) (by norm_num) (by norm_num)
              (by norm_num) (by norm_num)),
              abs_lt.mpr ⟨by norm_num, by norm_num⟩⟩
    · exact is_binary32_of_eq 0 (by norm_num [exit_distances_exact, exit_face_exact, advance_exact,
        exit_location_exact, min_index, Vector3.div, Vector3.sub, Vector3.add, Vector3.smul,
        Vector3.get])
        ⟨round32_zero, by norm_num⟩
  · rw [(leaving_eval n).2.2.2.2]
    intro c hc
    simp only [List.mem_cons, List.mem_singleton, List.not_mem_nil, or_false] at hc
    rcases hc with rfl | rfl
    · exact trivial
    · exact by
        have e : octant_of split_root64 2 = 1 := by decide
        show ascend_rounding_free (octant_of split_root64 2) ⟨1, 3 / 4, 5 / 8⟩
        rw [e]
        refine ⟨⟨?_, ?_, ?_⟩, ?_, ?_, ?_⟩
        · exact fun _ => is_binary32_of_eq 2 (by norm_num)
            ⟨(round32_of_pos _ _ 1 8388608 (by norm_num) (by norm_num) (by norm_num) (by norm_num)
              (by norm_num) (by norm_num)),
              abs_lt.mpr ⟨by norm_num, by norm_num⟩⟩
        · exact fun h => absurd h (by decide)
        · exact fun h => absurd h (by decide)
        · exact is_binary32_of_eq 1 (by norm_num [ascend_coords])
            ⟨(round32_of_pos _ _ 0 8388608 (by norm_num) (by norm_num) (by norm_num) (by norm_num)
              (by norm_num) (by norm_num)),
              abs_lt.mpr ⟨by norm_num, by norm_num⟩⟩
        · exact is_binary32_of_eq (3 / 8) (by norm_num [ascend_coords])
            ⟨(round32_of_pos _ _ (-2) 12582912 (by norm_num) (by norm_num) (by norm_num) (by norm_num)
              (by norm_num) (by norm_num)),
              abs_lt.mpr ⟨by norm_num, by norm_num⟩⟩
        · exact is_binary32_of_eq (5 / 16) (by norm_num [ascend_coords])
            ⟨(round32_of_pos _ _ (-2) 10485760 (by norm_num) (by norm_num) (by norm_num) (by norm_num)
              (by norm_num) (by norm_num)),
              abs_lt.mpr ⟨by norm_num, by norm_num⟩⟩

/-- The hypotheses of C12 hold on a tree of the test suite, at a crossing that leaves the
tree. -/
theorem leaving_the_tree_witness :
    ValidCapacity 64 ∧ Reachable split_root64 ∧
      consistent_signs ⟨1, 1 / 2, 1 / 4⟩ ⟨1, 1, 1⟩ ∧
      (⟨⟨1 / 2, 1 / 2, 1 / 2⟩, 2⟩ : SparseOctreeLocation).m_node_id < split_root64.get_size ∧
      is_saturated (⟨⟨1 / 2, 1 / 2, 1 / 2⟩, 2⟩ : SparseOctreeLocation).m_local_coords ∧
      split_root64.get_size ≤ 9 ∧
      split_root64.rounding_free 9 ⟨1, 1 / 2, 1 / 4⟩ ⟨1, 1, 1⟩ ⟨⟨1 / 2, 1 / 2, 1 / 2⟩, 2⟩ ∧
      split_root64.crossing 9 ⟨1, 1 / 2, 1 / 4⟩ ⟨1, 1, 1⟩ ⟨⟨1 / 2, 1 / 2, 1 / 2⟩, 2⟩ =
        some (true, ⟨⟨1, 3 / 8, 5 / 16⟩, 0⟩) ∧
      ∃ b out,
        split_root64.crossing 9 ⟨1, 1 / 2, 1 / 4⟩ ⟨1, 1, 1⟩ ⟨⟨1 / 2, 1 / 2, 1 / 2⟩, 2⟩ = some (b, out) ∧
        (b = true ↔ ∀ a, Ancestor split_root64 a 2 → a ≠ split_root64.get_root_id →
          octant_bit split_root64 (exit_face ⟨1, 1 / 2, 1 / 4⟩ ⟨1, 1, 1⟩ ⟨⟨1 / 2, 1 / 2, 1 / 2⟩, 2⟩) a =
            exit_side ⟨1, 1 / 2, 1 / 4⟩ ⟨1, 1, 1⟩ ⟨⟨1 / 2, 1 / 2, 1 / 2⟩, 2⟩) ∧
        (b = true → out.m_node_id = split_root64.get_root_id ∧
          is_saturated out.m_local_coords ∧
          out.m_local_coords.get (exit_face ⟨1, 1 / 2, 1 / 4⟩ ⟨1, 1, 1⟩ ⟨⟨1 / 2, 1 / 2, 1 / 2⟩, 2⟩) =
            (⟨1, 1, 1⟩ : Vector3).get (exit_face ⟨1, 1 / 2, 1 / 4⟩ ⟨1, 1, 1⟩ ⟨⟨1 / 2, 1 / 2, 1 / 2⟩, 2⟩)) :=
  ⟨by decide, split_root64_reachable, fun i => Or.inl (by fin_cases i <;> norm_num [Vector3.get]),
    by decide, by norm_num [is_saturated], by decide, leaving_rounding_free 5,
    (leaving_eval 5).1,
    leaving_the_tree (by decide) split_root64 split_root64_reachable ⟨1, 1 / 2, 1 / 4⟩
      ⟨1, 1, 1⟩ (fun i => Or.inl (by fin_cases i <;> norm_num [Vector3.get]))
      ⟨⟨1 / 2, 1 / 2, 1 / 2⟩, 2⟩ (by decide) (by norm_num [is_saturated]) 9 (by decide)
      (leaving_rounding_free 5)⟩

/-- The crossing from the center of the root's child 0 along `(1, 1/2, 1/4)`, evaluated in
binary32: it enters the root's child 1. -/
theorem on_ray_eval (n : Nat) :
    split_root64.crossing (n + 4) ⟨1, 1 / 2, 1 / 4⟩ ⟨1, 1, 1⟩ ⟨⟨1 / 2, 1 / 2, 1 / 2⟩, 1⟩ =
      some (false, ⟨⟨0, 3 / 4, 5 / 8⟩, 2⟩) ∧
    advance ⟨1, 1 / 2, 1 / 4⟩ ⟨1, 1, 1⟩ ⟨⟨1 / 2, 1 / 2, 1 / 2⟩, 1⟩ = 1 / 2 ∧
    exit_face ⟨1, 1 / 2, 1 / 4⟩ ⟨1, 1, 1⟩ ⟨⟨1 / 2, 1 / 2, 1 / 2⟩, 1⟩ = 0 ∧
    exit_location ⟨1, 1 / 2, 1 / 4⟩ ⟨1, 1, 1⟩ ⟨⟨1 / 2, 1 / 2, 1 / 2⟩, 1⟩ =
      ⟨⟨1, 3 / 4, 5 / 8⟩, 1⟩ ∧
    split_root64.crossing_calls (n + 4) ⟨1, 1 / 2, 1 / 4⟩ ⟨1, 1, 1⟩ ⟨⟨1 / 2, 1 / 2, 1 / 2⟩, 1⟩ =
      [Call.has_neighbor ⟨⟨1, 3 / 4, 5 / 8⟩, 1⟩ 0 true,
        Call.get_neighbor ⟨⟨1, 3 / 4, 5 / 8⟩, 1⟩ 0 true,
        Call.has_neighbor ⟨⟨1, 3 / 4, 5 / 8⟩, 1⟩ 0 true] := by
  have wf := split_root64_reachable.wellFormed
  have o1 : fsub 1 (1 / 2) = 1 / 2 :=
    fsub_of _ _ (1 / 2) _ (by norm_num)
      (round32_of_pos _ _ (-1) 8388608 (by norm_num) (by norm_num) (by norm_num) (by norm_num)
        (by norm_num) (by norm_num))
  have o2 : fdiv (1 / 2) 1 = 1 / 2 :=
    fdiv_of _ _ (1 / 2) _ (by norm_num)
      (round32_of_pos _ _ (-1) 8388608 (by norm_num) (by norm_num) (by norm_num) (by norm_num)
        (by norm_num) (by norm_num))
  have o3 : fdiv (1 / 2) (1 / 2) = 1 :=
    fdiv_of _ _ 1 _ (by norm_num)
      (round32_of_pos _ _ 0 8388608 (by norm_num) (by norm_num) (by norm_num) (by norm_num)
        (by norm_num) (by norm_num))
  have o4 : fdiv (1 / 2) (1 / 4) = 2 :=
    fdiv_of _ _ 2 _ (by norm_num)
      (round32_of_pos _ _ 1 8388608 (by norm_num) (by norm_num) (by norm_num) (by norm_num)
        (by norm_num) (by norm_num))
  have hdist : exit_distances ⟨1, 1 / 2, 1 / 4⟩ ⟨1, 1, 1⟩ ⟨⟨1 / 2, 1 / 2, 1 / 2⟩, 1⟩ = ⟨1 / 2, 1,
      2⟩ := by
    simp only [exit_distances, Vector3.div32, Vector3.sub32, o1, o1, o1, o2, o3, o4]
  have hface : exit_face ⟨1, 1 / 2, 1 / 4⟩ ⟨1, 1, 1⟩ ⟨⟨1 / 2, 1 / 2, 1 / 2⟩, 1⟩ = 0 := by
    rw [exit_face, hdist]
    norm_num [min_index, Vector3.get]
  have hadv : advance ⟨1, 1 / 2, 1 / 4⟩ ⟨1, 1, 1⟩ ⟨⟨1 / 2, 1 / 2, 1 / 2⟩, 1⟩ = 1 / 2 := by
    rw [advance, hdist, hface]
    rfl
  have hside : exit_side ⟨1, 1 / 2, 1 / 4⟩ ⟨1, 1, 1⟩ ⟨⟨1 / 2, 1 / 2, 1 / 2⟩, 1⟩ = true := by
    rw [exit_side, hface]
    norm_num [Vector3.get]
  have o5 : fmul (1 / 2) 1 = 1 / 2 :=
    fmul_of _ _ (1 / 2) _ (by norm_num)
      (round32_of_pos _ _ (-1) 8388608 (by norm_num) (by norm_num) (by norm_num) (by norm_num)
        (by norm_num) (by norm_num))
  have o6 : fmul (1 / 2) (1 / 2) = 1 / 4 :=
    fmul_of _ _ (1 / 4) _ (by norm_num)
      (round32_of_pos _ _ (-2) 8388608 (by norm_num) (by norm_num) (by norm_num) (by norm_num)
        (by norm_num) (by norm_num))
  have o7 : fmul (1 / 2) (1 / 4) = 1 / 8 :=
    fmul_of _ _ (1 / 8) _ (by norm_num)
      (round32_of_pos _ _ (-3) 8388608 (by norm_num) (by norm_num) (by norm_num) (by norm_num)
        (by norm_num) (by norm_num))
  have o8 : fadd (1 / 2) (1 / 2) = 1 :=
    fadd_of _ _ 1 _ (by norm_num)
      (round32_of_pos _ _ 0 8388608 (by norm_num) (by norm_num) (by norm_num) (by norm_num)
        (by norm_num) (by norm_num))
  have o9 : fadd (1 / 2) (1 / 4) = 3 / 4 :=
    fadd_of _ _ (3 / 4) _ (by norm_num)
      (round32_of_pos _ _ (-1) 12582912 (by norm_num) (by norm_num) (by norm_num) (by norm_num)
        (by norm_num) (by norm_num))
  have o10 : fadd (1 / 2) (1 / 8) = 5 / 8 :=
    fadd_of _ _ (5 / 8) _ (by norm_num)
      (round32_of_pos _ _ (-1) 10485760 (by norm_num) (by norm_num) (by norm_num) (by norm_num)
        (by norm_num) (by norm_num))
  have hexit : exit_location ⟨1, 1 / 2, 1 / 4⟩ ⟨1, 1, 1⟩ ⟨⟨1 / 2, 1 / 2, 1 / 2⟩, 1⟩ = ⟨⟨1, 3 / 4,
      5 / 8⟩, 1⟩ := by
    simp only [exit_location, hadv, Vector3.add32, Vector3.smul32, o5, o6, o7, o8, o9, o10]
  have hn1 : ∀ y, split_root64.has_neighbor ⟨y, 1⟩ 0 true = some true := by
    intro y
    rw [wf.has_neighbor_octant_bit (by decide) (by decide)]
    decide
  have hg : ∀ y, split_root64.get_neighbor ⟨y, 1⟩ 0 true = some 2 := by
    intro y
    rw [wf.get_neighbor_eq (by decide) (by decide) (by decide) y 0 true (hn1 y)]
    decide
  have o11 : fsub 1 1 = 0 :=
    fsub_of _ _ 0 _ (by norm_num)
      round32_zero
  have hset : (⟨1, 3 / 4, 5 / 8⟩ : Vector3).set 0 (fsub 1 ((⟨1, 1, 1⟩ : Vector3).get 0)) =
      ⟨0, 3 / 4, 5 / 8⟩ := by
    have e : (⟨1, 1, 1⟩ : Vector3).get 0 = 1 := rfl
    rw [e, o11]
    rfl
  have hk2 : (split_root64.m_nodes 2).m_children_id = Null := by
    decide
  have hq2 : split_root64.node 2 = some (split_root64.m_nodes 2) :=
    rfl
  refine ⟨?_, hadv, hface, hexit, ?_⟩
  · simp only [crossing, ascend_till_has_neighbor, descend_till_leaf_f32,
      Option.some_bind, Option.none_bind, ne_eq, OfNat.ofNat_ne_zero, one_ne_zero,
      not_false_eq_true, not_true_eq_false, if_true, if_false, Bool.not_true, Bool.not_false,
      Bool.false_eq_true, Nat.reduceMod, Option.map_some', Option.map_none',
      hface, hside, hexit, hn1, hg, hset, hk2, hq2]
  · have h1 : split_root64.ascend_till_has_neighbor 0 true (n + 4) ⟨⟨1, 3 / 4, 5 / 8⟩, 1⟩ =
        some ⟨⟨1, 3 / 4, 5 / 8⟩, 1⟩ := by
      simp only [ascend_till_has_neighbor,
        Option.some_bind, Option.none_bind, ne_eq, OfNat.ofNat_ne_zero, one_ne_zero,
        not_false_eq_true, not_true_eq_false, if_true, if_false, Bool.not_true, Bool.not_false,
        Bool.false_eq_true, Nat.reduceMod, Option.map_some', Option.map_none',
        hn1]
    have h2 : split_root64.ascend_till_has_neighbor_calls 0 true (n + 4) ⟨⟨1, 3 / 4, 5 / 8⟩, 1⟩ =
        [Call.has_neighbor ⟨⟨1, 3 / 4, 5 / 8⟩, 1⟩ 0 true] := by
      simp only [ascend_till_has_neighbor_calls,
        Option.some_bind, Option.none_bind, ne_eq, OfNat.ofNat_ne_zero, one_ne_zero,
        not_false_eq_true, not_true_eq_false, if_true, if_false, Bool.not_true, Bool.not_false,
        Bool.false_eq_true, Nat.reduceMod, Option.map_some', Option.map_none',
        hn1]
    have h3 : split_root64.descend_till_leaf_calls (n + 4) ⟨⟨0, 3 / 4, 5 / 8⟩, 2⟩ =
        [] := by
      simp only [descend_till_leaf_calls,
        Option.some_bind, Option.none_bind, ne_eq, OfNat.ofNat_ne_zero, one_ne_zero,
        not_false_eq_true, not_true_eq_false, if_true, if_false, Bool.not_true, Bool.not_false,
        Bool.false_eq_true, Nat.reduceMod, Option.map_some', Option.map_none',
        hk2, hq2]
    simp only [crossing_calls, List.cons_append, List.nil_append, List.append_nil,
      Option.some_bind, Option.none_bind, ne_eq, OfNat.ofNat_ne_zero, one_ne_zero,
      not_false_eq_true, not_true_eq_false, if_true, if_false, Bool.not_true, Bool.not_false,
      Bool.false_eq_true, Nat.reduceMod, Option.map_some', Option.map_none',
      hface, hside, hexit, h1, h2, hg, hset, h3]

/-- No operation of that crossing rounds. -/
theorem on_ray_rounding_free (n : Nat) :
    split_root64.rounding_free (n + 4) ⟨1, 1 / 2, 1 / 4⟩ ⟨1, 1, 1⟩ ⟨⟨1 / 2, 1 / 2, 1 / 2⟩, 1⟩ :=
      by
  refine ⟨?_, ?_⟩
  · refine ⟨fun i => ?_, ?_⟩
    · fin_cases i
      · refine ⟨?_, ?_, ?_, ?_⟩
        · exact is_binary32_of_eq (1 / 2) (by norm_num [exit_distances_exact, exit_face_exact,
            advance_exact, exit_location_exact, min_index, Vector3.div, Vector3.sub, Vector3.add,
            Vector3.smul, Vector3.get])
            ⟨(round32_of_pos _ _ (-1) 8388608 (by norm_num) (by norm_num) (by norm_num) (by norm_num)
              (by norm_num) (by norm_num)),
              abs_lt.mpr ⟨by norm_num, by norm_num⟩⟩
        · exact is_binary32_of_eq (1 / 2) (by norm_num [exit_distances_exact, exit_face_exact,
            advance_exact, exit_location_exact, min_index, Vector3.div, Vector3.sub, Vector3.add,
            Vector3.smul, Vector3.get])
            ⟨(round32_of_pos _ _ (-1) 8388608 (by norm_num) (by norm_num) (by norm_num) (by norm_num)
              (by norm_num) (by norm_num)),
              abs_lt.mpr ⟨by norm_num, by norm_num⟩⟩
        · exact is_binary32_of_eq (1 / 2) (by norm_num [exit_distances_exact, exit_face_exact,
            advance_exact, exit_location_exact, min_index, Vector3.div, Vector3.sub, Vector3.add,
            Vector3.smul, Vector3.get])
            ⟨(round32_of_pos _ _ (-1) 8388608 (by norm_num) (by norm_num) (by norm_num) (by norm_num)
              (by norm_num) (by norm_num)),
              abs_lt.mpr ⟨by norm_num, by norm_num⟩⟩
        · exact is_binary32_of_eq 1 (by norm_num [exit_distances_exact, exit_face_exact,
            advance_exact, exit_location_exact, min_index, Vector3.div, Vector3.sub, Vector3.add,
            Vector3.smul, Vector3.get])
            ⟨(round32_of_pos _ _ 0 8388608 (by norm_num) (by norm_num) (by norm_num) (by norm_num)
              (by norm_num) (by norm_num)),
              abs_lt.mpr ⟨by norm_num, by norm_num⟩⟩
      · refine ⟨?_, ?_, ?_, ?_⟩
        · exact is_binary32_of_eq (1 / 2) (by norm_num [exit_distances_exact, exit_face_exact,
            advance_exact, exit_location_exact, min_index, Vector3.div, Vector3.sub, Vector3.add,
            Vector3.smul, Vector3.get])
            ⟨(round32_of_pos _ _ (-1) 8388608 (by norm_num) (by norm_num) (by norm_num) (by norm_num)
              (by norm_num) (by norm_num)),
              abs_lt.mpr ⟨by norm_num, by norm_num⟩⟩
        · exact is_binary32_of_eq 1 (by norm_num [exit_distances_exact, exit_face_exact,
            advance_exact, exit_location_exact, min_index, Vector3.div, Vector3.sub, Vector3.add,
            Vector3.smul, Vector3.get])
            ⟨(round32_of_pos _ _ 0 8388608 (by norm_num) (by norm_num) (by norm_num) (by norm_num)
              (by norm_num) (by norm_num)),
              abs_lt.mpr ⟨by norm_num, by norm_num⟩⟩
        · exact is_binary32_of_eq (1 / 4) (by norm_num [exit_distances_exact, exit_face_exact,
            advance_exact, exit_location_exact, min_index, Vector3.div, Vector3.sub, Vector3.add,
            Vector3.smul, Vector3.get])
            ⟨(round32_of_pos _ _ (-2) 8388608 (by norm_num) (by norm_num) (by norm_num) (by norm_num)
              (by norm_num) (by norm_num)),
              abs_lt.mpr ⟨by norm_num, by norm_num⟩⟩
        · exact is_binary32_of_eq (3 / 4) (by norm_num [exit_distances_exact, exit_face_exact,
            advance_exact, exit_location_exact, min_index, Vector3.div, Vector3.sub, Vector3.add,
            Vector3.smul, Vector3.get])
            ⟨(round32_of_pos _ _ (-1) 12582912 (by norm_num) (by norm_num) (by norm_num) (by norm_num)
              (by norm_num) (by norm_num)),
              abs_lt.mpr ⟨by norm_num, by norm_num⟩⟩
      · refine ⟨?_, ?_, ?_, ?_⟩
        · exact is_binary32_of_eq (1 / 2) (by norm_num [exit_distances_exact, exit_face_exact,
            advance_exact, exit_location_exact, min_index, Vector3.div, Vector3.sub, Vector3.add,
            Vector3.smul, Vector3.get])
            ⟨(round32_of_pos _ _ (-1) 8388608 (by norm_num) (by norm_num) (by norm_num) (by norm_num)
              (by norm_num) (by norm_num)),
              abs_lt.mpr ⟨by norm_num, by norm_num⟩⟩
        · exact is_binary32_of_eq 2 (by norm_num [exit_distances_exact, exit_face_exact,
            advance_exact, exit_location_exact, min_index, Vector3.div, Vector3.sub, Vector3.add,
            Vector3.smul, Vector3.get])
            ⟨(round32_of_pos _ _ 1 8388608 (by norm_num) (by norm_num) (by norm_num) (by norm_num)
              (by norm_num) (by norm_num)),
              abs_lt.mpr ⟨by norm_num, by norm_num⟩⟩
        · exact is_binary32_of_eq (1 / 8) (by norm_num [exit_distances_exact, exit_face_exact,
            advance_exact, exit_location_exact, min_index, Vector3.div, Vector3.sub, Vector3.add,
            Vector3.smul, Vector3.get])
            ⟨(round32_of_pos _ _ (-3) 8388608 (by norm_num) (by norm_num) (by norm_num) (by norm_num)
              (by norm_num) (by norm_num)),
              abs_lt.mpr ⟨by norm_num, by norm_num⟩⟩
        · exact is_binary32_of_eq (5 / 8) (by norm_num [exit_distances_exact, exit_face_exact,
            advance_exact, exit_location_exact, min_index, Vector3.div, Vector3.sub, Vector3.add,
            Vector3.smul, Vector3.get])
            ⟨(round32_of_pos _ _ (-1) 10485760 (by norm_num) (by norm_num) (by norm_num) (by norm_num)
              (by norm_num) (by norm_num)),
              abs_lt.mpr ⟨by norm_num, by norm_num⟩⟩
    · exact is_binary32_of_eq 0 (by norm_num [exit_distances_exact, exit_face_exact, advance_exact,
        exit_location_exact, min_index, Vector3.div, Vector3.sub, Vector3.add, Vector3.smul,
        Vector3.get])
        ⟨round32_zero, by norm_num⟩
  · rw [(on_ray_eval n).2.2.2.2]
    intro c hc
    simp only [List.mem_cons, List.mem_singleton, List.not_mem_nil, or_false] at hc
    rcases hc with rfl | rfl | rfl
    · exact trivial
    · exact trivial
    · exact trivial

/-- The global coordinates of the start of that crossing. -/
theorem on_ray_coords_prev_eval (n : Nat) :
    split_root64.calculate_coords_f32 (n + 4) ⟨⟨1 / 2, 1 / 2, 1 / 2⟩, 1⟩ = some ⟨1 / 4, 1 / 4, 1
      / 4⟩ ∧
    split_root64.calculate_coords_calls (n + 4) ⟨⟨1 / 2, 1 / 2, 1 / 2⟩, 1⟩ =
      [Call.ascend ⟨⟨1 / 2, 1 / 2, 1 / 2⟩, 1⟩] := by
  have wf := split_root64_reachable.wellFormed
  have o1 : fmul (1 / 2) (1 / 2) = 1 / 4 :=
    fmul_of _ _ (1 / 4) _ (by norm_num)
      (round32_of_pos _ _ (-2) 8388608 (by norm_num) (by norm_num) (by norm_num) (by norm_num)
        (by norm_num) (by norm_num))
  have ha1 : split_root64.ascend_f32 ⟨⟨1 / 2, 1 / 2, 1 / 2⟩, 1⟩ = some ⟨⟨1 / 4, 1 / 4, 1 / 4⟩, 0⟩
      := by
    rw [wf.ascend_f32_allocated (by decide) (by decide) (by decide) _
      (by norm_num [is_saturated])]
    have e1 : (split_root64.m_nodes 1).m_parent_id = 0 := by decide
    have e2 : (split_root64.m_nodes 0).m_children_id = 1 := by decide
    rw [e1, e2]
    have e3 : ascend_coords_f32 (1 - 1) ⟨1 / 2, 1 / 2, 1 / 2⟩ =
        ⟨fmul (1 / 2) (1 / 2), fmul (1 / 2) (1 / 2), fmul (1 / 2) (1 / 2)⟩ := rfl
    rw [e3]
    simp only [o1, o1, o1]
  constructor
  · simp only [calculate_coords_f32, calculate_coords_loop_f32, Option.some_bind, Option.none_bind, ne_eq, OfNat.ofNat_ne_zero, one_ne_zero,
      not_false_eq_true, not_true_eq_false, if_true, if_false, Option.map_some', ha1]
  · simp only [calculate_coords_calls, Option.some_bind, Option.none_bind, ne_eq, OfNat.ofNat_ne_zero, one_ne_zero,
      not_false_eq_true, not_true_eq_false, if_true, if_false, Option.map_some', ha1]

/-- No operation of that evaluation of `calculate_coords` rounds. -/
theorem on_ray_coords_prev_rounding_free (n : Nat) :
    split_root64.calculate_coords_rounding_free (n + 4) ⟨⟨1 / 2, 1 / 2, 1 / 2⟩, 1⟩ := by
  intro c hc
  rw [(on_ray_coords_prev_eval n).2] at hc
  simp only [List.mem_cons, List.mem_singleton, List.not_mem_nil, or_false] at hc
  subst hc
  exact by
    have e : octant_of split_root64 1 = 0 := by decide
    show ascend_rounding_free (octant_of split_root64 1) ⟨1 / 2, 1 / 2, 1 / 2⟩
    rw [e]
    refine ⟨⟨?_, ?_, ?_⟩, ?_, ?_, ?_⟩
    · exact fun h => absurd h (by decide)
    · exact fun h => absurd h (by decide)
    · exact fun h => absurd h (by decide)
    · exact is_binary32_of_eq (1 / 4) (by norm_num [ascend_coords])
        ⟨(round32_of_pos _ _ (-2) 8388608 (by norm_num) (by norm_num) (by norm_num) (by norm_num)
          (by norm_num) (by norm_num)),
          abs_lt.mpr ⟨by norm_num, by norm_num⟩⟩
    · exact is_binary32_of_eq (1 / 4) (by norm_num [ascend_coords])
        ⟨(round32_of_pos _ _ (-2) 8388608 (by norm_num) (by norm_num) (by norm_num) (by norm_num)
          (by norm_num) (by norm_num)),
          abs_lt.mpr ⟨by norm_num, by norm_num⟩⟩
    · exact is_binary32_of_eq (1 / 4) (by norm_num [ascend_coords])
        ⟨(round32_of_pos _ _ (-2) 8388608 (by norm_num) (by norm_num) (by norm_num) (by norm_num)
          (by norm_num) (by norm_num)),
          abs_lt.mpr ⟨by norm_num, by norm_num⟩⟩

/-- The global coordinates of the exit point of that crossing. -/
theorem on_ray_coords_exit_eval (n : Nat) :
    split_root64.calculate_coords_f32 (n + 4) ⟨⟨1, 3 / 4, 5 / 8⟩, 1⟩ = some ⟨1 / 2, 3 / 8, 5 /
      16⟩ ∧
    split_root64.calculate_coords_calls (n + 4) ⟨⟨1, 3 / 4, 5 / 8⟩, 1⟩ =
      [Call.ascend ⟨⟨1, 3 / 4, 5 / 8⟩, 1⟩] := by
  have wf := split_root64_reachable.wellFormed
  have o1 : fmul (1 / 2) 1 = 1 / 2 :=
    fmul_of _ _ (1 / 2) _ (by norm_num)
      (round32_of_pos _ _ (-1) 8388608 (by norm_num) (by norm_num) (by norm_num) (by norm_num)
        (by norm_num) (by norm_num))
  have o2 : fmul (1 / 2) (3 / 4) = 3 / 8 :=
    fmul_of _ _ (3 / 8) _ (by norm_num)
      (round32_of_pos _ _ (-2) 12582912 (by norm_num) (by norm_num) (by norm_num) (by norm_num)
        (by norm_num) (by norm_num))
  have o3 : fmul (1 / 2) (5 / 8) = 5 / 16 :=
    fmul_of _ _ (5 / 16) _ (by norm_num)
      (round32_of_pos _ _ (-2) 10485760 (by norm_num) (by norm_num) (by norm_num) (by norm_num)
        (by norm_num) (by norm_num))
  have ha1 : split_root64.ascend_f32 ⟨⟨1, 3 / 4, 5 / 8⟩, 1⟩ = some ⟨⟨1 / 2, 3 / 8, 5 / 16⟩, 0⟩ :=
      by
    rw [wf.ascend_f32_allocated (by decide) (by decide) (by decide) _
      (by norm_num [is_saturated])]
    have e1 : (split_root64.m_nodes 1).m_parent_id = 0 := by decide
    have e2 : (split_root64.m_nodes 0).m_children_id = 1 := by decide
    rw [e1, e2]
    have e3 : ascend_coords_f32 (1 - 1) ⟨1, 3 / 4, 5 / 8⟩ =
        ⟨fmul (1 / 2) 1, fmul (1 / 2) (3 / 4), fmul (1 / 2) (5 / 8)⟩ := rfl
    rw [e3]
    simp only [o1, o2, o3]
  constructor
  · simp only [calculate_coords_f32, calculate_coords_loop_f32, Option.some_bind, Option.none_bind, ne_eq, OfNat.ofNat_ne_zero, one_ne_zero,
      not_false_eq_true, not_true_eq_false, if_true, if_false, Option.map_some', ha1]
  · simp only [calculate_coords_calls, Option.some_bind, Option.none_bind, ne_eq, OfNat.ofNat_ne_zero, one_ne_zero,
      not_false_eq_true, not_true_eq_false, if_true, if_false, Option.map_some', ha1]

/-- No operation of that evaluation of `calculate_coords` rounds. -/
theorem on_ray_coords_exit_rounding_free (n : Nat) :
    split_root64.calculate_coords_rounding_free (n + 4) ⟨⟨1, 3 / 4, 5 / 8⟩, 1⟩ := by
  intro c hc
  rw [(on_ray_coords_exit_eval n).2] at hc
  simp only [List.mem_cons, List.mem_singleton, List.not_mem_nil, or_false] at hc
  subst hc
  exact by
    have e : octant_of split_root64 1 = 0 := by decide
    show ascend_rounding_free (octant_of split_root64 1) ⟨1, 3 / 4, 5 / 8⟩
    rw [e]
    refine ⟨⟨?_, ?_, ?_⟩, ?_, ?_, ?_⟩
    · exact fun h => absurd h (by decide)
    · exact fun h => absurd h (by decide)
    · exact fun h => absurd h (by decide)
    · exact is_binary32_of_eq (1 / 2) (by norm_num [ascend_coords])
        ⟨(round32_of_pos _ _ (-1) 8388608 (by norm_num) (by norm_num) (by norm_num) (by norm_num)
          (by norm_num) (by norm_num)),
          abs_lt.mpr ⟨by norm_num, by norm_num⟩⟩
    · exact is_binary32_of_eq (3 / 8) (by norm_num [ascend_coords])
        ⟨(round32_of_pos _ _ (-2) 12582912 (by norm_num) (by norm_num) (by norm_num) (by norm_num)
          (by norm_num) (by norm_num)),
          abs_lt.mpr ⟨by norm_num, by norm_num⟩⟩
    · exact is_binary32_of_eq (5 / 16) (by norm_num [ascend_coords])
        ⟨(round32_of_pos _ _ (-2) 10485760 (by norm_num) (by norm_num) (by norm_num) (by norm_num)
          (by norm_num) (by norm_num)),
          abs_lt.mpr ⟨by norm_num, by norm_num⟩⟩

/-- The global coordinates of the location that crossing returns. -/
theorem on_ray_coords_out_eval (n : Nat) :
    split_root64.calculate_coords_f32 (n + 4) ⟨⟨0, 3 / 4, 5 / 8⟩, 2⟩ = some ⟨1 / 2, 3 / 8, 5 /
      16⟩ ∧
    split_root64.calculate_coords_calls (n + 4) ⟨⟨0, 3 / 4, 5 / 8⟩, 2⟩ =
      [Call.ascend ⟨⟨0, 3 / 4, 5 / 8⟩, 2⟩] := by
  have wf := split_root64_reachable.wellFormed
  have o1 : fadd 0 1 = 1 :=
    fadd_of _ _ 1 _ (by norm_num)
      (round32_of_pos _ _ 0 8388608 (by norm_num) (by norm_num) (by norm_num) (by norm_num)
        (by norm_num) (by norm_num))
  have o2 : fmul (1 / 2) 1 = 1 / 2 :=
    fmul_of _ _ (1 / 2) _ (by norm_num)
      (round32_of_pos _ _ (-1) 8388608 (by norm_num) (by norm_num) (by norm_num) (by norm_num)
        (by norm_num) (by norm_num))
  have o3 : fmul (1 / 2) (3 / 4) = 3 / 8 :=
    fmul_of _ _ (3 / 8) _ (by norm_num)
      (round32_of_pos _ _ (-2) 12582912 (by norm_num) (by norm_num) (by norm_num) (by norm_num)
        (by norm_num) (by norm_num))
  have o4 : fmul (1 / 2) (5 / 8) = 5 / 16 :=
    fmul_of _ _ (5 / 16) _ (by norm_num)
      (round32_of_pos _ _ (-2) 10485760 (by norm_num) (by norm_num) (by norm_num) (by norm_num)
        (by norm_num) (by norm_num))
  have ha2 : split_root64.ascend_f32 ⟨⟨0, 3 / 4, 5 / 8⟩, 2⟩ = some ⟨⟨1 / 2, 3 / 8, 5 / 16⟩, 0⟩ :=
      by
    rw [wf.ascend_f32_allocated (by decide) (by decide) (by decide) _
      (by norm_num [is_saturated])]
    have e1 : (split_root64.m_nodes 2).m_parent_id = 0 := by decide
    have e2 : (split_root64.m_nodes 0).m_children_id = 1 := by decide
    rw [e1, e2]
    have e3 : ascend_coords_f32 (2 - 1) ⟨0, 3 / 4, 5 / 8⟩ =
        ⟨fmul (1 / 2) (fadd 0 1), fmul (1 / 2) (3 / 4), fmul (1 / 2) (5 / 8)⟩ := rfl
    rw [e3]
    simp only [o1, o2, o3, o4]
  constructor
  · simp only [calculate_coords_f32, calculate_coords_loop_f32, Option.some_bind, Option.none_bind, ne_eq, OfNat.ofNat_ne_zero, one_ne_zero,
      not_false_eq_true, not_true_eq_false, if_true, if_false, Option.map_some', ha2]
  · simp only [calculate_coords_calls, Option.some_bind, Option.none_bind, ne_eq, OfNat.ofNat_ne_zero, one_ne_zero,
      not_false_eq_true, not_true_eq_false, if_true, if_false, Option.map_some', ha2]

/-- No operation of that evaluation of `calculate_coords` rounds. -/
theorem on_ray_coords_out_rounding_free (n : Nat) :
    split_root64.calculate_coords_rounding_free (n + 4) ⟨⟨0, 3 / 4, 5 / 8⟩, 2⟩ := by
  intro c hc
  rw [(on_ray_coords_out_eval n).2] at hc
  simp only [List.mem_cons, List.mem_singleton, List.not_mem_nil, or_false] at hc
  subst hc
  exact by
    have e : octant_of split_root64 2 = 1 := by decide
    show ascend_rounding_free (octant_of split_root64 2) ⟨0, 3 / 4, 5 / 8⟩
    rw [e]
    refine ⟨⟨?_, ?_, ?_⟩, ?_, ?_, ?_⟩
    · exact fun _ => is_binary32_of_eq 1 (by norm_num)
        ⟨(round32_of_pos _ _ 0 8388608 (by norm_num) (by norm_num) (by norm_num) (by norm_num)
          (by norm_num) (by norm_num)),
          abs_lt.mpr ⟨by norm_num, by norm_num⟩⟩
    · exact fun h => absurd h (by decide)
    · exact fun h => absurd h (by decide)
    · exact is_binary32_of_eq (1 / 2) (by norm_num [ascend_coords])
        ⟨(round32_of_pos _ _ (-1) 8388608 (by norm_num) (by norm_num) (by norm_num) (by norm_num)
          (by norm_num) (by norm_num)),
          abs_lt.mpr ⟨by norm_num, by norm_num⟩⟩
    · exact is_binary32_of_eq (3 / 8) (by norm_num [ascend_coords])
        ⟨(round32_of_pos _ _ (-2) 12582912 (by norm_num) (by norm_num) (by norm_num) (by norm_num)
          (by norm_num) (by norm_num)),
          abs_lt.mpr ⟨by norm_num, by norm_num⟩⟩
    · exact is_binary32_of_eq (5 / 16) (by norm_num [ascend_coords])
        ⟨(round32_of_pos _ _ (-2) 10485760 (by norm_num) (by norm_num) (by norm_num) (by norm_num)
          (by norm_num) (by norm_num)),
          abs_lt.mpr ⟨by norm_num, by norm_num⟩⟩

/-- The hypotheses of C11 hold on a tree of the test suite. -/
theorem crossing_on_ray_witness :
    ValidCapacity 64 ∧ Reachable split_root64 ∧
      consistent_signs ⟨1, 1 / 2, 1 / 4⟩ ⟨1, 1, 1⟩ ∧
      (⟨⟨1 / 2, 1 / 2, 1 / 2⟩, 1⟩ : SparseOctreeLocation).m_node_id < split_root64.get_size ∧
      is_saturated (⟨⟨1 / 2, 1 / 2, 1 / 2⟩, 1⟩ : SparseOctreeLocation).m_local_coords ∧
      split_root64.get_size ≤ 9 ∧
      split_root64.rounding_free 9 ⟨1, 1 / 2, 1 / 4⟩ ⟨1, 1, 1⟩ ⟨⟨1 / 2, 1 / 2, 1 / 2⟩, 1⟩ ∧
      split_root64.calculate_coords_rounding_free 9 ⟨⟨1 / 2, 1 / 2, 1 / 2⟩, 1⟩ ∧
      split_root64.calculate_coords_rounding_free 9
        (exit_location ⟨1, 1 / 2, 1 / 4⟩ ⟨1, 1, 1⟩ ⟨⟨1 / 2, 1 / 2, 1 / 2⟩, 1⟩) ∧
      (∀ b out, split_root64.crossing 9 ⟨1, 1 / 2, 1 / 4⟩ ⟨1, 1, 1⟩ ⟨⟨1 / 2, 1 / 2, 1 / 2⟩, 1⟩ = some (b, out) →
        split_root64.calculate_coords_rounding_free 9 out) ∧
      ∃ b out g0 g1 τ,
        split_root64.crossing 9 ⟨1, 1 / 2, 1 / 4⟩ ⟨1, 1, 1⟩ ⟨⟨1 / 2, 1 / 2, 1 / 2⟩, 1⟩ = some (b, out) ∧
        split_root64.calculate_coords_f32 9 out = some g1 ∧
        split_root64.calculate_coords_f32 9
          (exit_location ⟨1, 1 / 2, 1 / 4⟩ ⟨1, 1, 1⟩ ⟨⟨1 / 2, 1 / 2, 1 / 2⟩, 1⟩) = some g1 ∧
        split_root64.calculate_coords_f32 9 ⟨⟨1 / 2, 1 / 2, 1 / 2⟩, 1⟩ = some g0 ∧
        0 ≤ τ ∧ g1 = Vector3.add g0 (Vector3.smul τ ⟨1, 1 / 2, 1 / 4⟩) := by
  have he : split_root64.calculate_coords_rounding_free 9
      (exit_location ⟨1, 1 / 2, 1 / 4⟩ ⟨1, 1, 1⟩ ⟨⟨1 / 2, 1 / 2, 1 / 2⟩, 1⟩) := by
    rw [(on_ray_eval 5).2.2.2.1]
    exact on_ray_coords_exit_rounding_free 5
  have ho : ∀ b out, split_root64.crossing 9 ⟨1, 1 / 2, 1 / 4⟩ ⟨1, 1, 1⟩ ⟨⟨1 / 2, 1 / 2, 1 / 2⟩, 1⟩ = some (b, out) →
      split_root64.calculate_coords_rounding_free 9 out := by
    intro b out h
    rw [(on_ray_eval 5).1] at h
    simp only [Option.some.injEq, Prod.mk.injEq] at h
    rw [← h.2]
    exact on_ray_coords_out_rounding_free 5
  exact ⟨by decide, split_root64_reachable, fun i => Or.inl (by fin_cases i <;> norm_num [Vector3.get]),
    by decide, by norm_num [is_saturated], by decide, on_ray_rounding_free 5,
    on_ray_coords_prev_rounding_free 5, he, ho,
    crossing_on_ray (by decide) split_root64 split_root64_reachable ⟨1, 1 / 2, 1 / 4⟩
      ⟨1, 1, 1⟩ (fun i => Or.inl (by fin_cases i <;> norm_num [Vector3.get]))
      ⟨⟨1 / 2, 1 / 2, 1 / 2⟩, 1⟩ (by decide) (by norm_num [is_saturated]) 9 9 (by decide)
      (by decide) (on_ray_rounding_free 5) (on_ray_coords_prev_rounding_free 5) he ho⟩

set_option maxRecDepth 100000 in
/-- The crossing in the tree of the test `CalculateLocation` from the center of node 10 along
`(1, 1/2, 1/4)`, evaluated in binary32: the exit point is on the upper `x` face, where
node 10 has no neighbor; one `ascend` leads to node 1, whose neighbor is node 2; one
`descend` leads to the leaf 17. -/
theorem assertions_eval (n : Nat) :
    corners73.1.crossing (n + 4) ⟨1, 1 / 2, 1 / 4⟩ ⟨1, 1, 1⟩ ⟨⟨1 / 2, 1 / 2, 1 / 2⟩, 10⟩ =
      some (false, ⟨⟨0, 3 / 4, 5 / 8⟩, 17⟩) ∧
    advance ⟨1, 1 / 2, 1 / 4⟩ ⟨1, 1, 1⟩ ⟨⟨1 / 2, 1 / 2, 1 / 2⟩, 10⟩ = 1 / 2 ∧
    exit_face ⟨1, 1 / 2, 1 / 4⟩ ⟨1, 1, 1⟩ ⟨⟨1 / 2, 1 / 2, 1 / 2⟩, 10⟩ = 0 ∧
    exit_location ⟨1, 1 / 2, 1 / 4⟩ ⟨1, 1, 1⟩ ⟨⟨1 / 2, 1 / 2, 1 / 2⟩, 10⟩ =
      ⟨⟨1, 3 / 4, 5 / 8⟩, 10⟩ ∧
    corners73.1.crossing_calls (n + 4) ⟨1, 1 / 2, 1 / 4⟩ ⟨1, 1, 1⟩ ⟨⟨1 / 2, 1 / 2, 1 / 2⟩, 10⟩ =
      [Call.has_neighbor ⟨⟨1, 3 / 4, 5 / 8⟩, 10⟩ 0 true,
        Call.ascend ⟨⟨1, 3 / 4, 5 / 8⟩, 10⟩,
        Call.has_neighbor ⟨⟨1, 3 / 8, 5 / 16⟩, 1⟩ 0 true,
        Call.get_neighbor ⟨⟨1, 3 / 8, 5 / 16⟩, 1⟩ 0 true,
        Call.has_neighbor ⟨⟨1, 3 / 8, 5 / 16⟩, 1⟩ 0 true,
        Call.descend ⟨⟨0, 3 / 8, 5 / 16⟩, 2⟩] := by
  have wf := corners73_reachable.wellFormed
  have o1 : fsub 1 (1 / 2) = 1 / 2 :=
    fsub_of _ _ (1 / 2) _ (by norm_num)
      (round32_of_pos _ _ (-1) 8388608 (by norm_num) (by norm_num) (by norm_num) (by norm_num)
        (by norm_num) (by norm_num))
  have o2 : fdiv (1 / 2) 1 = 1 / 2 :=
    fdiv_of _ _ (1 / 2) _ (by norm_num)
      (round32_of_pos _ _ (-1) 8388608 (by norm_num) (by norm_num) (by norm_num) (by norm_num)
        (by norm_num) (by norm_num))
  have o3 : fdiv (1 / 2) (1 / 2) = 1 :=
    fdiv_of _ _ 1 _ (by norm_num)
      (round32_of_pos _ _ 0 8388608 (by norm_num) (by norm_num) (by norm_num) (by norm_num)
        (by norm_num) (by norm_num))
  have o4 : fdiv (1 / 2) (1 / 4) = 2 :=
    fdiv_of _ _ 2 _ (by norm_num)
      (round32_of_pos _ _ 1 8388608 (by norm_num) (by norm_num) (by norm_num) (by norm_num)
        (by norm_num) (by norm_num))
  have hdist : exit_distances ⟨1, 1 / 2, 1 / 4⟩ ⟨1, 1, 1⟩ ⟨⟨1 / 2, 1 / 2, 1 / 2⟩, 10⟩ = ⟨1 / 2,
      1, 2⟩ := by
    simp only [exit_distances, Vector3.div32, Vector3.sub32, o1, o1, o1, o2, o3, o4]
  have hface : exit_face ⟨1, 1 / 2, 1 / 4⟩ ⟨1, 1, 1⟩ ⟨⟨1 / 2, 1 / 2, 1 / 2⟩, 10⟩ = 0 := by
    rw [exit_face, hdist]
    norm_num [min_index, Vector3.get]
  have hadv : advance ⟨1, 1 / 2, 1 / 4⟩ ⟨1, 1, 1⟩ ⟨⟨1 / 2, 1 / 2, 1 / 2⟩, 10⟩ = 1 / 2 := by
    rw [advance, hdist, hface]
    rfl
  have hside : exit_side ⟨1, 1 / 2, 1 / 4⟩ ⟨1, 1, 1⟩ ⟨⟨1 / 2, 1 / 2, 1 / 2⟩, 10⟩ = true := by
    rw [exit_side, hface]
    norm_num [Vector3.get]
  have o5 : fmul (1 / 2) 1 = 1 / 2 :=
    fmul_of _ _ (1 / 2) _ (by norm_num)
      (round32_of_pos _ _ (-1) 8388608 (by norm_num) (by norm_num) (by norm_num) (by norm_num)
        (by norm_num) (by norm_num))
  have o6 : fmul (1 / 2) (1 / 2) = 1 / 4 :=
    fmul_of _ _ (1 / 4) _ (by norm_num)
      (round32_of_pos _ _ (-2) 8388608 (by norm_num) (by norm_num) (by norm_num) (by norm_num)
        (by norm_num) (by norm_num))
  have o7 : fmul (1 / 2) (1 / 4) = 1 / 8 :=
    fmul_of _ _ (1 / 8) _ (by norm_num)
      (round32_of_pos _ _ (-3) 8388608 (by norm_num) (by norm_num) (by norm_num) (by norm_num)
        (by norm_num) (by norm_num))
  have o8 : fadd (1 / 2) (1 / 2) = 1 :=
    fadd_of _ _ 1 _ (by norm_num)
      (round32_of_pos _ _ 0 8388608 (by norm_num) (by norm_num) (by norm_num) (by norm_num)
        (by norm_num) (by norm_num))
  have o9 : fadd (1 / 2) (1 / 4) = 3 / 4 :=
    fadd_of _ _ (3 / 4) _ (by norm_num)
      (round32_of_pos _ _ (-1) 12582912 (by norm_num) (by norm_num) (by norm_num) (by norm_num)
        (by norm_num) (by norm_num))
  have o10 : fadd (1 / 2) (1 / 8) = 5 / 8 :=
    fadd_of _ _ (5 / 8) _ (by norm_num)
      (round32_of_pos _ _ (-1) 10485760 (by norm_num) (by norm_num) (by norm_num) (by norm_num)
        (by norm_num) (by norm_num))
  have hexit : exit_location ⟨1, 1 / 2, 1 / 4⟩ ⟨1, 1, 1⟩ ⟨⟨1 / 2, 1 / 2, 1 / 2⟩, 10⟩ = ⟨⟨1, 3 /
      4, 5 / 8⟩, 10⟩ := by
    simp only [exit_location, hadv, Vector3.add32, Vector3.smul32, o5, o6, o7, o8, o9, o10]
  have hn10 : ∀ y, corners73.1.has_neighbor ⟨y, 10⟩ 0 true = some false := by
    intro y
    rw [wf.has_neighbor_octant_bit (by decide) (by decide)]
    decide
  have o11 : fadd 1 1 = 2 :=
    fadd_of _ _ 2 _ (by norm_num)
      (round32_of_pos _ _ 1 8388608 (by norm_num) (by norm_num) (by norm_num) (by norm_num)
        (by norm_num) (by norm_num))
  have o12 : fmul (1 / 2) 2 = 1 :=
    fmul_of _ _ 1 _ (by norm_num)
      (round32_of_pos _ _ 0 8388608 (by norm_num) (by norm_num) (by norm_num) (by norm_num)
        (by norm_num) (by norm_num))
  have o13 : fmul (1 / 2) (3 / 4) = 3 / 8 :=
    fmul_of _ _ (3 / 8) _ (by norm_num)
      (round32_of_pos _ _ (-2) 12582912 (by norm_num) (by norm_num) (by norm_num) (by norm_num)
        (by norm_num) (by norm_num))
  have o14 : fmul (1 / 2) (5 / 8) = 5 / 16 :=
    fmul_of _ _ (5 / 16) _ (by norm_num)
      (round32_of_pos _ _ (-2) 10485760 (by norm_num) (by norm_num) (by norm_num) (by norm_num)
        (by norm_num) (by norm_num))
  have ha10 : corners73.1.ascend_f32 ⟨⟨1, 3 / 4, 5 / 8⟩, 10⟩ = some ⟨⟨1, 3 / 8, 5 / 16⟩, 1⟩ := by
    rw [wf.ascend_f32_allocated (by decide) (by decide) (by decide) _
      (by norm_num [is_saturated])]
    have e1 : (corners73.1.m_nodes 10).m_parent_id = 1 := by decide
    have e2 : (corners73.1.m_nodes 1).m_children_id = 9 := by decide
    rw [e1, e2]
    have e3 : ascend_coords_f32 (10 - 9) ⟨1, 3 / 4, 5 / 8⟩ =
        ⟨fmul (1 / 2) (fadd 1 1), fmul (1 / 2) (3 / 4), fmul (1 / 2) (5 / 8)⟩ := rfl
    rw [e3]
    simp only [o11, o12, o13, o14]
  have hn1 : ∀ y, corners73.1.has_neighbor ⟨y, 1⟩ 0 true = some true := by
    intro y
    rw [wf.has_neighbor_octant_bit (by decide) (by decide)]
    decide
  have hg : ∀ y, corners73.1.get_neighbor ⟨y, 1⟩ 0 true = some 2 := by
    intro y
    rw [wf.get_neighbor_eq (by decide) (by decide) (by decide) y 0 true (hn1 y)]
    decide
  have o15 : fsub 1 1 = 0 :=
    fsub_of _ _ 0 _ (by norm_num)
      round32_zero
  have hset : (⟨1, 3 / 8, 5 / 16⟩ : Vector3).set 0 (fsub 1 ((⟨1, 1, 1⟩ : Vector3).get 0)) =
      ⟨0, 3 / 8, 5 / 16⟩ := by
    have e : (⟨1, 1, 1⟩ : Vector3).get 0 = 1 := rfl
    rw [e, o15]
    rfl
  have o16 : fmul 2 0 = 0 :=
    fmul_of _ _ 0 _ (by norm_num)
      round32_zero
  have o17 : fmul 2 (3 / 8) = 3 / 4 :=
    fmul_of _ _ (3 / 4) _ (by norm_num)
      (round32_of_pos _ _ (-1) 12582912 (by norm_num) (by norm_num) (by norm_num) (by norm_num)
        (by norm_num) (by norm_num))
  have o18 : fmul 2 (5 / 16) = 5 / 8 :=
    fmul_of _ _ (5 / 8) _ (by norm_num)
      (round32_of_pos _ _ (-1) 10485760 (by norm_num) (by norm_num) (by norm_num) (by norm_num)
        (by norm_num) (by norm_num))
  have hk2 : (corners73.1.m_nodes 2).m_children_id ≠ Null := by
    decide
  have hd2 : corners73.1.descend_f32 ⟨⟨0, 3 / 8, 5 / 16⟩, 2⟩ = some ⟨⟨0, 3 / 4, 5 / 8⟩, 17⟩ := by
    rw [wf.descend_f32_allocated (by decide) (by decide) (by decide) _
      (by norm_num [is_saturated])]
    have e : (corners73.1.m_nodes 2).m_children_id = 17 := by decide
    have e1 : octant ⟨0, 3 / 8, 5 / 16⟩ = 0 := by norm_num [octant, upper]
    rw [e, e1]
    simp only [descend_coords_f32, if_neg (show ¬ (0 : ℚ) > 1 / 2 by norm_num), if_neg (show ¬ (3
        / 8 : ℚ) > 1 / 2 by norm_num), if_neg (show ¬ (5 / 16 : ℚ) > 1 / 2 by norm_num),
      o16, o17, o18]
  have hq2 : corners73.1.node 2 = some (corners73.1.m_nodes 2) :=
    rfl
  have hk17 : (corners73.1.m_nodes 17).m_children_id = Null := by
    decide
  have hq17 : corners73.1.node 17 = some (corners73.1.m_nodes 17) :=
    rfl
  refine ⟨?_, hadv, hface, hexit, ?_⟩
  · simp only [crossing, ascend_till_has_neighbor, descend_till_leaf_f32,
      Option.some_bind, Option.none_bind, ne_eq, OfNat.ofNat_ne_zero, one_ne_zero,
      not_false_eq_true, not_true_eq_false, if_true, if_false, Bool.not_true, Bool.not_false,
      Bool.false_eq_true, Nat.reduceMod, Option.map_some', Option.map_none',
      hface, hside, hexit, hn10, ha10, hn1, hg, hset, hk2, hd2, hq2, hk17, hq17]
  · have h1 : corners73.1.ascend_till_has_neighbor 0 true (n + 4) ⟨⟨1, 3 / 4, 5 / 8⟩, 10⟩ =
        some ⟨⟨1, 3 / 8, 5 / 16⟩, 1⟩ := by
      simp only [ascend_till_has_neighbor,
        Option.some_bind, Option.none_bind, ne_eq, OfNat.ofNat_ne_zero, one_ne_zero,
        not_false_eq_true, not_true_eq_false, if_true, if_false, Bool.not_true, Bool.not_false,
        Bool.false_eq_true, Nat.reduceMod, Option.map_some', Option.map_none',
        hn10, ha10, hn1]
    have h2 : corners73.1.ascend_till_has_neighbor_calls 0 true (n + 4) ⟨⟨1, 3 / 4, 5 / 8⟩, 10⟩ =
        [Call.has_neighbor ⟨⟨1, 3 / 4, 5 / 8⟩, 10⟩ 0 true,
          Call.ascend ⟨⟨1, 3 / 4, 5 / 8⟩, 10⟩,
          Call.has_neighbor ⟨⟨1, 3 / 8, 5 / 16⟩, 1⟩ 0 true] := by
      simp only [ascend_till_has_neighbor_calls,
        Option.some_bind, Option.none_bind, ne_eq, OfNat.ofNat_ne_zero, one_ne_zero,
        not_false_eq_true, not_true_eq_false, if_true, if_false, Bool.not_true, Bool.not_false,
        Bool.false_eq_true, Nat.reduceMod, Option.map_some', Option.map_none',
        hn10, ha10, hn1]
    have h3 : corners73.1.descend_till_leaf_calls (n + 4) ⟨⟨0, 3 / 8, 5 / 16⟩, 2⟩ =
        [Call.descend ⟨⟨0, 3 / 8, 5 / 16⟩, 2⟩] := by
      simp only [descend_till_leaf_calls,
        Option.some_bind, Option.none_bind, ne_eq, OfNat.ofNat_ne_zero, one_ne_zero,
        not_false_eq_true, not_true_eq_false, if_true, if_false, Bool.not_true, Bool.not_false,
        Bool.false_eq_true, Nat.reduceMod, Option.map_some', Option.map_none',
        hk2, hd2, hq2, hk17, hq17]
    simp only [crossing_calls, List.cons_append, List.nil_append, List.append_nil,
      Option.some_bind, Option.none_bind, ne_eq, OfNat.ofNat_ne_zero, one_ne_zero,
      not_false_eq_true, not_true_eq_false, if_true, if_false, Bool.not_true, Bool.not_false,
      Bool.false_eq_true, Nat.reduceMod, Option.map_some', Option.map_none',
      hface, hside, hexit, h1, h2, hg, hset, h3]

set_option maxRecDepth 100000 in
/-- No operation of that crossing rounds. -/
theorem assertions_rounding_free (n : Nat) :
    corners73.1.rounding_free (n + 4) ⟨1, 1 / 2, 1 / 4⟩ ⟨1, 1, 1⟩ ⟨⟨1 / 2, 1 / 2, 1 / 2⟩, 10⟩ :=
      by
  refine ⟨?_, ?_⟩
  · refine ⟨fun i => ?_, ?_⟩
    · fin_cases i
      · refine ⟨?_, ?_, ?_, ?_⟩
        · exact is_binary32_of_eq (1 / 2) (by norm_num [exit_distances_exact, exit_face_exact,
            advance_exact, exit_location_exact, min_index, Vector3.div, Vector3.sub, Vector3.add,
            Vector3.smul, Vector3.get])
            ⟨(round32_of_pos _ _ (-1) 8388608 (by norm_num) (by norm_num) (by norm_num) (by norm_num)
              (by norm_num) (by norm_num)),
              abs_lt.mpr ⟨by norm_num, by norm_num⟩⟩
        · exact is_binary32_of_eq (1 / 2) (by norm_num [exit_distances_exact, exit_face_exact,
            advance_exact, exit_location_exact, min_index, Vector3.div, Vector3.sub, Vector3.add,
            Vector3.smul, Vector3.get])
            ⟨(round32_of_pos _ _ (-1) 8388608 (by norm_num) (by norm_num) (by norm_num) (by norm_num)
              (by norm_num) (by norm_num)),
              abs_lt.mpr ⟨by norm_num, by norm_num⟩⟩
        · exact is_binary32_of_eq (1 / 2) (by norm_num [exit_distances_exact, exit_face_exact,
            advance_exact, exit_location_exact, min_index, Vector3.div, Vector3.sub, Vector3.add,
            Vector3.smul, Vector3.get])
            ⟨(round32_of_pos _ _ (-1) 8388608 (by norm_num) (by norm_num) (by norm_num) (by norm_num)
              (by norm_num) (by norm_num)),
              abs_lt.mpr ⟨by norm_num, by norm_num⟩⟩
        · exact is_binary32_of_eq 1 (by norm_num [exit_distances_exact, exit_face_exact,
            advance_exact, exit_location_exact, min_index, Vector3.div, Vector3.sub, Vector3.add,
            Vector3.smul, Vector3.get])
            ⟨(round32_of_pos _ _ 0 8388608 (by norm_num) (by norm_num) (by norm_num) (by norm_num)
              (by norm_num) (by norm_num)),
              abs_lt.mpr ⟨by norm_num, by norm_num⟩⟩
      · refine ⟨?_, ?_, ?_, ?_⟩
        · exact is_binary32_of_eq (1 / 2) (by norm_num [exit_distances_exact, exit_face_exact,
            advance_exact, exit_location_exact, min_index, Vector3.div, Vector3.sub, Vector3.add,
            Vector3.smul, Vector3.get])
            ⟨(round32_of_pos _ _ (-1) 8388608 (by norm_num) (by norm_num) (by norm_num) (by norm_num)
              (by norm_num) (by norm_num)),
              abs_lt.mpr ⟨by norm_num, by norm_num⟩⟩
        · exact is_binary32_of_eq 1 (by norm_num [exit_distances_exact, exit_face_exact,
            advance_exact, exit_location_exact, min_index, Vector3.div, Vector3.sub, Vector3.add,
            Vector3.smul, Vector3.get])
            ⟨(round32_of_pos _ _ 0 8388608 (by norm_num) (by norm_num) (by norm_num) (by norm_num)
              (by norm_num) (by norm_num)),
              abs_lt.mpr ⟨by norm_num, by norm_num⟩⟩
        · exact is_binary32_of_eq (1 / 4) (by norm_num [exit_distances_exact, exit_face_exact,
            advance_exact, exit_location_exact, min_index, Vector3.div, Vector3.sub, Vector3.add,
            Vector3.smul, Vector3.get])
            ⟨(round32_of_pos _ _ (-2) 8388608 (by norm_num) (by norm_num) (by norm_num) (by norm_num)
              (by norm_num) (by norm_num)),
              abs_lt.mpr ⟨by norm_num, by norm_num⟩⟩
        · exact is_binary32_of_eq (3 / 4) (by norm_num [exit_distances_exact, exit_face_exact,
            advance_exact, exit_location_exact, min_index, Vector3.div, Vector3.sub, Vector3.add,
            Vector3.smul, Vector3.get])
            ⟨(round32_of_pos _ _ (-1) 12582912 (by norm_num) (by norm_num) (by norm_num) (by norm_num)
              (by norm_num) (by norm_num)),
              abs_lt.mpr ⟨by norm_num, by norm_num⟩⟩
      · refine ⟨?_, ?_, ?_, ?_⟩
        · exact is_binary32_of_eq (1 / 2) (by norm_num [exit_distances_exact, exit_face_exact,
            advance_exact, exit_location_exact, min_index, Vector3.div, Vector3.sub, Vector3.add,
            Vector3.smul, Vector3.get])
            ⟨(round32_of_pos _ _ (-1) 8388608 (by norm_num) (by norm_num) (by norm_num) (by norm_num)
              (by norm_num) (by norm_num)),
              abs_lt.mpr ⟨by norm_num, by norm_num⟩⟩
        · exact is_binary32_of_eq 2 (by norm_num [exit_distances_exact, exit_face_exact,
            advance_exact, exit_location_exact, min_index, Vector3.div, Vector3.sub, Vector3.add,
            Vector3.smul, Vector3.get])
            ⟨(round32_of_pos _ _ 1 8388608 (by norm_num) (by norm_num) (by norm_num) (by norm_num)
              (by norm_num) (by norm_num)),
              abs_lt.mpr ⟨by norm_num, by norm_num⟩⟩
        · exact is_binary32_of_eq (1 / 8) (by norm_num [exit_distances_exact, exit_face_exact,
            advance_exact, exit_location_exact, min_index, Vector3.div, Vector3.sub, Vector3.add,
            Vector3.smul, Vector3.get])
            ⟨(round32_of_pos _ _ (-3) 8388608 (by norm_num) (by norm_num) (by norm_num) (by norm_num)
              (by norm_num) (by norm_num)),
              abs_lt.mpr ⟨by norm_num, by norm_num⟩⟩
        · exact is_binary32_of_eq (5 / 8) (by norm_num [exit_distances_exact, exit_face_exact,
            advance_exact, exit_location_exact, min_index, Vector3.div, Vector3.sub, Vector3.add,
            Vector3.smul, Vector3.get])
            ⟨(round32_of_pos _ _ (-1) 10485760 (by norm_num) (by norm_num) (by norm_num) (by norm_num)
              (by norm_num) (by norm_num)),
              abs_lt.mpr ⟨by norm_num, by norm_num⟩⟩
    · exact is_binary32_of_eq 0 (by norm_num [exit_distances_exact, exit_face_exact, advance_exact,
        exit_location_exact, min_index, Vector3.div, Vector3.sub, Vector3.add, Vector3.smul,
        Vector3.get])
        ⟨round32_zero, by norm_num⟩
  · rw [(assertions_eval n).2.2.2.2]
    intro c hc
    simp only [List.mem_cons, List.mem_singleton, List.not_mem_nil, or_false] at hc
    rcases hc with rfl | rfl | rfl | rfl | rfl | rfl
    · exact trivial
    · exact by
        have e : octant_of corners73.1 10 = 1 := by decide
        show ascend_rounding_free (octant_of corners73.1 10) ⟨1, 3 / 4, 5 / 8⟩
        rw [e]
        refine ⟨⟨?_, ?_, ?_⟩, ?_, ?_, ?_⟩
        · exact fun _ => is_binary32_of_eq 2 (by norm_num)
            ⟨(round32_of_pos _ _ 1 8388608 (by norm_num) (by norm_num) (by norm_num) (by norm_num)
              (by norm_num) (by norm_num)),
              abs_lt.mpr ⟨by norm_num, by norm_num⟩⟩
        · exact fun h => absurd h (by decide)
        · exact fun h => absurd h (by decide)
        · exact is_binary32_of_eq 1 (by norm_num [ascend_coords])
            ⟨(round32_of_pos _ _ 0 8388608 (by norm_num) (by norm_num) (by norm_num) (by norm_num)
              (by norm_num) (by norm_num)),
              abs_lt.mpr ⟨by norm_num, by norm_num⟩⟩
        · exact is_binary32_of_eq (3 / 8) (by norm_num [ascend_coords])
            ⟨(round32_of_pos _ _ (-2) 12582912 (by norm_num) (by norm_num) (by norm_num) (by norm_num)
              (by norm_num) (by norm_num)),
              abs_lt.mpr ⟨by norm_num, by norm_num⟩⟩
        · exact is_binary32_of_eq (5 / 16) (by norm_num [ascend_coords])
            ⟨(round32_of_pos _ _ (-2) 10485760 (by norm_num) (by norm_num) (by norm_num) (by norm_num)
              (by norm_num) (by norm_num)),
              abs_lt.mpr ⟨by norm_num, by norm_num⟩⟩
    · exact trivial
    · exact trivial
    · exact trivial
    · exact by
        show descend_rounding_free ⟨0, 3 / 8, 5 / 16⟩
        refine ⟨⟨?_, ?_, ?_⟩, ?_, ?_, ?_⟩
        · exact fun h => absurd h (by norm_num)
        · exact fun h => absurd h (by norm_num)
        · exact fun h => absurd h (by norm_num)
        · exact is_binary32_of_eq 0 (by norm_num [descend_coords, upper, Vector3.smul])
            ⟨round32_zero, by norm_num⟩
        · exact is_binary32_of_eq (3 / 4) (by norm_num [descend_coords, upper, Vector3.smul])
            ⟨(round32_of_pos _ _ (-1) 12582912 (by norm_num) (by norm_num) (by norm_num) (by norm_num)
              (by norm_num) (by norm_num)),
              abs_lt.mpr ⟨by norm_num, by norm_num⟩⟩
        · exact is_binary32_of_eq (5 / 8) (by norm_num [descend_coords, upper, Vector3.smul])
            ⟨(round32_of_pos _ _ (-1) 10485760 (by norm_num) (by norm_num) (by norm_num) (by norm_num)
              (by norm_num) (by norm_num)),
              abs_lt.mpr ⟨by norm_num, by norm_num⟩⟩

set_option maxRecDepth 100000 in
/-- The hypotheses of C21 hold on the tree of the test `CalculateLocation`, at the center of
node 10 along `(1, 1/2, 1/4)`. -/
theorem crossing_assertions_hold_witness :
    ValidCapacity 73 ∧ Reachable corners73.1 ∧
      consistent_signs ⟨1, 1 / 2, 1 / 4⟩ ⟨1, 1, 1⟩ ∧
      (⟨⟨1 / 2, 1 / 2, 1 / 2⟩, 10⟩ : SparseOctreeLocation).m_node_id < corners73.1.get_size ∧
      is_saturated (⟨⟨1 / 2, 1 / 2, 1 / 2⟩, 10⟩ : SparseOctreeLocation).m_local_coords ∧
      corners73.1.get_size ≤ 73 ∧
      corners73.1.rounding_free 73 ⟨1, 1 / 2, 1 / 4⟩ ⟨1, 1, 1⟩ ⟨⟨1 / 2, 1 / 2, 1 / 2⟩, 10⟩ ∧
      (∃ b out, corners73.1.crossing 73 ⟨1, 1 / 2, 1 / 4⟩ ⟨1, 1, 1⟩ ⟨⟨1 / 2, 1 / 2, 1 / 2⟩, 10⟩ = some (b, out) ∧
        is_allocated corners73.1 out.m_node_id ∧ is_saturated out.m_local_coords) ∧
      ∀ c ∈ corners73.1.crossing_calls 73 ⟨1, 1 / 2, 1 / 4⟩ ⟨1, 1, 1⟩ ⟨⟨1 / 2, 1 / 2, 1 / 2⟩, 10⟩,
        c.holds corners73.1 :=
  ⟨by decide, corners73_reachable, fun i => Or.inl (by fin_cases i <;> norm_num [Vector3.get]),
    by decide, by norm_num [is_saturated], by decide, assertions_rounding_free 69,
    crossing_assertions_hold (by decide) corners73.1 corners73_reachable ⟨1, 1 / 2, 1 / 4⟩
      ⟨1, 1, 1⟩ (fun i => Or.inl (by fin_cases i <;> norm_num [Vector3.get]))
      ⟨⟨1 / 2, 1 / 2, 1 / 2⟩, 10⟩ (by decide) (by norm_num [is_saturated]) 73 (by decide)
      (assertions_rounding_free 69)⟩

/-! ## The scenario of the test `Trace` in binary32 -/

/-- The value `trace_norm` is the binary32 value nearest to the square root of 389: it is
a binary32 value, and 389 lies strictly between the squares of the midpoints to its two
neighbors, which are `2^-20` away. -/
theorem trace_norm_nearest :
    is_binary32 trace_norm ∧ (trace_norm - 1 / 2 ^ 20) ^ 2 < 389 ∧
      389 < (trace_norm + 1 / 2 ^ 20) ^ 2 := by
  refine ⟨?_, by norm_num [trace_norm], by norm_num [trace_norm]⟩
  rw [trace_norm]
  exact ⟨(round32_of_pos _ _ 4 10340576 (by norm_num) (by norm_num) (by norm_num) (by norm_num)
        (by norm_num) (by norm_num)),
        abs_lt.mpr ⟨by norm_num, by norm_num⟩⟩

/-- The components of `trace_direction`. -/
theorem trace_direction_eq :
    trace_direction = ⟨-12759579 / 16777216, 4253193 / 8388608, 13610217 / 33554432⟩ := by
  have o1 : fdiv (-15) (323143 / 16384) = -12759579 / 16777216 :=
    fdiv_of _ _ (-245760 / 323143) _ (by norm_num)
      (round32_of_neg _ _ (-1) (-12759579) (by norm_num) (by norm_num) (by norm_num) (by norm_num)
        (by norm_num) (by norm_num))
  have o2 : fdiv 10 (323143 / 16384) = 4253193 / 8388608 :=
    fdiv_of _ _ (163840 / 323143) _ (by norm_num)
      (round32_of_pos _ _ (-1) 8506386 (by norm_num) (by norm_num) (by norm_num) (by norm_num)
        (by norm_num) (by norm_num))
  have o3 : fdiv 8 (323143 / 16384) = 13610217 / 33554432 :=
    fdiv_of _ _ (131072 / 323143) _ (by norm_num)
      (round32_of_pos _ _ (-2) 13610217 (by norm_num) (by norm_num) (by norm_num) (by norm_num)
        (by norm_num) (by norm_num))
  simp only [trace_direction, trace_norm, o1, o2, o3]

/-- The components of `trace_direction_reciprocal`. -/
theorem trace_direction_reciprocal_eq :
    trace_direction_reciprocal = ⟨-6379789 / 8388608, 4253193 / 8388608, 13610217 / 33554432⟩ :=
      by
  have o1 : fdiv 1 (323143 / 16384) = 13610217 / 268435456 :=
    fdiv_of _ _ (16384 / 323143) _ (by norm_num)
      (round32_of_pos _ _ (-5) 13610217 (by norm_num) (by norm_num) (by norm_num) (by norm_num)
        (by norm_num) (by norm_num))
  have o2 : fmul (-15) (13610217 / 268435456) = -6379789 / 8388608 :=
    fmul_of _ _ (-204153255 / 268435456) _ (by norm_num)
      (round32_of_neg _ _ (-1) (-12759578) (by norm_num) (by norm_num) (by norm_num) (by norm_num)
        (by norm_num) (by norm_num))
  have o3 : fmul 10 (13610217 / 268435456) = 4253193 / 8388608 :=
    fmul_of _ _ (68051085 / 134217728) _ (by norm_num)
      (round32_of_pos _ _ (-1) 8506386 (by norm_num) (by norm_num) (by norm_num) (by norm_num)
        (by norm_num) (by norm_num))
  have o4 : fmul 8 (13610217 / 268435456) = 13610217 / 33554432 :=
    fmul_of _ _ (13610217 / 33554432) _ (by norm_num)
      (round32_of_pos _ _ (-2) 13610217 (by norm_num) (by norm_num) (by norm_num) (by norm_num)
        (by norm_num) (by norm_num))
  simp only [trace_direction_reciprocal, trace_norm, o1, o2, o3, o4]

/-- Crossing 1 of the trace along `trace_direction`, evaluated in binary32. -/
theorem trace_f32_crossing_1 (n : Nat) :
    trace_tree.1.crossing (n + 4) ⟨-12759579 / 16777216, 4253193 / 8388608, 13610217 / 33554432⟩
      ⟨0, 1, 1⟩ ⟨⟨1, 0, 0⟩, 10⟩ =
      some (false, ⟨⟨1, 2796203 / 8388608, 69905 / 1048576⟩, 24⟩) ∧
    advance ⟨-12759579 / 16777216, 4253193 / 8388608, 13610217 / 33554432⟩ ⟨0, 1, 1⟩ ⟨⟨1, 0, 0⟩,
      10⟩ = 2757487 / 2097152 ∧
    exit_face ⟨-12759579 / 16777216, 4253193 / 8388608, 13610217 / 33554432⟩ ⟨0, 1, 1⟩ ⟨⟨1, 0,
      0⟩, 10⟩ = 0 ∧
    exit_location ⟨-12759579 / 16777216, 4253193 / 8388608, 13610217 / 33554432⟩ ⟨0, 1, 1⟩ ⟨⟨1,
      0, 0⟩, 10⟩ =
      ⟨⟨0, 11184811 / 16777216, 1118481 / 2097152⟩, 10⟩ ∧
    trace_tree.1.crossing_calls (n + 4) ⟨-12759579 / 16777216, 4253193 / 8388608, 13610217 /
      33554432⟩ ⟨0, 1, 1⟩ ⟨⟨1, 0, 0⟩, 10⟩ =
      [Call.has_neighbor ⟨⟨0, 11184811 / 16777216, 1118481 / 2097152⟩, 10⟩ 0 false,
        Call.get_neighbor ⟨⟨0, 11184811 / 16777216, 1118481 / 2097152⟩, 10⟩ 0 false,
        Call.has_neighbor ⟨⟨0, 11184811 / 16777216, 1118481 / 2097152⟩, 10⟩ 0 false,
        Call.descend ⟨⟨1, 11184811 / 16777216, 1118481 / 2097152⟩, 9⟩] := by
  have wf := trace_tree_reachable.wellFormed
  have o1 : fsub 0 1 = -1 :=
    fsub_of _ _ (-1) _ (by norm_num)
      (round32_of_neg _ _ 0 (-8388608) (by norm_num) (by norm_num) (by norm_num) (by norm_num)
        (by norm_num) (by norm_num))
  have o2 : fsub 1 0 = 1 :=
    fsub_of _ _ 1 _ (by norm_num)
      (round32_of_pos _ _ 0 8388608 (by norm_num) (by norm_num) (by norm_num) (by norm_num)
        (by norm_num) (by norm_num))
  have o3 : fdiv (-1) (-12759579 / 16777216) = 2757487 / 2097152 :=
    fdiv_of _ _ (16777216 / 12759579) _ (by norm_num)
      (round32_of_pos _ _ 0 11029948 (by norm_num) (by norm_num) (by norm_num) (by norm_num)
        (by norm_num) (by norm_num))
  have o4 : fdiv 1 (4253193 / 8388608) = 16544921 / 8388608 :=
    fdiv_of _ _ (8388608 / 4253193) _ (by norm_num)
      (round32_of_pos _ _ 0 16544921 (by norm_num) (by norm_num) (by norm_num) (by norm_num)
        (by norm_num) (by norm_num))
  have o5 : fdiv 1 (13610217 / 33554432) = 323143 / 131072 :=
    fdiv_of _ _ (33554432 / 13610217) _ (by norm_num)
      (round32_of_pos _ _ 1 10340576 (by norm_num) (by norm_num) (by norm_num) (by norm_num)
        (by norm_num) (by norm_num))
  have hdist : exit_distances ⟨-12759579 / 16777216, 4253193 / 8388608, 13610217 / 33554432⟩ ⟨0,
      1, 1⟩ ⟨⟨1, 0, 0⟩, 10⟩ = ⟨2757487 / 2097152, 16544921 / 8388608, 323143 / 131072⟩ := by
    simp only [exit_distances, Vector3.div32, Vector3.sub32, o1, o2, o2, o3, o4, o5]
  have hface : exit_face ⟨-12759579 / 16777216, 4253193 / 8388608, 13610217 / 33554432⟩ ⟨0, 1, 1⟩
      ⟨⟨1, 0, 0⟩, 10⟩ = 0 := by
    rw [exit_face, hdist]
    norm_num [min_index, Vector3.get]
  have hadv : advance ⟨-12759579 / 16777216, 4253193 / 8388608, 13610217 / 33554432⟩ ⟨0, 1, 1⟩
      ⟨⟨1, 0, 0⟩, 10⟩ = 2757487 / 2097152 := by
    rw [advance, hdist, hface]
    rfl
  have hside : exit_side ⟨-12759579 / 16777216, 4253193 / 8388608, 13610217 / 33554432⟩ ⟨0, 1, 1⟩
      ⟨⟨1, 0, 0⟩, 10⟩ = false := by
    rw [exit_side, hface]
    norm_num [Vector3.get]
  have o6 : fmul (2757487 / 2097152) (-12759579 / 16777216) = -1 :=
    fmul_of _ _ (-35184373217973 / 35184372088832) _ (by norm_num)
      (round32_of_neg _ _ 0 (-8388608) (by norm_num) (by norm_num) (by norm_num) (by norm_num)
        (by norm_num) (by norm_num))
  have o7 : fmul (2757487 / 2097152) (4253193 / 8388608) = 11184811 / 16777216 :=
    fmul_of _ _ (11728124405991 / 17592186044416) _ (by norm_num)
      (round32_of_pos _ _ (-1) 11184811 (by norm_num) (by norm_num) (by norm_num) (by norm_num)
        (by norm_num) (by norm_num))
  have o8 : fmul (2757487 / 2097152) (13610217 / 33554432) = 1118481 / 2097152 :=
    fmul_of _ _ (37529996444679 / 70368744177664) _ (by norm_num)
      (round32_of_pos _ _ (-1) 8947848 (by norm_num) (by norm_num) (by norm_num) (by norm_num)
        (by norm_num) (by norm_num))
  have o9 : fadd 1 (-1) = 0 :=
    fadd_of _ _ 0 _ (by norm_num)
      round32_zero
  have o10 : fadd 0 (11184811 / 16777216) = 11184811 / 16777216 :=
    fadd_of _ _ (11184811 / 16777216) _ (by norm_num)
      (round32_of_pos _ _ (-1) 11184811 (by norm_num) (by norm_num) (by norm_num) (by norm_num)
        (by norm_num) (by norm_num))
  have o11 : fadd 0 (1118481 / 2097152) = 1118481 / 2097152 :=
    fadd_of _ _ (1118481 / 2097152) _ (by norm_num)
      (round32_of_pos _ _ (-1) 8947848 (by norm_num) (by norm_num) (by norm_num) (by norm_num)
        (by norm_num) (by norm_num))
  have hexit : exit_location ⟨-12759579 / 16777216, 4253193 / 8388608, 13610217 / 33554432⟩ ⟨0,
      1, 1⟩ ⟨⟨1, 0, 0⟩, 10⟩ = ⟨⟨0, 11184811 / 16777216, 1118481 / 2097152⟩, 10⟩ := by
    simp only [exit_location, hadv, Vector3.add32, Vector3.smul32, o6, o7, o8, o9, o10, o11]
  have hn10 : ∀ y, trace_tree.1.has_neighbor ⟨y, 10⟩ 0 false = some true := by
    intro y
    rw [wf.has_neighbor_octant_bit (by decide) (by decide)]
    decide
  have hg : ∀ y, trace_tree.1.get_neighbor ⟨y, 10⟩ 0 false = some 9 := by
    intro y
    rw [wf.get_neighbor_eq (by decide) (by decide) (by decide) y 0 false (hn10 y)]
    decide
  have hset : (⟨0, 11184811 / 16777216, 1118481 / 2097152⟩ : Vector3).set 0 (fsub 1 ((⟨0, 1, 1⟩ :
      Vector3).get 0)) =
      ⟨1, 11184811 / 16777216, 1118481 / 2097152⟩ := by
    have e : (⟨0, 1, 1⟩ : Vector3).get 0 = 0 := rfl
    rw [e, o2]
    rfl
  have o12 : fsub 1 (1 / 2) = 1 / 2 :=
    fsub_of _ _ (1 / 2) _ (by norm_num)
      (round32_of_pos _ _ (-1) 8388608 (by norm_num) (by norm_num) (by norm_num) (by norm_num)
        (by norm_num) (by norm_num))
  have o13 : fsub (11184811 / 16777216) (1 / 2) = 2796203 / 16777216 :=
    fsub_of _ _ (2796203 / 16777216) _ (by norm_num)
      (round32_of_pos _ _ (-3) 11184812 (by norm_num) (by norm_num) (by norm_num) (by norm_num)
        (by norm_num) (by norm_num))
  have o14 : fsub (1118481 / 2097152) (1 / 2) = 69905 / 2097152 :=
    fsub_of _ _ (69905 / 2097152) _ (by norm_num)
      (round32_of_pos _ _ (-5) 8947840 (by norm_num) (by norm_num) (by norm_num) (by norm_num)
        (by norm_num) (by norm_num))
  have o15 : fmul 2 (1 / 2) = 1 :=
    fmul_of _ _ 1 _ (by norm_num)
      (round32_of_pos _ _ 0 8388608 (by norm_num) (by norm_num) (by norm_num) (by norm_num)
        (by norm_num) (by norm_num))
  have o16 : fmul 2 (2796203 / 16777216) = 2796203 / 8388608 :=
    fmul_of _ _ (2796203 / 8388608) _ (by norm_num)
      (round32_of_pos _ _ (-2) 11184812 (by norm_num) (by norm_num) (by norm_num) (by norm_num)
        (by norm_num) (by norm_num))
  have o17 : fmul 2 (69905 / 2097152) = 69905 / 1048576 :=
    fmul_of _ _ (69905 / 1048576) _ (by norm_num)
      (round32_of_pos _ _ (-4) 8947840 (by norm_num) (by norm_num) (by norm_num) (by norm_num)
        (by norm_num) (by norm_num))
  have hk9 : (trace_tree.1.m_nodes 9).m_children_id ≠ Null := by
    decide
  have hd9 : trace_tree.1.descend_f32 ⟨⟨1, 11184811 / 16777216, 1118481 / 2097152⟩, 9⟩ = some
      ⟨⟨1, 2796203 / 8388608, 69905 / 1048576⟩, 24⟩ := by
    rw [wf.descend_f32_allocated (by decide) (by decide) (by decide) _
      (by norm_num [is_saturated])]
    have e : (trace_tree.1.m_nodes 9).m_children_id = 17 := by decide
    have e1 : octant ⟨1, 11184811 / 16777216, 1118481 / 2097152⟩ = 7 := by norm_num [octant,
        upper]
    rw [e, e1]
    simp only [descend_coords_f32, if_pos (show (1 : ℚ) > 1 / 2 by norm_num), if_pos (show
        (11184811 / 16777216 : ℚ) > 1 / 2 by norm_num), if_pos (show (1118481 / 2097152 : ℚ) > 1
        / 2 by norm_num),
      o12, o13, o14, o15, o16, o17]
  have hq9 : trace_tree.1.node 9 = some (trace_tree.1.m_nodes 9) :=
    rfl
  have hk24 : (trace_tree.1.m_nodes 24).m_children_id = Null := by
    decide
  have hq24 : trace_tree.1.node 24 = some (trace_tree.1.m_nodes 24) :=
    rfl
  refine ⟨?_, hadv, hface, hexit, ?_⟩
  · simp only [crossing, ascend_till_has_neighbor, descend_till_leaf_f32,
      Option.some_bind, Option.none_bind, ne_eq, OfNat.ofNat_ne_zero, one_ne_zero,
      not_false_eq_true, not_true_eq_false, if_true, if_false, Bool.not_true, Bool.not_false,
      Bool.false_eq_true, Nat.reduceMod, Option.map_some', Option.map_none',
      hface, hside, hexit, hn10, hg, hset, hk9, hd9, hq9, hk24, hq24]
  · have h1 : trace_tree.1.ascend_till_has_neighbor 0 false (n + 4) ⟨⟨0, 11184811 / 16777216,
        1118481 / 2097152⟩, 10⟩ =
        some ⟨⟨0, 11184811 / 16777216, 1118481 / 2097152⟩, 10⟩ := by
      simp only [ascend_till_has_neighbor,
        Option.some_bind, Option.none_bind, ne_eq, OfNat.ofNat_ne_zero, one_ne_zero,
        not_false_eq_true, not_true_eq_false, if_true, if_false, Bool.not_true, Bool.not_false,
        Bool.false_eq_true, Nat.reduceMod, Option.map_some', Option.map_none',
        hn10]
    have h2 : trace_tree.1.ascend_till_has_neighbor_calls 0 false (n + 4) ⟨⟨0, 11184811 / 16777216,
        1118481 / 2097152⟩, 10⟩ =
        [Call.has_neighbor ⟨⟨0, 11184811 / 16777216, 1118481 / 2097152⟩, 10⟩ 0 false] := by
      simp only [ascend_till_has_neighbor_calls,
        Option.some_bind, Option.none_bind, ne_eq, OfNat.ofNat_ne_zero, one_ne_zero,
        not_false_eq_true, not_true_eq_false, if_true, if_false, Bool.not_true, Bool.not_false,
        Bool.false_eq_true, Nat.reduceMod, Option.map_some', Option.map_none',
        hn10]
    have h3 : trace_tree.1.descend_till_leaf_calls (n + 4) ⟨⟨1, 11184811 / 16777216, 1118481 /
        2097152⟩, 9⟩ =
        [Call.descend ⟨⟨1, 11184811 / 16777216, 1118481 / 2097152⟩, 9⟩] := by
      simp only [descend_till_leaf_calls,
        Option.some_bind, Option.none_bind, ne_eq, OfNat.ofNat_ne_zero, one_ne_zero,
        not_false_eq_true, not_true_eq_false, if_true, if_false, Bool.not_true, Bool.not_false,
        Bool.false_eq_true, Nat.reduceMod, Option.map_some', Option.map_none',
        hk9, hd9, hq9, hk24, hq24]
    simp only [crossing_calls, List.cons_append, List.nil_append, List.append_nil,
      Option.some_bind, Option.none_bind, ne_eq, OfNat.ofNat_ne_zero, one_ne_zero,
      not_false_eq_true, not_true_eq_false, if_true, if_false, Bool.not_true, Bool.not_false,
      Bool.false_eq_true, Nat.reduceMod, Option.map_some', Option.map_none',
      hface, hside, hexit, h1, h2, hg, hset, h3]

/-- Call 1 of the trace along `trace_direction`. -/
theorem trace_f32_call_1 (n k : Nat) :
    trace_tree.1.find_next_intersection (n + 4) ⟨-12759579 / 16777216, 4253193 / 8388608,
      13610217 / 33554432⟩ ⟨0, 1, 1⟩ true (k + 2) ⟨⟨1, 0, 0⟩, 10⟩ =
      some (false, ⟨⟨1, 2796203 / 8388608, 69905 / 1048576⟩, 24⟩) := by
  exact find_next_intersection_of_false trace_tree.1 (n + 4) _ _ true _ _ (trace_f32_crossing_1 n).1
    (by rw [(trace_f32_crossing_1 n).2.1, round32_epsilon]; norm_num) (k + 1)

/-- Crossing 2 of the trace along `trace_direction`, evaluated in binary32. -/
theorem trace_f32_crossing_2 (n : Nat) :
    trace_tree.1.crossing (n + 4) ⟨-12759579 / 16777216, 4253193 / 8388608, 13610217 / 33554432⟩
      ⟨0, 1, 1⟩ ⟨⟨1, 2796203 / 8388608, 69905 / 1048576⟩, 24⟩ =
      some (false, ⟨⟨1 / 2, 0, 3355443 / 4194304⟩, 11⟩) ∧
    advance ⟨-12759579 / 16777216, 4253193 / 8388608, 13610217 / 33554432⟩ ⟨0, 1, 1⟩ ⟨⟨1, 2796203
      / 8388608, 69905 / 1048576⟩, 24⟩ = 11029947 / 8388608 ∧
    exit_face ⟨-12759579 / 16777216, 4253193 / 8388608, 13610217 / 33554432⟩ ⟨0, 1, 1⟩ ⟨⟨1,
      2796203 / 8388608, 69905 / 1048576⟩, 24⟩ = 1 ∧
    exit_location ⟨-12759579 / 16777216, 4253193 / 8388608, 13610217 / 33554432⟩ ⟨0, 1, 1⟩ ⟨⟨1,
      2796203 / 8388608, 69905 / 1048576⟩, 24⟩ =
      ⟨⟨1 / 16777216, 1, 1258291 / 2097152⟩, 24⟩ ∧
    trace_tree.1.crossing_calls (n + 4) ⟨-12759579 / 16777216, 4253193 / 8388608, 13610217 /
      33554432⟩ ⟨0, 1, 1⟩ ⟨⟨1, 2796203 / 8388608, 69905 / 1048576⟩, 24⟩ =
      [Call.has_neighbor ⟨⟨1 / 16777216, 1, 1258291 / 2097152⟩, 24⟩ 1 true,
        Call.ascend ⟨⟨1 / 16777216, 1, 1258291 / 2097152⟩, 24⟩,
        Call.has_neighbor ⟨⟨1 / 2, 1, 3355443 / 4194304⟩, 9⟩ 1 true,
        Call.get_neighbor ⟨⟨1 / 2, 1, 3355443 / 4194304⟩, 9⟩ 1 true,
        Call.has_neighbor ⟨⟨1 / 2, 1, 3355443 / 4194304⟩, 9⟩ 1 true] := by
  have wf := trace_tree_reachable.wellFormed
  have o1 : fsub 0 1 = -1 :=
    fsub_of _ _ (-1) _ (by norm_num)
      (round32_of_neg _ _ 0 (-8388608) (by norm_num) (by norm_num) (by norm_num) (by norm_num)
        (by norm_num) (by norm_num))
  have o2 : fsub 1 (2796203 / 8388608) = 5592405 / 8388608 :=
    fsub_of _ _ (5592405 / 8388608) _ (by norm_num)
      (round32_of_pos _ _ (-1) 11184810 (by norm_num) (by norm_num) (by norm_num) (by norm_num)
        (by norm_num) (by norm_num))
  have o3 : fsub 1 (69905 / 1048576) = 978671 / 1048576 :=
    fsub_of _ _ (978671 / 1048576) _ (by norm_num)
      (round32_of_pos _ _ (-1) 15658736 (by norm_num) (by norm_num) (by norm_num) (by norm_num)
        (by norm_num) (by norm_num))
  have o4 : fdiv (-1) (-12759579 / 16777216) = 2757487 / 2097152 :=
    fdiv_of _ _ (16777216 / 12759579) _ (by norm_num)
      (round32_of_pos _ _ 0 11029948 (by norm_num) (by norm_num) (by norm_num) (by norm_num)
        (by norm_num) (by norm_num))
  have o5 : fdiv (5592405 / 8388608) (4253193 / 8388608) = 11029947 / 8388608 :=
    fdiv_of _ _ (266305 / 202533) _ (by norm_num)
      (round32_of_pos _ _ 0 11029947 (by norm_num) (by norm_num) (by norm_num) (by norm_num)
        (by norm_num) (by norm_num))
  have o6 : fdiv (978671 / 1048576) (13610217 / 33554432) = 9651205 / 4194304 :=
    fdiv_of _ _ (31317472 / 13610217) _ (by norm_num)
      (round32_of_pos _ _ 1 9651205 (by norm_num) (by norm_num) (by norm_num) (by norm_num)
        (by norm_num) (by norm_num))
  have hdist : exit_distances ⟨-12759579 / 16777216, 4253193 / 8388608, 13610217 / 33554432⟩ ⟨0,
      1, 1⟩ ⟨⟨1, 2796203 / 8388608, 69905 / 1048576⟩, 24⟩ = ⟨2757487 / 2097152, 11029947 /
      8388608, 9651205 / 4194304⟩ := by
    simp only [exit_distances, Vector3.div32, Vector3.sub32, o1, o2, o3, o4, o5, o6]
  have hface : exit_face ⟨-12759579 / 16777216, 4253193 / 8388608, 13610217 / 33554432⟩ ⟨0, 1, 1⟩
      ⟨⟨1, 2796203 / 8388608, 69905 / 1048576⟩, 24⟩ = 1 := by
    rw [exit_face, hdist]
    norm_num [min_index, Vector3.get]
  have hadv : advance ⟨-12759579 / 16777216, 4253193 / 8388608, 13610217 / 33554432⟩ ⟨0, 1, 1⟩
      ⟨⟨1, 2796203 / 8388608, 69905 / 1048576⟩, 24⟩ = 11029947 / 8388608 := by
    rw [advance, hdist, hface]
    rfl
  have hside : exit_side ⟨-12759579 / 16777216, 4253193 / 8388608, 13610217 / 33554432⟩ ⟨0, 1, 1⟩
      ⟨⟨1, 2796203 / 8388608, 69905 / 1048576⟩, 24⟩ = true := by
    rw [exit_side, hface]
    norm_num [Vector3.get]
  have o7 : fmul (11029947 / 8388608) (-12759579 / 16777216) = -16777215 / 16777216 :=
    fmul_of _ _ (-140737480112313 / 140737488355328) _ (by norm_num)
      (round32_of_neg _ _ (-1) (-16777215) (by norm_num) (by norm_num) (by norm_num) (by norm_num)
        (by norm_num) (by norm_num))
  have o8 : fmul (11029947 / 8388608) (4253193 / 8388608) = 5592405 / 8388608 :=
    fmul_of _ _ (46912493370771 / 70368744177664) _ (by norm_num)
      (round32_of_pos _ _ (-1) 11184810 (by norm_num) (by norm_num) (by norm_num) (by norm_num)
        (by norm_num) (by norm_num))
  have o9 : fmul (11029947 / 8388608) (13610217 / 33554432) = 1118481 / 2097152 :=
    fmul_of _ _ (150119972168499 / 281474976710656) _ (by norm_num)
      (round32_of_pos _ _ (-1) 8947848 (by norm_num) (by norm_num) (by norm_num) (by norm_num)
        (by norm_num) (by norm_num))
  have o10 : fadd 1 (-16777215 / 16777216) = 1 / 16777216 :=
    fadd_of _ _ (1 / 16777216) _ (by norm_num)
      (round32_of_pos _ _ (-24) 8388608 (by norm_num) (by norm_num) (by norm_num) (by norm_num)
        (by norm_num) (by norm_num))
  have o11 : fadd (2796203 / 8388608) (5592405 / 8388608) = 1 :=
    fadd_of _ _ 1 _ (by norm_num)
      (round32_of_pos _ _ 0 8388608 (by norm_num) (by norm_num) (by norm_num) (by norm_num)
        (by norm_num) (by norm_num))
  have o12 : fadd (69905 / 1048576) (1118481 / 2097152) = 1258291 / 2097152 :=
    fadd_of _ _ (1258291 / 2097152) _ (by norm_num)
      (round32_of_pos _ _ (-1) 10066328 (by norm_num) (by norm_num) (by norm_num) (by norm_num)
        (by norm_num) (by norm_num))
  have hexit : exit_location ⟨-12759579 / 16777216, 4253193 / 8388608, 13610217 / 33554432⟩ ⟨0,
      1, 1⟩ ⟨⟨1, 2796203 / 8388608, 69905 / 1048576⟩, 24⟩ = ⟨⟨1 / 16777216, 1, 1258291 /
      2097152⟩, 24⟩ := by
    simp only [exit_location, hadv, Vector3.add32, Vector3.smul32, o7, o8, o9, o10, o11, o12]
  have hn24 : ∀ y, trace_tree.1.has_neighbor ⟨y, 24⟩ 1 true = some false := by
    intro y
    rw [wf.has_neighbor_octant_bit (by decide) (by decide)]
    decide
  have o13 : fadd (1 / 16777216) 1 = 1 :=
    fadd_of _ _ (16777217 / 16777216) _ (by norm_num)
      (round32_tie_pos _ _ 0 8388608 (by norm_num) (by norm_num) (by norm_num) (by norm_num)
        (by decide) (Or.inl (by norm_num)))
  have o14 : fadd 1 1 = 2 :=
    fadd_of _ _ 2 _ (by norm_num)
      (round32_of_pos _ _ 1 8388608 (by norm_num) (by norm_num) (by norm_num) (by norm_num)
        (by norm_num) (by norm_num))
  have o15 : fadd (1258291 / 2097152) 1 = 3355443 / 2097152 :=
    fadd_of _ _ (3355443 / 2097152) _ (by norm_num)
      (round32_of_pos _ _ 0 13421772 (by norm_num) (by norm_num) (by norm_num) (by norm_num)
        (by norm_num) (by norm_num))
  have o16 : fmul (1 / 2) 1 = 1 / 2 :=
    fmul_of _ _ (1 / 2) _ (by norm_num)
      (round32_of_pos _ _ (-1) 8388608 (by norm_num) (by norm_num) (by norm_num) (by norm_num)
        (by norm_num) (by norm_num))
  have o17 : fmul (1 / 2) 2 = 1 :=
    fmul_of _ _ 1 _ (by norm_num)
      (round32_of_pos _ _ 0 8388608 (by norm_num) (by norm_num) (by norm_num) (by norm_num)
        (by norm_num) (by norm_num))
  have o18 : fmul (1 / 2) (3355443 / 2097152) = 3355443 / 4194304 :=
    fmul_of _ _ (3355443 / 4194304) _ (by norm_num)
      (round32_of_pos _ _ (-1) 13421772 (by norm_num) (by norm_num) (by norm_num) (by norm_num)
        (by norm_num) (by norm_num))
  have ha24 : trace_tree.1.ascend_f32 ⟨⟨1 / 16777216, 1, 1258291 / 2097152⟩, 24⟩ = some ⟨⟨1 / 2,
      1, 3355443 / 4194304⟩, 9⟩ := by
    rw [wf.ascend_f32_allocated (by decide) (by decide) (by decide) _
      (by norm_num [is_saturated])]
    have e1 : (trace_tree.1.m_nodes 24).m_parent_id = 9 := by decide
    have e2 : (trace_tree.1.m_nodes 9).m_children_id = 17 := by decide
    rw [e1, e2]
    have e3 : ascend_coords_f32 (24 - 17) ⟨1 / 16777216, 1, 1258291 / 2097152⟩ =
        ⟨fmul (1 / 2) (fadd (1 / 16777216) 1), fmul (1 / 2) (fadd 1 1), fmul (1 / 2) (fadd
        (1258291 / 2097152) 1)⟩ := rfl
    rw [e3]
    simp only [o13, o14, o15, o16, o17, o18]
  have hn9 : ∀ y, trace_tree.1.has_neighbor ⟨y, 9⟩ 1 true = some true := by
    intro y
    rw [wf.has_neighbor_octant_bit (by decide) (by decide)]
    decide
  have hg : ∀ y, trace_tree.1.get_neighbor ⟨y, 9⟩ 1 true = some 11 := by
    intro y
    rw [wf.get_neighbor_eq (by decide) (by decide) (by decide) y 1 true (hn9 y)]
    decide
  have o19 : fsub 1 1 = 0 :=
    fsub_of _ _ 0 _ (by norm_num)
      round32_zero
  have hset : (⟨1 / 2, 1, 3355443 / 4194304⟩ : Vector3).set 1 (fsub 1 ((⟨0, 1, 1⟩ : Vector3).get
      1)) =
      ⟨1 / 2, 0, 3355443 / 4194304⟩ := by
    have e : (⟨0, 1, 1⟩ : Vector3).get 1 = 1 := rfl
    rw [e, o19]
    rfl
  have hk11 : (trace_tree.1.m_nodes 11).m_children_id = Null := by
    decide
  have hq11 : trace_tree.1.node 11 = some (trace_tree.1.m_nodes 11) :=
    rfl
  refine ⟨?_, hadv, hface, hexit, ?_⟩
  · simp only [crossing, ascend_till_has_neighbor, descend_till_leaf_f32,
      Option.some_bind, Option.none_bind, ne_eq, OfNat.ofNat_ne_zero, one_ne_zero,
      not_false_eq_true, not_true_eq_false, if_true, if_false, Bool.not_true, Bool.not_false,
      Bool.false_eq_true, Nat.reduceMod, Option.map_some', Option.map_none',
      hface, hside, hexit, hn24, ha24, hn9, hg, hset, hk11, hq11]
  · have h1 : trace_tree.1.ascend_till_has_neighbor 1 true (n + 4) ⟨⟨1 / 16777216, 1, 1258291 /
        2097152⟩, 24⟩ =
        some ⟨⟨1 / 2, 1, 3355443 / 4194304⟩, 9⟩ := by
      simp only [ascend_till_has_neighbor,
        Option.some_bind, Option.none_bind, ne_eq, OfNat.ofNat_ne_zero, one_ne_zero,
        not_false_eq_true, not_true_eq_false, if_true, if_false, Bool.not_true, Bool.not_false,
        Bool.false_eq_true, Nat.reduceMod, Option.map_some', Option.map_none',
        hn24, ha24, hn9]
    have h2 : trace_tree.1.ascend_till_has_neighbor_calls 1 true (n + 4) ⟨⟨1 / 16777216, 1, 1258291
        / 2097152⟩, 24⟩ =
        [Call.has_neighbor ⟨⟨1 / 16777216, 1, 1258291 / 2097152⟩, 24⟩ 1 true,
          Call.ascend ⟨⟨1 / 16777216, 1, 1258291 / 2097152⟩, 24⟩,
          Call.has_neighbor ⟨⟨1 / 2, 1, 3355443 / 4194304⟩, 9⟩ 1 true] := by
      simp only [ascend_till_has_neighbor_calls,
        Option.some_bind, Option.none_bind, ne_eq, OfNat.ofNat_ne_zero, one_ne_zero,
        not_false_eq_true, not_true_eq_false, if_true, if_false, Bool.not_true, Bool.not_false,
        Bool.false_eq_true, Nat.reduceMod, Option.map_some', Option.map_none',
        hn24, ha24, hn9]
    have h3 : trace_tree.1.descend_till_leaf_calls (n + 4) ⟨⟨1 / 2, 0, 3355443 / 4194304⟩, 11⟩ =
        [] := by
      simp only [descend_till_leaf_calls,
        Option.some_bind, Option.none_bind, ne_eq, OfNat.ofNat_ne_zero, one_ne_zero,
        not_false_eq_true, not_true_eq_false, if_true, if_false, Bool.not_true, Bool.not_false,
        Bool.false_eq_true, Nat.reduceMod, Option.map_some', Option.map_none',
        hk11, hq11]
    simp only [crossing_calls, List.cons_append, List.nil_append, List.append_nil,
      Option.some_bind, Option.none_bind, ne_eq, OfNat.ofNat_ne_zero, one_ne_zero,
      not_false_eq_true, not_true_eq_false, if_true, if_false, Bool.not_true, Bool.not_false,
      Bool.false_eq_true, Nat.reduceMod, Option.map_some', Option.map_none',
      hface, hside, hexit, h1, h2, hg, hset, h3]

/-- Call 2 of the trace along `trace_direction`. -/
theorem trace_f32_call_2 (n k : Nat) :
    trace_tree.1.find_next_intersection (n + 4) ⟨-12759579 / 16777216, 4253193 / 8388608,
      13610217 / 33554432⟩ ⟨0, 1, 1⟩ true (k + 2) ⟨⟨1, 2796203 / 8388608, 69905 / 1048576⟩, 24⟩ =
      some (false, ⟨⟨1 / 2, 0, 3355443 / 4194304⟩, 11⟩) := by
  exact find_next_intersection_of_false trace_tree.1 (n + 4) _ _ true _ _ (trace_f32_crossing_2 n).1
    (by rw [(trace_f32_crossing_2 n).2.1, round32_epsilon]; norm_num) (k + 1)

/-- Crossing 3 of the trace along `trace_direction`, evaluated in binary32. -/
theorem trace_f32_crossing_3 (n : Nat) :
    trace_tree.1.crossing (n + 4) ⟨-12759579 / 16777216, 4253193 / 8388608, 13610217 / 33554432⟩
      ⟨0, 1, 1⟩ ⟨⟨1 / 2, 0, 3355443 / 4194304⟩, 11⟩ =
      some (false, ⟨⟨4194301 / 33554432, 4194305 / 16777216, 0⟩, 15⟩) ∧
    advance ⟨-12759579 / 16777216, 4253193 / 8388608, 13610217 / 33554432⟩ ⟨0, 1, 1⟩ ⟨⟨1 / 2, 0,
      3355443 / 4194304⟩, 11⟩ = 8272463 / 16777216 ∧
    exit_face ⟨-12759579 / 16777216, 4253193 / 8388608, 13610217 / 33554432⟩ ⟨0, 1, 1⟩ ⟨⟨1 / 2,
      0, 3355443 / 4194304⟩, 11⟩ = 2 ∧
    exit_location ⟨-12759579 / 16777216, 4253193 / 8388608, 13610217 / 33554432⟩ ⟨0, 1, 1⟩ ⟨⟨1 /
      2, 0, 3355443 / 4194304⟩, 11⟩ =
      ⟨⟨4194301 / 33554432, 4194305 / 16777216, 1⟩, 11⟩ ∧
    trace_tree.1.crossing_calls (n + 4) ⟨-12759579 / 16777216, 4253193 / 8388608, 13610217 /
      33554432⟩ ⟨0, 1, 1⟩ ⟨⟨1 / 2, 0, 3355443 / 4194304⟩, 11⟩ =
      [Call.has_neighbor ⟨⟨4194301 / 33554432, 4194305 / 16777216, 1⟩, 11⟩ 2 true,
        Call.get_neighbor ⟨⟨4194301 / 33554432, 4194305 / 16777216, 1⟩, 11⟩ 2 true,
        Call.has_neighbor ⟨⟨4194301 / 33554432, 4194305 / 16777216, 1⟩, 11⟩ 2 true] := by
  have wf := trace_tree_reachable.wellFormed
  have o1 : fsub 0 (1 / 2) = -1 / 2 :=
    fsub_of _ _ (-1 / 2) _ (by norm_num)
      (round32_of_neg _ _ (-1) (-8388608) (by norm_num) (by norm_num) (by norm_num) (by norm_num)
        (by norm_num) (by norm_num))
  have o2 : fsub 1 0 = 1 :=
    fsub_of _ _ 1 _ (by norm_num)
      (round32_of_pos _ _ 0 8388608 (by norm_num) (by norm_num) (by norm_num) (by norm_num)
        (by norm_num) (by norm_num))
  have o3 : fsub 1 (3355443 / 4194304) = 838861 / 4194304 :=
    fsub_of _ _ (838861 / 4194304) _ (by norm_num)
      (round32_of_pos _ _ (-3) 13421776 (by norm_num) (by norm_num) (by norm_num) (by norm_num)
        (by norm_num) (by norm_num))
  have o4 : fdiv (-1 / 2) (-12759579 / 16777216) = 2757487 / 4194304 :=
    fdiv_of _ _ (8388608 / 12759579) _ (by norm_num)
      (round32_of_pos _ _ (-1) 11029948 (by norm_num) (by norm_num) (by norm_num) (by norm_num)
        (by norm_num) (by norm_num))
  have o5 : fdiv 1 (4253193 / 8388608) = 16544921 / 8388608 :=
    fdiv_of _ _ (8388608 / 4253193) _ (by norm_num)
      (round32_of_pos _ _ 0 16544921 (by norm_num) (by norm_num) (by norm_num) (by norm_num)
        (by norm_num) (by norm_num))
  have o6 : fdiv (838861 / 4194304) (13610217 / 33554432) = 8272463 / 16777216 :=
    fdiv_of _ _ (6710888 / 13610217) _ (by norm_num)
      (round32_of_pos _ _ (-2) 16544926 (by norm_num) (by norm_num) (by norm_num) (by norm_num)
        (by norm_num) (by norm_num))
  have hdist : exit_distances ⟨-12759579 / 16777216, 4253193 / 8388608, 13610217 / 33554432⟩ ⟨0,
      1, 1⟩ ⟨⟨1 / 2, 0, 3355443 / 4194304⟩, 11⟩ = ⟨2757487 / 4194304, 16544921 / 8388608, 8272463
      / 16777216⟩ := by
    simp only [exit_distances, Vector3.div32, Vector3.sub32, o1, o2, o3, o4, o5, o6]
  have hface : exit_face ⟨-12759579 / 16777216, 4253193 / 8388608, 13610217 / 33554432⟩ ⟨0, 1, 1⟩
      ⟨⟨1 / 2, 0, 3355443 / 4194304⟩, 11⟩ = 2 := by
    rw [exit_face, hdist]
    norm_num [min_index, Vector3.get]
  have hadv : advance ⟨-12759579 / 16777216, 4253193 / 8388608, 13610217 / 33554432⟩ ⟨0, 1, 1⟩
      ⟨⟨1 / 2, 0, 3355443 / 4194304⟩, 11⟩ = 8272463 / 16777216 := by
    rw [advance, hdist, hface]
    rfl
  have hside : exit_side ⟨-12759579 / 16777216, 4253193 / 8388608, 13610217 / 33554432⟩ ⟨0, 1, 1⟩
      ⟨⟨1 / 2, 0, 3355443 / 4194304⟩, 11⟩ = true := by
    rw [exit_side, hface]
    norm_num [Vector3.get]
  have o7 : fmul (8272463 / 16777216) (-12759579 / 16777216) = -12582915 / 33554432 :=
    fmul_of _ _ (-105553145173077 / 281474976710656) _ (by norm_num)
      (round32_of_neg _ _ (-2) (-12582915) (by norm_num) (by norm_num) (by norm_num) (by norm_num)
        (by norm_num) (by norm_num))
  have o8 : fmul (8272463 / 16777216) (4253193 / 8388608) = 4194305 / 16777216 :=
    fmul_of _ _ (35184381724359 / 140737488355328) _ (by norm_num)
      (round32_of_pos _ _ (-2) 8388610 (by norm_num) (by norm_num) (by norm_num) (by norm_num)
        (by norm_num) (by norm_num))
  have o9 : fmul (8272463 / 16777216) (13610217 / 33554432) = 838861 / 4194304 :=
    fmul_of _ _ (112590016554471 / 562949953421312) _ (by norm_num)
      (round32_of_pos _ _ (-3) 13421776 (by norm_num) (by norm_num) (by norm_num) (by norm_num)
        (by norm_num) (by norm_num))
  have o10 : fadd (1 / 2) (-12582915 / 33554432) = 4194301 / 33554432 :=
    fadd_of _ _ (4194301 / 33554432) _ (by norm_num)
      (round32_of_pos _ _ (-4) 16777204 (by norm_num) (by norm_num) (by norm_num) (by norm_num)
        (by norm_num) (by norm_num))
  have o11 : fadd 0 (4194305 / 16777216) = 4194305 / 16777216 :=
    fadd_of _ _ (4194305 / 16777216) _ (by norm_num)
      (round32_of_pos _ _ (-2) 8388610 (by norm_num) (by norm_num) (by norm_num) (by norm_num)
        (by norm_num) (by norm_num))
  have o12 : fadd (3355443 / 4194304) (838861 / 4194304) = 1 :=
    fadd_of _ _ 1 _ (by norm_num)
      (round32_of_pos _ _ 0 8388608 (by norm_num) (by norm_num) (by norm_num) (by norm_num)
        (by norm_num) (by norm_num))
  have hexit : exit_location ⟨-12759579 / 16777216, 4253193 / 8388608, 13610217 / 33554432⟩ ⟨0,
      1, 1⟩ ⟨⟨1 / 2, 0, 3355443 / 4194304⟩, 11⟩ = ⟨⟨4194301 / 33554432, 4194305 / 16777216, 1⟩,
      11⟩ := by
    simp only [exit_location, hadv, Vector3.add32, Vector3.smul32, o7, o8, o9, o10, o11, o12]
  have hn11 : ∀ y, trace_tree.1.has_neighbor ⟨y, 11⟩ 2 true = some true := by
    intro y
    rw [wf.has_neighbor_octant_bit (by decide) (by decide)]
    decide
  have hg : ∀ y, trace_tree.1.get_neighbor ⟨y, 11⟩ 2 true = some 15 := by
    intro y
    rw [wf.get_neighbor_eq (by decide) (by decide) (by decide) y 2 true (hn11 y)]
    decide
  have o13 : fsub 1 1 = 0 :=
    fsub_of _ _ 0 _ (by norm_num)
      round32_zero
  have hset : (⟨4194301 / 33554432, 4194305 / 16777216, 1⟩ : Vector3).set 2 (fsub 1 ((⟨0, 1, 1⟩ :
      Vector3).get 2)) =
      ⟨4194301 / 33554432, 4194305 / 16777216, 0⟩ := by
    have e : (⟨0, 1, 1⟩ : Vector3).get 2 = 1 := rfl
    rw [e, o13]
    rfl
  have hk15 : (trace_tree.1.m_nodes 15).m_children_id = Null := by
    decide
  have hq15 : trace_tree.1.node 15 = some (trace_tree.1.m_nodes 15) :=
    rfl
  refine ⟨?_, hadv, hface, hexit, ?_⟩
  · simp only [crossing, ascend_till_has_neighbor, descend_till_leaf_f32,
      Option.some_bind, Option.none_bind, ne_eq, OfNat.ofNat_ne_zero, one_ne_zero,
      not_false_eq_true, not_true_eq_false, if_true, if_false, Bool.not_true, Bool.not_false,
      Bool.false_eq_true, Nat.reduceMod, Option.map_some', Option.map_none',
      hface, hside, hexit, hn11, hg, hset, hk15, hq15]
  · have h1 : trace_tree.1.ascend_till_has_neighbor 2 true (n + 4) ⟨⟨4194301 / 33554432, 4194305 /
        16777216, 1⟩, 11⟩ =
        some ⟨⟨4194301 / 33554432, 4194305 / 16777216, 1⟩, 11⟩ := by
      simp only [ascend_till_has_neighbor,
        Option.some_bind, Option.none_bind, ne_eq, OfNat.ofNat_ne_zero, one_ne_zero,
        not_false_eq_true, not_true_eq_false, if_true, if_false, Bool.not_true, Bool.not_false,
        Bool.false_eq_true, Nat.reduceMod, Option.map_some', Option.map_none',
        hn11]
    have h2 : trace_tree.1.ascend_till_has_neighbor_calls 2 true (n + 4) ⟨⟨4194301 / 33554432,
        4194305 / 16777216, 1⟩, 11⟩ =
        [Call.has_neighbor ⟨⟨4194301 / 33554432, 4194305 / 16777216, 1⟩, 11⟩ 2 true] := by
      simp only [ascend_till_has_neighbor_calls,
        Option.some_bind, Option.none_bind, ne_eq, OfNat.ofNat_ne_zero, one_ne_zero,
        not_false_eq_true, not_true_eq_false, if_true, if_false, Bool.not_true, Bool.not_false,
        Bool.false_eq_true, Nat.reduceMod, Option.map_some', Option.map_none',
        hn11]
    have h3 : trace_tree.1.descend_till_leaf_calls (n + 4) ⟨⟨4194301 / 33554432, 4194305 /
        16777216, 0⟩, 15⟩ =
        [] := by
      simp only [descend_till_leaf_calls,
        Option.some_bind, Option.none_bind, ne_eq, OfNat.ofNat_ne_zero, one_ne_zero,
        not_false_eq_true, not_true_eq_false, if_true, if_false, Bool.not_true, Bool.not_false,
        Bool.false_eq_true, Nat.reduceMod, Option.map_some', Option.map_none',
        hk15, hq15]
    simp only [crossing_calls, List.cons_append, List.nil_append, List.append_nil,
      Option.some_bind, Option.none_bind, ne_eq, OfNat.ofNat_ne_zero, one_ne_zero,
      not_false_eq_true, not_true_eq_false, if_true, if_false, Bool.not_true, Bool.not_false,
      Bool.false_eq_true, Nat.reduceMod, Option.map_some', Option.map_none',
      hface, hside, hexit, h1, h2, hg, hset, h3]

/-- Call 3 of the trace along `trace_direction`. -/
theorem trace_f32_call_3 (n k : Nat) :
    trace_tree.1.find_next_intersection (n + 4) ⟨-12759579 / 16777216, 4253193 / 8388608,
      13610217 / 33554432⟩ ⟨0, 1, 1⟩ true (k + 2) ⟨⟨1 / 2, 0, 3355443 / 4194304⟩, 11⟩ =
      some (false, ⟨⟨4194301 / 33554432, 4194305 / 16777216, 0⟩, 15⟩) := by
  exact find_next_intersection_of_false trace_tree.1 (n + 4) _ _ true _ _ (trace_f32_crossing_3 n).1
    (by rw [(trace_f32_crossing_3 n).2.1, round32_epsilon]; norm_num) (k + 1)

/-- Crossing 4 of the trace along `trace_direction`, evaluated in binary32. -/
theorem trace_f32_crossing_4 (n : Nat) :
    trace_tree.1.crossing (n + 4) ⟨-12759579 / 16777216, 4253193 / 8388608, 13610217 / 33554432⟩
      ⟨0, 1, 1⟩ ⟨⟨4194301 / 33554432, 4194305 / 16777216, 0⟩, 15⟩ =
      some (false, ⟨⟨1, 11184811 / 16777216, 1118481 / 2097152⟩, 1⟩) ∧
    advance ⟨-12759579 / 16777216, 4253193 / 8388608, 13610217 / 33554432⟩ ⟨0, 1, 1⟩ ⟨⟨4194301 /
      33554432, 4194305 / 16777216, 0⟩, 15⟩ = 2757485 / 16777216 ∧
    exit_face ⟨-12759579 / 16777216, 4253193 / 8388608, 13610217 / 33554432⟩ ⟨0, 1, 1⟩ ⟨⟨4194301
      / 33554432, 4194305 / 16777216, 0⟩, 15⟩ = 0 ∧
    exit_location ⟨-12759579 / 16777216, 4253193 / 8388608, 13610217 / 33554432⟩ ⟨0, 1, 1⟩
      ⟨⟨4194301 / 33554432, 4194305 / 16777216, 0⟩, 15⟩ =
      ⟨⟨0, 11184811 / 33554432, 4473921 / 67108864⟩, 15⟩ ∧
    trace_tree.1.crossing_calls (n + 4) ⟨-12759579 / 16777216, 4253193 / 8388608, 13610217 /
      33554432⟩ ⟨0, 1, 1⟩ ⟨⟨4194301 / 33554432, 4194305 / 16777216, 0⟩, 15⟩ =
      [Call.has_neighbor ⟨⟨0, 11184811 / 33554432, 4473921 / 67108864⟩, 15⟩ 0 false,
        Call.ascend ⟨⟨0, 11184811 / 33554432, 4473921 / 67108864⟩, 15⟩,
        Call.has_neighbor ⟨⟨0, 11184811 / 16777216, 1118481 / 2097152⟩, 2⟩ 0 false,
        Call.get_neighbor ⟨⟨0, 11184811 / 16777216, 1118481 / 2097152⟩, 2⟩ 0 false,
        Call.has_neighbor ⟨⟨0, 11184811 / 16777216, 1118481 / 2097152⟩, 2⟩ 0 false] := by
  have wf := trace_tree_reachable.wellFormed
  have o1 : fsub 0 (4194301 / 33554432) = -4194301 / 33554432 :=
    fsub_of _ _ (-4194301 / 33554432) _ (by norm_num)
      (round32_of_neg _ _ (-4) (-16777204) (by norm_num) (by norm_num) (by norm_num) (by norm_num)
        (by norm_num) (by norm_num))
  have o2 : fsub 1 (4194305 / 16777216) = 12582911 / 16777216 :=
    fsub_of _ _ (12582911 / 16777216) _ (by norm_num)
      (round32_of_pos _ _ (-1) 12582911 (by norm_num) (by norm_num) (by norm_num) (by norm_num)
        (by norm_num) (by norm_num))
  have o3 : fsub 1 0 = 1 :=
    fsub_of _ _ 1 _ (by norm_num)
      (round32_of_pos _ _ 0 8388608 (by norm_num) (by norm_num) (by norm_num) (by norm_num)
        (by norm_num) (by norm_num))
  have o4 : fdiv (-4194301 / 33554432) (-12759579 / 16777216) = 2757485 / 16777216 :=
    fdiv_of _ _ (4194301 / 25519158) _ (by norm_num)
      (round32_of_pos _ _ (-3) 11029940 (by norm_num) (by norm_num) (by norm_num) (by norm_num)
        (by norm_num) (by norm_num))
  have o5 : fdiv (12582911 / 16777216) (4253193 / 8388608) = 6204345 / 4194304 :=
    fdiv_of _ _ (12582911 / 8506386) _ (by norm_num)
      (round32_of_pos _ _ 0 12408690 (by norm_num) (by norm_num) (by norm_num) (by norm_num)
        (by norm_num) (by norm_num))
  have o6 : fdiv 1 (13610217 / 33554432) = 323143 / 131072 :=
    fdiv_of _ _ (33554432 / 13610217) _ (by norm_num)
      (round32_of_pos _ _ 1 10340576 (by norm_num) (by norm_num) (by norm_num) (by norm_num)
        (by norm_num) (by norm_num))
  have hdist : exit_distances ⟨-12759579 / 16777216, 4253193 / 8388608, 13610217 / 33554432⟩ ⟨0,
      1, 1⟩ ⟨⟨4194301 / 33554432, 4194305 / 16777216, 0⟩, 15⟩ = ⟨2757485 / 16777216, 6204345 /
      4194304, 323143 / 131072⟩ := by
    simp only [exit_distances, Vector3.div32, Vector3.sub32, o1, o2, o3, o4, o5, o6]
  have hface : exit_face ⟨-12759579 / 16777216, 4253193 / 8388608, 13610217 / 33554432⟩ ⟨0, 1, 1⟩
      ⟨⟨4194301 / 33554432, 4194305 / 16777216, 0⟩, 15⟩ = 0 := by
    rw [exit_face, hdist]
    norm_num [min_index, Vector3.get]
  have hadv : advance ⟨-12759579 / 16777216, 4253193 / 8388608, 13610217 / 33554432⟩ ⟨0, 1, 1⟩
      ⟨⟨4194301 / 33554432, 4194305 / 16777216, 0⟩, 15⟩ = 2757485 / 16777216 := by
    rw [advance, hdist, hface]
    rfl
  have hside : exit_side ⟨-12759579 / 16777216, 4253193 / 8388608, 13610217 / 33554432⟩ ⟨0, 1, 1⟩
      ⟨⟨4194301 / 33554432, 4194305 / 16777216, 0⟩, 15⟩ = false := by
    rw [exit_side, hface]
    norm_num [Vector3.get]
  have o7 : fmul (2757485 / 16777216) (-12759579 / 16777216) = -4194301 / 33554432 :=
    fmul_of _ _ (-35184347698815 / 281474976710656) _ (by norm_num)
      (round32_of_neg _ _ (-4) (-16777204) (by norm_num) (by norm_num) (by norm_num) (by norm_num)
        (by norm_num) (by norm_num))
  have o8 : fmul (2757485 / 16777216) (4253193 / 8388608) = 11184803 / 134217728 :=
    fmul_of _ _ (11728115899605 / 140737488355328) _ (by norm_num)
      (round32_of_pos _ _ (-4) 11184803 (by norm_num) (by norm_num) (by norm_num) (by norm_num)
        (by norm_num) (by norm_num))
  have o9 : fmul (2757485 / 16777216) (13610217 / 33554432) = 4473921 / 67108864 :=
    fmul_of _ _ (37529969224245 / 562949953421312) _ (by norm_num)
      (round32_of_pos _ _ (-4) 8947842 (by norm_num) (by norm_num) (by norm_num) (by norm_num)
        (by norm_num) (by norm_num))
  have o10 : fadd (4194301 / 33554432) (-4194301 / 33554432) = 0 :=
    fadd_of _ _ 0 _ (by norm_num)
      round32_zero
  have o11 : fadd (4194305 / 16777216) (11184803 / 134217728) = 11184811 / 33554432 :=
    fadd_of _ _ (44739243 / 134217728) _ (by norm_num)
      (round32_of_pos _ _ (-2) 11184811 (by norm_num) (by norm_num) (by norm_num) (by norm_num)
        (by norm_num) (by norm_num))
  have o12 : fadd 0 (4473921 / 67108864) = 4473921 / 67108864 :=
    fadd_of _ _ (4473921 / 67108864) _ (by norm_num)
      (round32_of_pos _ _ (-4) 8947842 (by norm_num) (by norm_num) (by norm_num) (by norm_num)
        (by norm_num) (by norm_num))
  have hexit : exit_location ⟨-12759579 / 16777216, 4253193 / 8388608, 13610217 / 33554432⟩ ⟨0,
      1, 1⟩ ⟨⟨4194301 / 33554432, 4194305 / 16777216, 0⟩, 15⟩ = ⟨⟨0, 11184811 / 33554432, 4473921
      / 67108864⟩, 15⟩ := by
    simp only [exit_location, hadv, Vector3.add32, Vector3.smul32, o7, o8, o9, o10, o11, o12]
  have hn15 : ∀ y, trace_tree.1.has_neighbor ⟨y, 15⟩ 0 false = some false := by
    intro y
    rw [wf.has_neighbor_octant_bit (by decide) (by decide)]
    decide
  have o13 : fadd (11184811 / 33554432) 1 = 11184811 / 8388608 :=
    fadd_of _ _ (44739243 / 33554432) _ (by norm_num)
      (round32_of_pos _ _ 0 11184811 (by norm_num) (by norm_num) (by norm_num) (by norm_num)
        (by norm_num) (by norm_num))
  have o14 : fadd (4473921 / 67108864) 1 = 1118481 / 1048576 :=
    fadd_of _ _ (71582785 / 67108864) _ (by norm_num)
      (round32_of_pos _ _ 0 8947848 (by norm_num) (by norm_num) (by norm_num) (by norm_num)
        (by norm_num) (by norm_num))
  have o15 : fmul (1 / 2) 0 = 0 :=
    fmul_of _ _ 0 _ (by norm_num)
      round32_zero
  have o16 : fmul (1 / 2) (11184811 / 8388608) = 11184811 / 16777216 :=
    fmul_of _ _ (11184811 / 16777216) _ (by norm_num)
      (round32_of_pos _ _ (-1) 11184811 (by norm_num) (by norm_num) (by norm_num) (by norm_num)
        (by norm_num) (by norm_num))
  have o17 : fmul (1 / 2) (1118481 / 1048576) = 1118481 / 2097152 :=
    fmul_of _ _ (1118481 / 2097152) _ (by norm_num)
      (round32_of_pos _ _ (-1) 8947848 (by norm_num) (by norm_num) (by norm_num) (by norm_num)
        (by norm_num) (by norm_num))
  have ha15 : trace_tree.1.ascend_f32 ⟨⟨0, 11184811 / 33554432, 4473921 / 67108864⟩, 15⟩ = some
      ⟨⟨0, 11184811 / 16777216, 1118481 / 2097152⟩, 2⟩ := by
    rw [wf.ascend_f32_allocated (by decide) (by decide) (by decide) _
      (by norm_num [is_saturated])]
    have e1 : (trace_tree.1.m_nodes 15).m_parent_id = 2 := by decide
    have e2 : (trace_tree.1.m_nodes 2).m_children_id = 9 := by decide
    rw [e1, e2]
    have e3 : ascend_coords_f32 (15 - 9) ⟨0, 11184811 / 33554432, 4473921 / 67108864⟩ =
        ⟨fmul (1 / 2) 0, fmul (1 / 2) (fadd (11184811 / 33554432) 1), fmul (1 / 2) (fadd (4473921
        / 67108864) 1)⟩ := rfl
    rw [e3]
    simp only [o13, o14, o15, o16, o17]
  have hn2 : ∀ y, trace_tree.1.has_neighbor ⟨y, 2⟩ 0 false = some true := by
    intro y
    rw [wf.has_neighbor_octant_bit (by decide) (by decide)]
    decide
  have hg : ∀ y, trace_tree.1.get_neighbor ⟨y, 2⟩ 0 false = some 1 := by
    intro y
    rw [wf.get_neighbor_eq (by decide) (by decide) (by decide) y 0 false (hn2 y)]
    decide
  have hset : (⟨0, 11184811 / 16777216, 1118481 / 2097152⟩ : Vector3).set 0 (fsub 1 ((⟨0, 1, 1⟩ :
      Vector3).get 0)) =
      ⟨1, 11184811 / 16777216, 1118481 / 2097152⟩ := by
    have e : (⟨0, 1, 1⟩ : Vector3).get 0 = 0 := rfl
    rw [e, o3]
    rfl
  have hk1 : (trace_tree.1.m_nodes 1).m_children_id = Null := by
    decide
  have hq1 : trace_tree.1.node 1 = some (trace_tree.1.m_nodes 1) :=
    rfl
  refine ⟨?_, hadv, hface, hexit, ?_⟩
  · simp only [crossing, ascend_till_has_neighbor, descend_till_leaf_f32,
      Option.some_bind, Option.none_bind, ne_eq, OfNat.ofNat_ne_zero, one_ne_zero,
      not_false_eq_true, not_true_eq_false, if_true, if_false, Bool.not_true, Bool.not_false,
      Bool.false_eq_true, Nat.reduceMod, Option.map_some', Option.map_none',
      hface, hside, hexit, hn15, ha15, hn2, hg, hset, hk1, hq1]
  · have h1 : trace_tree.1.ascend_till_has_neighbor 0 false (n + 4) ⟨⟨0, 11184811 / 33554432,
        4473921 / 67108864⟩, 15⟩ =
        some ⟨⟨0, 11184811 / 16777216, 1118481 / 2097152⟩, 2⟩ := by
      simp only [ascend_till_has_neighbor,
        Option.some_bind, Option.none_bind, ne_eq, OfNat.ofNat_ne_zero, one_ne_zero,
        not_false_eq_true, not_true_eq_false, if_true, if_false, Bool.not_true, Bool.not_false,
        Bool.false_eq_true, Nat.reduceMod, Option.map_some', Option.map_none',
        hn15, ha15, hn2]
    have h2 : trace_tree.1.ascend_till_has_neighbor_calls 0 false (n + 4) ⟨⟨0, 11184811 / 33554432,
        4473921 / 67108864⟩, 15⟩ =
        [Call.has_neighbor ⟨⟨0, 11184811 / 33554432, 4473921 / 67108864⟩, 15⟩ 0 false,
          Call.ascend ⟨⟨0, 11184811 / 33554432, 4473921 / 67108864⟩, 15⟩,
          Call.has_neighbor ⟨⟨0, 11184811 / 16777216, 1118481 / 2097152⟩, 2⟩ 0 false] := by
      simp only [ascend_till_has_neighbor_calls,
        Option.some_bind, Option.none_bind, ne_eq, OfNat.ofNat_ne_zero, one_ne_zero,
        not_false_eq_true, not_true_eq_false, if_true, if_false, Bool.not_true, Bool.not_false,
        Bool.false_eq_true, Nat.reduceMod, Option.map_some', Option.map_none',
        hn15, ha15, hn2]
    have h3 : trace_tree.1.descend_till_leaf_calls (n + 4) ⟨⟨1, 11184811 / 16777216, 1118481 /
        2097152⟩, 1⟩ =
        [] := by
      simp only [descend_till_leaf_calls,
        Option.some_bind, Option.none_bind, ne_eq, OfNat.ofNat_ne_zero, one_ne_zero,
        not_false_eq_true, not_true_eq_false, if_true, if_false, Bool.not_true, Bool.not_false,
        Bool.false_eq_true, Nat.reduceMod, Option.map_some', Option.map_none',
        hk1, hq1]
    simp only [crossing_calls, List.cons_append, List.nil_append, List.append_nil,
      Option.some_bind, Option.none_bind, ne_eq, OfNat.ofNat_ne_zero, one_ne_zero,
      not_false_eq_true, not_true_eq_false, if_true, if_false, Bool.not_true, Bool.not_false,
      Bool.false_eq_true, Nat.reduceMod, Option.map_some', Option.map_none',
      hface, hside, hexit, h1, h2, hg, hset, h3]

/-- Call 4 of the trace along `trace_direction`. -/
theorem trace_f32_call_4 (n k : Nat) :
    trace_tree.1.find_next_intersection (n + 4) ⟨-12759579 / 16777216, 4253193 / 8388608,
      13610217 / 33554432⟩ ⟨0, 1, 1⟩ true (k + 2) ⟨⟨4194301 / 33554432, 4194305 / 16777216, 0⟩,
      15⟩ =
      some (false, ⟨⟨1, 11184811 / 16777216, 1118481 / 2097152⟩, 1⟩) := by
  exact find_next_intersection_of_false trace_tree.1 (n + 4) _ _ true _ _ (trace_f32_crossing_4 n).1
    (by rw [(trace_f32_crossing_4 n).2.1, round32_epsilon]; norm_num) (k + 1)

/-- Crossing 5 of the trace along `trace_direction`, evaluated in binary32. -/
theorem trace_f32_crossing_5 (n : Nat) :
    trace_tree.1.crossing (n + 4) ⟨-12759579 / 16777216, 4253193 / 8388608, 13610217 / 33554432⟩
      ⟨0, 1, 1⟩ ⟨⟨1, 11184811 / 16777216, 1118481 / 2097152⟩, 1⟩ =
      some (false, ⟨⟨1, 0, 1258291 / 2097152⟩, 29⟩) ∧
    advance ⟨-12759579 / 16777216, 4253193 / 8388608, 13610217 / 33554432⟩ ⟨0, 1, 1⟩ ⟨⟨1,
      11184811 / 16777216, 1118481 / 2097152⟩, 1⟩ = 11029947 / 16777216 ∧
    exit_face ⟨-12759579 / 16777216, 4253193 / 8388608, 13610217 / 33554432⟩ ⟨0, 1, 1⟩ ⟨⟨1,
      11184811 / 16777216, 1118481 / 2097152⟩, 1⟩ = 1 ∧
    exit_location ⟨-12759579 / 16777216, 4253193 / 8388608, 13610217 / 33554432⟩ ⟨0, 1, 1⟩ ⟨⟨1,
      11184811 / 16777216, 1118481 / 2097152⟩, 1⟩ =
      ⟨⟨1 / 2, 1, 3355443 / 4194304⟩, 1⟩ ∧
    trace_tree.1.crossing_calls (n + 4) ⟨-12759579 / 16777216, 4253193 / 8388608, 13610217 /
      33554432⟩ ⟨0, 1, 1⟩ ⟨⟨1, 11184811 / 16777216, 1118481 / 2097152⟩, 1⟩ =
      [Call.has_neighbor ⟨⟨1 / 2, 1, 3355443 / 4194304⟩, 1⟩ 1 true,
        Call.get_neighbor ⟨⟨1 / 2, 1, 3355443 / 4194304⟩, 1⟩ 1 true,
        Call.has_neighbor ⟨⟨1 / 2, 1, 3355443 / 4194304⟩, 1⟩ 1 true,
        Call.descend ⟨⟨1 / 2, 0, 3355443 / 4194304⟩, 3⟩] := by
  have wf := trace_tree_reachable.wellFormed
  have o1 : fsub 0 1 = -1 :=
    fsub_of _ _ (-1) _ (by norm_num)
      (round32_of_neg _ _ 0 (-8388608) (by norm_num) (by norm_num) (by norm_num) (by norm_num)
        (by norm_num) (by norm_num))
  have o2 : fsub 1 (11184811 / 16777216) = 5592405 / 16777216 :=
    fsub_of _ _ (5592405 / 16777216) _ (by norm_num)
      (round32_of_pos _ _ (-2) 11184810 (by norm_num) (by norm_num) (by norm_num) (by norm_num)
        (by norm_num) (by norm_num))
  have o3 : fsub 1 (1118481 / 2097152) = 978671 / 2097152 :=
    fsub_of _ _ (978671 / 2097152) _ (by norm_num)
      (round32_of_pos _ _ (-2) 15658736 (by norm_num) (by norm_num) (by norm_num) (by norm_num)
        (by norm_num) (by norm_num))
  have o4 : fdiv (-1) (-12759579 / 16777216) = 2757487 / 2097152 :=
    fdiv_of _ _ (16777216 / 12759579) _ (by norm_num)
      (round32_of_pos _ _ 0 11029948 (by norm_num) (by norm_num) (by norm_num) (by norm_num)
        (by norm_num) (by norm_num))
  have o5 : fdiv (5592405 / 16777216) (4253193 / 8388608) = 11029947 / 16777216 :=
    fdiv_of _ _ (266305 / 405066) _ (by norm_num)
      (round32_of_pos _ _ (-1) 11029947 (by norm_num) (by norm_num) (by norm_num) (by norm_num)
        (by norm_num) (by norm_num))
  have o6 : fdiv (978671 / 2097152) (13610217 / 33554432) = 9651205 / 8388608 :=
    fdiv_of _ _ (15658736 / 13610217) _ (by norm_num)
      (round32_of_pos _ _ 0 9651205 (by norm_num) (by norm_num) (by norm_num) (by norm_num)
        (by norm_num) (by norm_num))
  have hdist : exit_distances ⟨-12759579 / 16777216, 4253193 / 8388608, 13610217 / 33554432⟩ ⟨0,
      1, 1⟩ ⟨⟨1, 11184811 / 16777216, 1118481 / 2097152⟩, 1⟩ = ⟨2757487 / 2097152, 11029947 /
      16777216, 9651205 / 8388608⟩ := by
    simp only [exit_distances, Vector3.div32, Vector3.sub32, o1, o2, o3, o4, o5, o6]
  have hface : exit_face ⟨-12759579 / 16777216, 4253193 / 8388608, 13610217 / 33554432⟩ ⟨0, 1, 1⟩
      ⟨⟨1, 11184811 / 16777216, 1118481 / 2097152⟩, 1⟩ = 1 := by
    rw [exit_face, hdist]
    norm_num [min_index, Vector3.get]
  have hadv : advance ⟨-12759579 / 16777216, 4253193 / 8388608, 13610217 / 33554432⟩ ⟨0, 1, 1⟩
      ⟨⟨1, 11184811 / 16777216, 1118481 / 2097152⟩, 1⟩ = 11029947 / 16777216 := by
    rw [advance, hdist, hface]
    rfl
  have hside : exit_side ⟨-12759579 / 16777216, 4253193 / 8388608, 13610217 / 33554432⟩ ⟨0, 1, 1⟩
      ⟨⟨1, 11184811 / 16777216, 1118481 / 2097152⟩, 1⟩ = true := by
    rw [exit_side, hface]
    norm_num [Vector3.get]
  have o7 : fmul (11029947 / 16777216) (-12759579 / 16777216) = -16777215 / 33554432 :=
    fmul_of _ _ (-140737480112313 / 281474976710656) _ (by norm_num)
      (round32_of_neg _ _ (-2) (-16777215) (by norm_num) (by norm_num) (by norm_num) (by norm_num)
        (by norm_num) (by norm_num))
  have o8 : fmul (11029947 / 16777216) (4253193 / 8388608) = 5592405 / 16777216 :=
    fmul_of _ _ (46912493370771 / 140737488355328) _ (by norm_num)
      (round32_of_pos _ _ (-2) 11184810 (by norm_num) (by norm_num) (by norm_num) (by norm_num)
        (by norm_num) (by norm_num))
  have o9 : fmul (11029947 / 16777216) (13610217 / 33554432) = 1118481 / 4194304 :=
    fmul_of _ _ (150119972168499 / 562949953421312) _ (by norm_num)
      (round32_of_pos _ _ (-2) 8947848 (by norm_num) (by norm_num) (by norm_num) (by norm_num)
        (by norm_num) (by norm_num))
  have o10 : fadd 1 (-16777215 / 33554432) = 1 / 2 :=
    fadd_of _ _ (16777217 / 33554432) _ (by norm_num)
      (round32_tie_pos _ _ (-1) 8388608 (by norm_num) (by norm_num) (by norm_num) (by norm_num)
        (by decide) (Or.inl (by norm_num)))
  have o11 : fadd (11184811 / 16777216) (5592405 / 16777216) = 1 :=
    fadd_of _ _ 1 _ (by norm_num)
      (round32_of_pos _ _ 0 8388608 (by norm_num) (by norm_num) (by norm_num) (by norm_num)
        (by norm_num) (by norm_num))
  have o12 : fadd (1118481 / 2097152) (1118481 / 4194304) = 3355443 / 4194304 :=
    fadd_of _ _ (3355443 / 4194304) _ (by norm_num)
      (round32_of_pos _ _ (-1) 13421772 (by norm_num) (by norm_num) (by norm_num) (by norm_num)
        (by norm_num) (by norm_num))
  have hexit : exit_location ⟨-12759579 / 16777216, 4253193 / 8388608, 13610217 / 33554432⟩ ⟨0,
      1, 1⟩ ⟨⟨1, 11184811 / 16777216, 1118481 / 2097152⟩, 1⟩ = ⟨⟨1 / 2, 1, 3355443 / 4194304⟩, 1⟩
      := by
    simp only [exit_location, hadv, Vector3.add32, Vector3.smul32, o7, o8, o9, o10, o11, o12]
  have hn1 : ∀ y, trace_tree.1.has_neighbor ⟨y, 1⟩ 1 true = some true := by
    intro y
    rw [wf.has_neighbor_octant_bit (by decide) (by decide)]
    decide
  have hg : ∀ y, trace_tree.1.get_neighbor ⟨y, 1⟩ 1 true = some 3 := by
    intro y
    rw [wf.get_neighbor_eq (by decide) (by decide) (by decide) y 1 true (hn1 y)]
    decide
  have o13 : fsub 1 1 = 0 :=
    fsub_of _ _ 0 _ (by norm_num)
      round32_zero
  have hset : (⟨1 / 2, 1, 3355443 / 4194304⟩ : Vector3).set 1 (fsub 1 ((⟨0, 1, 1⟩ : Vector3).get
      1)) =
      ⟨1 / 2, 0, 3355443 / 4194304⟩ := by
    have e : (⟨0, 1, 1⟩ : Vector3).get 1 = 1 := rfl
    rw [e, o13]
    rfl
  have o14 : fsub (3355443 / 4194304) (1 / 2) = 1258291 / 4194304 :=
    fsub_of _ _ (1258291 / 4194304) _ (by norm_num)
      (round32_of_pos _ _ (-2) 10066328 (by norm_num) (by norm_num) (by norm_num) (by norm_num)
        (by norm_num) (by norm_num))
  have o15 : fmul 2 (1 / 2) = 1 :=
    fmul_of _ _ 1 _ (by norm_num)
      (round32_of_pos _ _ 0 8388608 (by norm_num) (by norm_num) (by norm_num) (by norm_num)
        (by norm_num) (by norm_num))
  have o16 : fmul 2 0 = 0 :=
    fmul_of _ _ 0 _ (by norm_num)
      round32_zero
  have o17 : fmul 2 (1258291 / 4194304) = 1258291 / 2097152 :=
    fmul_of _ _ (1258291 / 2097152) _ (by norm_num)
      (round32_of_pos _ _ (-1) 10066328 (by norm_num) (by norm_num) (by norm_num) (by norm_num)
        (by norm_num) (by norm_num))
  have hk3 : (trace_tree.1.m_nodes 3).m_children_id ≠ Null := by
    decide
  have hd3 : trace_tree.1.descend_f32 ⟨⟨1 / 2, 0, 3355443 / 4194304⟩, 3⟩ = some ⟨⟨1, 0, 1258291 /
      2097152⟩, 29⟩ := by
    rw [wf.descend_f32_allocated (by decide) (by decide) (by decide) _
      (by norm_num [is_saturated])]
    have e : (trace_tree.1.m_nodes 3).m_children_id = 25 := by decide
    have e1 : octant ⟨1 / 2, 0, 3355443 / 4194304⟩ = 4 := by norm_num [octant, upper]
    rw [e, e1]
    simp only [descend_coords_f32, if_neg (show ¬ (1 / 2 : ℚ) > 1 / 2 by norm_num), if_neg (show
        ¬ (0 : ℚ) > 1 / 2 by norm_num), if_pos (show (3355443 / 4194304 : ℚ) > 1 / 2 by norm_num),
      o14, o15, o16, o17]
  have hq3 : trace_tree.1.node 3 = some (trace_tree.1.m_nodes 3) :=
    rfl
  have hk29 : (trace_tree.1.m_nodes 29).m_children_id = Null := by
    decide
  have hq29 : trace_tree.1.node 29 = some (trace_tree.1.m_nodes 29) :=
    rfl
  refine ⟨?_, hadv, hface, hexit, ?_⟩
  · simp only [crossing, ascend_till_has_neighbor, descend_till_leaf_f32,
      Option.some_bind, Option.none_bind, ne_eq, OfNat.ofNat_ne_zero, one_ne_zero,
      not_false_eq_true, not_true_eq_false, if_true, if_false, Bool.not_true, Bool.not_false,
      Bool.false_eq_true, Nat.reduceMod, Option.map_some', Option.map_none',
      hface, hside, hexit, hn1, hg, hset, hk3, hd3, hq3, hk29, hq29]
  · have h1 : trace_tree.1.ascend_till_has_neighbor 1 true (n + 4) ⟨⟨1 / 2, 1, 3355443 / 4194304⟩,
        1⟩ =
        some ⟨⟨1 / 2, 1, 3355443 / 4194304⟩, 1⟩ := by
      simp only [ascend_till_has_neighbor,
        Option.some_bind, Option.none_bind, ne_eq, OfNat.ofNat_ne_zero, one_ne_zero,
        not_false_eq_true, not_true_eq_false, if_true, if_false, Bool.not_true, Bool.not_false,
        Bool.false_eq_true, Nat.reduceMod, Option.map_some', Option.map_none',
        hn1]
    have h2 : trace_tree.1.ascend_till_has_neighbor_calls 1 true (n + 4) ⟨⟨1 / 2, 1, 3355443 /
        4194304⟩, 1⟩ =
        [Call.has_neighbor ⟨⟨1 / 2, 1, 3355443 / 4194304⟩, 1⟩ 1 true] := by
      simp only [ascend_till_has_neighbor_calls,
        Option.some_bind, Option.none_bind, ne_eq, OfNat.ofNat_ne_zero, one_ne_zero,
        not_false_eq_true, not_true_eq_false, if_true, if_false, Bool.not_true, Bool.not_false,
        Bool.false_eq_true, Nat.reduceMod, Option.map_some', Option.map_none',
        hn1]
    have h3 : trace_tree.1.descend_till_leaf_calls (n + 4) ⟨⟨1 / 2, 0, 3355443 / 4194304⟩, 3⟩ =
        [Call.descend ⟨⟨1 / 2, 0, 3355443 / 4194304⟩, 3⟩] := by
      simp only [descend_till_leaf_calls,
        Option.some_bind, Option.none_bind, ne_eq, OfNat.ofNat_ne_zero, one_ne_zero,
        not_false_eq_true, not_true_eq_false, if_true, if_false, Bool.not_true, Bool.not_false,
        Bool.false_eq_true, Nat.reduceMod, Option.map_some', Option.map_none',
        hk3, hd3, hq3, hk29, hq29]
    simp only [crossing_calls, List.cons_append, List.nil_append, List.append_nil,
      Option.some_bind, Option.none_bind, ne_eq, OfNat.ofNat_ne_zero, one_ne_zero,
      not_false_eq_true, not_true_eq_false, if_true, if_false, Bool.not_true, Bool.not_false,
      Bool.false_eq_true, Nat.reduceMod, Option.map_some', Option.map_none',
      hface, hside, hexit, h1, h2, hg, hset, h3]

/-- Call 5 of the trace along `trace_direction`. -/
theorem trace_f32_call_5 (n k : Nat) :
    trace_tree.1.find_next_intersection (n + 4) ⟨-12759579 / 16777216, 4253193 / 8388608,
      13610217 / 33554432⟩ ⟨0, 1, 1⟩ true (k + 2) ⟨⟨1, 11184811 / 16777216, 1118481 / 2097152⟩,
      1⟩ =
      some (false, ⟨⟨1, 0, 1258291 / 2097152⟩, 29⟩) := by
  exact find_next_intersection_of_false trace_tree.1 (n + 4) _ _ true _ _ (trace_f32_crossing_5 n).1
    (by rw [(trace_f32_crossing_5 n).2.1, round32_epsilon]; norm_num) (k + 1)

/-- Crossing 6 of the trace along `trace_direction`, evaluated in binary32. -/
theorem trace_f32_crossing_6 (n : Nat) :
    trace_tree.1.crossing (n + 4) ⟨-12759579 / 16777216, 4253193 / 8388608, 13610217 / 33554432⟩
      ⟨0, 1, 1⟩ ⟨⟨1, 0, 1258291 / 2097152⟩, 29⟩ =
      some (false, ⟨⟨4194301 / 33554432, 4194305 / 16777216, 0⟩, 7⟩) ∧
    advance ⟨-12759579 / 16777216, 4253193 / 8388608, 13610217 / 33554432⟩ ⟨0, 1, 1⟩ ⟨⟨1, 0,
      1258291 / 2097152⟩, 29⟩ = 8272463 / 8388608 ∧
    exit_face ⟨-12759579 / 16777216, 4253193 / 8388608, 13610217 / 33554432⟩ ⟨0, 1, 1⟩ ⟨⟨1, 0,
      1258291 / 2097152⟩, 29⟩ = 2 ∧
    exit_location ⟨-12759579 / 16777216, 4253193 / 8388608, 13610217 / 33554432⟩ ⟨0, 1, 1⟩ ⟨⟨1,
      0, 1258291 / 2097152⟩, 29⟩ =
      ⟨⟨4194301 / 16777216, 4194305 / 8388608, 1⟩, 29⟩ ∧
    trace_tree.1.crossing_calls (n + 4) ⟨-12759579 / 16777216, 4253193 / 8388608, 13610217 /
      33554432⟩ ⟨0, 1, 1⟩ ⟨⟨1, 0, 1258291 / 2097152⟩, 29⟩ =
      [Call.has_neighbor ⟨⟨4194301 / 16777216, 4194305 / 8388608, 1⟩, 29⟩ 2 true,
        Call.ascend ⟨⟨4194301 / 16777216, 4194305 / 8388608, 1⟩, 29⟩,
        Call.has_neighbor ⟨⟨4194301 / 33554432, 4194305 / 16777216, 1⟩, 3⟩ 2 true,
        Call.get_neighbor ⟨⟨4194301 / 33554432, 4194305 / 16777216, 1⟩, 3⟩ 2 true,
        Call.has_neighbor ⟨⟨4194301 / 33554432, 4194305 / 16777216, 1⟩, 3⟩ 2 true] := by
  have wf := trace_tree_reachable.wellFormed
  have o1 : fsub 0 1 = -1 :=
    fsub_of _ _ (-1) _ (by norm_num)
      (round32_of_neg _ _ 0 (-8388608) (by norm_num) (by norm_num) (by norm_num) (by norm_num)
        (by norm_num) (by norm_num))
  have o2 : fsub 1 0 = 1 :=
    fsub_of _ _ 1 _ (by norm_num)
      (round32_of_pos _ _ 0 8388608 (by norm_num) (by norm_num) (by norm_num) (by norm_num)
        (by norm_num) (by norm_num))
  have o3 : fsub 1 (1258291 / 2097152) = 838861 / 2097152 :=
    fsub_of _ _ (838861 / 2097152) _ (by norm_num)
      (round32_of_pos _ _ (-2) 13421776 (by norm_num) (by norm_num) (by norm_num) (by norm_num)
        (by norm_num) (by norm_num))
  have o4 : fdiv (-1) (-12759579 / 16777216) = 2757487 / 2097152 :=
    fdiv_of _ _ (16777216 / 12759579) _ (by norm_num)
      (round32_of_pos _ _ 0 11029948 (by norm_num) (by norm_num) (by norm_num) (by norm_num)
        (by norm_num) (by norm_num))
  have o5 : fdiv 1 (4253193 / 8388608) = 16544921 / 8388608 :=
    fdiv_of _ _ (8388608 / 4253193) _ (by norm_num)
      (round32_of_pos _ _ 0 16544921 (by norm_num) (by norm_num) (by norm_num) (by norm_num)
        (by norm_num) (by norm_num))
  have o6 : fdiv (838861 / 2097152) (13610217 / 33554432) = 8272463 / 8388608 :=
    fdiv_of _ _ (13421776 / 13610217) _ (by norm_num)
      (round32_of_pos _ _ (-1) 16544926 (by norm_num) (by norm_num) (by norm_num) (by norm_num)
        (by norm_num) (by norm_num))
  have hdist : exit_distances ⟨-12759579 / 16777216, 4253193 / 8388608, 13610217 / 33554432⟩ ⟨0,
      1, 1⟩ ⟨⟨1, 0, 1258291 / 2097152⟩, 29⟩ = ⟨2757487 / 2097152, 16544921 / 8388608, 8272463 /
      8388608⟩ := by
    simp only [exit_distances, Vector3.div32, Vector3.sub32, o1, o2, o3, o4, o5, o6]
  have hface : exit_face ⟨-12759579 / 16777216, 4253193 / 8388608, 13610217 / 33554432⟩ ⟨0, 1, 1⟩
      ⟨⟨1, 0, 1258291 / 2097152⟩, 29⟩ = 2 := by
    rw [exit_face, hdist]
    norm_num [min_index, Vector3.get]
  have hadv : advance ⟨-12759579 / 16777216, 4253193 / 8388608, 13610217 / 33554432⟩ ⟨0, 1, 1⟩
      ⟨⟨1, 0, 1258291 / 2097152⟩, 29⟩ = 8272463 / 8388608 := by
    rw [advance, hdist, hface]
    rfl
  have hside : exit_side ⟨-12759579 / 16777216, 4253193 / 8388608, 13610217 / 33554432⟩ ⟨0, 1, 1⟩
      ⟨⟨1, 0, 1258291 / 2097152⟩, 29⟩ = true := by
    rw [exit_side, hface]
    norm_num [Vector3.get]
  have o7 : fmul (8272463 / 8388608) (-12759579 / 16777216) = -12582915 / 16777216 :=
    fmul_of _ _ (-105553145173077 / 140737488355328) _ (by norm_num)
      (round32_of_neg _ _ (-1) (-12582915) (by norm_num) (by norm_num) (by norm_num) (by norm_num)
        (by norm_num) (by norm_num))
  have o8 : fmul (8272463 / 8388608) (4253193 / 8388608) = 4194305 / 8388608 :=
    fmul_of _ _ (35184381724359 / 70368744177664) _ (by norm_num)
      (round32_of_pos _ _ (-1) 8388610 (by norm_num) (by norm_num) (by norm_num) (by norm_num)
        (by norm_num) (by norm_num))
  have o9 : fmul (8272463 / 8388608) (13610217 / 33554432) = 838861 / 2097152 :=
    fmul_of _ _ (112590016554471 / 281474976710656) _ (by norm_num)
      (round32_of_pos _ _ (-2) 13421776 (by norm_num) (by norm_num) (by norm_num) (by norm_num)
        (by norm_num) (by norm_num))
  have o10 : fadd 1 (-12582915 / 16777216) = 4194301 / 16777216 :=
    fadd_of _ _ (4194301 / 16777216) _ (by norm_num)
      (round32_of_pos _ _ (-3) 16777204 (by norm_num) (by norm_num) (by norm_num) (by norm_num)
        (by norm_num) (by norm_num))
  have o11 : fadd 0 (4194305 / 8388608) = 4194305 / 8388608 :=
    fadd_of _ _ (4194305 / 8388608) _ (by norm_num)
      (round32_of_pos _ _ (-1) 8388610 (by norm_num) (by norm_num) (by norm_num) (by norm_num)
        (by norm_num) (by norm_num))
  have o12 : fadd (1258291 / 2097152) (838861 / 2097152) = 1 :=
    fadd_of _ _ 1 _ (by norm_num)
      (round32_of_pos _ _ 0 8388608 (by norm_num) (by norm_num) (by norm_num) (by norm_num)
        (by norm_num) (by norm_num))
  have hexit : exit_location ⟨-12759579 / 16777216, 4253193 / 8388608, 13610217 / 33554432⟩ ⟨0,
      1, 1⟩ ⟨⟨1, 0, 1258291 / 2097152⟩, 29⟩ = ⟨⟨4194301 / 16777216, 4194305 / 8388608, 1⟩, 29⟩ :=
      by
    simp only [exit_location, hadv, Vector3.add32, Vector3.smul32, o7, o8, o9, o10, o11, o12]
  have hn29 : ∀ y, trace_tree.1.has_neighbor ⟨y, 29⟩ 2 true = some false := by
    intro y
    rw [wf.has_neighbor_octant_bit (by decide) (by decide)]
    decide
  have o13 : fadd 1 1 = 2 :=
    fadd_of _ _ 2 _ (by norm_num)
      (round32_of_pos _ _ 1 8388608 (by norm_num) (by norm_num) (by norm_num) (by norm_num)
        (by norm_num) (by norm_num))
  have o14 : fmul (1 / 2) (4194301 / 16777216) = 4194301 / 33554432 :=
    fmul_of _ _ (4194301 / 33554432) _ (by norm_num)
      (round32_of_pos _ _ (-4) 16777204 (by norm_num) (by norm_num) (by norm_num) (by norm_num)
        (by norm_num) (by norm_num))
  have o15 : fmul (1 / 2) (4194305 / 8388608) = 4194305 / 16777216 :=
    fmul_of _ _ (4194305 / 16777216) _ (by norm_num)
      (round32_of_pos _ _ (-2) 8388610 (by norm_num) (by norm_num) (by norm_num) (by norm_num)
        (by norm_num) (by norm_num))
  have o16 : fmul (1 / 2) 2 = 1 :=
    fmul_of _ _ 1 _ (by norm_num)
      (round32_of_pos _ _ 0 8388608 (by norm_num) (by norm_num) (by norm_num) (by norm_num)
        (by norm_num) (by norm_num))
  have ha29 : trace_tree.1.ascend_f32 ⟨⟨4194301 / 16777216, 4194305 / 8388608, 1⟩, 29⟩ = some
      ⟨⟨4194301 / 33554432, 4194305 / 16777216, 1⟩, 3⟩ := by
    rw [wf.ascend_f32_allocated (by decide) (by decide) (by decide) _
      (by norm_num [is_saturated])]
    have e1 : (trace_tree.1.m_nodes 29).m_parent_id = 3 := by decide
    have e2 : (trace_tree.1.m_nodes 3).m_children_id = 25 := by decide
    rw [e1, e2]
    have e3 : ascend_coords_f32 (29 - 25) ⟨4194301 / 16777216, 4194305 / 8388608, 1⟩ =
        ⟨fmul (1 / 2) (4194301 / 16777216), fmul (1 / 2) (4194305 / 8388608), fmul (1 / 2) (fadd
        1 1)⟩ := rfl
    rw [e3]
    simp only [o13, o14, o15, o16]
  have hn3 : ∀ y, trace_tree.1.has_neighbor ⟨y, 3⟩ 2 true = some true := by
    intro y
    rw [wf.has_neighbor_octant_bit (by decide) (by decide)]
    decide
  have hg : ∀ y, trace_tree.1.get_neighbor ⟨y, 3⟩ 2 true = some 7 := by
    intro y
    rw [wf.get_neighbor_eq (by decide) (by decide) (by decide) y 2 true (hn3 y)]
    decide
  have o17 : fsub 1 1 = 0 :=
    fsub_of _ _ 0 _ (by norm_num)
      round32_zero
  have hset : (⟨4194301 / 33554432, 4194305 / 16777216, 1⟩ : Vector3).set 2 (fsub 1 ((⟨0, 1, 1⟩ :
      Vector3).get 2)) =
      ⟨4194301 / 33554432, 4194305 / 16777216, 0⟩ := by
    have e : (⟨0, 1, 1⟩ : Vector3).get 2 = 1 := rfl
    rw [e, o17]
    rfl
  have hk7 : (trace_tree.1.m_nodes 7).m_children_id = Null := by
    decide
  have hq7 : trace_tree.1.node 7 = some (trace_tree.1.m_nodes 7) :=
    rfl
  refine ⟨?_, hadv, hface, hexit, ?_⟩
  · simp only [crossing, ascend_till_has_neighbor, descend_till_leaf_f32,
      Option.some_bind, Option.none_bind, ne_eq, OfNat.ofNat_ne_zero, one_ne_zero,
      not_false_eq_true, not_true_eq_false, if_true, if_false, Bool.not_true, Bool.not_false,
      Bool.false_eq_true, Nat.reduceMod, Option.map_some', Option.map_none',
      hface, hside, hexit, hn29, ha29, hn3, hg, hset, hk7, hq7]
  · have h1 : trace_tree.1.ascend_till_has_neighbor 2 true (n + 4) ⟨⟨4194301 / 16777216, 4194305 /
        8388608, 1⟩, 29⟩ =
        some ⟨⟨4194301 / 33554432, 4194305 / 16777216, 1⟩, 3⟩ := by
      simp only [ascend_till_has_neighbor,
        Option.some_bind, Option.none_bind, ne_eq, OfNat.ofNat_ne_zero, one_ne_zero,
        not_false_eq_true, not_true_eq_false, if_true, if_false, Bool.not_true, Bool.not_false,
        Bool.false_eq_true, Nat.reduceMod, Option.map_some', Option.map_none',
        hn29, ha29, hn3]
    have h2 : trace_tree.1.ascend_till_has_neighbor_calls 2 true (n + 4) ⟨⟨4194301 / 16777216,
        4194305 / 8388608, 1⟩, 29⟩ =
        [Call.has_neighbor ⟨⟨4194301 / 16777216, 4194305 / 8388608, 1⟩, 29⟩ 2 true,
          Call.ascend ⟨⟨4194301 / 16777216, 4194305 / 8388608, 1⟩, 29⟩,
          Call.has_neighbor ⟨⟨4194301 / 33554432, 4194305 / 16777216, 1⟩, 3⟩ 2 true] := by
      simp only [ascend_till_has_neighbor_calls,
        Option.some_bind, Option.none_bind, ne_eq, OfNat.ofNat_ne_zero, one_ne_zero,
        not_false_eq_true, not_true_eq_false, if_true, if_false, Bool.not_true, Bool.not_false,
        Bool.false_eq_true, Nat.reduceMod, Option.map_some', Option.map_none',
        hn29, ha29, hn3]
    have h3 : trace_tree.1.descend_till_leaf_calls (n + 4) ⟨⟨4194301 / 33554432, 4194305 /
        16777216, 0⟩, 7⟩ =
        [] := by
      simp only [descend_till_leaf_calls,
        Option.some_bind, Option.none_bind, ne_eq, OfNat.ofNat_ne_zero, one_ne_zero,
        not_false_eq_true, not_true_eq_false, if_true, if_false, Bool.not_true, Bool.not_false,
        Bool.false_eq_true, Nat.reduceMod, Option.map_some', Option.map_none',
        hk7, hq7]
    simp only [crossing_calls, List.cons_append, List.nil_append, List.append_nil,
      Option.some_bind, Option.none_bind, ne_eq, OfNat.ofNat_ne_zero, one_ne_zero,
      not_false_eq_true, not_true_eq_false, if_true, if_false, Bool.not_true, Bool.not_false,
      Bool.false_eq_true, Nat.reduceMod, Option.map_some', Option.map_none',
      hface, hside, hexit, h1, h2, hg, hset, h3]

/-- Call 6 of the trace along `trace_direction`. -/
theorem trace_f32_call_6 (n k : Nat) :
    trace_tree.1.find_next_intersection (n + 4) ⟨-12759579 / 16777216, 4253193 / 8388608,
      13610217 / 33554432⟩ ⟨0, 1, 1⟩ true (k + 2) ⟨⟨1, 0, 1258291 / 2097152⟩, 29⟩ =
      some (false, ⟨⟨4194301 / 33554432, 4194305 / 16777216, 0⟩, 7⟩) := by
  exact find_next_intersection_of_false trace_tree.1 (n + 4) _ _ true _ _ (trace_f32_crossing_6 n).1
    (by rw [(trace_f32_crossing_6 n).2.1, round32_epsilon]; norm_num) (k + 1)

/-- Crossing 7 of the trace along `trace_direction`, evaluated in binary32. -/
theorem trace_f32_crossing_7 (n : Nat) :
    trace_tree.1.crossing (n + 4) ⟨-12759579 / 16777216, 4253193 / 8388608, 13610217 / 33554432⟩
      ⟨0, 1, 1⟩ ⟨⟨4194301 / 33554432, 4194305 / 16777216, 0⟩, 7⟩ =
      some (true, ⟨⟨0, 11184811 / 16777216, 1118481 / 2097152⟩, 0⟩) ∧
    advance ⟨-12759579 / 16777216, 4253193 / 8388608, 13610217 / 33554432⟩ ⟨0, 1, 1⟩ ⟨⟨4194301 /
      33554432, 4194305 / 16777216, 0⟩, 7⟩ = 2757485 / 16777216 ∧
    exit_face ⟨-12759579 / 16777216, 4253193 / 8388608, 13610217 / 33554432⟩ ⟨0, 1, 1⟩ ⟨⟨4194301
      / 33554432, 4194305 / 16777216, 0⟩, 7⟩ = 0 ∧
    exit_location ⟨-12759579 / 16777216, 4253193 / 8388608, 13610217 / 33554432⟩ ⟨0, 1, 1⟩
      ⟨⟨4194301 / 33554432, 4194305 / 16777216, 0⟩, 7⟩ =
      ⟨⟨0, 11184811 / 33554432, 4473921 / 67108864⟩, 7⟩ ∧
    trace_tree.1.crossing_calls (n + 4) ⟨-12759579 / 16777216, 4253193 / 8388608, 13610217 /
      33554432⟩ ⟨0, 1, 1⟩ ⟨⟨4194301 / 33554432, 4194305 / 16777216, 0⟩, 7⟩ =
      [Call.has_neighbor ⟨⟨0, 11184811 / 33554432, 4473921 / 67108864⟩, 7⟩ 0 false,
        Call.ascend ⟨⟨0, 11184811 / 33554432, 4473921 / 67108864⟩, 7⟩] := by
  have wf := trace_tree_reachable.wellFormed
  have o1 : fsub 0 (4194301 / 33554432) = -4194301 / 33554432 :=
    fsub_of _ _ (-4194301 / 33554432) _ (by norm_num)
      (round32_of_neg _ _ (-4) (-16777204) (by norm_num) (by norm_num) (by norm_num) (by norm_num)
        (by norm_num) (by norm_num))
  have o2 : fsub 1 (4194305 / 16777216) = 12582911 / 16777216 :=
    fsub_of _ _ (12582911 / 16777216) _ (by norm_num)
      (round32_of_pos _ _ (-1) 12582911 (by norm_num) (by norm_num) (by norm_num) (by norm_num)
        (by norm_num) (by norm_num))
  have o3 : fsub 1 0 = 1 :=
    fsub_of _ _ 1 _ (by norm_num)
      (round32_of_pos _ _ 0 8388608 (by norm_num) (by norm_num) (by norm_num) (by norm_num)
        (by norm_num) (by norm_num))
  have o4 : fdiv (-4194301 / 33554432) (-12759579 / 16777216) = 2757485 / 16777216 :=
    fdiv_of _ _ (4194301 / 25519158) _ (by norm_num)
      (round32_of_pos _ _ (-3) 11029940 (by norm_num) (by norm_num) (by norm_num) (by norm_num)
        (by norm_num) (by norm_num))
  have o5 : fdiv (12582911 / 16777216) (4253193 / 8388608) = 6204345 / 4194304 :=
    fdiv_of _ _ (12582911 / 8506386) _ (by norm_num)
      (round32_of_pos _ _ 0 12408690 (by norm_num) (by norm_num) (by norm_num) (by norm_num)
        (by norm_num) (by norm_num))
  have o6 : fdiv 1 (13610217 / 33554432) = 323143 / 131072 :=
    fdiv_of _ _ (33554432 / 13610217) _ (by norm_num)
      (round32_of_pos _ _ 1 10340576 (by norm_num) (by norm_num) (by norm_num) (by norm_num)
        (by norm_num) (by norm_num))
  have hdist : exit_distances ⟨-12759579 / 16777216, 4253193 / 8388608, 13610217 / 33554432⟩ ⟨0,
      1, 1⟩ ⟨⟨4194301 / 33554432, 4194305 / 16777216, 0⟩, 7⟩ = ⟨2757485 / 16777216, 6204345 /
      4194304, 323143 / 131072⟩ := by
    simp only [exit_distances, Vector3.div32, Vector3.sub32, o1, o2, o3, o4, o5, o6]
  have hface : exit_face ⟨-12759579 / 16777216, 4253193 / 8388608, 13610217 / 33554432⟩ ⟨0, 1, 1⟩
      ⟨⟨4194301 / 33554432, 4194305 / 16777216, 0⟩, 7⟩ = 0 := by
    rw [exit_face, hdist]
    norm_num [min_index, Vector3.get]
  have hadv : advance ⟨-12759579 / 16777216, 4253193 / 8388608, 13610217 / 33554432⟩ ⟨0, 1, 1⟩
      ⟨⟨4194301 / 33554432, 4194305 / 16777216, 0⟩, 7⟩ = 2757485 / 16777216 := by
    rw [advance, hdist, hface]
    rfl
  have hside : exit_side ⟨-12759579 / 16777216, 4253193 / 8388608, 13610217 / 33554432⟩ ⟨0, 1, 1⟩
      ⟨⟨4194301 / 33554432, 4194305 / 16777216, 0⟩, 7⟩ = false := by
    rw [exit_side, hface]
    norm_num [Vector3.get]
  have o7 : fmul (2757485 / 16777216) (-12759579 / 16777216) = -4194301 / 33554432 :=
    fmul_of _ _ (-35184347698815 / 281474976710656) _ (by norm_num)
      (round32_of_neg _ _ (-4) (-16777204) (by norm_num) (by norm_num) (by norm_num) (by norm_num)
        (by norm_num) (by norm_num))
  have o8 : fmul (2757485 / 16777216) (4253193 / 8388608) = 11184803 / 134217728 :=
    fmul_of _ _ (11728115899605 / 140737488355328) _ (by norm_num)
      (round32_of_pos _ _ (-4) 11184803 (by norm_num) (by norm_num) (by norm_num) (by norm_num)
        (by norm_num) (by norm_num))
  have o9 : fmul (2757485 / 16777216) (13610217 / 33554432) = 4473921 / 67108864 :=
    fmul_of _ _ (37529969224245 / 562949953421312) _ (by norm_num)
      (round32_of_pos _ _ (-4) 8947842 (by norm_num) (by norm_num) (by norm_num) (by norm_num)
        (by norm_num) (by norm_num))
  have o10 : fadd (4194301 / 33554432) (-4194301 / 33554432) = 0 :=
    fadd_of _ _ 0 _ (by norm_num)
      round32_zero
  have o11 : fadd (4194305 / 16777216) (11184803 / 134217728) = 11184811 / 33554432 :=
    fadd_of _ _ (44739243 / 134217728) _ (by norm_num)
      (round32_of_pos _ _ (-2) 11184811 (by norm_num) (by norm_num) (by norm_num) (by norm_num)
        (by norm_num) (by norm_num))
  have o12 : fadd 0 (4473921 / 67108864) = 4473921 / 67108864 :=
    fadd_of _ _ (4473921 / 67108864) _ (by norm_num)
      (round32_of_pos _ _ (-4) 8947842 (by norm_num) (by norm_num) (by norm_num) (by norm_num)
        (by norm_num) (by norm_num))
  have hexit : exit_location ⟨-12759579 / 16777216, 4253193 / 8388608, 13610217 / 33554432⟩ ⟨0,
      1, 1⟩ ⟨⟨4194301 / 33554432, 4194305 / 16777216, 0⟩, 7⟩ = ⟨⟨0, 11184811 / 33554432, 4473921
      / 67108864⟩, 7⟩ := by
    simp only [exit_location, hadv, Vector3.add32, Vector3.smul32, o7, o8, o9, o10, o11, o12]
  have hn7 : ∀ y, trace_tree.1.has_neighbor ⟨y, 7⟩ 0 false = some false := by
    intro y
    rw [wf.has_neighbor_octant_bit (by decide) (by decide)]
    decide
  have o13 : fadd (11184811 / 33554432) 1 = 11184811 / 8388608 :=
    fadd_of _ _ (44739243 / 33554432) _ (by norm_num)
      (round32_of_pos _ _ 0 11184811 (by norm_num) (by norm_num) (by norm_num) (by norm_num)
        (by norm_num) (by norm_num))
  have o14 : fadd (4473921 / 67108864) 1 = 1118481 / 1048576 :=
    fadd_of _ _ (71582785 / 67108864) _ (by norm_num)
      (round32_of_pos _ _ 0 8947848 (by norm_num) (by norm_num) (by norm_num) (by norm_num)
        (by norm_num) (by norm_num))
  have o15 : fmul (1 / 2) 0 = 0 :=
    fmul_of _ _ 0 _ (by norm_num)
      round32_zero
  have o16 : fmul (1 / 2) (11184811 / 8388608) = 11184811 / 16777216 :=
    fmul_of _ _ (11184811 / 16777216) _ (by norm_num)
      (round32_of_pos _ _ (-1) 11184811 (by norm_num) (by norm_num) (by norm_num) (by norm_num)
        (by norm_num) (by norm_num))
  have o17 : fmul (1 / 2) (1118481 / 1048576) = 1118481 / 2097152 :=
    fmul_of _ _ (1118481 / 2097152) _ (by norm_num)
      (round32_of_pos _ _ (-1) 8947848 (by norm_num) (by norm_num) (by norm_num) (by norm_num)
        (by norm_num) (by norm_num))
  have ha7 : trace_tree.1.ascend_f32 ⟨⟨0, 11184811 / 33554432, 4473921 / 67108864⟩, 7⟩ = some
      ⟨⟨0, 11184811 / 16777216, 1118481 / 2097152⟩, 0⟩ := by
    rw [wf.ascend_f32_allocated (by decide) (by decide) (by decide) _
      (by norm_num [is_saturated])]
    have e1 : (trace_tree.1.m_nodes 7).m_parent_id = 0 := by decide
    have e2 : (trace_tree.1.m_nodes 0).m_children_id = 1 := by decide
    rw [e1, e2]
    have e3 : ascend_coords_f32 (7 - 1) ⟨0, 11184811 / 33554432, 4473921 / 67108864⟩ =
        ⟨fmul (1 / 2) 0, fmul (1 / 2) (fadd (11184811 / 33554432) 1), fmul (1 / 2) (fadd (4473921
        / 67108864) 1)⟩ := rfl
    rw [e3]
    simp only [o13, o14, o15, o16, o17]
  refine ⟨?_, hadv, hface, hexit, ?_⟩
  · simp only [crossing, ascend_till_has_neighbor, descend_till_leaf_f32,
      Option.some_bind, Option.none_bind, ne_eq, OfNat.ofNat_ne_zero, one_ne_zero,
      not_false_eq_true, not_true_eq_false, if_true, if_false, Bool.not_true, Bool.not_false,
      Bool.false_eq_true, Nat.reduceMod, Option.map_some', Option.map_none',
      hface, hside, hexit, hn7, ha7]
  · have h1 : trace_tree.1.ascend_till_has_neighbor 0 false (n + 4) ⟨⟨0, 11184811 / 33554432,
        4473921 / 67108864⟩, 7⟩ =
        some ⟨⟨0, 11184811 / 16777216, 1118481 / 2097152⟩, 0⟩ := by
      simp only [ascend_till_has_neighbor,
        Option.some_bind, Option.none_bind, ne_eq, OfNat.ofNat_ne_zero, one_ne_zero,
        not_false_eq_true, not_true_eq_false, if_true, if_false, Bool.not_true, Bool.not_false,
        Bool.false_eq_true, Nat.reduceMod, Option.map_some', Option.map_none',
        hn7, ha7]
    have h2 : trace_tree.1.ascend_till_has_neighbor_calls 0 false (n + 4) ⟨⟨0, 11184811 / 33554432,
        4473921 / 67108864⟩, 7⟩ =
        [Call.has_neighbor ⟨⟨0, 11184811 / 33554432, 4473921 / 67108864⟩, 7⟩ 0 false,
          Call.ascend ⟨⟨0, 11184811 / 33554432, 4473921 / 67108864⟩, 7⟩] := by
      simp only [ascend_till_has_neighbor_calls,
        Option.some_bind, Option.none_bind, ne_eq, OfNat.ofNat_ne_zero, one_ne_zero,
        not_false_eq_true, not_true_eq_false, if_true, if_false, Bool.not_true, Bool.not_false,
        Bool.false_eq_true, Nat.reduceMod, Option.map_some', Option.map_none',
        hn7, ha7]
    simp only [crossing_calls, List.cons_append, List.nil_append, List.append_nil,
      Option.some_bind, Option.none_bind, ne_eq, OfNat.ofNat_ne_zero, one_ne_zero,
      not_false_eq_true, not_true_eq_false, if_true, if_false, Bool.not_true, Bool.not_false,
      Bool.false_eq_true, Nat.reduceMod, Option.map_some', Option.map_none',
      hface, hside, hexit, h1, h2]

/-- Call 7 of the trace along `trace_direction`. -/
theorem trace_f32_call_7 (n k : Nat) :
    trace_tree.1.find_next_intersection (n + 4) ⟨-12759579 / 16777216, 4253193 / 8388608,
      13610217 / 33554432⟩ ⟨0, 1, 1⟩ true (k + 2) ⟨⟨4194301 / 33554432, 4194305 / 16777216, 0⟩,
      7⟩ =
      some (true, ⟨⟨0, 11184811 / 16777216, 1118481 / 2097152⟩, 0⟩) := by
  exact find_next_intersection_of_true trace_tree.1 (n + 4) _ _ true _ _ (trace_f32_crossing_7 n).1 (k + 1)

/-- The global coordinates of the result of call 2 of the trace along `trace_direction`, evaluated in
binary32. -/
theorem trace_f32_coords_2 (n : Nat) :
    trace_tree.1.calculate_coords_f32 (n + 4) ⟨⟨1 / 2, 0, 3355443 / 4194304⟩, 11⟩ = some ⟨5 / 8,
      1 / 4, 3355443 / 16777216⟩ ∧
    trace_tree.1.calculate_coords_calls (n + 4) ⟨⟨1 / 2, 0, 3355443 / 4194304⟩, 11⟩ =
      [Call.ascend ⟨⟨1 / 2, 0, 3355443 / 4194304⟩, 11⟩,
        Call.ascend ⟨⟨1 / 4, 1 / 2, 3355443 / 8388608⟩, 2⟩] := by
  have wf := trace_tree_reachable.wellFormed
  have o1 : fadd 0 1 = 1 :=
    fadd_of _ _ 1 _ (by norm_num)
      (round32_of_pos _ _ 0 8388608 (by norm_num) (by norm_num) (by norm_num) (by norm_num)
        (by norm_num) (by norm_num))
  have o2 : fmul (1 / 2) (1 / 2) = 1 / 4 :=
    fmul_of _ _ (1 / 4) _ (by norm_num)
      (round32_of_pos _ _ (-2) 8388608 (by norm_num) (by norm_num) (by norm_num) (by norm_num)
        (by norm_num) (by norm_num))
  have o3 : fmul (1 / 2) 1 = 1 / 2 :=
    fmul_of _ _ (1 / 2) _ (by norm_num)
      (round32_of_pos _ _ (-1) 8388608 (by norm_num) (by norm_num) (by norm_num) (by norm_num)
        (by norm_num) (by norm_num))
  have o4 : fmul (1 / 2) (3355443 / 4194304) = 3355443 / 8388608 :=
    fmul_of _ _ (3355443 / 8388608) _ (by norm_num)
      (round32_of_pos _ _ (-2) 13421772 (by norm_num) (by norm_num) (by norm_num) (by norm_num)
        (by norm_num) (by norm_num))
  have ha11 : trace_tree.1.ascend_f32 ⟨⟨1 / 2, 0, 3355443 / 4194304⟩, 11⟩ = some ⟨⟨1 / 4, 1 / 2,
      3355443 / 8388608⟩, 2⟩ := by
    rw [wf.ascend_f32_allocated (by decide) (by decide) (by decide) _
      (by norm_num [is_saturated])]
    have e1 : (trace_tree.1.m_nodes 11).m_parent_id = 2 := by decide
    have e2 : (trace_tree.1.m_nodes 2).m_children_id = 9 := by decide
    rw [e1, e2]
    have e3 : ascend_coords_f32 (11 - 9) ⟨1 / 2, 0, 3355443 / 4194304⟩ =
        ⟨fmul (1 / 2) (1 / 2), fmul (1 / 2) (fadd 0 1), fmul (1 / 2) (3355443 / 4194304)⟩ := rfl
    rw [e3]
    simp only [o1, o2, o3, o4]
  have o5 : fadd (1 / 4) 1 = 5 / 4 :=
    fadd_of _ _ (5 / 4) _ (by norm_num)
      (round32_of_pos _ _ 0 10485760 (by norm_num) (by norm_num) (by norm_num) (by norm_num)
        (by norm_num) (by norm_num))
  have o6 : fmul (1 / 2) (5 / 4) = 5 / 8 :=
    fmul_of _ _ (5 / 8) _ (by norm_num)
      (round32_of_pos _ _ (-1) 10485760 (by norm_num) (by norm_num) (by norm_num) (by norm_num)
        (by norm_num) (by norm_num))
  have o7 : fmul (1 / 2) (3355443 / 8388608) = 3355443 / 16777216 :=
    fmul_of _ _ (3355443 / 16777216) _ (by norm_num)
      (round32_of_pos _ _ (-3) 13421772 (by norm_num) (by norm_num) (by norm_num) (by norm_num)
        (by norm_num) (by norm_num))
  have ha2 : trace_tree.1.ascend_f32 ⟨⟨1 / 4, 1 / 2, 3355443 / 8388608⟩, 2⟩ = some ⟨⟨5 / 8, 1 /
      4, 3355443 / 16777216⟩, 0⟩ := by
    rw [wf.ascend_f32_allocated (by decide) (by decide) (by decide) _
      (by norm_num [is_saturated])]
    have e1 : (trace_tree.1.m_nodes 2).m_parent_id = 0 := by decide
    have e2 : (trace_tree.1.m_nodes 0).m_children_id = 1 := by decide
    rw [e1, e2]
    have e3 : ascend_coords_f32 (2 - 1) ⟨1 / 4, 1 / 2, 3355443 / 8388608⟩ =
        ⟨fmul (1 / 2) (fadd (1 / 4) 1), fmul (1 / 2) (1 / 2), fmul (1 / 2) (3355443 / 8388608)⟩
        := rfl
    rw [e3]
    simp only [o5, o6, o2, o7]
  constructor
  · simp only [calculate_coords_f32, calculate_coords_loop_f32, Option.some_bind, Option.none_bind, ne_eq, OfNat.ofNat_ne_zero, one_ne_zero,
      not_false_eq_true, not_true_eq_false, if_true, if_false, Option.map_some', ha11, ha2]
  · simp only [calculate_coords_calls, Option.some_bind, Option.none_bind, ne_eq, OfNat.ofNat_ne_zero, one_ne_zero,
      not_false_eq_true, not_true_eq_false, if_true, if_false, Option.map_some', ha11, ha2]

/-- The global coordinates of the result of call 5 of the trace along `trace_direction`, evaluated in
binary32. -/
theorem trace_f32_coords_5 (n : Nat) :
    trace_tree.1.calculate_coords_f32 (n + 4) ⟨⟨1, 0, 1258291 / 2097152⟩, 29⟩ = some ⟨1 / 4, 1 /
      2, 3355443 / 8388608⟩ ∧
    trace_tree.1.calculate_coords_calls (n + 4) ⟨⟨1, 0, 1258291 / 2097152⟩, 29⟩ =
      [Call.ascend ⟨⟨1, 0, 1258291 / 2097152⟩, 29⟩,
        Call.ascend ⟨⟨1 / 2, 0, 3355443 / 4194304⟩, 3⟩] := by
  have wf := trace_tree_reachable.wellFormed
  have o1 : fadd (1258291 / 2097152) 1 = 3355443 / 2097152 :=
    fadd_of _ _ (3355443 / 2097152) _ (by norm_num)
      (round32_of_pos _ _ 0 13421772 (by norm_num) (by norm_num) (by norm_num) (by norm_num)
        (by norm_num) (by norm_num))
  have o2 : fmul (1 / 2) 1 = 1 / 2 :=
    fmul_of _ _ (1 / 2) _ (by norm_num)
      (round32_of_pos _ _ (-1) 8388608 (by norm_num) (by norm_num) (by norm_num) (by norm_num)
        (by norm_num) (by norm_num))
  have o3 : fmul (1 / 2) 0 = 0 :=
    fmul_of _ _ 0 _ (by norm_num)
      round32_zero
  have o4 : fmul (1 / 2) (3355443 / 2097152) = 3355443 / 4194304 :=
    fmul_of _ _ (3355443 / 4194304) _ (by norm_num)
      (round32_of_pos _ _ (-1) 13421772 (by norm_num) (by norm_num) (by norm_num) (by norm_num)
        (by norm_num) (by norm_num))
  have ha29 : trace_tree.1.ascend_f32 ⟨⟨1, 0, 1258291 / 2097152⟩, 29⟩ = some ⟨⟨1 / 2, 0, 3355443
      / 4194304⟩, 3⟩ := by
    rw [wf.ascend_f32_allocated (by decide) (by decide) (by decide) _
      (by norm_num [is_saturated])]
    have e1 : (trace_tree.1.m_nodes 29).m_parent_id = 3 := by decide
    have e2 : (trace_tree.1.m_nodes 3).m_children_id = 25 := by decide
    rw [e1, e2]
    have e3 : ascend_coords_f32 (29 - 25) ⟨1, 0, 1258291 / 2097152⟩ =
        ⟨fmul (1 / 2) 1, fmul (1 / 2) 0, fmul (1 / 2) (fadd (1258291 / 2097152) 1)⟩ := rfl
    rw [e3]
    simp only [o1, o2, o3, o4]
  have o5 : fadd 0 1 = 1 :=
    fadd_of _ _ 1 _ (by norm_num)
      (round32_of_pos _ _ 0 8388608 (by norm_num) (by norm_num) (by norm_num) (by norm_num)
        (by norm_num) (by norm_num))
  have o6 : fmul (1 / 2) (1 / 2) = 1 / 4 :=
    fmul_of _ _ (1 / 4) _ (by norm_num)
      (round32_of_pos _ _ (-2) 8388608 (by norm_num) (by norm_num) (by norm_num) (by norm_num)
        (by norm_num) (by norm_num))
  have o7 : fmul (1 / 2) (3355443 / 4194304) = 3355443 / 8388608 :=
    fmul_of _ _ (3355443 / 8388608) _ (by norm_num)
      (round32_of_pos _ _ (-2) 13421772 (by norm_num) (by norm_num) (by norm_num) (by norm_num)
        (by norm_num) (by norm_num))
  have ha3 : trace_tree.1.ascend_f32 ⟨⟨1 / 2, 0, 3355443 / 4194304⟩, 3⟩ = some ⟨⟨1 / 4, 1 / 2,
      3355443 / 8388608⟩, 0⟩ := by
    rw [wf.ascend_f32_allocated (by decide) (by decide) (by decide) _
      (by norm_num [is_saturated])]
    have e1 : (trace_tree.1.m_nodes 3).m_parent_id = 0 := by decide
    have e2 : (trace_tree.1.m_nodes 0).m_children_id = 1 := by decide
    rw [e1, e2]
    have e3 : ascend_coords_f32 (3 - 1) ⟨1 / 2, 0, 3355443 / 4194304⟩ =
        ⟨fmul (1 / 2) (1 / 2), fmul (1 / 2) (fadd 0 1), fmul (1 / 2) (3355443 / 4194304)⟩ := rfl
    rw [e3]
    simp only [o5, o6, o2, o7]
  constructor
  · simp only [calculate_coords_f32, calculate_coords_loop_f32, Option.some_bind, Option.none_bind, ne_eq, OfNat.ofNat_ne_zero, one_ne_zero,
      not_false_eq_true, not_true_eq_false, if_true, if_false, Option.map_some', ha29, ha3]
  · simp only [calculate_coords_calls, Option.some_bind, Option.none_bind, ne_eq, OfNat.ofNat_ne_zero, one_ne_zero,
      not_false_eq_true, not_true_eq_false, if_true, if_false, Option.map_some', ha29, ha3]

/-- The global coordinates of the result of call 7 of the trace along `trace_direction`, evaluated in
binary32. -/
theorem trace_f32_coords_7 (n : Nat) :
    trace_tree.1.calculate_coords_f32 (n + 4) ⟨⟨0, 11184811 / 16777216, 1118481 / 2097152⟩, 0⟩ =
      some ⟨0, 11184811 / 16777216, 1118481 / 2097152⟩ ∧
    trace_tree.1.calculate_coords_calls (n + 4) ⟨⟨0, 11184811 / 16777216, 1118481 / 2097152⟩, 0⟩ =
      [] := by
  have wf := trace_tree_reachable.wellFormed
  constructor
  · simp only [calculate_coords_f32, calculate_coords_loop_f32, Option.some_bind, Option.none_bind, ne_eq, OfNat.ofNat_ne_zero, one_ne_zero,
      not_false_eq_true, not_true_eq_false, if_true, if_false, Option.map_some']
  · simp only [calculate_coords_calls, Option.some_bind, Option.none_bind, ne_eq, OfNat.ofNat_ne_zero, one_ne_zero,
      not_false_eq_true, not_true_eq_false, if_true, if_false, Option.map_some']

/-- Crossing 1 of the trace along `trace_direction_reciprocal`, evaluated in binary32. -/
theorem trace_reciprocal_crossing_1 (n : Nat) :
    trace_tree.1.crossing (n + 4) ⟨-6379789 / 8388608, 4253193 / 8388608, 13610217 / 33554432⟩
      ⟨0, 1, 1⟩ ⟨⟨1, 0, 0⟩, 10⟩ =
      some (false, ⟨⟨1, 699051 / 2097152, 559241 / 8388608⟩, 24⟩) ∧
    advance ⟨-6379789 / 8388608, 4253193 / 8388608, 13610217 / 33554432⟩ ⟨0, 1, 1⟩ ⟨⟨1, 0, 0⟩,
      10⟩ = 11029949 / 8388608 ∧
    exit_face ⟨-6379789 / 8388608, 4253193 / 8388608, 13610217 / 33554432⟩ ⟨0, 1, 1⟩ ⟨⟨1, 0, 0⟩,
      10⟩ = 0 ∧
    exit_location ⟨-6379789 / 8388608, 4253193 / 8388608, 13610217 / 33554432⟩ ⟨0, 1, 1⟩ ⟨⟨1, 0,
      0⟩, 10⟩ =
      ⟨⟨0, 2796203 / 4194304, 8947849 / 16777216⟩, 10⟩ ∧
    trace_tree.1.crossing_calls (n + 4) ⟨-6379789 / 8388608, 4253193 / 8388608, 13610217 /
      33554432⟩ ⟨0, 1, 1⟩ ⟨⟨1, 0, 0⟩, 10⟩ =
      [Call.has_neighbor ⟨⟨0, 2796203 / 4194304, 8947849 / 16777216⟩, 10⟩ 0 false,
        Call.get_neighbor ⟨⟨0, 2796203 / 4194304, 8947849 / 16777216⟩, 10⟩ 0 false,
        Call.has_neighbor ⟨⟨0, 2796203 / 4194304, 8947849 / 16777216⟩, 10⟩ 0 false,
        Call.descend ⟨⟨1, 2796203 / 4194304, 8947849 / 16777216⟩, 9⟩] := by
  have wf := trace_tree_reachable.wellFormed
  have o1 : fsub 0 1 = -1 :=
    fsub_of _ _ (-1) _ (by norm_num)
      (round32_of_neg _ _ 0 (-8388608) (by norm_num) (by norm_num) (by norm_num) (by norm_num)
        (by norm_num) (by norm_num))
  have o2 : fsub 1 0 = 1 :=
    fsub_of _ _ 1 _ (by norm_num)
      (round32_of_pos _ _ 0 8388608 (by norm_num) (by norm_num) (by norm_num) (by norm_num)
        (by norm_num) (by norm_num))
  have o3 : fdiv (-1) (-6379789 / 8388608) = 11029949 / 8388608 :=
    fdiv_of _ _ (8388608 / 6379789) _ (by norm_num)
      (round32_of_pos _ _ 0 11029949 (by norm_num) (by norm_num) (by norm_num) (by norm_num)
        (by norm_num) (by norm_num))
  have o4 : fdiv 1 (4253193 / 8388608) = 16544921 / 8388608 :=
    fdiv_of _ _ (8388608 / 4253193) _ (by norm_num)
      (round32_of_pos _ _ 0 16544921 (by norm_num) (by norm_num) (by norm_num) (by norm_num)
        (by norm_num) (by norm_num))
  have o5 : fdiv 1 (13610217 / 33554432) = 323143 / 131072 :=
    fdiv_of _ _ (33554432 / 13610217) _ (by norm_num)
      (round32_of_pos _ _ 1 10340576 (by norm_num) (by norm_num) (by norm_num) (by norm_num)
        (by norm_num) (by norm_num))
  have hdist : exit_distances ⟨-6379789 / 8388608, 4253193 / 8388608, 13610217 / 33554432⟩ ⟨0, 1,
      1⟩ ⟨⟨1, 0, 0⟩, 10⟩ = ⟨11029949 / 8388608, 16544921 / 8388608, 323143 / 131072⟩ := by
    simp only [exit_distances, Vector3.div32, Vector3.sub32, o1, o2, o2, o3, o4, o5]
  have hface : exit_face ⟨-6379789 / 8388608, 4253193 / 8388608, 13610217 / 33554432⟩ ⟨0, 1, 1⟩
      ⟨⟨1, 0, 0⟩, 10⟩ = 0 := by
    rw [exit_face, hdist]
    norm_num [min_index, Vector3.get]
  have hadv : advance ⟨-6379789 / 8388608, 4253193 / 8388608, 13610217 / 33554432⟩ ⟨0, 1, 1⟩ ⟨⟨1,
      0, 0⟩, 10⟩ = 11029949 / 8388608 := by
    rw [advance, hdist, hface]
    rfl
  have hside : exit_side ⟨-6379789 / 8388608, 4253193 / 8388608, 13610217 / 33554432⟩ ⟨0, 1, 1⟩
      ⟨⟨1, 0, 0⟩, 10⟩ = false := by
    rw [exit_side, hface]
    norm_num [Vector3.get]
  have o6 : fmul (11029949 / 8388608) (-6379789 / 8388608) = -1 :=
    fmul_of _ _ (-70368747300761 / 70368744177664) _ (by norm_num)
      (round32_of_neg _ _ 0 (-8388608) (by norm_num) (by norm_num) (by norm_num) (by norm_num)
        (by norm_num) (by norm_num))
  have o7 : fmul (11029949 / 8388608) (4253193 / 8388608) = 2796203 / 4194304 :=
    fmul_of _ _ (46912501877157 / 70368744177664) _ (by norm_num)
      (round32_of_pos _ _ (-1) 11184812 (by norm_num) (by norm_num) (by norm_num) (by norm_num)
        (by norm_num) (by norm_num))
  have o8 : fmul (11029949 / 8388608) (13610217 / 33554432) = 8947849 / 16777216 :=
    fmul_of _ _ (150119999388933 / 281474976710656) _ (by norm_num)
      (round32_of_pos _ _ (-1) 8947849 (by norm_num) (by norm_num) (by norm_num) (by norm_num)
        (by norm_num) (by norm_num))
  have o9 : fadd 1 (-1) = 0 :=
    fadd_of _ _ 0 _ (by norm_num)
      round32_zero
  have o10 : fadd 0 (2796203 / 4194304) = 2796203 / 4194304 :=
    fadd_of _ _ (2796203 / 4194304) _ (by norm_num)
      (round32_of_pos _ _ (-1) 11184812 (by norm_num) (by norm_num) (by norm_num) (by norm_num)
        (by norm_num) (by norm_num))
  have o11 : fadd 0 (8947849 / 16777216) = 8947849 / 16777216 :=
    fadd_of _ _ (8947849 / 16777216) _ (by norm_num)
      (round32_of_pos _ _ (-1) 8947849 (by norm_num) (by norm_num) (by norm_num) (by norm_num)
        (by norm_num) (by norm_num))
  have hexit : exit_location ⟨-6379789 / 8388608, 4253193 / 8388608, 13610217 / 33554432⟩ ⟨0, 1,
      1⟩ ⟨⟨1, 0, 0⟩, 10⟩ = ⟨⟨0, 2796203 / 4194304, 8947849 / 16777216⟩, 10⟩ := by
    simp only [exit_location, hadv, Vector3.add32, Vector3.smul32, o6, o7, o8, o9, o10, o11]
  have hn10 : ∀ y, trace_tree.1.has_neighbor ⟨y, 10⟩ 0 false = some true := by
    intro y
    rw [wf.has_neighbor_octant_bit (by decide) (by decide)]
    decide
  have hg : ∀ y, trace_tree.1.get_neighbor ⟨y, 10⟩ 0 false = some 9 := by
    intro y
    rw [wf.get_neighbor_eq (by decide) (by decide) (by decide) y 0 false (hn10 y)]
    decide
  have hset : (⟨0, 2796203 / 4194304, 8947849 / 16777216⟩ : Vector3).set 0 (fsub 1 ((⟨0, 1, 1⟩ :
      Vector3).get 0)) =
      ⟨1, 2796203 / 4194304, 8947849 / 16777216⟩ := by
    have e : (⟨0, 1, 1⟩ : Vector3).get 0 = 0 := rfl
    rw [e, o2]
    rfl
  have o12 : fsub 1 (1 / 2) = 1 / 2 :=
    fsub_of _ _ (1 / 2) _ (by norm_num)
      (round32_of_pos _ _ (-1) 8388608 (by norm_num) (by norm_num) (by norm_num) (by norm_num)
        (by norm_num) (by norm_num))
  have o13 : fsub (2796203 / 4194304) (1 / 2) = 699051 / 4194304 :=
    fsub_of _ _ (699051 / 4194304) _ (by norm_num)
      (round32_of_pos _ _ (-3) 11184816 (by norm_num) (by norm_num) (by norm_num) (by norm_num)
        (by norm_num) (by norm_num))
  have o14 : fsub (8947849 / 16777216) (1 / 2) = 559241 / 16777216 :=
    fsub_of _ _ (559241 / 16777216) _ (by norm_num)
      (round32_of_pos _ _ (-5) 8947856 (by norm_num) (by norm_num) (by norm_num) (by norm_num)
        (by norm_num) (by norm_num))
  have o15 : fmul 2 (1 / 2) = 1 :=
    fmul_of _ _ 1 _ (by norm_num)
      (round32_of_pos _ _ 0 8388608 (by norm_num) (by norm_num) (by norm_num) (by norm_num)
        (by norm_num) (by norm_num))
  have o16 : fmul 2 (699051 / 4194304) = 699051 / 2097152 :=
    fmul_of _ _ (699051 / 2097152) _ (by norm_num)
      (round32_of_pos _ _ (-2) 11184816 (by norm_num) (by norm_num) (by norm_num) (by norm_num)
        (by norm_num) (by norm_num))
  have o17 : fmul 2 (559241 / 16777216) = 559241 / 8388608 :=
    fmul_of _ _ (559241 / 8388608) _ (by norm_num)
      (round32_of_pos _ _ (-4) 8947856 (by norm_num) (by norm_num) (by norm_num) (by norm_num)
        (by norm_num) (by norm_num))
  have hk9 : (trace_tree.1.m_nodes 9).m_children_id ≠ Null := by
    decide
  have hd9 : trace_tree.1.descend_f32 ⟨⟨1, 2796203 / 4194304, 8947849 / 16777216⟩, 9⟩ = some ⟨⟨1,
      699051 / 2097152, 559241 / 8388608⟩, 24⟩ := by
    rw [wf.descend_f32_allocated (by decide) (by decide) (by decide) _
      (by norm_num [is_saturated])]
    have e : (trace_tree.1.m_nodes 9).m_children_id = 17 := by decide
    have e1 : octant ⟨1, 2796203 / 4194304, 8947849 / 16777216⟩ = 7 := by norm_num [octant, upper]
    rw [e, e1]
    simp only [descend_coords_f32, if_pos (show (1 : ℚ) > 1 / 2 by norm_num), if_pos (show
        (2796203 / 4194304 : ℚ) > 1 / 2 by norm_num), if_pos (show (8947849 / 16777216 : ℚ) > 1 /
        2 by norm_num),
      o12, o13, o14, o15, o16, o17]
  have hq9 : trace_tree.1.node 9 = some (trace_tree.1.m_nodes 9) :=
    rfl
  have hk24 : (trace_tree.1.m_nodes 24).m_children_id = Null := by
    decide
  have hq24 : trace_tree.1.node 24 = some (trace_tree.1.m_nodes 24) :=
    rfl
  refine ⟨?_, hadv, hface, hexit, ?_⟩
  · simp only [crossing, ascend_till_has_neighbor, descend_till_leaf_f32,
      Option.some_bind, Option.none_bind, ne_eq, OfNat.ofNat_ne_zero, one_ne_zero,
      not_false_eq_true, not_true_eq_false, if_true, if_false, Bool.not_true, Bool.not_false,
      Bool.false_eq_true, Nat.reduceMod, Option.map_some', Option.map_none',
      hface, hside, hexit, hn10, hg, hset, hk9, hd9, hq9, hk24, hq24]
  · have h1 : trace_tree.1.ascend_till_has_neighbor 0 false (n + 4) ⟨⟨0, 2796203 / 4194304, 8947849
        / 16777216⟩, 10⟩ =
        some ⟨⟨0, 2796203 / 4194304, 8947849 / 16777216⟩, 10⟩ := by
      simp only [ascend_till_has_neighbor,
        Option.some_bind, Option.none_bind, ne_eq, OfNat.ofNat_ne_zero, one_ne_zero,
        not_false_eq_true, not_true_eq_false, if_true, if_false, Bool.not_true, Bool.not_false,
        Bool.false_eq_true, Nat.reduceMod, Option.map_some', Option.map_none',
        hn10]
    have h2 : trace_tree.1.ascend_till_has_neighbor_calls 0 false (n + 4) ⟨⟨0, 2796203 / 4194304,
        8947849 / 16777216⟩, 10⟩ =
        [Call.has_neighbor ⟨⟨0, 2796203 / 4194304, 8947849 / 16777216⟩, 10⟩ 0 false] := by
      simp only [ascend_till_has_neighbor_calls,
        Option.some_bind, Option.none_bind, ne_eq, OfNat.ofNat_ne_zero, one_ne_zero,
        not_false_eq_true, not_true_eq_false, if_true, if_false, Bool.not_true, Bool.not_false,
        Bool.false_eq_true, Nat.reduceMod, Option.map_some', Option.map_none',
        hn10]
    have h3 : trace_tree.1.descend_till_leaf_calls (n + 4) ⟨⟨1, 2796203 / 4194304, 8947849 /
        16777216⟩, 9⟩ =
        [Call.descend ⟨⟨1, 2796203 / 4194304, 8947849 / 16777216⟩, 9⟩] := by
      simp only [descend_till_leaf_calls,
        Option.some_bind, Option.none_bind, ne_eq, OfNat.ofNat_ne_zero, one_ne_zero,
        not_false_eq_true, not_true_eq_false, if_true, if_false, Bool.not_true, Bool.not_false,
        Bool.false_eq_true, Nat.reduceMod, Option.map_some', Option.map_none',
        hk9, hd9, hq9, hk24, hq24]
    simp only [crossing_calls, List.cons_append, List.nil_append, List.append_nil,
      Option.some_bind, Option.none_bind, ne_eq, OfNat.ofNat_ne_zero, one_ne_zero,
      not_false_eq_true, not_true_eq_false, if_true, if_false, Bool.not_true, Bool.not_false,
      Bool.false_eq_true, Nat.reduceMod, Option.map_some', Option.map_none',
      hface, hside, hexit, h1, h2, hg, hset, h3]

/-- Call 1 of the trace along `trace_direction_reciprocal`. -/
theorem trace_reciprocal_call_1 (n k : Nat) :
    trace_tree.1.find_next_intersection (n + 4) ⟨-6379789 / 8388608, 4253193 / 8388608, 13610217
      / 33554432⟩ ⟨0, 1, 1⟩ true (k + 2) ⟨⟨1, 0, 0⟩, 10⟩ =
      some (false, ⟨⟨1, 699051 / 2097152, 559241 / 8388608⟩, 24⟩) := by
  exact find_next_intersection_of_false trace_tree.1 (n + 4) _ _ true _ _ (trace_reciprocal_crossing_1 n).1
    (by rw [(trace_reciprocal_crossing_1 n).2.1, round32_epsilon]; norm_num) (k + 1)

/-- Crossing 2 of the trace along `trace_direction_reciprocal`, evaluated in binary32. -/
theorem trace_reciprocal_crossing_2 (n : Nat) :
    trace_tree.1.crossing (n + 4) ⟨-6379789 / 8388608, 4253193 / 8388608, 13610217 / 33554432⟩
      ⟨0, 1, 1⟩ ⟨⟨1, 699051 / 2097152, 559241 / 8388608⟩, 24⟩ =
      some (false, ⟨⟨4194305 / 8388608, 0, 3355443 / 4194304⟩, 11⟩) ∧
    advance ⟨-6379789 / 8388608, 4253193 / 8388608, 13610217 / 33554432⟩ ⟨0, 1, 1⟩ ⟨⟨1, 699051 /
      2097152, 559241 / 8388608⟩, 24⟩ = 11029945 / 8388608 ∧
    exit_face ⟨-6379789 / 8388608, 4253193 / 8388608, 13610217 / 33554432⟩ ⟨0, 1, 1⟩ ⟨⟨1, 699051
      / 2097152, 559241 / 8388608⟩, 24⟩ = 1 ∧
    exit_location ⟨-6379789 / 8388608, 4253193 / 8388608, 13610217 / 33554432⟩ ⟨0, 1, 1⟩ ⟨⟨1,
      699051 / 2097152, 559241 / 8388608⟩, 24⟩ =
      ⟨⟨5 / 16777216, 1, 1258291 / 2097152⟩, 24⟩ ∧
    trace_tree.1.crossing_calls (n + 4) ⟨-6379789 / 8388608, 4253193 / 8388608, 13610217 /
      33554432⟩ ⟨0, 1, 1⟩ ⟨⟨1, 699051 / 2097152, 559241 / 8388608⟩, 24⟩ =
      [Call.has_neighbor ⟨⟨5 / 16777216, 1, 1258291 / 2097152⟩, 24⟩ 1 true,
        Call.ascend ⟨⟨5 / 16777216, 1, 1258291 / 2097152⟩, 24⟩,
        Call.has_neighbor ⟨⟨4194305 / 8388608, 1, 3355443 / 4194304⟩, 9⟩ 1 true,
        Call.get_neighbor ⟨⟨4194305 / 8388608, 1, 3355443 / 4194304⟩, 9⟩ 1 true,
        Call.has_neighbor ⟨⟨4194305 / 8388608, 1, 3355443 / 4194304⟩, 9⟩ 1 true] := by
  have wf := trace_tree_reachable.wellFormed
  have o1 : fsub 0 1 = -1 :=
    fsub_of _ _ (-1) _ (by norm_num)
      (round32_of_neg _ _ 0 (-8388608) (by norm_num) (by norm_num) (by norm_num) (by norm_num)
        (by norm_num) (by norm_num))
  have o2 : fsub 1 (699051 / 2097152) = 1398101 / 2097152 :=
    fsub_of _ _ (1398101 / 2097152) _ (by norm_num)
      (round32_of_pos _ _ (-1) 11184808 (by norm_num) (by norm_num) (by norm_num) (by norm_num)
        (by norm_num) (by norm_num))
  have o3 : fsub 1 (559241 / 8388608) = 7829367 / 8388608 :=
    fsub_of _ _ (7829367 / 8388608) _ (by norm_num)
      (round32_of_pos _ _ (-1) 15658734 (by norm_num) (by norm_num) (by norm_num) (by norm_num)
        (by norm_num) (by norm_num))
  have o4 : fdiv (-1) (-6379789 / 8388608) = 11029949 / 8388608 :=
    fdiv_of _ _ (8388608 / 6379789) _ (by norm_num)
      (round32_of_pos _ _ 0 11029949 (by norm_num) (by norm_num) (by norm_num) (by norm_num)
        (by norm_num) (by norm_num))
  have o5 : fdiv (1398101 / 2097152) (4253193 / 8388608) = 11029945 / 8388608 :=
    fdiv_of _ _ (5592404 / 4253193) _ (by norm_num)
      (round32_of_pos _ _ 0 11029945 (by norm_num) (by norm_num) (by norm_num) (by norm_num)
        (by norm_num) (by norm_num))
  have o6 : fdiv (7829367 / 8388608) (13610217 / 33554432) = 2412801 / 1048576 :=
    fdiv_of _ _ (614068 / 266867) _ (by norm_num)
      (round32_of_pos _ _ 1 9651204 (by norm_num) (by norm_num) (by norm_num) (by norm_num)
        (by norm_num) (by norm_num))
  have hdist : exit_distances ⟨-6379789 / 8388608, 4253193 / 8388608, 13610217 / 33554432⟩ ⟨0, 1,
      1⟩ ⟨⟨1, 699051 / 2097152, 559241 / 8388608⟩, 24⟩ = ⟨11029949 / 8388608, 11029945 / 8388608,
      2412801 / 1048576⟩ := by
    simp only [exit_distances, Vector3.div32, Vector3.sub32, o1, o2, o3, o4, o5, o6]
  have hface : exit_face ⟨-6379789 / 8388608, 4253193 / 8388608, 13610217 / 33554432⟩ ⟨0, 1, 1⟩
      ⟨⟨1, 699051 / 2097152, 559241 / 8388608⟩, 24⟩ = 1 := by
    rw [exit_face, hdist]
    norm_num [min_index, Vector3.get]
  have hadv : advance ⟨-6379789 / 8388608, 4253193 / 8388608, 13610217 / 33554432⟩ ⟨0, 1, 1⟩ ⟨⟨1,
      699051 / 2097152, 559241 / 8388608⟩, 24⟩ = 11029945 / 8388608 := by
    rw [advance, hdist, hface]
    rfl
  have hside : exit_side ⟨-6379789 / 8388608, 4253193 / 8388608, 13610217 / 33554432⟩ ⟨0, 1, 1⟩
      ⟨⟨1, 699051 / 2097152, 559241 / 8388608⟩, 24⟩ = true := by
    rw [exit_side, hface]
    norm_num [Vector3.get]
  have o7 : fmul (11029945 / 8388608) (-6379789 / 8388608) = -16777211 / 16777216 :=
    fmul_of _ _ (-70368721781605 / 70368744177664) _ (by norm_num)
      (round32_of_neg _ _ (-1) (-16777211) (by norm_num) (by norm_num) (by norm_num) (by norm_num)
        (by norm_num) (by norm_num))
  have o8 : fmul (11029945 / 8388608) (4253193 / 8388608) = 1398101 / 2097152 :=
    fmul_of _ _ (46912484864385 / 70368744177664) _ (by norm_num)
      (round32_of_pos _ _ (-1) 11184808 (by norm_num) (by norm_num) (by norm_num) (by norm_num)
        (by norm_num) (by norm_num))
  have o9 : fmul (11029945 / 8388608) (13610217 / 33554432) = 4473923 / 8388608 :=
    fmul_of _ _ (150119944948065 / 281474976710656) _ (by norm_num)
      (round32_of_pos _ _ (-1) 8947846 (by norm_num) (by norm_num) (by norm_num) (by norm_num)
        (by norm_num) (by norm_num))
  have o10 : fadd 1 (-16777211 / 16777216) = 5 / 16777216 :=
    fadd_of _ _ (5 / 16777216) _ (by norm_num)
      (round32_of_pos _ _ (-22) 10485760 (by norm_num) (by norm_num) (by norm_num) (by norm_num)
        (by norm_num) (by norm_num))
  have o11 : fadd (699051 / 2097152) (1398101 / 2097152) = 1 :=
    fadd_of _ _ 1 _ (by norm_num)
      (round32_of_pos _ _ 0 8388608 (by norm_num) (by norm_num) (by norm_num) (by norm_num)
        (by norm_num) (by norm_num))
  have o12 : fadd (559241 / 8388608) (4473923 / 8388608) = 1258291 / 2097152 :=
    fadd_of _ _ (1258291 / 2097152) _ (by norm_num)
      (round32_of_pos _ _ (-1) 10066328 (by norm_num) (by norm_num) (by norm_num) (by norm_num)
        (by norm_num) (by norm_num))
  have hexit : exit_location ⟨-6379789 / 8388608, 4253193 / 8388608, 13610217 / 33554432⟩ ⟨0, 1,
      1⟩ ⟨⟨1, 699051 / 2097152, 559241 / 8388608⟩, 24⟩ = ⟨⟨5 / 16777216, 1, 1258291 / 2097152⟩,
      24⟩ := by
    simp only [exit_location, hadv, Vector3.add32, Vector3.smul32, o7, o8, o9, o10, o11, o12]
  have hn24 : ∀ y, trace_tree.1.has_neighbor ⟨y, 24⟩ 1 true = some false := by
    intro y
    rw [wf.has_neighbor_octant_bit (by decide) (by decide)]
    decide
  have o13 : fadd (5 / 16777216) 1 = 4194305 / 4194304 :=
    fadd_of _ _ (16777221 / 16777216) _ (by norm_num)
      (round32_tie_pos _ _ 0 8388610 (by norm_num) (by norm_num) (by norm_num) (by norm_num)
        (by decide) (Or.inl (by norm_num)))
  have o14 : fadd 1 1 = 2 :=
    fadd_of _ _ 2 _ (by norm_num)
      (round32_of_pos _ _ 1 8388608 (by norm_num) (by norm_num) (by norm_num) (by norm_num)
        (by norm_num) (by norm_num))
  have o15 : fadd (1258291 / 2097152) 1 = 3355443 / 2097152 :=
    fadd_of _ _ (3355443 / 2097152) _ (by norm_num)
      (round32_of_pos _ _ 0 13421772 (by norm_num) (by norm_num) (by norm_num) (by norm_num)
        (by norm_num) (by norm_num))
  have o16 : fmul (1 / 2) (4194305 / 4194304) = 4194305 / 8388608 :=
    fmul_of _ _ (4194305 / 8388608) _ (by norm_num)
      (round32_of_pos _ _ (-1) 8388610 (by norm_num) (by norm_num) (by norm_num) (by norm_num)
        (by norm_num) (by norm_num))
  have o17 : fmul (1 / 2) 2 = 1 :=
    fmul_of _ _ 1 _ (by norm_num)
      (round32_of_pos _ _ 0 8388608 (by norm_num) (by norm_num) (by norm_num) (by norm_num)
        (by norm_num) (by norm_num))
  have o18 : fmul (1 / 2) (3355443 / 2097152) = 3355443 / 4194304 :=
    fmul_of _ _ (3355443 / 4194304) _ (by norm_num)
      (round32_of_pos _ _ (-1) 13421772 (by norm_num) (by norm_num) (by norm_num) (by norm_num)
        (by norm_num) (by norm_num))
  have ha24 : trace_tree.1.ascend_f32 ⟨⟨5 / 16777216, 1, 1258291 / 2097152⟩, 24⟩ = some ⟨⟨4194305
      / 8388608, 1, 3355443 / 4194304⟩, 9⟩ := by
    rw [wf.ascend_f32_allocated (by decide) (by decide) (by decide) _
      (by norm_num [is_saturated])]
    have e1 : (trace_tree.1.m_nodes 24).m_parent_id = 9 := by decide
    have e2 : (trace_tree.1.m_nodes 9).m_children_id = 17 := by decide
    rw [e1, e2]
    have e3 : ascend_coords_f32 (24 - 17) ⟨5 / 16777216, 1, 1258291 / 2097152⟩ =
        ⟨fmul (1 / 2) (fadd (5 / 16777216) 1), fmul (1 / 2) (fadd 1 1), fmul (1 / 2) (fadd
        (1258291 / 2097152) 1)⟩ := rfl
    rw [e3]
    simp only [o13, o14, o15, o16, o17, o18]
  have hn9 : ∀ y, trace_tree.1.has_neighbor ⟨y, 9⟩ 1 true = some true := by
    intro y
    rw [wf.has_neighbor_octant_bit (by decide) (by decide)]
    decide
  have hg : ∀ y, trace_tree.1.get_neighbor ⟨y, 9⟩ 1 true = some 11 := by
    intro y
    rw [wf.get_neighbor_eq (by decide) (by decide) (by decide) y 1 true (hn9 y)]
    decide
  have o19 : fsub 1 1 = 0 :=
    fsub_of _ _ 0 _ (by norm_num)
      round32_zero
  have hset : (⟨4194305 / 8388608, 1, 3355443 / 4194304⟩ : Vector3).set 1 (fsub 1 ((⟨0, 1, 1⟩ :
      Vector3).get 1)) =
      ⟨4194305 / 8388608, 0, 3355443 / 4194304⟩ := by
    have e : (⟨0, 1, 1⟩ : Vector3).get 1 = 1 := rfl
    rw [e, o19]
    rfl
  have hk11 : (trace_tree.1.m_nodes 11).m_children_id = Null := by
    decide
  have hq11 : trace_tree.1.node 11 = some (trace_tree.1.m_nodes 11) :=
    rfl
  refine ⟨?_, hadv, hface, hexit, ?_⟩
  · simp only [crossing, ascend_till_has_neighbor, descend_till_leaf_f32,
      Option.some_bind, Option.none_bind, ne_eq, OfNat.ofNat_ne_zero, one_ne_zero,
      not_false_eq_true, not_true_eq_false, if_true, if_false, Bool.not_true, Bool.not_false,
      Bool.false_eq_true, Nat.reduceMod, Option.map_some', Option.map_none',
      hface, hside, hexit, hn24, ha24, hn9, hg, hset, hk11, hq11]
  · have h1 : trace_tree.1.ascend_till_has_neighbor 1 true (n + 4) ⟨⟨5 / 16777216, 1, 1258291 /
        2097152⟩, 24⟩ =
        some ⟨⟨4194305 / 8388608, 1, 3355443 / 4194304⟩, 9⟩ := by
      simp only [ascend_till_has_neighbor,
        Option.some_bind, Option.none_bind, ne_eq, OfNat.ofNat_ne_zero, one_ne_zero,
        not_false_eq_true, not_true_eq_false, if_true, if_false, Bool.not_true, Bool.not_false,
        Bool.false_eq_true, Nat.reduceMod, Option.map_some', Option.map_none',
        hn24, ha24, hn9]
    have h2 : trace_tree.1.ascend_till_has_neighbor_calls 1 true (n + 4) ⟨⟨5 / 16777216, 1, 1258291
        / 2097152⟩, 24⟩ =
        [Call.has_neighbor ⟨⟨5 / 16777216, 1, 1258291 / 2097152⟩, 24⟩ 1 true,
          Call.ascend ⟨⟨5 / 16777216, 1, 1258291 / 2097152⟩, 24⟩,
          Call.has_neighbor ⟨⟨4194305 / 8388608, 1, 3355443 / 4194304⟩, 9⟩ 1 true] := by
      simp only [ascend_till_has_neighbor_calls,
        Option.some_bind, Option.none_bind, ne_eq, OfNat.ofNat_ne_zero, one_ne_zero,
        not_false_eq_true, not_true_eq_false, if_true, if_false, Bool.not_true, Bool.not_false,
        Bool.false_eq_true, Nat.reduceMod, Option.map_some', Option.map_none',
        hn24, ha24, hn9]
    have h3 : trace_tree.1.descend_till_leaf_calls (n + 4) ⟨⟨4194305 / 8388608, 0, 3355443 /
        4194304⟩, 11⟩ =
        [] := by
      simp only [descend_till_leaf_calls,
        Option.some_bind, Option.none_bind, ne_eq, OfNat.ofNat_ne_zero, one_ne_zero,
        not_false_eq_true, not_true_eq_false, if_true, if_false, Bool.not_true, Bool.not_false,
        Bool.false_eq_true, Nat.reduceMod, Option.map_some', Option.map_none',
        hk11, hq11]
    simp only [crossing_calls, List.cons_append, List.nil_append, List.append_nil,
      Option.some_bind, Option.none_bind, ne_eq, OfNat.ofNat_ne_zero, one_ne_zero,
      not_false_eq_true, not_true_eq_false, if_true, if_false, Bool.not_true, Bool.not_false,
      Bool.false_eq_true, Nat.reduceMod, Option.map_some', Option.map_none',
      hface, hside, hexit, h1, h2, hg, hset, h3]

/-- Call 2 of the trace along `trace_direction_reciprocal`. -/
theorem trace_reciprocal_call_2 (n k : Nat) :
    trace_tree.1.find_next_intersection (n + 4) ⟨-6379789 / 8388608, 4253193 / 8388608, 13610217
      / 33554432⟩ ⟨0, 1, 1⟩ true (k + 2) ⟨⟨1, 699051 / 2097152, 559241 / 8388608⟩, 24⟩ =
      some (false, ⟨⟨4194305 / 8388608, 0, 3355443 / 4194304⟩, 11⟩) := by
  exact find_next_intersection_of_false trace_tree.1 (n + 4) _ _ true _ _ (trace_reciprocal_crossing_2 n).1
    (by rw [(trace_reciprocal_crossing_2 n).2.1, round32_epsilon]; norm_num) (k + 1)

/-- Crossing 3 of the trace along `trace_direction_reciprocal`, evaluated in binary32. -/
theorem trace_reciprocal_crossing_3 (n : Nat) :
    trace_tree.1.crossing (n + 4) ⟨-6379789 / 8388608, 4253193 / 8388608, 13610217 / 33554432⟩
      ⟨0, 1, 1⟩ ⟨⟨4194305 / 8388608, 0, 3355443 / 4194304⟩, 11⟩ =
      some (false, ⟨⟨2097153 / 16777216, 4194305 / 16777216, 0⟩, 15⟩) ∧
    advance ⟨-6379789 / 8388608, 4253193 / 8388608, 13610217 / 33554432⟩ ⟨0, 1, 1⟩ ⟨⟨4194305 /
      8388608, 0, 3355443 / 4194304⟩, 11⟩ = 8272463 / 16777216 ∧
    exit_face ⟨-6379789 / 8388608, 4253193 / 8388608, 13610217 / 33554432⟩ ⟨0, 1, 1⟩ ⟨⟨4194305 /
      8388608, 0, 3355443 / 4194304⟩, 11⟩ = 2 ∧
    exit_location ⟨-6379789 / 8388608, 4253193 / 8388608, 13610217 / 33554432⟩ ⟨0, 1, 1⟩
      ⟨⟨4194305 / 8388608, 0, 3355443 / 4194304⟩, 11⟩ =
      ⟨⟨2097153 / 16777216, 4194305 / 16777216, 1⟩, 11⟩ ∧
    trace_tree.1.crossing_calls (n + 4) ⟨-6379789 / 8388608, 4253193 / 8388608, 13610217 /
      33554432⟩ ⟨0, 1, 1⟩ ⟨⟨4194305 / 8388608, 0, 3355443 / 4194304⟩, 11⟩ =
      [Call.has_neighbor ⟨⟨2097153 / 16777216, 4194305 / 16777216, 1⟩, 11⟩ 2 true,
        Call.get_neighbor ⟨⟨2097153 / 16777216, 4194305 / 16777216, 1⟩, 11⟩ 2 true,
        Call.has_neighbor ⟨⟨2097153 / 16777216, 4194305 / 16777216, 1⟩, 11⟩ 2 true] := by
  have wf := trace_tree_reachable.wellFormed
  have o1 : fsub 0 (4194305 / 8388608) = -4194305 / 8388608 :=
    fsub_of _ _ (-4194305 / 8388608) _ (by norm_num)
      (round32_of_neg _ _ (-1) (-8388610) (by norm_num) (by norm_num) (by norm_num) (by norm_num)
        (by norm_num) (by norm_num))
  have o2 : fsub 1 0 = 1 :=
    fsub_of _ _ 1 _ (by norm_num)
      (round32_of_pos _ _ 0 8388608 (by norm_num) (by norm_num) (by norm_num) (by norm_num)
        (by norm_num) (by norm_num))
  have o3 : fsub 1 (3355443 / 4194304) = 838861 / 4194304 :=
    fsub_of _ _ (838861 / 4194304) _ (by norm_num)
      (round32_of_pos _ _ (-3) 13421776 (by norm_num) (by norm_num) (by norm_num) (by norm_num)
        (by norm_num) (by norm_num))
  have o4 : fdiv (-4194305 / 8388608) (-6379789 / 8388608) = 11029951 / 16777216 :=
    fdiv_of _ _ (4194305 / 6379789) _ (by norm_num)
      (round32_of_pos _ _ (-1) 11029951 (by norm_num) (by norm_num) (by norm_num) (by norm_num)
        (by norm_num) (by norm_num))
  have o5 : fdiv 1 (4253193 / 8388608) = 16544921 / 8388608 :=
    fdiv_of _ _ (8388608 / 4253193) _ (by norm_num)
      (round32_of_pos _ _ 0 16544921 (by norm_num) (by norm_num) (by norm_num) (by norm_num)
        (by norm_num) (by norm_num))
  have o6 : fdiv (838861 / 4194304) (13610217 / 33554432) = 8272463 / 16777216 :=
    fdiv_of _ _ (6710888 / 13610217) _ (by norm_num)
      (round32_of_pos _ _ (-2) 16544926 (by norm_num) (by norm_num) (by norm_num) (by norm_num)
        (by norm_num) (by norm_num))
  have hdist : exit_distances ⟨-6379789 / 8388608, 4253193 / 8388608, 13610217 / 33554432⟩ ⟨0, 1,
      1⟩ ⟨⟨4194305 / 8388608, 0, 3355443 / 4194304⟩, 11⟩ = ⟨11029951 / 16777216, 16544921 /
      8388608, 8272463 / 16777216⟩ := by
    simp only [exit_distances, Vector3.div32, Vector3.sub32, o1, o2, o3, o4, o5, o6]
  have hface : exit_face ⟨-6379789 / 8388608, 4253193 / 8388608, 13610217 / 33554432⟩ ⟨0, 1, 1⟩
      ⟨⟨4194305 / 8388608, 0, 3355443 / 4194304⟩, 11⟩ = 2 := by
    rw [exit_face, hdist]
    norm_num [min_index, Vector3.get]
  have hadv : advance ⟨-6379789 / 8388608, 4253193 / 8388608, 13610217 / 33554432⟩ ⟨0, 1, 1⟩
      ⟨⟨4194305 / 8388608, 0, 3355443 / 4194304⟩, 11⟩ = 8272463 / 16777216 := by
    rw [advance, hdist, hface]
    rfl
  have hside : exit_side ⟨-6379789 / 8388608, 4253193 / 8388608, 13610217 / 33554432⟩ ⟨0, 1, 1⟩
      ⟨⟨4194305 / 8388608, 0, 3355443 / 4194304⟩, 11⟩ = true := by
    rw [exit_side, hface]
    norm_num [Vector3.get]
  have o7 : fmul (8272463 / 16777216) (-6379789 / 8388608) = -6291457 / 16777216 :=
    fmul_of _ _ (-52776568450307 / 140737488355328) _ (by norm_num)
      (round32_of_neg _ _ (-2) (-12582914) (by norm_num) (by norm_num) (by norm_num) (by norm_num)
        (by norm_num) (by norm_num))
  have o8 : fmul (8272463 / 16777216) (4253193 / 8388608) = 4194305 / 16777216 :=
    fmul_of _ _ (35184381724359 / 140737488355328) _ (by norm_num)
      (round32_of_pos _ _ (-2) 8388610 (by norm_num) (by norm_num) (by norm_num) (by norm_num)
        (by norm_num) (by norm_num))
  have o9 : fmul (8272463 / 16777216) (13610217 / 33554432) = 838861 / 4194304 :=
    fmul_of _ _ (112590016554471 / 562949953421312) _ (by norm_num)
      (round32_of_pos _ _ (-3) 13421776 (by norm_num) (by norm_num) (by norm_num) (by norm_num)
        (by norm_num) (by norm_num))
  have o10 : fadd (4194305 / 8388608) (-6291457 / 16777216) = 2097153 / 16777216 :=
    fadd_of _ _ (2097153 / 16777216) _ (by norm_num)
      (round32_of_pos _ _ (-3) 8388612 (by norm_num) (by norm_num) (by norm_num) (by norm_num)
        (by norm_num) (by norm_num))
  have o11 : fadd 0 (4194305 / 16777216) = 4194305 / 16777216 :=
    fadd_of _ _ (4194305 / 16777216) _ (by norm_num)
      (round32_of_pos _ _ (-2) 8388610 (by norm_num) (by norm_num) (by norm_num) (by norm_num)
        (by norm_num) (by norm_num))
  have o12 : fadd (3355443 / 4194304) (838861 / 4194304) = 1 :=
    fadd_of _ _ 1 _ (by norm_num)
      (round32_of_pos _ _ 0 8388608 (by norm_num) (by norm_num) (by norm_num) (by norm_num)
        (by norm_num) (by norm_num))
  have hexit : exit_location ⟨-6379789 / 8388608, 4253193 / 8388608, 13610217 / 33554432⟩ ⟨0, 1,
      1⟩ ⟨⟨4194305 / 8388608, 0, 3355443 / 4194304⟩, 11⟩ = ⟨⟨2097153 / 16777216, 4194305 /
      16777216, 1⟩, 11⟩ := by
    simp only [exit_location, hadv, Vector3.add32, Vector3.smul32, o7, o8, o9, o10, o11, o12]
  have hn11 : ∀ y, trace_tree.1.has_neighbor ⟨y, 11⟩ 2 true = some true := by
    intro y
    rw [wf.has_neighbor_octant_bit (by decide) (by decide)]
    decide
  have hg : ∀ y, trace_tree.1.get_neighbor ⟨y, 11⟩ 2 true = some 15 := by
    intro y
    rw [wf.get_neighbor_eq (by decide) (by decide) (by decide) y 2 true (hn11 y)]
    decide
  have o13 : fsub 1 1 = 0 :=
    fsub_of _ _ 0 _ (by norm_num)
      round32_zero
  have hset : (⟨2097153 / 16777216, 4194305 / 16777216, 1⟩ : Vector3).set 2 (fsub 1 ((⟨0, 1, 1⟩ :
      Vector3).get 2)) =
      ⟨2097153 / 16777216, 4194305 / 16777216, 0⟩ := by
    have e : (⟨0, 1, 1⟩ : Vector3).get 2 = 1 := rfl
    rw [e, o13]
    rfl
  have hk15 : (trace_tree.1.m_nodes 15).m_children_id = Null := by
    decide
  have hq15 : trace_tree.1.node 15 = some (trace_tree.1.m_nodes 15) :=
    rfl
  refine ⟨?_, hadv, hface, hexit, ?_⟩
  · simp only [crossing, ascend_till_has_neighbor, descend_till_leaf_f32,
      Option.some_bind, Option.none_bind, ne_eq, OfNat.ofNat_ne_zero, one_ne_zero,
      not_false_eq_true, not_true_eq_false, if_true, if_false, Bool.not_true, Bool.not_false,
      Bool.false_eq_true, Nat.reduceMod, Option.map_some', Option.map_none',
      hface, hside, hexit, hn11, hg, hset, hk15, hq15]
  · have h1 : trace_tree.1.ascend_till_has_neighbor 2 true (n + 4) ⟨⟨2097153 / 16777216, 4194305 /
        16777216, 1⟩, 11⟩ =
        some ⟨⟨2097153 / 16777216, 4194305 / 16777216, 1⟩, 11⟩ := by
      simp only [ascend_till_has_neighbor,
        Option.some_bind, Option.none_bind, ne_eq, OfNat.ofNat_ne_zero, one_ne_zero,
        not_false_eq_true, not_true_eq_false, if_true, if_false, Bool.not_true, Bool.not_false,
        Bool.false_eq_true, Nat.reduceMod, Option.map_some', Option.map_none',
        hn11]
    have h2 : trace_tree.1.ascend_till_has_neighbor_calls 2 true (n + 4) ⟨⟨2097153 / 16777216,
        4194305 / 16777216, 1⟩, 11⟩ =
        [Call.has_neighbor ⟨⟨2097153 / 16777216, 4194305 / 16777216, 1⟩, 11⟩ 2 true] := by
      simp only [ascend_till_has_neighbor_calls,
        Option.some_bind, Option.none_bind, ne_eq, OfNat.ofNat_ne_zero, one_ne_zero,
        not_false_eq_true, not_true_eq_false, if_true, if_false, Bool.not_true, Bool.not_false,
        Bool.false_eq_true, Nat.reduceMod, Option.map_some', Option.map_none',
        hn11]
    have h3 : trace_tree.1.descend_till_leaf_calls (n + 4) ⟨⟨2097153 / 16777216, 4194305 /
        16777216, 0⟩, 15⟩ =
        [] := by
      simp only [descend_till_leaf_calls,
        Option.some_bind, Option.none_bind, ne_eq, OfNat.ofNat_ne_zero, one_ne_zero,
        not_false_eq_true, not_true_eq_false, if_true, if_false, Bool.not_true, Bool.not_false,
        Bool.false_eq_true, Nat.reduceMod, Option.map_some', Option.map_none',
        hk15, hq15]
    simp only [crossing_calls, List.cons_append, List.nil_append, List.append_nil,
      Option.some_bind, Option.none_bind, ne_eq, OfNat.ofNat_ne_zero, one_ne_zero,
      not_false_eq_true, not_true_eq_false, if_true, if_false, Bool.not_true, Bool.not_false,
      Bool.false_eq_true, Nat.reduceMod, Option.map_some', Option.map_none',
      hface, hside, hexit, h1, h2, hg, hset, h3]

/-- Call 3 of the trace along `trace_direction_reciprocal`. -/
theorem trace_reciprocal_call_3 (n k : Nat) :
    trace_tree.1.find_next_intersection (n + 4) ⟨-6379789 / 8388608, 4253193 / 8388608, 13610217
      / 33554432⟩ ⟨0, 1, 1⟩ true (k + 2) ⟨⟨4194305 / 8388608, 0, 3355443 / 4194304⟩, 11⟩ =
      some (false, ⟨⟨2097153 / 16777216, 4194305 / 16777216, 0⟩, 15⟩) := by
  exact find_next_intersection_of_false trace_tree.1 (n + 4) _ _ true _ _ (trace_reciprocal_crossing_3 n).1
    (by rw [(trace_reciprocal_crossing_3 n).2.1, round32_epsilon]; norm_num) (k + 1)

/-- Crossing 4 of the trace along `trace_direction_reciprocal`, evaluated in binary32. -/
theorem trace_reciprocal_crossing_4 (n : Nat) :
    trace_tree.1.crossing (n + 4) ⟨-6379789 / 8388608, 4253193 / 8388608, 13610217 / 33554432⟩
      ⟨0, 1, 1⟩ ⟨⟨2097153 / 16777216, 4194305 / 16777216, 0⟩, 15⟩ =
      some (false, ⟨⟨1, 2796203 / 4194304, 8947849 / 16777216⟩, 1⟩) ∧
    advance ⟨-6379789 / 8388608, 4253193 / 8388608, 13610217 / 33554432⟩ ⟨0, 1, 1⟩ ⟨⟨2097153 /
      16777216, 4194305 / 16777216, 0⟩, 15⟩ = 5514977 / 33554432 ∧
    exit_face ⟨-6379789 / 8388608, 4253193 / 8388608, 13610217 / 33554432⟩ ⟨0, 1, 1⟩ ⟨⟨2097153 /
      16777216, 4194305 / 16777216, 0⟩, 15⟩ = 0 ∧
    exit_location ⟨-6379789 / 8388608, 4253193 / 8388608, 13610217 / 33554432⟩ ⟨0, 1, 1⟩
      ⟨⟨2097153 / 16777216, 4194305 / 16777216, 0⟩, 15⟩ =
      ⟨⟨0, 5592407 / 16777216, 8947853 / 134217728⟩, 15⟩ ∧
    trace_tree.1.crossing_calls (n + 4) ⟨-6379789 / 8388608, 4253193 / 8388608, 13610217 /
      33554432⟩ ⟨0, 1, 1⟩ ⟨⟨2097153 / 16777216, 4194305 / 16777216, 0⟩, 15⟩ =
      [Call.has_neighbor ⟨⟨0, 5592407 / 16777216, 8947853 / 134217728⟩, 15⟩ 0 false,
        Call.ascend ⟨⟨0, 5592407 / 16777216, 8947853 / 134217728⟩, 15⟩,
        Call.has_neighbor ⟨⟨0, 2796203 / 4194304, 8947849 / 16777216⟩, 2⟩ 0 false,
        Call.get_neighbor ⟨⟨0, 2796203 / 4194304, 8947849 / 16777216⟩, 2⟩ 0 false,
        Call.has_neighbor ⟨⟨0, 2796203 / 4194304, 8947849 / 16777216⟩, 2⟩ 0 false] := by
  have wf := trace_tree_reachable.wellFormed
  have o1 : fsub 0 (2097153 / 16777216) = -2097153 / 16777216 :=
    fsub_of _ _ (-2097153 / 16777216) _ (by norm_num)
      (round32_of_neg _ _ (-3) (-8388612) (by norm_num) (by norm_num) (by norm_num) (by norm_num)
        (by norm_num) (by norm_num))
  have o2 : fsub 1 (4194305 / 16777216) = 12582911 / 16777216 :=
    fsub_of _ _ (12582911 / 16777216) _ (by norm_num)
      (round32_of_pos _ _ (-1) 12582911 (by norm_num) (by norm_num) (by norm_num) (by norm_num)
        (by norm_num) (by norm_num))
  have o3 : fsub 1 0 = 1 :=
    fsub_of _ _ 1 _ (by norm_num)
      (round32_of_pos _ _ 0 8388608 (by norm_num) (by norm_num) (by norm_num) (by norm_num)
        (by norm_num) (by norm_num))
  have o4 : fdiv (-2097153 / 16777216) (-6379789 / 8388608) = 5514977 / 33554432 :=
    fdiv_of _ _ (2097153 / 12759578) _ (by norm_num)
      (round32_of_pos _ _ (-3) 11029954 (by norm_num) (by norm_num) (by norm_num) (by norm_num)
        (by norm_num) (by norm_num))
  have o5 : fdiv (12582911 / 16777216) (4253193 / 8388608) = 6204345 / 4194304 :=
    fdiv_of _ _ (12582911 / 8506386) _ (by norm_num)
      (round32_of_pos _ _ 0 12408690 (by norm_num) (by norm_num) (by norm_num) (by norm_num)
        (by norm_num) (by norm_num))
  have o6 : fdiv 1 (13610217 / 33554432) = 323143 / 131072 :=
    fdiv_of _ _ (33554432 / 13610217) _ (by norm_num)
      (round32_of_pos _ _ 1 10340576 (by norm_num) (by norm_num) (by norm_num) (by norm_num)
        (by norm_num) (by norm_num))
  have hdist : exit_distances ⟨-6379789 / 8388608, 4253193 / 8388608, 13610217 / 33554432⟩ ⟨0, 1,
      1⟩ ⟨⟨2097153 / 16777216, 4194305 / 16777216, 0⟩, 15⟩ = ⟨5514977 / 33554432, 6204345 /
      4194304, 323143 / 131072⟩ := by
    simp only [exit_distances, Vector3.div32, Vector3.sub32, o1, o2, o3, o4, o5, o6]
  have hface : exit_face ⟨-6379789 / 8388608, 4253193 / 8388608, 13610217 / 33554432⟩ ⟨0, 1, 1⟩
      ⟨⟨2097153 / 16777216, 4194305 / 16777216, 0⟩, 15⟩ = 0 := by
    rw [exit_face, hdist]
    norm_num [min_index, Vector3.get]
  have hadv : advance ⟨-6379789 / 8388608, 4253193 / 8388608, 13610217 / 33554432⟩ ⟨0, 1, 1⟩
      ⟨⟨2097153 / 16777216, 4194305 / 16777216, 0⟩, 15⟩ = 5514977 / 33554432 := by
    rw [advance, hdist, hface]
    rfl
  have hside : exit_side ⟨-6379789 / 8388608, 4253193 / 8388608, 13610217 / 33554432⟩ ⟨0, 1, 1⟩
      ⟨⟨2097153 / 16777216, 4194305 / 16777216, 0⟩, 15⟩ = false := by
    rw [exit_side, hface]
    norm_num [Vector3.get]
  have o7 : fmul (5514977 / 33554432) (-6379789 / 8388608) = -2097153 / 16777216 :=
    fmul_of _ _ (-35184389599853 / 281474976710656) _ (by norm_num)
      (round32_of_neg _ _ (-3) (-8388612) (by norm_num) (by norm_num) (by norm_num) (by norm_num)
        (by norm_num) (by norm_num))
  have o8 : fmul (5514977 / 33554432) (4253193 / 8388608) = 11184817 / 134217728 :=
    fmul_of _ _ (23456261571561 / 281474976710656) _ (by norm_num)
      (round32_of_pos _ _ (-4) 11184817 (by norm_num) (by norm_num) (by norm_num) (by norm_num)
        (by norm_num) (by norm_num))
  have o9 : fmul (5514977 / 33554432) (13610217 / 33554432) = 8947853 / 134217728 :=
    fmul_of _ _ (75060033720009 / 1125899906842624) _ (by norm_num)
      (round32_of_pos _ _ (-4) 8947853 (by norm_num) (by norm_num) (by norm_num) (by norm_num)
        (by norm_num) (by norm_num))
  have o10 : fadd (2097153 / 16777216) (-2097153 / 16777216) = 0 :=
    fadd_of _ _ 0 _ (by norm_num)
      round32_zero
  have o11 : fadd (4194305 / 16777216) (11184817 / 134217728) = 5592407 / 16777216 :=
    fadd_of _ _ (44739257 / 134217728) _ (by norm_num)
      (round32_of_pos _ _ (-2) 11184814 (by norm_num) (by norm_num) (by norm_num) (by norm_num)
        (by norm_num) (by norm_num))
  have o12 : fadd 0 (8947853 / 134217728) = 8947853 / 134217728 :=
    fadd_of _ _ (8947853 / 134217728) _ (by norm_num)
      (round32_of_pos _ _ (-4) 8947853 (by norm_num) (by norm_num) (by norm_num) (by norm_num)
        (by norm_num) (by norm_num))
  have hexit : exit_location ⟨-6379789 / 8388608, 4253193 / 8388608, 13610217 / 33554432⟩ ⟨0, 1,
      1⟩ ⟨⟨2097153 / 16777216, 4194305 / 16777216, 0⟩, 15⟩ = ⟨⟨0, 5592407 / 16777216, 8947853 /
      134217728⟩, 15⟩ := by
    simp only [exit_location, hadv, Vector3.add32, Vector3.smul32, o7, o8, o9, o10, o11, o12]
  have hn15 : ∀ y, trace_tree.1.has_neighbor ⟨y, 15⟩ 0 false = some false := by
    intro y
    rw [wf.has_neighbor_octant_bit (by decide) (by decide)]
    decide
  have o13 : fadd (5592407 / 16777216) 1 = 2796203 / 2097152 :=
    fadd_of _ _ (22369623 / 16777216) _ (by norm_num)
      (round32_tie_pos _ _ 0 11184812 (by norm_num) (by norm_num) (by norm_num) (by norm_num)
        (by decide) (Or.inr (by norm_num)))
  have o14 : fadd (8947853 / 134217728) 1 = 8947849 / 8388608 :=
    fadd_of _ _ (143165581 / 134217728) _ (by norm_num)
      (round32_of_pos _ _ 0 8947849 (by norm_num) (by norm_num) (by norm_num) (by norm_num)
        (by norm_num) (by norm_num))
  have o15 : fmul (1 / 2) 0 = 0 :=
    fmul_of _ _ 0 _ (by norm_num)
      round32_zero
  have o16 : fmul (1 / 2) (2796203 / 2097152) = 2796203 / 4194304 :=
    fmul_of _ _ (2796203 / 4194304) _ (by norm_num)
      (round32_of_pos _ _ (-1) 11184812 (by norm_num) (by norm_num) (by norm_num) (by norm_num)
        (by norm_num) (by norm_num))
  have o17 : fmul (1 / 2) (8947849 / 8388608) = 8947849 / 16777216 :=
    fmul_of _ _ (8947849 / 16777216) _ (by norm_num)
      (round32_of_pos _ _ (-1) 8947849 (by norm_num) (by norm_num) (by norm_num) (by norm_num)
        (by norm_num) (by norm_num))
  have ha15 : trace_tree.1.ascend_f32 ⟨⟨0, 5592407 / 16777216, 8947853 / 134217728⟩, 15⟩ = some
      ⟨⟨0, 2796203 / 4194304, 8947849 / 16777216⟩, 2⟩ := by
    rw [wf.ascend_f32_allocated (by decide) (by decide) (by decide) _
      (by norm_num [is_saturated])]
    have e1 : (trace_tree.1.m_nodes 15).m_parent_id = 2 := by decide
    have e2 : (trace_tree.1.m_nodes 2).m_children_id = 9 := by decide
    rw [e1, e2]
    have e3 : ascend_coords_f32 (15 - 9) ⟨0, 5592407 / 16777216, 8947853 / 134217728⟩ =
        ⟨fmul (1 / 2) 0, fmul (1 / 2) (fadd (5592407 / 16777216) 1), fmul (1 / 2) (fadd (8947853
        / 134217728) 1)⟩ := rfl
    rw [e3]
    simp only [o13, o14, o15, o16, o17]
  have hn2 : ∀ y, trace_tree.1.has_neighbor ⟨y, 2⟩ 0 false = some true := by
    intro y
    rw [wf.has_neighbor_octant_bit (by decide) (by decide)]
    decide
  have hg : ∀ y, trace_tree.1.get_neighbor ⟨y, 2⟩ 0 false = some 1 := by
    intro y
    rw [wf.get_neighbor_eq (by decide) (by decide) (by decide) y 0 false (hn2 y)]
    decide
  have hset : (⟨0, 2796203 / 4194304, 8947849 / 16777216⟩ : Vector3).set 0 (fsub 1 ((⟨0, 1, 1⟩ :
      Vector3).get 0)) =
      ⟨1, 2796203 / 4194304, 8947849 / 16777216⟩ := by
    have e : (⟨0, 1, 1⟩ : Vector3).get 0 = 0 := rfl
    rw [e, o3]
    rfl
  have hk1 : (trace_tree.1.m_nodes 1).m_children_id = Null := by
    decide
  have hq1 : trace_tree.1.node 1 = some (trace_tree.1.m_nodes 1) :=
    rfl
  refine ⟨?_, hadv, hface, hexit, ?_⟩
  · simp only [crossing, ascend_till_has_neighbor, descend_till_leaf_f32,
      Option.some_bind, Option.none_bind, ne_eq, OfNat.ofNat_ne_zero, one_ne_zero,
      not_false_eq_true, not_true_eq_false, if_true, if_false, Bool.not_true, Bool.not_false,
      Bool.false_eq_true, Nat.reduceMod, Option.map_some', Option.map_none',
      hface, hside, hexit, hn15, ha15, hn2, hg, hset, hk1, hq1]
  · have h1 : trace_tree.1.ascend_till_has_neighbor 0 false (n + 4) ⟨⟨0, 5592407 / 16777216,
        8947853 / 134217728⟩, 15⟩ =
        some ⟨⟨0, 2796203 / 4194304, 8947849 / 16777216⟩, 2⟩ := by
      simp only [ascend_till_has_neighbor,
        Option.some_bind, Option.none_bind, ne_eq, OfNat.ofNat_ne_zero, one_ne_zero,
        not_false_eq_true, not_true_eq_false, if_true, if_false, Bool.not_true, Bool.not_false,
        Bool.false_eq_true, Nat.reduceMod, Option.map_some', Option.map_none',
        hn15, ha15, hn2]
    have h2 : trace_tree.1.ascend_till_has_neighbor_calls 0 false (n + 4) ⟨⟨0, 5592407 / 16777216,
        8947853 / 134217728⟩, 15⟩ =
        [Call.has_neighbor ⟨⟨0, 5592407 / 16777216, 8947853 / 134217728⟩, 15⟩ 0 false,
          Call.ascend ⟨⟨0, 5592407 / 16777216, 8947853 / 134217728⟩, 15⟩,
          Call.has_neighbor ⟨⟨0, 2796203 / 4194304, 8947849 / 16777216⟩, 2⟩ 0 false] := by
      simp only [ascend_till_has_neighbor_calls,
        Option.some_bind, Option.none_bind, ne_eq, OfNat.ofNat_ne_zero, one_ne_zero,
        not_false_eq_true, not_true_eq_false, if_true, if_false, Bool.not_true, Bool.not_false,
        Bool.false_eq_true, Nat.reduceMod, Option.map_some', Option.map_none',
        hn15, ha15, hn2]
    have h3 : trace_tree.1.descend_till_leaf_calls (n + 4) ⟨⟨1, 2796203 / 4194304, 8947849 /
        16777216⟩, 1⟩ =
        [] := by
      simp only [descend_till_leaf_calls,
        Option.some_bind, Option.none_bind, ne_eq, OfNat.ofNat_ne_zero, one_ne_zero,
        not_false_eq_true, not_true_eq_false, if_true, if_false, Bool.not_true, Bool.not_false,
        Bool.false_eq_true, Nat.reduceMod, Option.map_some', Option.map_none',
        hk1, hq1]
    simp only [crossing_calls, List.cons_append, List.nil_append, List.append_nil,
      Option.some_bind, Option.none_bind, ne_eq, OfNat.ofNat_ne_zero, one_ne_zero,
      not_false_eq_true, not_true_eq_false, if_true, if_false, Bool.not_true, Bool.not_false,
      Bool.false_eq_true, Nat.reduceMod, Option.map_some', Option.map_none',
      hface, hside, hexit, h1, h2, hg, hset, h3]

/-- Call 4 of the trace along `trace_direction_reciprocal`. -/
theorem trace_reciprocal_call_4 (n k : Nat) :
    trace_tree.1.find_next_intersection (n + 4) ⟨-6379789 / 8388608, 4253193 / 8388608, 13610217
      / 33554432⟩ ⟨0, 1, 1⟩ true (k + 2) ⟨⟨2097153 / 16777216, 4194305 / 16777216, 0⟩, 15⟩ =
      some (false, ⟨⟨1, 2796203 / 4194304, 8947849 / 16777216⟩, 1⟩) := by
  exact find_next_intersection_of_false trace_tree.1 (n + 4) _ _ true _ _ (trace_reciprocal_crossing_4 n).1
    (by rw [(trace_reciprocal_crossing_4 n).2.1, round32_epsilon]; norm_num) (k + 1)

/-- Crossing 5 of the trace along `trace_direction_reciprocal`, evaluated in binary32. -/
theorem trace_reciprocal_crossing_5 (n : Nat) :
    trace_tree.1.crossing (n + 4) ⟨-6379789 / 8388608, 4253193 / 8388608, 13610217 / 33554432⟩
      ⟨0, 1, 1⟩ ⟨⟨1, 2796203 / 4194304, 8947849 / 16777216⟩, 1⟩ =
      some (false, ⟨⟨1 / 4194304, 0, 1258291 / 2097152⟩, 30⟩) ∧
    advance ⟨-6379789 / 8388608, 4253193 / 8388608, 13610217 / 33554432⟩ ⟨0, 1, 1⟩ ⟨⟨1, 2796203 /
      4194304, 8947849 / 16777216⟩, 1⟩ = 11029945 / 16777216 ∧
    exit_face ⟨-6379789 / 8388608, 4253193 / 8388608, 13610217 / 33554432⟩ ⟨0, 1, 1⟩ ⟨⟨1, 2796203
      / 4194304, 8947849 / 16777216⟩, 1⟩ = 1 ∧
    exit_location ⟨-6379789 / 8388608, 4253193 / 8388608, 13610217 / 33554432⟩ ⟨0, 1, 1⟩ ⟨⟨1,
      2796203 / 4194304, 8947849 / 16777216⟩, 1⟩ =
      ⟨⟨4194305 / 8388608, 1, 3355443 / 4194304⟩, 1⟩ ∧
    trace_tree.1.crossing_calls (n + 4) ⟨-6379789 / 8388608, 4253193 / 8388608, 13610217 /
      33554432⟩ ⟨0, 1, 1⟩ ⟨⟨1, 2796203 / 4194304, 8947849 / 16777216⟩, 1⟩ =
      [Call.has_neighbor ⟨⟨4194305 / 8388608, 1, 3355443 / 4194304⟩, 1⟩ 1 true,
        Call.get_neighbor ⟨⟨4194305 / 8388608, 1, 3355443 / 4194304⟩, 1⟩ 1 true,
        Call.has_neighbor ⟨⟨4194305 / 8388608, 1, 3355443 / 4194304⟩, 1⟩ 1 true,
        Call.descend ⟨⟨4194305 / 8388608, 0, 3355443 / 4194304⟩, 3⟩] := by
  have wf := trace_tree_reachable.wellFormed
  have o1 : fsub 0 1 = -1 :=
    fsub_of _ _ (-1) _ (by norm_num)
      (round32_of_neg _ _ 0 (-8388608) (by norm_num) (by norm_num) (by norm_num) (by norm_num)
        (by norm_num) (by norm_num))
  have o2 : fsub 1 (2796203 / 4194304) = 1398101 / 4194304 :=
    fsub_of _ _ (1398101 / 4194304) _ (by norm_num)
      (round32_of_pos _ _ (-2) 11184808 (by norm_num) (by norm_num) (by norm_num) (by norm_num)
        (by norm_num) (by norm_num))
  have o3 : fsub 1 (8947849 / 16777216) = 7829367 / 16777216 :=
    fsub_of _ _ (7829367 / 16777216) _ (by norm_num)
      (round32_of_pos _ _ (-2) 15658734 (by norm_num) (by norm_num) (by norm_num) (by norm_num)
        (by norm_num) (by norm_num))
  have o4 : fdiv (-1) (-6379789 / 8388608) = 11029949 / 8388608 :=
    fdiv_of _ _ (8388608 / 6379789) _ (by norm_num)
      (round32_of_pos _ _ 0 11029949 (by norm_num) (by norm_num) (by norm_num) (by norm_num)
        (by norm_num) (by norm_num))
  have o5 : fdiv (1398101 / 4194304) (4253193 / 8388608) = 11029945 / 16777216 :=
    fdiv_of _ _ (2796202 / 4253193) _ (by norm_num)
      (round32_of_pos _ _ (-1) 11029945 (by norm_num) (by norm_num) (by norm_num) (by norm_num)
        (by norm_num) (by norm_num))
  have o6 : fdiv (7829367 / 16777216) (13610217 / 33554432) = 2412801 / 2097152 :=
    fdiv_of _ _ (307034 / 266867) _ (by norm_num)
      (round32_of_pos _ _ 0 9651204 (by norm_num) (by norm_num) (by norm_num) (by norm_num)
        (by norm_num) (by norm_num))
  have hdist : exit_distances ⟨-6379789 / 8388608, 4253193 / 8388608, 13610217 / 33554432⟩ ⟨0, 1,
      1⟩ ⟨⟨1, 2796203 / 4194304, 8947849 / 16777216⟩, 1⟩ = ⟨11029949 / 8388608, 11029945 /
      16777216, 2412801 / 2097152⟩ := by
    simp only [exit_distances, Vector3.div32, Vector3.sub32, o1, o2, o3, o4, o5, o6]
  have hface : exit_face ⟨-6379789 / 8388608, 4253193 / 8388608, 13610217 / 33554432⟩ ⟨0, 1, 1⟩
      ⟨⟨1, 2796203 / 4194304, 8947849 / 16777216⟩, 1⟩ = 1 := by
    rw [exit_face, hdist]
    norm_num [min_index, Vector3.get]
  have hadv : advance ⟨-6379789 / 8388608, 4253193 / 8388608, 13610217 / 33554432⟩ ⟨0, 1, 1⟩ ⟨⟨1,
      2796203 / 4194304, 8947849 / 16777216⟩, 1⟩ = 11029945 / 16777216 := by
    rw [advance, hdist, hface]
    rfl
  have hside : exit_side ⟨-6379789 / 8388608, 4253193 / 8388608, 13610217 / 33554432⟩ ⟨0, 1, 1⟩
      ⟨⟨1, 2796203 / 4194304, 8947849 / 16777216⟩, 1⟩ = true := by
    rw [exit_side, hface]
    norm_num [Vector3.get]
  have o7 : fmul (11029945 / 16777216) (-6379789 / 8388608) = -16777211 / 33554432 :=
    fmul_of _ _ (-70368721781605 / 140737488355328) _ (by norm_num)
      (round32_of_neg _ _ (-2) (-16777211) (by norm_num) (by norm_num) (by norm_num) (by norm_num)
        (by norm_num) (by norm_num))
  have o8 : fmul (11029945 / 16777216) (4253193 / 8388608) = 1398101 / 4194304 :=
    fmul_of _ _ (46912484864385 / 140737488355328) _ (by norm_num)
      (round32_of_pos _ _ (-2) 11184808 (by norm_num) (by norm_num) (by norm_num) (by norm_num)
        (by norm_num) (by norm_num))
  have o9 : fmul (11029945 / 16777216) (13610217 / 33554432) = 4473923 / 16777216 :=
    fmul_of _ _ (150119944948065 / 562949953421312) _ (by norm_num)
      (round32_of_pos _ _ (-2) 8947846 (by norm_num) (by norm_num) (by norm_num) (by norm_num)
        (by norm_num) (by norm_num))
  have o10 : fadd 1 (-16777211 / 33554432) = 4194305 / 8388608 :=
    fadd_of _ _ (16777221 / 33554432) _ (by norm_num)
      (round32_tie_pos _ _ (-1) 8388610 (by norm_num) (by norm_num) (by norm_num) (by norm_num)
        (by decide) (Or.inl (by norm_num)))
  have o11 : fadd (2796203 / 4194304) (1398101 / 4194304) = 1 :=
    fadd_of _ _ 1 _ (by norm_num)
      (round32_of_pos _ _ 0 8388608 (by norm_num) (by norm_num) (by norm_num) (by norm_num)
        (by norm_num) (by norm_num))
  have o12 : fadd (8947849 / 16777216) (4473923 / 16777216) = 3355443 / 4194304 :=
    fadd_of _ _ (3355443 / 4194304) _ (by norm_num)
      (round32_of_pos _ _ (-1) 13421772 (by norm_num) (by norm_num) (by norm_num) (by norm_num)
        (by norm_num) (by norm_num))
  have hexit : exit_location ⟨-6379789 / 8388608, 4253193 / 8388608, 13610217 / 33554432⟩ ⟨0, 1,
      1⟩ ⟨⟨1, 2796203 / 4194304, 8947849 / 16777216⟩, 1⟩ = ⟨⟨4194305 / 8388608, 1, 3355443 /
      4194304⟩, 1⟩ := by
    simp only [exit_location, hadv, Vector3.add32, Vector3.smul32, o7, o8, o9, o10, o11, o12]
  have hn1 : ∀ y, trace_tree.1.has_neighbor ⟨y, 1⟩ 1 true = some true := by
    intro y
    rw [wf.has_neighbor_octant_bit (by decide) (by decide)]
    decide
  have hg : ∀ y, trace_tree.1.get_neighbor ⟨y, 1⟩ 1 true = some 3 := by
    intro y
    rw [wf.get_neighbor_eq (by decide) (by decide) (by decide) y 1 true (hn1 y)]
    decide
  have o13 : fsub 1 1 = 0 :=
    fsub_of _ _ 0 _ (by norm_num)
      round32_zero
  have hset : (⟨4194305 / 8388608, 1, 3355443 / 4194304⟩ : Vector3).set 1 (fsub 1 ((⟨0, 1, 1⟩ :
      Vector3).get 1)) =
      ⟨4194305 / 8388608, 0, 3355443 / 4194304⟩ := by
    have e : (⟨0, 1, 1⟩ : Vector3).get 1 = 1 := rfl
    rw [e, o13]
    rfl
  have o14 : fsub (4194305 / 8388608) (1 / 2) = 1 / 8388608 :=
    fsub_of _ _ (1 / 8388608) _ (by norm_num)
      (round32_of_pos _ _ (-23) 8388608 (by norm_num) (by norm_num) (by norm_num) (by norm_num)
        (by norm_num) (by norm_num))
  have o15 : fsub (3355443 / 4194304) (1 / 2) = 1258291 / 4194304 :=
    fsub_of _ _ (1258291 / 4194304) _ (by norm_num)
      (round32_of_pos _ _ (-2) 10066328 (by norm_num) (by norm_num) (by norm_num) (by norm_num)
        (by norm_num) (by norm_num))
  have o16 : fmul 2 (1 / 8388608) = 1 / 4194304 :=
    fmul_of _ _ (1 / 4194304) _ (by norm_num)
      (round32_of_pos _ _ (-22) 8388608 (by norm_num) (by norm_num) (by norm_num) (by norm_num)
        (by norm_num) (by norm_num))
  have o17 : fmul 2 0 = 0 :=
    fmul_of _ _ 0 _ (by norm_num)
      round32_zero
  have o18 : fmul 2 (1258291 / 4194304) = 1258291 / 2097152 :=
    fmul_of _ _ (1258291 / 2097152) _ (by norm_num)
      (round32_of_pos _ _ (-1) 10066328 (by norm_num) (by norm_num) (by norm_num) (by norm_num)
        (by norm_num) (by norm_num))
  have hk3 : (trace_tree.1.m_nodes 3).m_children_id ≠ Null := by
    decide
  have hd3 : trace_tree.1.descend_f32 ⟨⟨4194305 / 8388608, 0, 3355443 / 4194304⟩, 3⟩ = some ⟨⟨1 /
      4194304, 0, 1258291 / 2097152⟩, 30⟩ := by
    rw [wf.descend_f32_allocated (by decide) (by decide) (by decide) _
      (by norm_num [is_saturated])]
    have e : (trace_tree.1.m_nodes 3).m_children_id = 25 := by decide
    have e1 : octant ⟨4194305 / 8388608, 0, 3355443 / 4194304⟩ = 5 := by norm_num [octant, upper]
    rw [e, e1]
    simp only [descend_coords_f32, if_pos (show (4194305 / 8388608 : ℚ) > 1 / 2 by norm_num),
        if_neg (show ¬ (0 : ℚ) > 1 / 2 by norm_num), if_pos (show (3355443 / 4194304 : ℚ) > 1 / 2
        by norm_num),
      o14, o15, o16, o17, o18]
  have hq3 : trace_tree.1.node 3 = some (trace_tree.1.m_nodes 3) :=
    rfl
  have hk30 : (trace_tree.1.m_nodes 30).m_children_id = Null := by
    decide
  have hq30 : trace_tree.1.node 30 = some (trace_tree.1.m_nodes 30) :=
    rfl
  refine ⟨?_, hadv, hface, hexit, ?_⟩
  · simp only [crossing, ascend_till_has_neighbor, descend_till_leaf_f32,
      Option.some_bind, Option.none_bind, ne_eq, OfNat.ofNat_ne_zero, one_ne_zero,
      not_false_eq_true, not_true_eq_false, if_true, if_false, Bool.not_true, Bool.not_false,
      Bool.false_eq_true, Nat.reduceMod, Option.map_some', Option.map_none',
      hface, hside, hexit, hn1, hg, hset, hk3, hd3, hq3, hk30, hq30]
  · have h1 : trace_tree.1.ascend_till_has_neighbor 1 true (n + 4) ⟨⟨4194305 / 8388608, 1, 3355443
        / 4194304⟩, 1⟩ =
        some ⟨⟨4194305 / 8388608, 1, 3355443 / 4194304⟩, 1⟩ := by
      simp only [ascend_till_has_neighbor,
        Option.some_bind, Option.none_bind, ne_eq, OfNat.ofNat_ne_zero, one_ne_zero,
        not_false_eq_true, not_true_eq_false, if_true, if_false, Bool.not_true, Bool.not_false,
        Bool.false_eq_true, Nat.reduceMod, Option.map_some', Option.map_none',
        hn1]
    have h2 : trace_tree.1.ascend_till_has_neighbor_calls 1 true (n + 4) ⟨⟨4194305 / 8388608, 1,
        3355443 / 4194304⟩, 1⟩ =
        [Call.has_neighbor ⟨⟨4194305 / 8388608, 1, 3355443 / 4194304⟩, 1⟩ 1 true] := by
      simp only [ascend_till_has_neighbor_calls,
        Option.some_bind, Option.none_bind, ne_eq, OfNat.ofNat_ne_zero, one_ne_zero,
        not_false_eq_true, not_true_eq_false, if_true, if_false, Bool.not_true, Bool.not_false,
        Bool.false_eq_true, Nat.reduceMod, Option.map_some', Option.map_none',
        hn1]
    have h3 : trace_tree.1.descend_till_leaf_calls (n + 4) ⟨⟨4194305 / 8388608, 0, 3355443 /
        4194304⟩, 3⟩ =
        [Call.descend ⟨⟨4194305 / 8388608, 0, 3355443 / 4194304⟩, 3⟩] := by
      simp only [descend_till_leaf_calls,
        Option.some_bind, Option.none_bind, ne_eq, OfNat.ofNat_ne_zero, one_ne_zero,
        not_false_eq_true, not_true_eq_false, if_true, if_false, Bool.not_true, Bool.not_false,
        Bool.false_eq_true, Nat.reduceMod, Option.map_some', Option.map_none',
        hk3, hd3, hq3, hk30, hq30]
    simp only [crossing_calls, List.cons_append, List.nil_append, List.append_nil,
      Option.some_bind, Option.none_bind, ne_eq, OfNat.ofNat_ne_zero, one_ne_zero,
      not_false_eq_true, not_true_eq_false, if_true, if_false, Bool.not_true, Bool.not_false,
      Bool.false_eq_true, Nat.reduceMod, Option.map_some', Option.map_none',
      hface, hside, hexit, h1, h2, hg, hset, h3]

/-- Call 5 of the trace along `trace_direction_reciprocal`. -/
theorem trace_reciprocal_call_5 (n k : Nat) :
    trace_tree.1.find_next_intersection (n + 4) ⟨-6379789 / 8388608, 4253193 / 8388608, 13610217
      / 33554432⟩ ⟨0, 1, 1⟩ true (k + 2) ⟨⟨1, 2796203 / 4194304, 8947849 / 16777216⟩, 1⟩ =
      some (false, ⟨⟨1 / 4194304, 0, 1258291 / 2097152⟩, 30⟩) := by
  exact find_next_intersection_of_false trace_tree.1 (n + 4) _ _ true _ _ (trace_reciprocal_crossing_5 n).1
    (by rw [(trace_reciprocal_crossing_5 n).2.1, round32_epsilon]; norm_num) (k + 1)

/-- Crossing 6 of the trace along `trace_direction_reciprocal`, evaluated in binary32. -/
theorem trace_reciprocal_crossing_6 (n : Nat) :
    trace_tree.1.crossing (n + 4) ⟨-6379789 / 8388608, 4253193 / 8388608, 13610217 / 33554432⟩
      ⟨0, 1, 1⟩ ⟨⟨1 / 4194304, 0, 1258291 / 2097152⟩, 30⟩ =
      some (false, ⟨⟨1, 2796203 / 17592186044416, 5033165 / 8388608⟩, 29⟩) ∧
    advance ⟨-6379789 / 8388608, 4253193 / 8388608, 13610217 / 33554432⟩ ⟨0, 1, 1⟩ ⟨⟨1 / 4194304,
      0, 1258291 / 2097152⟩, 30⟩ = 11029949 / 35184372088832 ∧
    exit_face ⟨-6379789 / 8388608, 4253193 / 8388608, 13610217 / 33554432⟩ ⟨0, 1, 1⟩ ⟨⟨1 /
      4194304, 0, 1258291 / 2097152⟩, 30⟩ = 0 ∧
    exit_location ⟨-6379789 / 8388608, 4253193 / 8388608, 13610217 / 33554432⟩ ⟨0, 1, 1⟩ ⟨⟨1 /
      4194304, 0, 1258291 / 2097152⟩, 30⟩ =
      ⟨⟨0, 2796203 / 17592186044416, 5033165 / 8388608⟩, 30⟩ ∧
    trace_tree.1.crossing_calls (n + 4) ⟨-6379789 / 8388608, 4253193 / 8388608, 13610217 /
      33554432⟩ ⟨0, 1, 1⟩ ⟨⟨1 / 4194304, 0, 1258291 / 2097152⟩, 30⟩ =
      [Call.has_neighbor ⟨⟨0, 2796203 / 17592186044416, 5033165 / 8388608⟩, 30⟩ 0 false,
        Call.get_neighbor ⟨⟨0, 2796203 / 17592186044416, 5033165 / 8388608⟩, 30⟩ 0 false,
        Call.has_neighbor ⟨⟨0, 2796203 / 17592186044416, 5033165 / 8388608⟩, 30⟩ 0 false] := by
  have wf := trace_tree_reachable.wellFormed
  have o1 : fsub 0 (1 / 4194304) = -1 / 4194304 :=
    fsub_of _ _ (-1 / 4194304) _ (by norm_num)
      (round32_of_neg _ _ (-22) (-8388608) (by norm_num) (by norm_num) (by norm_num) (by norm_num)
        (by norm_num) (by norm_num))
  have o2 : fsub 1 0 = 1 :=
    fsub_of _ _ 1 _ (by norm_num)
      (round32_of_pos _ _ 0 8388608 (by norm_num) (by norm_num) (by norm_num) (by norm_num)
        (by norm_num) (by norm_num))
  have o3 : fsub 1 (1258291 / 2097152) = 838861 / 2097152 :=
    fsub_of _ _ (838861 / 2097152) _ (by norm_num)
      (round32_of_pos _ _ (-2) 13421776 (by norm_num) (by norm_num) (by norm_num) (by norm_num)
        (by norm_num) (by norm_num))
  have o4 : fdiv (-1 / 4194304) (-6379789 / 8388608) = 11029949 / 35184372088832 :=
    fdiv_of _ _ (2 / 6379789) _ (by norm_num)
      (round32_of_pos _ _ (-22) 11029949 (by norm_num) (by norm_num) (by norm_num) (by norm_num)
        (by norm_num) (by norm_num))
  have o5 : fdiv 1 (4253193 / 8388608) = 16544921 / 8388608 :=
    fdiv_of _ _ (8388608 / 4253193) _ (by norm_num)
      (round32_of_pos _ _ 0 16544921 (by norm_num) (by norm_num) (by norm_num) (by norm_num)
        (by norm_num) (by norm_num))
  have o6 : fdiv (838861 / 2097152) (13610217 / 33554432) = 8272463 / 8388608 :=
    fdiv_of _ _ (13421776 / 13610217) _ (by norm_num)
      (round32_of_pos _ _ (-1) 16544926 (by norm_num) (by norm_num) (by norm_num) (by norm_num)
        (by norm_num) (by norm_num))
  have hdist : exit_distances ⟨-6379789 / 8388608, 4253193 / 8388608, 13610217 / 33554432⟩ ⟨0, 1,
      1⟩ ⟨⟨1 / 4194304, 0, 1258291 / 2097152⟩, 30⟩ = ⟨11029949 / 35184372088832, 16544921 /
      8388608, 8272463 / 8388608⟩ := by
    simp only [exit_distances, Vector3.div32, Vector3.sub32, o1, o2, o3, o4, o5, o6]
  have hface : exit_face ⟨-6379789 / 8388608, 4253193 / 8388608, 13610217 / 33554432⟩ ⟨0, 1, 1⟩
      ⟨⟨1 / 4194304, 0, 1258291 / 2097152⟩, 30⟩ = 0 := by
    rw [exit_face, hdist]
    norm_num [min_index, Vector3.get]
  have hadv : advance ⟨-6379789 / 8388608, 4253193 / 8388608, 13610217 / 33554432⟩ ⟨0, 1, 1⟩ ⟨⟨1
      / 4194304, 0, 1258291 / 2097152⟩, 30⟩ = 11029949 / 35184372088832 := by
    rw [advance, hdist, hface]
    rfl
  have hside : exit_side ⟨-6379789 / 8388608, 4253193 / 8388608, 13610217 / 33554432⟩ ⟨0, 1, 1⟩
      ⟨⟨1 / 4194304, 0, 1258291 / 2097152⟩, 30⟩ = false := by
    rw [exit_side, hface]
    norm_num [Vector3.get]
  have o7 : fmul (11029949 / 35184372088832) (-6379789 / 8388608) = -1 / 4194304 :=
    fmul_of _ _ (-70368747300761 / 295147905179352825856) _ (by norm_num)
      (round32_of_neg _ _ (-22) (-8388608) (by norm_num) (by norm_num) (by norm_num) (by norm_num)
        (by norm_num) (by norm_num))
  have o8 : fmul (11029949 / 35184372088832) (4253193 / 8388608) = 2796203 / 17592186044416 :=
    fmul_of _ _ (46912501877157 / 295147905179352825856) _ (by norm_num)
      (round32_of_pos _ _ (-23) 11184812 (by norm_num) (by norm_num) (by norm_num) (by norm_num)
        (by norm_num) (by norm_num))
  have o9 : fmul (11029949 / 35184372088832) (13610217 / 33554432) = 8947849 / 70368744177664 :=
    fmul_of _ _ (150119999388933 / 1180591620717411303424) _ (by norm_num)
      (round32_of_pos _ _ (-23) 8947849 (by norm_num) (by norm_num) (by norm_num) (by norm_num)
        (by norm_num) (by norm_num))
  have o10 : fadd (1 / 4194304) (-1 / 4194304) = 0 :=
    fadd_of _ _ 0 _ (by norm_num)
      round32_zero
  have o11 : fadd 0 (2796203 / 17592186044416) = 2796203 / 17592186044416 :=
    fadd_of _ _ (2796203 / 17592186044416) _ (by norm_num)
      (round32_of_pos _ _ (-23) 11184812 (by norm_num) (by norm_num) (by norm_num) (by norm_num)
        (by norm_num) (by norm_num))
  have o12 : fadd (1258291 / 2097152) (8947849 / 70368744177664) = 5033165 / 8388608 :=
    fadd_of _ _ (42221248743561 / 70368744177664) _ (by norm_num)
      (round32_of_pos _ _ (-1) 10066330 (by norm_num) (by norm_num) (by norm_num) (by norm_num)
        (by norm_num) (by norm_num))
  have hexit : exit_location ⟨-6379789 / 8388608, 4253193 / 8388608, 13610217 / 33554432⟩ ⟨0, 1,
      1⟩ ⟨⟨1 / 4194304, 0, 1258291 / 2097152⟩, 30⟩ = ⟨⟨0, 2796203 / 17592186044416, 5033165 /
      8388608⟩, 30⟩ := by
    simp only [exit_location, hadv, Vector3.add32, Vector3.smul32, o7, o8, o9, o10, o11, o12]
  have hn30 : ∀ y, trace_tree.1.has_neighbor ⟨y, 30⟩ 0 false = some true := by
    intro y
    rw [wf.has_neighbor_octant_bit (by decide) (by decide)]
    decide
  have hg : ∀ y, trace_tree.1.get_neighbor ⟨y, 30⟩ 0 false = some 29 := by
    intro y
    rw [wf.get_neighbor_eq (by decide) (by decide) (by decide) y 0 false (hn30 y)]
    decide
  have hset : (⟨0, 2796203 / 17592186044416, 5033165 / 8388608⟩ : Vector3).set 0 (fsub 1 ((⟨0, 1,
      1⟩ : Vector3).get 0)) =
      ⟨1, 2796203 / 17592186044416, 5033165 / 8388608⟩ := by
    have e : (⟨0, 1, 1⟩ : Vector3).get 0 = 0 := rfl
    rw [e, o2]
    rfl
  have hk29 : (trace_tree.1.m_nodes 29).m_children_id = Null := by
    decide
  have hq29 : trace_tree.1.node 29 = some (trace_tree.1.m_nodes 29) :=
    rfl
  refine ⟨?_, hadv, hface, hexit, ?_⟩
  · simp only [crossing, ascend_till_has_neighbor, descend_till_leaf_f32,
      Option.some_bind, Option.none_bind, ne_eq, OfNat.ofNat_ne_zero, one_ne_zero,
      not_false_eq_true, not_true_eq_false, if_true, if_false, Bool.not_true, Bool.not_false,
      Bool.false_eq_true, Nat.reduceMod, Option.map_some', Option.map_none',
      hface, hside, hexit, hn30, hg, hset, hk29, hq29]
  · have h1 : trace_tree.1.ascend_till_has_neighbor 0 false (n + 4) ⟨⟨0, 2796203 / 17592186044416,
        5033165 / 8388608⟩, 30⟩ =
        some ⟨⟨0, 2796203 / 17592186044416, 5033165 / 8388608⟩, 30⟩ := by
      simp only [ascend_till_has_neighbor,
        Option.some_bind, Option.none_bind, ne_eq, OfNat.ofNat_ne_zero, one_ne_zero,
        not_false_eq_true, not_true_eq_false, if_true, if_false, Bool.not_true, Bool.not_false,
        Bool.false_eq_true, Nat.reduceMod, Option.map_some', Option.map_none',
        hn30]
    have h2 : trace_tree.1.ascend_till_has_neighbor_calls 0 false (n + 4) ⟨⟨0, 2796203 /
        17592186044416, 5033165 / 8388608⟩, 30⟩ =
        [Call.has_neighbor ⟨⟨0, 2796203 / 17592186044416, 5033165 / 8388608⟩, 30⟩ 0 false] := by
      simp only [ascend_till_has_neighbor_calls,
        Option.some_bind, Option.none_bind, ne_eq, OfNat.ofNat_ne_zero, one_ne_zero,
        not_false_eq_true, not_true_eq_false, if_true, if_false, Bool.not_true, Bool.not_false,
        Bool.false_eq_true, Nat.reduceMod, Option.map_some', Option.map_none',
        hn30]
    have h3 : trace_tree.1.descend_till_leaf_calls (n + 4) ⟨⟨1, 2796203 / 17592186044416, 5033165 /
        8388608⟩, 29⟩ =
        [] := by
      simp only [descend_till_leaf_calls,
        Option.some_bind, Option.none_bind, ne_eq, OfNat.ofNat_ne_zero, one_ne_zero,
        not_false_eq_true, not_true_eq_false, if_true, if_false, Bool.not_true, Bool.not_false,
        Bool.false_eq_true, Nat.reduceMod, Option.map_some', Option.map_none',
        hk29, hq29]
    simp only [crossing_calls, List.cons_append, List.nil_append, List.append_nil,
      Option.some_bind, Option.none_bind, ne_eq, OfNat.ofNat_ne_zero, one_ne_zero,
      not_false_eq_true, not_true_eq_false, if_true, if_false, Bool.not_true, Bool.not_false,
      Bool.false_eq_true, Nat.reduceMod, Option.map_some', Option.map_none',
      hface, hside, hexit, h1, h2, hg, hset, h3]

/-- Crossing 7 of the trace along `trace_direction_reciprocal`, evaluated in binary32. -/
theorem trace_reciprocal_crossing_7 (n : Nat) :
    trace_tree.1.crossing (n + 4) ⟨-6379789 / 8388608, 4253193 / 8388608, 13610217 / 33554432⟩
      ⟨0, 1, 1⟩ ⟨⟨1, 2796203 / 17592186044416, 5033165 / 8388608⟩, 29⟩ =
      some (false, ⟨⟨4194305 / 33554432, 8388611 / 33554432, 0⟩, 7⟩) ∧
    advance ⟨-6379789 / 8388608, 4253193 / 8388608, 13610217 / 33554432⟩ ⟨0, 1, 1⟩ ⟨⟨1, 2796203 /
      17592186044416, 5033165 / 8388608⟩, 29⟩ = 16544921 / 16777216 ∧
    exit_face ⟨-6379789 / 8388608, 4253193 / 8388608, 13610217 / 33554432⟩ ⟨0, 1, 1⟩ ⟨⟨1, 2796203
      / 17592186044416, 5033165 / 8388608⟩, 29⟩ = 2 ∧
    exit_location ⟨-6379789 / 8388608, 4253193 / 8388608, 13610217 / 33554432⟩ ⟨0, 1, 1⟩ ⟨⟨1,
      2796203 / 17592186044416, 5033165 / 8388608⟩, 29⟩ =
      ⟨⟨4194305 / 16777216, 8388611 / 16777216, 1⟩, 29⟩ ∧
    trace_tree.1.crossing_calls (n + 4) ⟨-6379789 / 8388608, 4253193 / 8388608, 13610217 /
      33554432⟩ ⟨0, 1, 1⟩ ⟨⟨1, 2796203 / 17592186044416, 5033165 / 8388608⟩, 29⟩ =
      [Call.has_neighbor ⟨⟨4194305 / 16777216, 8388611 / 16777216, 1⟩, 29⟩ 2 true,
        Call.ascend ⟨⟨4194305 / 16777216, 8388611 / 16777216, 1⟩, 29⟩,
        Call.has_neighbor ⟨⟨4194305 / 33554432, 8388611 / 33554432, 1⟩, 3⟩ 2 true,
        Call.get_neighbor ⟨⟨4194305 / 33554432, 8388611 / 33554432, 1⟩, 3⟩ 2 true,
        Call.has_neighbor ⟨⟨4194305 / 33554432, 8388611 / 33554432, 1⟩, 3⟩ 2 true] := by
  have wf := trace_tree_reachable.wellFormed
  have o1 : fsub 0 1 = -1 :=
    fsub_of _ _ (-1) _ (by norm_num)
      (round32_of_neg _ _ 0 (-8388608) (by norm_num) (by norm_num) (by norm_num) (by norm_num)
        (by norm_num) (by norm_num))
  have o2 : fsub 1 (2796203 / 17592186044416) = 16777213 / 16777216 :=
    fsub_of _ _ (17592183248213 / 17592186044416) _ (by norm_num)
      (round32_of_pos _ _ (-1) 16777213 (by norm_num) (by norm_num) (by norm_num) (by norm_num)
        (by norm_num) (by norm_num))
  have o3 : fsub 1 (5033165 / 8388608) = 3355443 / 8388608 :=
    fsub_of _ _ (3355443 / 8388608) _ (by norm_num)
      (round32_of_pos _ _ (-2) 13421772 (by norm_num) (by norm_num) (by norm_num) (by norm_num)
        (by norm_num) (by norm_num))
  have o4 : fdiv (-1) (-6379789 / 8388608) = 11029949 / 8388608 :=
    fdiv_of _ _ (8388608 / 6379789) _ (by norm_num)
      (round32_of_pos _ _ 0 11029949 (by norm_num) (by norm_num) (by norm_num) (by norm_num)
        (by norm_num) (by norm_num))
  have o5 : fdiv (16777213 / 16777216) (4253193 / 8388608) = 16544919 / 8388608 :=
    fdiv_of _ _ (16777213 / 8506386) _ (by norm_num)
      (round32_of_pos _ _ 0 16544919 (by norm_num) (by norm_num) (by norm_num) (by norm_num)
        (by norm_num) (by norm_num))
  have o6 : fdiv (3355443 / 8388608) (13610217 / 33554432) = 16544921 / 16777216 :=
    fdiv_of _ _ (263172 / 266867) _ (by norm_num)
      (round32_of_pos _ _ (-1) 16544921 (by norm_num) (by norm_num) (by norm_num) (by norm_num)
        (by norm_num) (by norm_num))
  have hdist : exit_distances ⟨-6379789 / 8388608, 4253193 / 8388608, 13610217 / 33554432⟩ ⟨0, 1,
      1⟩ ⟨⟨1, 2796203 / 17592186044416, 5033165 / 8388608⟩, 29⟩ = ⟨11029949 / 8388608, 16544919 /
      8388608, 16544921 / 16777216⟩ := by
    simp only [exit_distances, Vector3.div32, Vector3.sub32, o1, o2, o3, o4, o5, o6]
  have hface : exit_face ⟨-6379789 / 8388608, 4253193 / 8388608, 13610217 / 33554432⟩ ⟨0, 1, 1⟩
      ⟨⟨1, 2796203 / 17592186044416, 5033165 / 8388608⟩, 29⟩ = 2 := by
    rw [exit_face, hdist]
    norm_num [min_index, Vector3.get]
  have hadv : advance ⟨-6379789 / 8388608, 4253193 / 8388608, 13610217 / 33554432⟩ ⟨0, 1, 1⟩ ⟨⟨1,
      2796203 / 17592186044416, 5033165 / 8388608⟩, 29⟩ = 16544921 / 16777216 := by
    rw [advance, hdist, hface]
    rfl
  have hside : exit_side ⟨-6379789 / 8388608, 4253193 / 8388608, 13610217 / 33554432⟩ ⟨0, 1, 1⟩
      ⟨⟨1, 2796203 / 17592186044416, 5033165 / 8388608⟩, 29⟩ = true := by
    rw [exit_side, hface]
    norm_num [Vector3.get]
  have o7 : fmul (16544921 / 16777216) (-6379789 / 8388608) = -12582911 / 16777216 :=
    fmul_of _ _ (-105553105001669 / 140737488355328) _ (by norm_num)
      (round32_of_neg _ _ (-1) (-12582911) (by norm_num) (by norm_num) (by norm_num) (by norm_num)
        (by norm_num) (by norm_num))
  have o8 : fmul (16544921 / 16777216) (4253193 / 8388608) = 1 / 2 :=
    fmul_of _ _ (70368742182753 / 140737488355328) _ (by norm_num)
      (round32_of_pos _ _ (-2) 16777216 (by norm_num) (by norm_num) (by norm_num) (by norm_num)
        (by norm_num) (by norm_num))
  have o9 : fmul (16544921 / 16777216) (13610217 / 33554432) = 3355443 / 8388608 :=
    fmul_of _ _ (225179965057857 / 562949953421312) _ (by norm_num)
      (round32_of_pos _ _ (-2) 13421772 (by norm_num) (by norm_num) (by norm_num) (by norm_num)
        (by norm_num) (by norm_num))
  have o10 : fadd 1 (-12582911 / 16777216) = 4194305 / 16777216 :=
    fadd_of _ _ (4194305 / 16777216) _ (by norm_num)
      (round32_of_pos _ _ (-2) 8388610 (by norm_num) (by norm_num) (by norm_num) (by norm_num)
        (by norm_num) (by norm_num))
  have o11 : fadd (2796203 / 17592186044416) (1 / 2) = 8388611 / 16777216 :=
    fadd_of _ _ (8796095818411 / 17592186044416) _ (by norm_num)
      (round32_of_pos _ _ (-1) 8388611 (by norm_num) (by norm_num) (by norm_num) (by norm_num)
        (by norm_num) (by norm_num))
  have o12 : fadd (5033165 / 8388608) (3355443 / 8388608) = 1 :=
    fadd_of _ _ 1 _ (by norm_num)
      (round32_of_pos _ _ 0 8388608 (by norm_num) (by norm_num) (by norm_num) (by norm_num)
        (by norm_num) (by norm_num))
  have hexit : exit_location ⟨-6379789 / 8388608, 4253193 / 8388608, 13610217 / 33554432⟩ ⟨0, 1,
      1⟩ ⟨⟨1, 2796203 / 17592186044416, 5033165 / 8388608⟩, 29⟩ = ⟨⟨4194305 / 16777216, 8388611 /
      16777216, 1⟩, 29⟩ := by
    simp only [exit_location, hadv, Vector3.add32, Vector3.smul32, o7, o8, o9, o10, o11, o12]
  have hn29 : ∀ y, trace_tree.1.has_neighbor ⟨y, 29⟩ 2 true = some false := by
    intro y
    rw [wf.has_neighbor_octant_bit (by decide) (by decide)]
    decide
  have o13 : fadd 1 1 = 2 :=
    fadd_of _ _ 2 _ (by norm_num)
      (round32_of_pos _ _ 1 8388608 (by norm_num) (by norm_num) (by norm_num) (by norm_num)
        (by norm_num) (by norm_num))
  have o14 : fmul (1 / 2) (4194305 / 16777216) = 4194305 / 33554432 :=
    fmul_of _ _ (4194305 / 33554432) _ (by norm_num)
      (round32_of_pos _ _ (-3) 8388610 (by norm_num) (by norm_num) (by norm_num) (by norm_num)
        (by norm_num) (by norm_num))
  have o15 : fmul (1 / 2) (8388611 / 16777216) = 8388611 / 33554432 :=
    fmul_of _ _ (8388611 / 33554432) _ (by norm_num)
      (round32_of_pos _ _ (-2) 8388611 (by norm_num) (by norm_num) (by norm_num) (by norm_num)
        (by norm_num) (by norm_num))
  have o16 : fmul (1 / 2) 2 = 1 :=
    fmul_of _ _ 1 _ (by norm_num)
      (round32_of_pos _ _ 0 8388608 (by norm_num) (by norm_num) (by norm_num) (by norm_num)
        (by norm_num) (by norm_num))
  have ha29 : trace_tree.1.ascend_f32 ⟨⟨4194305 / 16777216, 8388611 / 16777216, 1⟩, 29⟩ = some
      ⟨⟨4194305 / 33554432, 8388611 / 33554432, 1⟩, 3⟩ := by
    rw [wf.ascend_f32_allocated (by decide) (by decide) (by decide) _
      (by norm_num [is_saturated])]
    have e1 : (trace_tree.1.m_nodes 29).m_parent_id = 3 := by decide
    have e2 : (trace_tree.1.m_nodes 3).m_children_id = 25 := by decide
    rw [e1, e2]
    have e3 : ascend_coords_f32 (29 - 25) ⟨4194305 / 16777216, 8388611 / 16777216, 1⟩ =
        ⟨fmul (1 / 2) (4194305 / 16777216), fmul (1 / 2) (8388611 / 16777216), fmul (1 / 2) (fadd
        1 1)⟩ := rfl
    rw [e3]
    simp only [o13, o14, o15, o16]
  have hn3 : ∀ y, trace_tree.1.has_neighbor ⟨y, 3⟩ 2 true = some true := by
    intro y
    rw [wf.has_neighbor_octant_bit (by decide) (by decide)]
    decide
  have hg : ∀ y, trace_tree.1.get_neighbor ⟨y, 3⟩ 2 true = some 7 := by
    intro y
    rw [wf.get_neighbor_eq (by decide) (by decide) (by decide) y 2 true (hn3 y)]
    decide
  have o17 : fsub 1 1 = 0 :=
    fsub_of _ _ 0 _ (by norm_num)
      round32_zero
  have hset : (⟨4194305 / 33554432, 8388611 / 33554432, 1⟩ : Vector3).set 2 (fsub 1 ((⟨0, 1, 1⟩ :
      Vector3).get 2)) =
      ⟨4194305 / 33554432, 8388611 / 33554432, 0⟩ := by
    have e : (⟨0, 1, 1⟩ : Vector3).get 2 = 1 := rfl
    rw [e, o17]
    rfl
  have hk7 : (trace_tree.1.m_nodes 7).m_children_id = Null := by
    decide
  have hq7 : trace_tree.1.node 7 = some (trace_tree.1.m_nodes 7) :=
    rfl
  refine ⟨?_, hadv, hface, hexit, ?_⟩
  · simp only [crossing, ascend_till_has_neighbor, descend_till_leaf_f32,
      Option.some_bind, Option.none_bind, ne_eq, OfNat.ofNat_ne_zero, one_ne_zero,
      not_false_eq_true, not_true_eq_false, if_true, if_false, Bool.not_true, Bool.not_false,
      Bool.false_eq_true, Nat.reduceMod, Option.map_some', Option.map_none',
      hface, hside, hexit, hn29, ha29, hn3, hg, hset, hk7, hq7]
  · have h1 : trace_tree.1.ascend_till_has_neighbor 2 true (n + 4) ⟨⟨4194305 / 16777216, 8388611 /
        16777216, 1⟩, 29⟩ =
        some ⟨⟨4194305 / 33554432, 8388611 / 33554432, 1⟩, 3⟩ := by
      simp only [ascend_till_has_neighbor,
        Option.some_bind, Option.none_bind, ne_eq, OfNat.ofNat_ne_zero, one_ne_zero,
        not_false_eq_true, not_true_eq_false, if_true, if_false, Bool.not_true, Bool.not_false,
        Bool.false_eq_true, Nat.reduceMod, Option.map_some', Option.map_none',
        hn29, ha29, hn3]
    have h2 : trace_tree.1.ascend_till_has_neighbor_calls 2 true (n + 4) ⟨⟨4194305 / 16777216,
        8388611 / 16777216, 1⟩, 29⟩ =
        [Call.has_neighbor ⟨⟨4194305 / 16777216, 8388611 / 16777216, 1⟩, 29⟩ 2 true,
          Call.ascend ⟨⟨4194305 / 16777216, 8388611 / 16777216, 1⟩, 29⟩,
          Call.has_neighbor ⟨⟨4194305 / 33554432, 8388611 / 33554432, 1⟩, 3⟩ 2 true] := by
      simp only [ascend_till_has_neighbor_calls,
        Option.some_bind, Option.none_bind, ne_eq, OfNat.ofNat_ne_zero, one_ne_zero,
        not_false_eq_true, not_true_eq_false, if_true, if_false, Bool.not_true, Bool.not_false,
        Bool.false_eq_true, Nat.reduceMod, Option.map_some', Option.map_none',
        hn29, ha29, hn3]
    have h3 : trace_tree.1.descend_till_leaf_calls (n + 4) ⟨⟨4194305 / 33554432, 8388611 /
        33554432, 0⟩, 7⟩ =
        [] := by
      simp only [descend_till_leaf_calls,
        Option.some_bind, Option.none_bind, ne_eq, OfNat.ofNat_ne_zero, one_ne_zero,
        not_false_eq_true, not_true_eq_false, if_true, if_false, Bool.not_true, Bool.not_false,
        Bool.false_eq_true, Nat.reduceMod, Option.map_some', Option.map_none',
        hk7, hq7]
    simp only [crossing_calls, List.cons_append, List.nil_append, List.append_nil,
      Option.some_bind, Option.none_bind, ne_eq, OfNat.ofNat_ne_zero, one_ne_zero,
      not_false_eq_true, not_true_eq_false, if_true, if_false, Bool.not_true, Bool.not_false,
      Bool.false_eq_true, Nat.reduceMod, Option.map_some', Option.map_none',
      hface, hside, hexit, h1, h2, hg, hset, h3]

/-- Call 6 of the trace along `trace_direction_reciprocal`. -/
theorem trace_reciprocal_call_6 (n k : Nat) :
    trace_tree.1.find_next_intersection (n + 4) ⟨-6379789 / 8388608, 4253193 / 8388608, 13610217
      / 33554432⟩ ⟨0, 1, 1⟩ true (k + 2) ⟨⟨1 / 4194304, 0, 1258291 / 2097152⟩, 30⟩ =
      some (false, ⟨⟨4194305 / 33554432, 8388611 / 33554432, 0⟩, 7⟩) := by
  refine (find_next_intersection_aliased_degenerate trace_tree.1 (n + 4) _ _ _ _ (trace_reciprocal_crossing_6 n).1
    (by rw [(trace_reciprocal_crossing_6 n).2.1, round32_epsilon]; norm_num) (k + 1)).trans ?_
  exact find_next_intersection_of_false trace_tree.1 (n + 4) _ _ true _ _ (trace_reciprocal_crossing_7 n).1
    (by rw [(trace_reciprocal_crossing_7 n).2.1, round32_epsilon]; norm_num) (k)

/-- Crossing 8 of the trace along `trace_direction_reciprocal`, evaluated in binary32. -/
theorem trace_reciprocal_crossing_8 (n : Nat) :
    trace_tree.1.crossing (n + 4) ⟨-6379789 / 8388608, 4253193 / 8388608, 13610217 / 33554432⟩
      ⟨0, 1, 1⟩ ⟨⟨4194305 / 33554432, 8388611 / 33554432, 0⟩, 7⟩ =
      some (true, ⟨⟨0, 2796203 / 4194304, 8947849 / 16777216⟩, 0⟩) ∧
    advance ⟨-6379789 / 8388608, 4253193 / 8388608, 13610217 / 33554432⟩ ⟨0, 1, 1⟩ ⟨⟨4194305 /
      33554432, 8388611 / 33554432, 0⟩, 7⟩ = 11029951 / 67108864 ∧
    exit_face ⟨-6379789 / 8388608, 4253193 / 8388608, 13610217 / 33554432⟩ ⟨0, 1, 1⟩ ⟨⟨4194305 /
      33554432, 8388611 / 33554432, 0⟩, 7⟩ = 0 ∧
    exit_location ⟨-6379789 / 8388608, 4253193 / 8388608, 13610217 / 33554432⟩ ⟨0, 1, 1⟩
      ⟨⟨4194305 / 33554432, 8388611 / 33554432, 0⟩, 7⟩ =
      ⟨⟨0, 5592407 / 16777216, 8947851 / 134217728⟩, 7⟩ ∧
    trace_tree.1.crossing_calls (n + 4) ⟨-6379789 / 8388608, 4253193 / 8388608, 13610217 /
      33554432⟩ ⟨0, 1, 1⟩ ⟨⟨4194305 / 33554432, 8388611 / 33554432, 0⟩, 7⟩ =
      [Call.has_neighbor ⟨⟨0, 5592407 / 16777216, 8947851 / 134217728⟩, 7⟩ 0 false,
        Call.ascend ⟨⟨0, 5592407 / 16777216, 8947851 / 134217728⟩, 7⟩] := by
  have wf := trace_tree_reachable.wellFormed
  have o1 : fsub 0 (4194305 / 33554432) = -4194305 / 33554432 :=
    fsub_of _ _ (-4194305 / 33554432) _ (by norm_num)
      (round32_of_neg _ _ (-3) (-8388610) (by norm_num) (by norm_num) (by norm_num) (by norm_num)
        (by norm_num) (by norm_num))
  have o2 : fsub 1 (8388611 / 33554432) = 6291455 / 8388608 :=
    fsub_of _ _ (25165821 / 33554432) _ (by norm_num)
      (round32_tie_pos _ _ (-1) 12582910 (by norm_num) (by norm_num) (by norm_num) (by norm_num)
        (by decide) (Or.inl (by norm_num)))
  have o3 : fsub 1 0 = 1 :=
    fsub_of _ _ 1 _ (by norm_num)
      (round32_of_pos _ _ 0 8388608 (by norm_num) (by norm_num) (by norm_num) (by norm_num)
        (by norm_num) (by norm_num))
  have o4 : fdiv (-4194305 / 33554432) (-6379789 / 8388608) = 11029951 / 67108864 :=
    fdiv_of _ _ (4194305 / 25519156) _ (by norm_num)
      (round32_of_pos _ _ (-3) 11029951 (by norm_num) (by norm_num) (by norm_num) (by norm_num)
        (by norm_num) (by norm_num))
  have o5 : fdiv (6291455 / 8388608) (4253193 / 8388608) = 12408689 / 8388608 :=
    fdiv_of _ _ (6291455 / 4253193) _ (by norm_num)
      (round32_of_pos _ _ 0 12408689 (by norm_num) (by norm_num) (by norm_num) (by norm_num)
        (by norm_num) (by norm_num))
  have o6 : fdiv 1 (13610217 / 33554432) = 323143 / 131072 :=
    fdiv_of _ _ (33554432 / 13610217) _ (by norm_num)
      (round32_of_pos _ _ 1 10340576 (by norm_num) (by norm_num) (by norm_num) (by norm_num)
        (by norm_num) (by norm_num))
  have hdist : exit_distances ⟨-6379789 / 8388608, 4253193 / 8388608, 13610217 / 33554432⟩ ⟨0, 1,
      1⟩ ⟨⟨4194305 / 33554432, 8388611 / 33554432, 0⟩, 7⟩ = ⟨11029951 / 67108864, 12408689 /
      8388608, 323143 / 131072⟩ := by
    simp only [exit_distances, Vector3.div32, Vector3.sub32, o1, o2, o3, o4, o5, o6]
  have hface : exit_face ⟨-6379789 / 8388608, 4253193 / 8388608, 13610217 / 33554432⟩ ⟨0, 1, 1⟩
      ⟨⟨4194305 / 33554432, 8388611 / 33554432, 0⟩, 7⟩ = 0 := by
    rw [exit_face, hdist]
    norm_num [min_index, Vector3.get]
  have hadv : advance ⟨-6379789 / 8388608, 4253193 / 8388608, 13610217 / 33554432⟩ ⟨0, 1, 1⟩
      ⟨⟨4194305 / 33554432, 8388611 / 33554432, 0⟩, 7⟩ = 11029951 / 67108864 := by
    rw [advance, hdist, hface]
    rfl
  have hside : exit_side ⟨-6379789 / 8388608, 4253193 / 8388608, 13610217 / 33554432⟩ ⟨0, 1, 1⟩
      ⟨⟨4194305 / 33554432, 8388611 / 33554432, 0⟩, 7⟩ = false := by
    rw [exit_side, hface]
    norm_num [Vector3.get]
  have o7 : fmul (11029951 / 67108864) (-6379789 / 8388608) = -4194305 / 33554432 :=
    fmul_of _ _ (-70368760060339 / 562949953421312) _ (by norm_num)
      (round32_of_neg _ _ (-3) (-8388610) (by norm_num) (by norm_num) (by norm_num) (by norm_num)
        (by norm_num) (by norm_num))
  have o8 : fmul (11029951 / 67108864) (4253193 / 8388608) = 5592407 / 67108864 :=
    fmul_of _ _ (46912510383543 / 562949953421312) _ (by norm_num)
      (round32_of_pos _ _ (-4) 11184814 (by norm_num) (by norm_num) (by norm_num) (by norm_num)
        (by norm_num) (by norm_num))
  have o9 : fmul (11029951 / 67108864) (13610217 / 33554432) = 8947851 / 134217728 :=
    fmul_of _ _ (150120026609367 / 2251799813685248) _ (by norm_num)
      (round32_of_pos _ _ (-4) 8947851 (by norm_num) (by norm_num) (by norm_num) (by norm_num)
        (by norm_num) (by norm_num))
  have o10 : fadd (4194305 / 33554432) (-4194305 / 33554432) = 0 :=
    fadd_of _ _ 0 _ (by norm_num)
      round32_zero
  have o11 : fadd (8388611 / 33554432) (5592407 / 67108864) = 5592407 / 16777216 :=
    fadd_of _ _ (22369629 / 67108864) _ (by norm_num)
      (round32_tie_pos _ _ (-2) 11184814 (by norm_num) (by norm_num) (by norm_num) (by norm_num)
        (by decide) (Or.inl (by norm_num)))
  have o12 : fadd 0 (8947851 / 134217728) = 8947851 / 134217728 :=
    fadd_of _ _ (8947851 / 134217728) _ (by norm_num)
      (round32_of_pos _ _ (-4) 8947851 (by norm_num) (by norm_num) (by norm_num) (by norm_num)
        (by norm_num) (by norm_num))
  have hexit : exit_location ⟨-6379789 / 8388608, 4253193 / 8388608, 13610217 / 33554432⟩ ⟨0, 1,
      1⟩ ⟨⟨4194305 / 33554432, 8388611 / 33554432, 0⟩, 7⟩ = ⟨⟨0, 5592407 / 16777216, 8947851 /
      134217728⟩, 7⟩ := by
    simp only [exit_location, hadv, Vector3.add32, Vector3.smul32, o7, o8, o9, o10, o11, o12]
  have hn7 : ∀ y, trace_tree.1.has_neighbor ⟨y, 7⟩ 0 false = some false := by
    intro y
    rw [wf.has_neighbor_octant_bit (by decide) (by decide)]
    decide
  have o13 : fadd (5592407 / 16777216) 1 = 2796203 / 2097152 :=
    fadd_of _ _ (22369623 / 16777216) _ (by norm_num)
      (round32_tie_pos _ _ 0 11184812 (by norm_num) (by norm_num) (by norm_num) (by norm_num)
        (by decide) (Or.inr (by norm_num)))
  have o14 : fadd (8947851 / 134217728) 1 = 8947849 / 8388608 :=
    fadd_of _ _ (143165579 / 134217728) _ (by norm_num)
      (round32_of_pos _ _ 0 8947849 (by norm_num) (by norm_num) (by norm_num) (by norm_num)
        (by norm_num) (by norm_num))
  have o15 : fmul (1 / 2) 0 = 0 :=
    fmul_of _ _ 0 _ (by norm_num)
      round32_zero
  have o16 : fmul (1 / 2) (2796203 / 2097152) = 2796203 / 4194304 :=
    fmul_of _ _ (2796203 / 4194304) _ (by norm_num)
      (round32_of_pos _ _ (-1) 11184812 (by norm_num) (by norm_num) (by norm_num) (by norm_num)
        (by norm_num) (by norm_num))
  have o17 : fmul (1 / 2) (8947849 / 8388608) = 8947849 / 16777216 :=
    fmul_of _ _ (8947849 / 16777216) _ (by norm_num)
      (round32_of_pos _ _ (-1) 8947849 (by norm_num) (by norm_num) (by norm_num) (by norm_num)
        (by norm_num) (by norm_num))
  have ha7 : trace_tree.1.ascend_f32 ⟨⟨0, 5592407 / 16777216, 8947851 / 134217728⟩, 7⟩ = some
      ⟨⟨0, 2796203 / 4194304, 8947849 / 16777216⟩, 0⟩ := by
    rw [wf.ascend_f32_allocated (by decide) (by decide) (by decide) _
      (by norm_num [is_saturated])]
    have e1 : (trace_tree.1.m_nodes 7).m_parent_id = 0 := by decide
    have e2 : (trace_tree.1.m_nodes 0).m_children_id = 1 := by decide
    rw [e1, e2]
    have e3 : ascend_coords_f32 (7 - 1) ⟨0, 5592407 / 16777216, 8947851 / 134217728⟩ =
        ⟨fmul (1 / 2) 0, fmul (1 / 2) (fadd (5592407 / 16777216) 1), fmul (1 / 2) (fadd (8947851
        / 134217728) 1)⟩ := rfl
    rw [e3]
    simp only [o13, o14, o15, o16, o17]
  refine ⟨?_, hadv, hface, hexit, ?_⟩
  · simp only [crossing, ascend_till_has_neighbor, descend_till_leaf_f32,
      Option.some_bind, Option.none_bind, ne_eq, OfNat.ofNat_ne_zero, one_ne_zero,
      not_false_eq_true, not_true_eq_false, if_true, if_false, Bool.not_true, Bool.not_false,
      Bool.false_eq_true, Nat.reduceMod, Option.map_some', Option.map_none',
      hface, hside, hexit, hn7, ha7]
  · have h1 : trace_tree.1.ascend_till_has_neighbor 0 false (n + 4) ⟨⟨0, 5592407 / 16777216,
        8947851 / 134217728⟩, 7⟩ =
        some ⟨⟨0, 2796203 / 4194304, 8947849 / 16777216⟩, 0⟩ := by
      simp only [ascend_till_has_neighbor,
        Option.some_bind, Option.none_bind, ne_eq, OfNat.ofNat_ne_zero, one_ne_zero,
        not_false_eq_true, not_true_eq_false, if_true, if_false, Bool.not_true, Bool.not_false,
        Bool.false_eq_true, Nat.reduceMod, Option.map_some', Option.map_none',
        hn7, ha7]
    have h2 : trace_tree.1.ascend_till_has_neighbor_calls 0 false (n + 4) ⟨⟨0, 5592407 / 16777216,
        8947851 / 134217728⟩, 7⟩ =
        [Call.has_neighbor ⟨⟨0, 5592407 / 16777216, 8947851 / 134217728⟩, 7⟩ 0 false,
          Call.ascend ⟨⟨0, 5592407 / 16777216, 8947851 / 134217728⟩, 7⟩] := by
      simp only [ascend_till_has_neighbor_calls,
        Option.some_bind, Option.none_bind, ne_eq, OfNat.ofNat_ne_zero, one_ne_zero,
        not_false_eq_true, not_true_eq_false, if_true, if_false, Bool.not_true, Bool.not_false,
        Bool.false_eq_true, Nat.reduceMod, Option.map_some', Option.map_none',
        hn7, ha7]
    simp only [crossing_calls, List.cons_append, List.nil_append, List.append_nil,
      Option.some_bind, Option.none_bind, ne_eq, OfNat.ofNat_ne_zero, one_ne_zero,
      not_false_eq_true, not_true_eq_false, if_true, if_false, Bool.not_true, Bool.not_false,
      Bool.false_eq_true, Nat.reduceMod, Option.map_some', Option.map_none',
      hface, hside, hexit, h1, h2]

/-- Call 7 of the trace along `trace_direction_reciprocal`. -/
theorem trace_reciprocal_call_7 (n k : Nat) :
    trace_tree.1.find_next_intersection (n + 4) ⟨-6379789 / 8388608, 4253193 / 8388608, 13610217
      / 33554432⟩ ⟨0, 1, 1⟩ true (k + 2) ⟨⟨4194305 / 33554432, 8388611 / 33554432, 0⟩, 7⟩ =
      some (true, ⟨⟨0, 2796203 / 4194304, 8947849 / 16777216⟩, 0⟩) := by
  exact find_next_intersection_of_true trace_tree.1 (n + 4) _ _ true _ _ (trace_reciprocal_crossing_8 n).1 (k + 1)

/-- The global coordinates of the result of call 2 of the trace along `trace_direction_reciprocal`, evaluated in
binary32. -/
theorem trace_reciprocal_coords_2 (n : Nat) :
    trace_tree.1.calculate_coords_f32 (n + 4) ⟨⟨4194305 / 8388608, 0, 3355443 / 4194304⟩, 11⟩ =
      some ⟨5 / 8, 1 / 4, 3355443 / 16777216⟩ ∧
    trace_tree.1.calculate_coords_calls (n + 4) ⟨⟨4194305 / 8388608, 0, 3355443 / 4194304⟩, 11⟩ =
      [Call.ascend ⟨⟨4194305 / 8388608, 0, 3355443 / 4194304⟩, 11⟩,
        Call.ascend ⟨⟨4194305 / 16777216, 1 / 2, 3355443 / 8388608⟩, 2⟩] := by
  have wf := trace_tree_reachable.wellFormed
  have o1 : fadd 0 1 = 1 :=
    fadd_of _ _ 1 _ (by norm_num)
      (round32_of_pos _ _ 0 8388608 (by norm_num) (by norm_num) (by norm_num) (by norm_num)
        (by norm_num) (by norm_num))
  have o2 : fmul (1 / 2) (4194305 / 8388608) = 4194305 / 16777216 :=
    fmul_of _ _ (4194305 / 16777216) _ (by norm_num)
      (round32_of_pos _ _ (-2) 8388610 (by norm_num) (by norm_num) (by norm_num) (by norm_num)
        (by norm_num) (by norm_num))
  have o3 : fmul (1 / 2) 1 = 1 / 2 :=
    fmul_of _ _ (1 / 2) _ (by norm_num)
      (round32_of_pos _ _ (-1) 8388608 (by norm_num) (by norm_num) (by norm_num) (by norm_num)
        (by norm_num) (by norm_num))
  have o4 : fmul (1 / 2) (3355443 / 4194304) = 3355443 / 8388608 :=
    fmul_of _ _ (3355443 / 8388608) _ (by norm_num)
      (round32_of_pos _ _ (-2) 13421772 (by norm_num) (by norm_num) (by norm_num) (by norm_num)
        (by norm_num) (by norm_num))
  have ha11 : trace_tree.1.ascend_f32 ⟨⟨4194305 / 8388608, 0, 3355443 / 4194304⟩, 11⟩ = some
      ⟨⟨4194305 / 16777216, 1 / 2, 3355443 / 8388608⟩, 2⟩ := by
    rw [wf.ascend_f32_allocated (by decide) (by decide) (by decide) _
      (by norm_num [is_saturated])]
    have e1 : (trace_tree.1.m_nodes 11).m_parent_id = 2 := by decide
    have e2 : (trace_tree.1.m_nodes 2).m_children_id = 9 := by decide
    rw [e1, e2]
    have e3 : ascend_coords_f32 (11 - 9) ⟨4194305 / 8388608, 0, 3355443 / 4194304⟩ =
        ⟨fmul (1 / 2) (4194305 / 8388608), fmul (1 / 2) (fadd 0 1), fmul (1 / 2) (3355443 /
        4194304)⟩ := rfl
    rw [e3]
    simp only [o1, o2, o3, o4]
  have o5 : fadd (4194305 / 16777216) 1 = 5 / 4 :=
    fadd_of _ _ (20971521 / 16777216) _ (by norm_num)
      (round32_tie_pos _ _ 0 10485760 (by norm_num) (by norm_num) (by norm_num) (by norm_num)
        (by decide) (Or.inl (by norm_num)))
  have o6 : fmul (1 / 2) (5 / 4) = 5 / 8 :=
    fmul_of _ _ (5 / 8) _ (by norm_num)
      (round32_of_pos _ _ (-1) 10485760 (by norm_num) (by norm_num) (by norm_num) (by norm_num)
        (by norm_num) (by norm_num))
  have o7 : fmul (1 / 2) (1 / 2) = 1 / 4 :=
    fmul_of _ _ (1 / 4) _ (by norm_num)
      (round32_of_pos _ _ (-2) 8388608 (by norm_num) (by norm_num) (by norm_num) (by norm_num)
        (by norm_num) (by norm_num))
  have o8 : fmul (1 / 2) (3355443 / 8388608) = 3355443 / 16777216 :=
    fmul_of _ _ (3355443 / 16777216) _ (by norm_num)
      (round32_of_pos _ _ (-3) 13421772 (by norm_num) (by norm_num) (by norm_num) (by norm_num)
        (by norm_num) (by norm_num))
  have ha2 : trace_tree.1.ascend_f32 ⟨⟨4194305 / 16777216, 1 / 2, 3355443 / 8388608⟩, 2⟩ = some
      ⟨⟨5 / 8, 1 / 4, 3355443 / 16777216⟩, 0⟩ := by
    rw [wf.ascend_f32_allocated (by decide) (by decide) (by decide) _
      (by norm_num [is_saturated])]
    have e1 : (trace_tree.1.m_nodes 2).m_parent_id = 0 := by decide
    have e2 : (trace_tree.1.m_nodes 0).m_children_id = 1 := by decide
    rw [e1, e2]
    have e3 : ascend_coords_f32 (2 - 1) ⟨4194305 / 16777216, 1 / 2, 3355443 / 8388608⟩ =
        ⟨fmul (1 / 2) (fadd (4194305 / 16777216) 1), fmul (1 / 2) (1 / 2), fmul (1 / 2) (3355443
        / 8388608)⟩ := rfl
    rw [e3]
    simp only [o5, o6, o7, o8]
  constructor
  · simp only [calculate_coords_f32, calculate_coords_loop_f32, Option.some_bind, Option.none_bind, ne_eq, OfNat.ofNat_ne_zero, one_ne_zero,
      not_false_eq_true, not_true_eq_false, if_true, if_false, Option.map_some', ha11, ha2]
  · simp only [calculate_coords_calls, Option.some_bind, Option.none_bind, ne_eq, OfNat.ofNat_ne_zero, one_ne_zero,
      not_false_eq_true, not_true_eq_false, if_true, if_false, Option.map_some', ha11, ha2]

/-- The global coordinates of the result of call 5 of the trace along `trace_direction_reciprocal`, evaluated in
binary32. -/
theorem trace_reciprocal_coords_5 (n : Nat) :
    trace_tree.1.calculate_coords_f32 (n + 4) ⟨⟨1 / 4194304, 0, 1258291 / 2097152⟩, 30⟩ = some
      ⟨4194305 / 16777216, 1 / 2, 3355443 / 8388608⟩ ∧
    trace_tree.1.calculate_coords_calls (n + 4) ⟨⟨1 / 4194304, 0, 1258291 / 2097152⟩, 30⟩ =
      [Call.ascend ⟨⟨1 / 4194304, 0, 1258291 / 2097152⟩, 30⟩,
        Call.ascend ⟨⟨4194305 / 8388608, 0, 3355443 / 4194304⟩, 3⟩] := by
  have wf := trace_tree_reachable.wellFormed
  have o1 : fadd (1 / 4194304) 1 = 4194305 / 4194304 :=
    fadd_of _ _ (4194305 / 4194304) _ (by norm_num)
      (round32_of_pos _ _ 0 8388610 (by norm_num) (by norm_num) (by norm_num) (by norm_num)
        (by norm_num) (by norm_num))
  have o2 : fadd (1258291 / 2097152) 1 = 3355443 / 2097152 :=
    fadd_of _ _ (3355443 / 2097152) _ (by norm_num)
      (round32_of_pos _ _ 0 13421772 (by norm_num) (by norm_num) (by norm_num) (by norm_num)
        (by norm_num) (by norm_num))
  have o3 : fmul (1 / 2) (4194305 / 4194304) = 4194305 / 8388608 :=
    fmul_of _ _ (4194305 / 8388608) _ (by norm_num)
      (round32_of_pos _ _ (-1) 8388610 (by norm_num) (by norm_num) (by norm_num) (by norm_num)
        (by norm_num) (by norm_num))
  have o4 : fmul (1 / 2) 0 = 0 :=
    fmul_of _ _ 0 _ (by norm_num)
      round32_zero
  have o5 : fmul (1 / 2) (3355443 / 2097152) = 3355443 / 4194304 :=
    fmul_of _ _ (3355443 / 4194304) _ (by norm_num)
      (round32_of_pos _ _ (-1) 13421772 (by norm_num) (by norm_num) (by norm_num) (by norm_num)
        (by norm_num) (by norm_num))
  have ha30 : trace_tree.1.ascend_f32 ⟨⟨1 / 4194304, 0, 1258291 / 2097152⟩, 30⟩ = some ⟨⟨4194305
      / 8388608, 0, 3355443 / 4194304⟩, 3⟩ := by
    rw [wf.ascend_f32_allocated (by decide) (by decide) (by decide) _
      (by norm_num [is_saturated])]
    have e1 : (trace_tree.1.m_nodes 30).m_parent_id = 3 := by decide
    have e2 : (trace_tree.1.m_nodes 3).m_children_id = 25 := by decide
    rw [e1, e2]
    have e3 : ascend_coords_f32 (30 - 25) ⟨1 / 4194304, 0, 1258291 / 2097152⟩ =
        ⟨fmul (1 / 2) (fadd (1 / 4194304) 1), fmul (1 / 2) 0, fmul (1 / 2) (fadd (1258291 /
        2097152) 1)⟩ := rfl
    rw [e3]
    simp only [o1, o2, o3, o4, o5]
  have o6 : fadd 0 1 = 1 :=
    fadd_of _ _ 1 _ (by norm_num)
      (round32_of_pos _ _ 0 8388608 (by norm_num) (by norm_num) (by norm_num) (by norm_num)
        (by norm_num) (by norm_num))
  have o7 : fmul (1 / 2) (4194305 / 8388608) = 4194305 / 16777216 :=
    fmul_of _ _ (4194305 / 16777216) _ (by norm_num)
      (round32_of_pos _ _ (-2) 8388610 (by norm_num) (by norm_num) (by norm_num) (by norm_num)
        (by norm_num) (by norm_num))
  have o8 : fmul (1 / 2) 1 = 1 / 2 :=
    fmul_of _ _ (1 / 2) _ (by norm_num)
      (round32_of_pos _ _ (-1) 8388608 (by norm_num) (by norm_num) (by norm_num) (by norm_num)
        (by norm_num) (by norm_num))
  have o9 : fmul (1 / 2) (3355443 / 4194304) = 3355443 / 8388608 :=
    fmul_of _ _ (3355443 / 8388608) _ (by norm_num)
      (round32_of_pos _ _ (-2) 13421772 (by norm_num) (by norm_num) (by norm_num) (by norm_num)
        (by norm_num) (by norm_num))
  have ha3 : trace_tree.1.ascend_f32 ⟨⟨4194305 / 8388608, 0, 3355443 / 4194304⟩, 3⟩ = some
      ⟨⟨4194305 / 16777216, 1 / 2, 3355443 / 8388608⟩, 0⟩ := by
    rw [wf.ascend_f32_allocated (by decide) (by decide) (by decide) _
      (by norm_num [is_saturated])]
    have e1 : (trace_tree.1.m_nodes 3).m_parent_id = 0 := by decide
    have e2 : (trace_tree.1.m_nodes 0).m_children_id = 1 := by decide
    rw [e1, e2]
    have e3 : ascend_coords_f32 (3 - 1) ⟨4194305 / 8388608, 0, 3355443 / 4194304⟩ =
        ⟨fmul (1 / 2) (4194305 / 8388608), fmul (1 / 2) (fadd 0 1), fmul (1 / 2) (3355443 /
        4194304)⟩ := rfl
    rw [e3]
    simp only [o6, o7, o8, o9]
  constructor
  · simp only [calculate_coords_f32, calculate_coords_loop_f32, Option.some_bind, Option.none_bind, ne_eq, OfNat.ofNat_ne_zero, one_ne_zero,
      not_false_eq_true, not_true_eq_false, if_true, if_false, Option.map_some', ha30, ha3]
  · simp only [calculate_coords_calls, Option.some_bind, Option.none_bind, ne_eq, OfNat.ofNat_ne_zero, one_ne_zero,
      not_false_eq_true, not_true_eq_false, if_true, if_false, Option.map_some', ha30, ha3]

/-- The global coordinates of the result of call 7 of the trace along `trace_direction_reciprocal`, evaluated in
binary32. -/
theorem trace_reciprocal_coords_7 (n : Nat) :
    trace_tree.1.calculate_coords_f32 (n + 4) ⟨⟨0, 2796203 / 4194304, 8947849 / 16777216⟩, 0⟩ =
      some ⟨0, 2796203 / 4194304, 8947849 / 16777216⟩ ∧
    trace_tree.1.calculate_coords_calls (n + 4) ⟨⟨0, 2796203 / 4194304, 8947849 / 16777216⟩, 0⟩ =
      [] := by
  have wf := trace_tree_reachable.wellFormed
  constructor
  · simp only [calculate_coords_f32, calculate_coords_loop_f32, Option.some_bind, Option.none_bind, ne_eq, OfNat.ofNat_ne_zero, one_ne_zero,
      not_false_eq_true, not_true_eq_false, if_true, if_false, Option.map_some']
  · simp only [calculate_coords_calls, Option.some_bind, Option.none_bind, ne_eq, OfNat.ofNat_ne_zero, one_ne_zero,
      not_false_eq_true, not_true_eq_false, if_true, if_false, Option.map_some']

/-- The value of `1.6f / 8.0f`, the third coordinate the test `Trace` expects after the
second call. -/
theorem trace_expected_z : fdiv (round32 (8 / 5)) 8 = 13421773 / 67108864 := by
  have h : round32 (8 / 5) = 13421773 / 8388608 :=
    (round32_of_pos _ _ 0 13421773 (by norm_num) (by norm_num) (by norm_num) (by norm_num)
        (by norm_num) (by norm_num))
  rw [h]
  exact fdiv_of _ _ (13421773 / 67108864) _ (by norm_num)
    (round32_of_pos _ _ (-3) 13421773 (by norm_num) (by norm_num) (by norm_num) (by norm_num)
        (by norm_num) (by norm_num))

/-- C14. The scenario of the test `Trace`, evaluated in binary32 for the direction
`normalize(Vector3f(-15, 10, 8))` computed in either way (division by the norm, or
multiplication by its reciprocal), with direction signs `(0, 1, 1)` and the two location
arguments of each call the same object, as in the test: starting from
`calculate_location((1, 0, 0))`, seven successive calls of `find_next_intersection`, each
fed the result of the previous one, return `false` six times and `true` the seventh time;
the results of the calls 1, 3, 4 and 6 are at the nodes `child(child(child(root, 1), 0), 7)`,
`child(child(root, 1), 6)`, `child(root, 0)` and `child(root, 6)`; `calculate_coords` of the
results of the calls 2 and 5 is within `10^-7` of `(5/8, 2/8, 1.6/8)` and of
`(0.25, 0.5, 0.4)` on each axis; and `calculate_coords` of the last result has `x = 0` and
`(y, z)` within `10^-7` of `(10/15, 8/15)`. The coordinates are not
equal to these values. -/
theorem trace_scenario (d : Vector3)
    (hd : d = trace_direction ∨ d = trace_direction_reciprocal) (n k : Nat) :
    ∃ l0 l1 l2 l3 l4 l5 l6 l7 : SparseOctreeLocation, ∃ g2 g5 g7 : Vector3,
      trace_tree.1.calculate_location (n + 4) ⟨1, 0, 0⟩ = some l0 ∧
      trace_tree.1.find_next_intersection (n + 4) d ⟨0, 1, 1⟩ true (k + 2) l0 =
        some (false, l1) ∧
      trace_tree.1.find_next_intersection (n + 4) d ⟨0, 1, 1⟩ true (k + 2) l1 =
        some (false, l2) ∧
      trace_tree.1.find_next_intersection (n + 4) d ⟨0, 1, 1⟩ true (k + 2) l2 =
        some (false, l3) ∧
      trace_tree.1.find_next_intersection (n + 4) d ⟨0, 1, 1⟩ true (k + 2) l3 =
        some (false, l4) ∧
      trace_tree.1.find_next_intersection (n + 4) d ⟨0, 1, 1⟩ true (k + 2) l4 =
        some (false, l5) ∧
      trace_tree.1.find_next_intersection (n + 4) d ⟨0, 1, 1⟩ true (k + 2) l5 =
        some (false, l6) ∧
      trace_tree.1.find_next_intersection (n + 4) d ⟨0, 1, 1⟩ true (k + 2) l6 =
        some (true, l7) ∧
      ((trace_tree.1.get_child_id 0 1).bind fun a =>
        (trace_tree.1.get_child_id a 0).bind fun b => trace_tree.1.get_child_id b 7) =
        some l1.m_node_id ∧
      ((trace_tree.1.get_child_id 0 1).bind fun a => trace_tree.1.get_child_id a 6) =
        some l3.m_node_id ∧
      trace_tree.1.get_child_id 0 0 = some l4.m_node_id ∧
      trace_tree.1.get_child_id 0 6 = some l6.m_node_id ∧
      trace_tree.1.calculate_coords_f32 (n + 4) l2 = some g2 ∧
      trace_tree.1.calculate_coords_f32 (n + 4) l5 = some g5 ∧
      trace_tree.1.calculate_coords_f32 (n + 4) l7 = some g7 ∧
      |g2.x - 5 / 8| ≤ 1 / 10000000 ∧
      |g2.y - 2 / 8| ≤ 1 / 10000000 ∧
      |g2.z - 8 / 5 / 8| ≤ 1 / 10000000 ∧
      |g5.x - 1 / 4| ≤ 1 / 10000000 ∧
      |g5.y - 1 / 2| ≤ 1 / 10000000 ∧
      |g5.z - 2 / 5| ≤ 1 / 10000000 ∧
      g7.x = 0 ∧ |g7.y - 10 / 15| ≤ 1 / 10000000 ∧ |g7.z - 8 / 15| ≤ 1 / 10000000 := by
  rcases hd with rfl | rfl

  · rw [trace_direction_eq]
    refine ⟨_, _, _, _, _, _, _, _, _, _, _, trace_origin n,
      trace_f32_call_1 n k, trace_f32_call_2 n k, trace_f32_call_3 n k, trace_f32_call_4 n k,
      trace_f32_call_5 n k, trace_f32_call_6 n k, trace_f32_call_7 n k,
      by decide, by decide, by decide, by decide,
      (trace_f32_coords_2 n).1, (trace_f32_coords_5 n).1, (trace_f32_coords_7 n).1,
      ?_, ?_, ?_, ?_, ?_, ?_, ?_, ?_, ?_⟩
    all_goals first | exact abs_le.mpr ⟨by norm_num, by norm_num⟩ | rfl
  · rw [trace_direction_reciprocal_eq]
    refine ⟨_, _, _, _, _, _, _, _, _, _, _, trace_origin n,
      trace_reciprocal_call_1 n k, trace_reciprocal_call_2 n k, trace_reciprocal_call_3 n k, trace_reciprocal_call_4 n k,
      trace_reciprocal_call_5 n k, trace_reciprocal_call_6 n k, trace_reciprocal_call_7 n k,
      by decide, by decide, by decide, by decide,
      (trace_reciprocal_coords_2 n).1, (trace_reciprocal_coords_5 n).1, (trace_reciprocal_coords_7 n).1,
      ?_, ?_, ?_, ?_, ?_, ?_, ?_, ?_, ?_⟩
    all_goals first | exact abs_le.mpr ⟨by norm_num, by norm_num⟩ | rfl

/-- C14 as stated, with equal coordinates, fails in binary32. For the direction
`normalize(Vector3f(-15, 10, 8))` computed in either way, `calculate_coords` of the result
of the second call of the scenario is `(5/8, 1/4, 3355443 / 2^24)`, and the third coordinate
is neither `1.6 / 8` nor the binary32 value of `1.6f / 8.0f`, from which it is one unit in
the last place away. -/
theorem trace_coords_inexact :
    trace_tree.1.calculate_location 33 ⟨1, 0, 0⟩ = some ⟨⟨1, 0, 0⟩, 10⟩ ∧
    (trace_tree.1.find_next_intersection 33 trace_direction ⟨0, 1, 1⟩ true 33
        ⟨⟨1, 0, 0⟩, 10⟩ =
        some (false, ⟨⟨1, 2796203 / 8388608, 69905 / 1048576⟩, 24⟩) ∧
      trace_tree.1.find_next_intersection 33 trace_direction ⟨0, 1, 1⟩ true 33
        ⟨⟨1, 2796203 / 8388608, 69905 / 1048576⟩, 24⟩ =
        some (false, ⟨⟨1 / 2, 0, 3355443 / 4194304⟩, 11⟩) ∧
      trace_tree.1.calculate_coords_f32 33
        ⟨⟨1 / 2, 0, 3355443 / 4194304⟩, 11⟩ =
        some ⟨5 / 8, 1 / 4, 3355443 / 16777216⟩) ∧
    (trace_tree.1.find_next_intersection 33 trace_direction_reciprocal ⟨0, 1, 1⟩ true 33
        ⟨⟨1, 0, 0⟩, 10⟩ =
        some (false, ⟨⟨1, 699051 / 2097152, 559241 / 8388608⟩, 24⟩) ∧
      trace_tree.1.find_next_intersection 33 trace_direction_reciprocal ⟨0, 1, 1⟩ true 33
        ⟨⟨1, 699051 / 2097152, 559241 / 8388608⟩, 24⟩ =
        some (false, ⟨⟨4194305 / 8388608, 0, 3355443 / 4194304⟩, 11⟩) ∧
      trace_tree.1.calculate_coords_f32 33
        ⟨⟨4194305 / 8388608, 0, 3355443 / 4194304⟩, 11⟩ =
        some ⟨5 / 8, 1 / 4, 3355443 / 16777216⟩) ∧
    (3355443 / 16777216 : ℚ) ≠ 8 / 5 / 8 ∧
    (3355443 / 16777216 : ℚ) ≠ fdiv (round32 (8 / 5)) 8 := by
  rw [trace_direction_eq, trace_direction_reciprocal_eq, trace_expected_z]
  exact ⟨trace_origin 29,
    ⟨trace_f32_call_1 29 31, trace_f32_call_2 29 31, (trace_f32_coords_2 29).1⟩,
    ⟨trace_reciprocal_call_1 29 31, trace_reciprocal_call_2 29 31,
      (trace_reciprocal_coords_2 29).1⟩,
    by norm_num, by norm_num⟩

/-- The hypothesis of C14 holds of `trace_direction`, with the fuel of the size of the
tree. -/
theorem trace_scenario_witness :
    (trace_direction = trace_direction ∨ trace_direction = trace_direction_reciprocal) ∧
    ∃ l0 l1 l2 l3 l4 l5 l6 l7 : SparseOctreeLocation, ∃ g2 g5 g7 : Vector3,
      trace_tree.1.calculate_location 33 ⟨1, 0, 0⟩ = some l0 ∧
      trace_tree.1.find_next_intersection 33 trace_direction ⟨0, 1, 1⟩ true 33 l0 =
        some (false, l1) ∧
      trace_tree.1.find_next_intersection 33 trace_direction ⟨0, 1, 1⟩ true 33 l1 =
        some (false, l2) ∧
      trace_tree.1.find_next_intersection 33 trace_direction ⟨0, 1, 1⟩ true 33 l2 =
        some (false, l3) ∧
      trace_tree.1.find_next_intersection 33 trace_direction ⟨0, 1, 1⟩ true 33 l3 =
        some (false, l4) ∧
      trace_tree.1.find_next_intersection 33 trace_direction ⟨0, 1, 1⟩ true 33 l4 =
        some (false, l5) ∧
      trace_tree.1.find_next_intersection 33 trace_direction ⟨0, 1, 1⟩ true 33 l5 =
        some (false, l6) ∧
      trace_tree.1.find_next_intersection 33 trace_direction ⟨0, 1, 1⟩ true 33 l6 =
        some (true, l7) ∧
      ((trace_tree.1.get_child_id 0 1).bind fun a =>
        (trace_tree.1.get_child_id a 0).bind fun b => trace_tree.1.get_child_id b 7) =
        some l1.m_node_id ∧
      ((trace_tree.1.get_child_id 0 1).bind fun a => trace_tree.1.get_child_id a 6) =
        some l3.m_node_id ∧
      trace_tree.1.get_child_id 0 0 = some l4.m_node_id ∧
      trace_tree.1.get_child_id 0 6 = some l6.m_node_id ∧
      trace_tree.1.calculate_coords_f32 33 l2 = some g2 ∧
      trace_tree.1.calculate_coords_f32 33 l5 = some g5 ∧
      trace_tree.1.calculate_coords_f32 33 l7 = some g7 ∧
      |g2.x - 5 / 8| ≤ 1 / 10000000 ∧
      |g2.y - 2 / 8| ≤ 1 / 10000000 ∧
      |g2.z - 8 / 5 / 8| ≤ 1 / 10000000 ∧
      |g5.x - 1 / 4| ≤ 1 / 10000000 ∧
      |g5.y - 1 / 2| ≤ 1 / 10000000 ∧
      |g5.z - 2 / 5| ≤ 1 / 10000000 ∧
      g7.x = 0 ∧ |g7.y - 10 / 15| ≤ 1 / 10000000 ∧ |g7.z - 8 / 15| ≤ 1 / 10000000 :=
  ⟨Or.inl rfl, trace_scenario trace_direction (Or.inl rfl) 29 31⟩

end SparseOctree

end foundation
